import Mathlib

/-! # HWMP path selection core

A shallow embedding of `src/mesh/model/dot11s/hwmp-protocol.cc` (class
`HwmpProtocol`).  The station is a record of its member variables together with
the simulator clock and a log of every call it makes into its collaborators
(the per-interface MAC plugins, the route-reply callbacks, the trace sources and
the scheduler).  Each member function becomes a function on that record; a
function that can hit `NS_ASSERT` / `NS_FATAL_ERROR` returns `Except Fault`.

Unsigned machine integers are natural numbers reduced explicitly:
`uint32_t` arithmetic is taken modulo `2^32`, `uint8_t` modulo `2^8`.
Times are integers counting microseconds.
-/

namespace Hwmp

/-! ## Machine integers -/

/-- Reduction of a natural number to `uint32_t`. -/
def u32 (n : Nat) : Nat := n % 4294967296

/-- Reduction of a natural number to `uint8_t`. -/
def u8 (n : Nat) : Nat := n % 256

/-- The `uint32_t` difference `a - b`. -/
def sub32 (a b : Nat) : Nat := (u32 a + 4294967296 - u32 b) % 4294967296

/-- The cast `(int32_t) x` of a `uint32_t` value. -/
def asInt32 (x : Nat) : Int :=
  if u32 x < 2147483648 then (u32 x : Int) else (u32 x : Int) - 4294967296

/-- The expression `(int32_t)(a - b)` used for every sequence-number comparison. -/
def sdiff (a b : Nat) : Int := asInt32 (sub32 a b)

/-! ## Addresses, time, faults -/

abbrev Mac48Address := Nat

abbrev Time := Int

/-- The all-ones 48-bit address `Mac48Address::GetBroadcast ()`. -/
def GetBroadcast : Mac48Address := 281474976710655

/-- Ways in which a member function aborts the station. -/
inductive Fault where
  | assertFailed
  | fatalError
  deriving DecidableEq, Repr

/-- The macro `NS_ASSERT (c)`. -/
def nsAssert (c : Bool) : Except Fault Unit :=
  if c then .ok () else .error Fault.assertFailed

/-! ## `std::map` as an association list -/

/-- Lookup `m.find (k)`. -/
def mapFind {β : Type} : List (Nat × β) → Nat → Option β
  | [], _ => none
  | (k1, v) :: t, k => if k1 = k then some v else mapFind t k

/-- Assignment `m[k] = v`; the list is kept in key order, the order in which a
`std::map` is iterated. -/
def mapInsert {β : Type} (k : Nat) (v : β) : List (Nat × β) → List (Nat × β)
  | [] => [(k, v)]
  | (k1, v1) :: t =>
    if k < k1 then (k, v) :: (k1, v1) :: t
    else if k = k1 then (k, v) :: t
    else (k1, v1) :: mapInsert k v t

/-- Removal `m.erase (m.find (k))`. -/
def mapErase {β : Type} (m : List (Nat × β)) (k : Nat) : List (Nat × β) :=
  m.filter (fun e => e.1 != k)

/-! ## Routing table

The class `HwmpRtable` (files `hwmp-rtable.h`, `hwmp-rtable.cc`) is not among
the sources; it is modelled from section 4.1 and section 3 of the
specification. -/

/-- Modelled from the spec: the constant `HwmpRtable::MAX_METRIC`, the
"infinite" 32-bit metric. -/
def MAX_METRIC : Nat := 4294967295

/-- Modelled from the spec: the interface value carried by the "no path"
sentinel of a routing-table lookup (`HwmpRtable::INTERFACE_ANY`). -/
def INTERFACE_ANY : Nat := 4294967295

/-- Modelled from the spec: an element of a PrecursorSet, a tuple
`(interface, neighborAddress, expiry)`. -/
structure Precursor where
  interface : Nat
  address : Mac48Address
  whenExpire : Time
  deriving DecidableEq, Repr

/-- Modelled from the spec: a ReactivePath record, with its precursor set;
`whenExpire` is the absolute expiry instant. -/
structure ReactiveRoute where
  retransmitter : Mac48Address
  interface : Nat
  metric : Nat
  whenExpire : Time
  seqnum : Nat
  precursors : List Precursor
  deriving DecidableEq, Repr

/-- Modelled from the spec: the ProactivePath record, the fields of a reactive
path plus the root address. -/
structure ProactiveRoute where
  root : Mac48Address
  retransmitter : Mac48Address
  interface : Nat
  metric : Nat
  whenExpire : Time
  seqnum : Nat
  deriving DecidableEq, Repr

/-- Modelled from the spec: the routing table `HwmpRtable`, reactive paths keyed
by destination and at most one proactive path. -/
structure HwmpRtable where
  m_routes : List (Nat × ReactiveRoute)
  m_root : Option ProactiveRoute
  deriving DecidableEq, Repr

/-- Modelled from the spec: the record `HwmpRtable::LookupResult`,
`{nextHop, ifId, metric, seqnum, lifetime}`. -/
structure LookupResult where
  retransmitter : Mac48Address
  ifIndex : Nat
  metric : Nat
  seqnum : Nat
  lifetime : Time
  deriving DecidableEq, Repr

/-- Modelled from the spec: the sentinel lookup result, whose next hop is the
broadcast address. -/
def LookupResult.sentinel : LookupResult :=
  { retransmitter := GetBroadcast, ifIndex := INTERFACE_ANY, metric := MAX_METRIC,
    seqnum := 0, lifetime := 0 }

/-- Modelled from the spec: a FailedDestination `(address, seqnum)`. -/
structure FailedDestination where
  destination : Mac48Address
  seqnum : Nat
  deriving DecidableEq, Repr

namespace HwmpRtable

/-- Modelled from the spec: the empty routing table of a new station. -/
def empty : HwmpRtable := { m_routes := [], m_root := none }

/-- Modelled from the spec: `LookupReactiveExpired(dst)` returns the entry even
if expired, and the broadcast sentinel only if no record exists at all.  The
lifetime of the result is the time left until the absolute expiry. -/
def LookupReactiveExpired (t : HwmpRtable) (now : Time) (dst : Mac48Address) : LookupResult :=
  match mapFind t.m_routes dst with
  | none => LookupResult.sentinel
  | some r =>
    { retransmitter := r.retransmitter, ifIndex := r.interface, metric := r.metric,
      seqnum := r.seqnum, lifetime := r.whenExpire - now }

/-- Modelled from the spec: `LookupReactive(dst)` returns the sentinel when no
valid, unexpired entry exists; a path is valid iff `now < lifetime`. -/
def LookupReactive (t : HwmpRtable) (now : Time) (dst : Mac48Address) : LookupResult :=
  match mapFind t.m_routes dst with
  | none => LookupResult.sentinel
  | some r =>
    if now < r.whenExpire then t.LookupReactiveExpired now dst else LookupResult.sentinel

/-- Modelled from the spec: `LookupProactiveExpired()`, same semantics for the
single proactive entry. -/
def LookupProactiveExpired (t : HwmpRtable) (now : Time) : LookupResult :=
  match t.m_root with
  | none => LookupResult.sentinel
  | some r =>
    { retransmitter := r.retransmitter, ifIndex := r.interface, metric := r.metric,
      seqnum := r.seqnum, lifetime := r.whenExpire - now }

/-- Modelled from the spec: `LookupProactive()`, same semantics for the single
proactive entry. -/
def LookupProactive (t : HwmpRtable) (now : Time) : LookupResult :=
  match t.m_root with
  | none => LookupResult.sentinel
  | some r => if now < r.whenExpire then t.LookupProactiveExpired now else LookupResult.sentinel

/-- Modelled from the spec: `AddReactivePath`, an unconditional insert/replace.
The caller passes a duration; the record keeps the absolute expiry.  Replacing a
record keeps its precursor set. -/
def AddReactivePath (t : HwmpRtable) (now : Time) (dst retransmitter : Mac48Address)
    (interface metric : Nat) (lifetime : Time) (seqnum : Nat) : HwmpRtable :=
  let old : List Precursor :=
    match mapFind t.m_routes dst with
    | none => []
    | some r => r.precursors
  let r : ReactiveRoute :=
    { retransmitter := retransmitter, interface := interface, metric := metric,
      whenExpire := now + lifetime, seqnum := seqnum, precursors := old }
  { t with m_routes := mapInsert dst r t.m_routes }

/-- Modelled from the spec: `AddProactivePath(metric, root, nextHop, ifId,
lifetime, seqnum)`. -/
def AddProactivePath (t : HwmpRtable) (now : Time) (metric : Nat) (root retransmitter : Mac48Address)
    (interface : Nat) (lifetime : Time) (seqnum : Nat) : HwmpRtable :=
  let r : ProactiveRoute :=
    { root := root, retransmitter := retransmitter, interface := interface, metric := metric,
      whenExpire := now + lifetime, seqnum := seqnum }
  { t with m_root := some r }

/-- Refresh of the expiry of the precursor `(ifId, neighbor)`, or its insertion
at the end of the set. -/
def addPrecursorTo (p : Precursor) : List Precursor → List Precursor
  | [] => [p]
  | q :: t =>
    if q.interface = p.interface ∧ q.address = p.address then { q with whenExpire := p.whenExpire } :: t
    else q :: addPrecursorTo p t

/-- Modelled from the spec: `AddPrecursor(dst, ifId, neighbor, lifetime)`,
dedupe by `(ifId, neighbor)`, refresh lifetime.  The precursor set belongs to
the reactive path of `dst`; without such a record nothing is stored. -/
def AddPrecursor (t : HwmpRtable) (now : Time) (dst : Mac48Address) (interface : Nat)
    (address : Mac48Address) (lifetime : Time) : HwmpRtable :=
  match mapFind t.m_routes dst with
  | none => t
  | some r =>
    let p : Precursor := { interface := interface, address := address, whenExpire := now + lifetime }
    let r1 : ReactiveRoute := { r with precursors := addPrecursorTo p r.precursors }
    { t with m_routes := mapInsert dst r1 t.m_routes }

/-- Modelled from the spec: `GetPrecursors(dst)`, the list `[(ifId, neighbor)]`
of the unexpired precursors of `dst`. -/
def GetPrecursors (t : HwmpRtable) (now : Time) (dst : Mac48Address) : List (Nat × Mac48Address) :=
  match mapFind t.m_routes dst with
  | none => []
  | some r => (r.precursors.filter (fun p => decide (now < p.whenExpire))).map
      (fun p => (p.interface, p.address))

/-- Modelled from the spec: `DeleteReactivePath(dst)`. -/
def DeleteReactivePath (t : HwmpRtable) (dst : Mac48Address) : HwmpRtable :=
  { t with m_routes := mapErase t.m_routes dst }

/-- Modelled from the spec: `DeleteProactivePath(dst)`, which deletes the
proactive path when `dst` is its root. -/
def DeleteProactivePath (t : HwmpRtable) (dst : Mac48Address) : HwmpRtable :=
  match t.m_root with
  | none => t
  | some r => if r.root = dst then { t with m_root := none } else t

/-- Modelled from the spec: `GetUnreachableDestinations(failedNextHop)`, every
destination whose current reactive or proactive next hop equals
`failedNextHop`; the returned SN is the stored SN incremented by one. -/
def GetUnreachableDestinations (t : HwmpRtable) (peerAddress : Mac48Address) :
    List FailedDestination :=
  ((t.m_routes.filter (fun e => e.2.retransmitter == peerAddress)).map
      (fun e => { destination := e.1, seqnum := u32 (e.2.seqnum + 1) })) ++
  (match t.m_root with
   | none => []
   | some r =>
     if r.retransmitter = peerAddress then
       [{ destination := r.root, seqnum := u32 (r.seqnum + 1) }]
     else [])

end HwmpRtable

/-! ## Information elements, frames and the station record

The information elements (`ie-dot11s-preq`, `ie-dot11s-prep`), the tag
(`hwmp-tag`) and the class declaration (`hwmp-protocol.h`) are not among the
sources; their fields are taken from section 3 and section 6 of the
specification. -/

/-- Modelled from the spec: an element of the PREQ destination list,
`{address, destSN, DO-flag, RF-flag, USN-flag}`. -/
structure DestinationAddressUnit where
  destinationAddress : Mac48Address
  destSeqNumber : Nat
  doFlag : Bool
  rfFlag : Bool
  usnFlag : Bool
  deriving DecidableEq, Repr

/-- Modelled from the spec: the PREQ information element. -/
structure IePreq where
  originatorAddress : Mac48Address
  originatorSeqNumber : Nat
  preqId : Nat
  hopcount : Nat
  ttl : Nat
  lifetime : Nat
  metric : Nat
  needNotPrep : Bool
  destinations : List DestinationAddressUnit
  deriving DecidableEq, Repr

/-- Modelled from the spec: `preq.metric += linkMetric` on the 32-bit metric. -/
def IePreq.IncrementMetric (preq : IePreq) (metric : Nat) : IePreq :=
  { preq with metric := u32 (preq.metric + metric) }

/-- Modelled from the spec: the PREP information element. -/
structure IePrep where
  originatorAddress : Mac48Address
  originatorSeqNumber : Nat
  destinationAddress : Mac48Address
  destinationSeqNumber : Nat
  hopcount : Nat
  ttl : Nat
  lifetime : Nat
  metric : Nat
  deriving DecidableEq, Repr

/-- Modelled from the spec: `prep.metric += linkMetric` on the 32-bit metric. -/
def IePrep.IncrementMetric (prep : IePrep) (metric : Nat) : IePrep :=
  { prep with metric := u32 (prep.metric + metric) }

/-- Modelled from the spec: the HWMP tag carried on every data frame, fields
`address`, `seqno`, `ttl`. -/
structure HwmpTag where
  address : Mac48Address
  ttl : Nat
  seqno : Nat
  deriving DecidableEq, Repr

/-- Modelled from the spec: a freshly constructed tag. -/
def HwmpTag.new : HwmpTag := { address := 0, ttl := 0, seqno := 0 }

/-- Modelled from the spec: `tag.DecrementTtl ()` on the 8-bit TTL. -/
def HwmpTag.DecrementTtl (tag : HwmpTag) : HwmpTag := { tag with ttl := u8 (tag.ttl + 255) }

/-- A data frame: its size in bytes, and the HWMP tag attached to it, if any. -/
structure Packet where
  size : Nat
  tag : Option HwmpTag
  deriving DecidableEq, Repr

/-- The record `HwmpProtocol::QueuedPacket`.  The payload pointer `pkt` may be
null; the reply callback is named by a number. -/
structure QueuedPacket where
  pkt : Option Packet
  src : Mac48Address
  dst : Mac48Address
  protocol : Nat
  inInterface : Nat
  reply : Nat
  deriving DecidableEq, Repr

/-- The constructor `QueuedPacket::QueuedPacket ()`. -/
def QueuedPacket.new : QueuedPacket :=
  { pkt := none, src := 0, dst := 0, protocol := 0, inInterface := 0, reply := 0 }

/-- The kind of a `RouteChange` trace record. -/
inductive RouteChangeType where
  | addReactive
  | addProactive
  | deleteReactive
  | deleteProactive
  deriving DecidableEq, Repr

/-- The record `RouteChange` handed to the route-change trace source. -/
structure RouteChange where
  type : RouteChangeType
  destination : Mac48Address
  retransmitter : Mac48Address
  interface : Nat
  metric : Nat
  lifetime : Time
  seqnum : Nat
  deriving DecidableEq, Repr

/-- The record `HwmpProtocol::PathError`. -/
structure PathError where
  destinations : List FailedDestination
  receivers : List (Nat × Mac48Address)
  deriving DecidableEq, Repr

/-- Every call the station makes into a collaborator: a MAC plugin (now, or
scheduled after a delay), a route-reply callback, or a trace source. -/
inductive Action where
  | macSendPrep (ifIndex : Nat) (prep : IePrep) (receiver : Mac48Address)
  | macRequestDestination (ifIndex : Nat) (dst : Mac48Address) (originSN dstSN : Nat)
  | macSendPreq (ifIndex : Nat) (preq : IePreq)
  | macInitiatePerr (ifIndex : Nat) (dests : List FailedDestination) (receivers : List Mac48Address)
  | macForwardPerr (ifIndex : Nat) (dests : List FailedDestination) (receivers : List Mac48Address)
  | scheduleSendPreq (delay : Time) (ifIndex : Nat) (preq : IePreq)
  | scheduleSendPrep (delay : Time) (ifIndex : Nat) (prep : IePrep) (receiver : Mac48Address)
  | scheduleForwardPerr (delay : Time) (ifIndex : Nat) (dests : List FailedDestination)
      (receivers : List Mac48Address)
  | routeReply (cb : Nat) (accepted : Bool) (pkt : Packet) (src dst : Mac48Address)
      (protocol : Nat) (last : Nat)
  | routeChange (rc : RouteChange)
  | routeDiscoveryTime (duration : Time)
  deriving DecidableEq, Repr

/-- The statistics record `HwmpProtocol::Statistics`.  The header that fixes the
width of the counters is not among the sources; they are unbounded here. -/
structure Statistics where
  txUnicast : Nat
  txBroadcast : Nat
  txBytes : Nat
  droppedTtl : Nat
  totalQueued : Nat
  totalDropped : Nat
  initiatedPreq : Nat
  initiatedPrep : Nat
  initiatedPerr : Nat
  deriving DecidableEq, Repr

/-- The constructor `Statistics::Statistics ()`. -/
def Statistics.new : Statistics :=
  { txUnicast := 0, txBroadcast := 0, txBytes := 0, droppedTtl := 0, totalQueued := 0,
    totalDropped := 0, initiatedPreq := 0, initiatedPrep := 0, initiatedPerr := 0 }

/-- A pending `RetryPathDiscovery (dst, numOfRetry)` event of the scheduler: the
instant at which it fires and its argument. -/
structure EventId where
  deadline : Time
  numOfRetry : Nat
  deriving DecidableEq, Repr

/-- The record `PreqEvent` kept per destination in `m_preqTimeouts`. -/
structure PreqEvent where
  preqTimeout : EventId
  whenScheduled : Time
  deriving DecidableEq, Repr

/-- A MAC plugin `HwmpProtocolMac`, as far as the core reads it: the channel of
its interface. -/
structure HwmpProtocolMac where
  channelId : Nat
  deriving DecidableEq, Repr

/-- The station: the member variables of `HwmpProtocol`, the clock
`Simulator::Now ()`, the mesh point (`GetIfIndex ()`, and the successive values
of `GetForwardingDelay ()`), and the log `out` of calls made to collaborators. -/
structure HwmpProtocol where
  now : Time
  mpIfIndex : Nat
  forwardingDelay : Nat → Time
  delayDraws : Nat
  out : List Action
  m_dataSeqno : Nat
  m_hwmpSeqno : Nat
  m_preqId : Nat
  m_rtable : HwmpRtable
  m_randomStart : Time
  m_maxQueueSize : Nat
  m_dot11MeshHWMPmaxPREQretries : Nat
  m_dot11MeshHWMPnetDiameterTraversalTime : Time
  m_dot11MeshHWMPpreqMinInterval : Time
  m_dot11MeshHWMPperrMinInterval : Time
  m_dot11MeshHWMPactiveRootTimeout : Time
  m_dot11MeshHWMPactivePathTimeout : Time
  m_dot11MeshHWMPpathToRootInterval : Time
  m_dot11MeshHWMPrannInterval : Time
  m_isRoot : Bool
  m_maxTtl : Nat
  m_unicastPerrThreshold : Nat
  m_unicastPreqThreshold : Nat
  m_unicastDataThreshold : Nat
  m_doFlag : Bool
  m_rfFlag : Bool
  m_address : Mac48Address
  m_interfaces : List (Nat × HwmpProtocolMac)
  m_hwmpSeqnoMetricDatabase : List (Nat × (Nat × Nat))
  m_lastDataSeqno : List (Nat × Nat)
  m_rqueue : List QueuedPacket
  m_preqTimeouts : List (Nat × PreqEvent)
  m_proactivePreqTimer : Option Time
  m_stats : Statistics
  m_neighboursCallback : Option (Nat → List Mac48Address)

namespace HwmpProtocol

/-- The constructor `HwmpProtocol::HwmpProtocol ()`, followed by `Install` on a
mesh point with address `address`, interface index `mpIfIndex` and the given
interfaces; the clock starts at zero. -/
def new (address : Mac48Address) (mpIfIndex : Nat) (interfaces : List (Nat × HwmpProtocolMac))
    (forwardingDelay : Nat → Time) : HwmpProtocol :=
  { now := 0, mpIfIndex := mpIfIndex, forwardingDelay := forwardingDelay, delayDraws := 0,
    out := [],
    m_dataSeqno := 1, m_hwmpSeqno := 1, m_preqId := 0, m_rtable := HwmpRtable.empty,
    m_randomStart := 100000, m_maxQueueSize := 255, m_dot11MeshHWMPmaxPREQretries := 3,
    m_dot11MeshHWMPnetDiameterTraversalTime := 1024 * 100,
    m_dot11MeshHWMPpreqMinInterval := 1024 * 100,
    m_dot11MeshHWMPperrMinInterval := 1024 * 100,
    m_dot11MeshHWMPactiveRootTimeout := 1024 * 5000,
    m_dot11MeshHWMPactivePathTimeout := 1024 * 5000,
    m_dot11MeshHWMPpathToRootInterval := 1024 * 2000,
    m_dot11MeshHWMPrannInterval := 1024 * 5000,
    m_isRoot := false, m_maxTtl := 32, m_unicastPerrThreshold := 32,
    m_unicastPreqThreshold := 1, m_unicastDataThreshold := 1, m_doFlag := false,
    m_rfFlag := false, m_address := address,
    m_interfaces := interfaces.foldl (fun m i => mapInsert i.1 i.2 m) [],
    m_hwmpSeqnoMetricDatabase := [], m_lastDataSeqno := [], m_rqueue := [],
    m_preqTimeouts := [], m_proactivePreqTimer := none, m_stats := Statistics.new,
    m_neighboursCallback := none }

/-- Append calls to the log of calls made to collaborators. -/
def emit (s : HwmpProtocol) (as : List Action) : HwmpProtocol := { s with out := s.out ++ as }

/-- The call `GetMeshPoint ()->GetForwardingDelay ()`. -/
def GetForwardingDelay (s : HwmpProtocol) : Time × HwmpProtocol :=
  (s.forwardingDelay s.delayDraws, { s with delayDraws := s.delayDraws + 1 })

/-- The function `HwmpProtocol::GetNextHwmpSeqno`. -/
def GetNextHwmpSeqno (s : HwmpProtocol) : Nat × HwmpProtocol :=
  let s1 := { s with m_hwmpSeqno := u32 (s.m_hwmpSeqno + 1) }
  (s1.m_hwmpSeqno, s1)

/-- The function `HwmpProtocol::GetNextPreqId`. -/
def GetNextPreqId (s : HwmpProtocol) : Nat × HwmpProtocol :=
  let s1 := { s with m_preqId := u32 (s.m_preqId + 1) }
  (s1.m_preqId, s1)

/-- The function `HwmpProtocol::QueuePacket`. -/
def QueuePacket (s : HwmpProtocol) (packet : QueuedPacket) : Bool × HwmpProtocol :=
  if s.m_rqueue.length > s.m_maxQueueSize then (false, s)
  else (true, { s with m_rqueue := s.m_rqueue ++ [packet] })

/-- The loop of `DequeueFirstPacketByDst`: the first element with destination
`dst`, or a null packet, and the queue without that element. -/
def eraseFirstByDst (dst : Mac48Address) : List QueuedPacket → QueuedPacket × List QueuedPacket
  | [] => (QueuedPacket.new, [])
  | p :: q =>
    if p.dst = dst then (p, q)
    else ((eraseFirstByDst dst q).1, p :: (eraseFirstByDst dst q).2)

/-- The function `HwmpProtocol::DequeueFirstPacketByDst`. -/
def DequeueFirstPacketByDst (s : HwmpProtocol) (dst : Mac48Address) : QueuedPacket × HwmpProtocol :=
  ((eraseFirstByDst dst s.m_rqueue).1, { s with m_rqueue := (eraseFirstByDst dst s.m_rqueue).2 })

/-- The function `HwmpProtocol::DequeueFirstPacket`. -/
def DequeueFirstPacket (s : HwmpProtocol) : QueuedPacket × HwmpProtocol :=
  match s.m_rqueue with
  | [] => (QueuedPacket.new, s)
  | p :: q => (p, { s with m_rqueue := q })

/-- The function `HwmpProtocol::ShouldSendPreq`. -/
def ShouldSendPreq (s : HwmpProtocol) (dst : Mac48Address) : Bool × HwmpProtocol :=
  match mapFind s.m_preqTimeouts dst with
  | none =>
    let ev : PreqEvent :=
      { preqTimeout :=
          { deadline := s.now + s.m_dot11MeshHWMPnetDiameterTraversalTime * 2, numOfRetry := 1 },
        whenScheduled := s.now }
    (true, { s with m_preqTimeouts := mapInsert dst ev s.m_preqTimeouts })
  | some _ => (false, s)

/-- The body of the `while (packet.pkt)` loop of `ReactivePathResolved`, the
loop running at most `fuel` times. -/
def reactiveSendLoop (result : LookupResult) (dst : Mac48Address) :
    Nat → QueuedPacket → HwmpProtocol → HwmpProtocol
  | 0, _, s => s
  | fuel + 1, packet, s =>
    match packet.pkt with
    | none => s
    | some p =>
      let tag : HwmpTag := { (p.tag.getD HwmpTag.new) with address := result.retransmitter }
      let p1 : Packet := { p with tag := some tag }
      let s1 : HwmpProtocol :=
        { s with m_stats := { s.m_stats with txUnicast := s.m_stats.txUnicast + 1,
                                             txBytes := s.m_stats.txBytes + p1.size } }
      let s2 := s1.emit
        [Action.routeReply packet.reply true p1 packet.src packet.dst packet.protocol result.ifIndex]
      reactiveSendLoop result dst fuel (s2.DequeueFirstPacketByDst dst).1
        (s2.DequeueFirstPacketByDst dst).2

/-- The function `HwmpProtocol::ReactivePathResolved`.  Every turn of its loop
but the last removes a frame from the queue, so the queue length bounds the
number of turns. -/
def ReactivePathResolved (s : HwmpProtocol) (dst : Mac48Address) : Except Fault HwmpProtocol :=
  let s1 :=
    match mapFind s.m_preqTimeouts dst with
    | some ev => s.emit [Action.routeDiscoveryTime (s.now - ev.whenScheduled)]
    | none => s
  let result := s1.m_rtable.LookupReactive s1.now dst
  if result.retransmitter = GetBroadcast then .error Fault.assertFailed
  else
    .ok (reactiveSendLoop result dst (s1.m_rqueue.length + 1) (s1.DequeueFirstPacketByDst dst).1
      (s1.DequeueFirstPacketByDst dst).2)

/-- The body of the `while (packet.pkt)` loop of `ProactivePathResolved`, the
loop running at most `fuel` times. -/
def proactiveSendLoop (result : LookupResult) :
    Nat → QueuedPacket → HwmpProtocol → Except Fault HwmpProtocol
  | 0, _, s => .ok s
  | fuel + 1, packet, s =>
    match packet.pkt with
    | none => .ok s
    | some p =>
      match p.tag with
      | none => .error Fault.fatalError
      | some t =>
        let p1 : Packet := { p with tag := some { t with address := result.retransmitter } }
        let s1 : HwmpProtocol :=
          { s with m_stats := { s.m_stats with txUnicast := s.m_stats.txUnicast + 1,
                                               txBytes := s.m_stats.txBytes + p1.size } }
        let s2 := s1.emit
          [Action.routeReply packet.reply true p1 packet.src packet.dst packet.protocol
            result.ifIndex]
        proactiveSendLoop result fuel s2.DequeueFirstPacket.1 s2.DequeueFirstPacket.2

/-- The function `HwmpProtocol::ProactivePathResolved`. -/
def ProactivePathResolved (s : HwmpProtocol) : Except Fault HwmpProtocol :=
  let result := s.m_rtable.LookupProactive s.now
  if result.retransmitter = GetBroadcast then .error Fault.assertFailed
  else
    proactiveSendLoop result (s.m_rqueue.length + 1) s.DequeueFirstPacket.1 s.DequeueFirstPacket.2

/-- The function `HwmpProtocol::SendPrep`. -/
def SendPrep (s : HwmpProtocol) (src dst retransmitter : Mac48Address) (initMetric originatorDsn
    destinationSN lifetime interface : Nat) : Except Fault HwmpProtocol :=
  let prep : IePrep :=
    { hopcount := 0, ttl := s.m_maxTtl, destinationAddress := dst,
      destinationSeqNumber := destinationSN, lifetime := lifetime, metric := initMetric,
      originatorAddress := src, originatorSeqNumber := originatorDsn }
  match mapFind s.m_interfaces interface with
  | none => .error Fault.assertFailed
  | some _ =>
    let s1 := s.emit [Action.macSendPrep interface prep retransmitter]
    .ok { s1 with m_stats := { s1.m_stats with initiatedPrep := s1.m_stats.initiatedPrep + 1 } }

/-- The trace record written after `AddReactivePath` / `AddProactivePath`. -/
def addTrace (type : RouteChangeType) (destination retransmitter : Mac48Address)
    (interface metric : Nat) (lifetime : Time) (seqnum : Nat) : Action :=
  Action.routeChange
    { type := type, destination := destination, retransmitter := retransmitter,
      interface := interface, metric := metric, lifetime := lifetime, seqnum := seqnum }

/-- The trace record written after `DeleteReactivePath` / `DeleteProactivePath`;
only its type, destination and sequence number are set. -/
def deleteTrace (type : RouteChangeType) (d : FailedDestination) : Action :=
  Action.routeChange
    { type := type, destination := d.destination, retransmitter := 0, interface := 0,
      metric := 0, lifetime := 0, seqnum := d.seqnum }

/-- The duration `MicroSeconds (lifetime * 1024)`, the product taken in
`uint32_t`. -/
def lifetimeTime (lifetime : Nat) : Time := (u32 (lifetime * 1024) : Nat)

/-- The inner loop of the duplicate search of `GetPerrReceivers`:
`for (j = ...; j < retval.size (); j++)`, erasing at `j` on a match with `i`. -/
def perrDedupInner (i : Nat) : Nat → Nat → List (Nat × Mac48Address) → List (Nat × Mac48Address)
  | 0, _, r => r
  | fuel + 1, j, r =>
    if j < r.length then
      if (r.get? i).map Prod.snd = (r.get? j).map Prod.snd then
        perrDedupInner i fuel (j + 1) (r.eraseIdx j)
      else perrDedupInner i fuel (j + 1) r
    else r

/-- The outer loop of the duplicate search of `GetPerrReceivers`:
`for (i = ...; i < retval.size (); i++)`. -/
def perrDedupOuter : Nat → Nat → List (Nat × Mac48Address) → List (Nat × Mac48Address)
  | 0, _, r => r
  | fuel + 1, i, r =>
    if i < r.length then perrDedupOuter fuel (i + 1) (perrDedupInner i r.length (i + 1) r)
    else r

/-- The first loop of `GetPerrReceivers`: collect the precursors of each failed
destination and delete its reactive and proactive path. -/
def perrCollect : List FailedDestination → HwmpProtocol → List (Nat × Mac48Address) →
    List (Nat × Mac48Address) × HwmpProtocol
  | [], s, retval => (retval, s)
  | d :: rest, s, retval =>
    let precursors := s.m_rtable.GetPrecursors s.now d.destination
    let s1 : HwmpProtocol := { s with m_rtable := s.m_rtable.DeleteReactivePath d.destination }
    let s2 := s1.emit [deleteTrace RouteChangeType.deleteReactive d]
    let s3 : HwmpProtocol := { s2 with m_rtable := s2.m_rtable.DeleteProactivePath d.destination }
    let s4 := s3.emit [deleteTrace RouteChangeType.deleteProactive d]
    perrCollect rest s4 (retval ++ precursors)

/-- The function `HwmpProtocol::GetPerrReceivers`. -/
def GetPerrReceivers (s : HwmpProtocol) (failedDest : List FailedDestination) :
    List (Nat × Mac48Address) × HwmpProtocol :=
  let r := perrCollect failedDest s []
  (perrDedupOuter r.1.length 0 r.1, r.2)

/-- The loop of `MakePathError` over the failed destinations. -/
def makePathErrorLoop : List FailedDestination → HwmpProtocol → HwmpProtocol
  | [], s => s
  | d :: rest, s =>
    let s1 : HwmpProtocol := { s with m_rtable := s.m_rtable.DeleteReactivePath d.destination }
    makePathErrorLoop rest (s1.emit [deleteTrace RouteChangeType.deleteReactive d])

/-- The function `HwmpProtocol::MakePathError`. -/
def MakePathError (s : HwmpProtocol) (destinations : List FailedDestination) :
    PathError × HwmpProtocol :=
  let r := s.GetPerrReceivers destinations
  if r.1.length = 0 then ({ destinations := [], receivers := r.1 }, r.2)
  else
    let s1 : HwmpProtocol :=
      { r.2 with m_stats := { r.2.m_stats with initiatedPerr := r.2.m_stats.initiatedPerr + 1 } }
    ({ destinations := destinations, receivers := r.1 }, makePathErrorLoop destinations s1)

/-- The receivers of a path error that sit on interface `ifIndex`. -/
def receiversForInterface (perr : PathError) (ifIndex : Nat) : List Mac48Address :=
  (perr.receivers.filter (fun r => ifIndex == r.1)).map Prod.snd

/-- The function `HwmpProtocol::InitiatePathError`. -/
def InitiatePathError (s : HwmpProtocol) (perr : PathError) : HwmpProtocol :=
  s.emit (s.m_interfaces.map (fun i =>
    Action.macInitiatePerr i.1 perr.destinations (receiversForInterface perr i.1)))

/-- The loop of `ForwardPathError` over the interfaces. -/
def forwardPathErrorLoop (perr : PathError) : List (Nat × HwmpProtocolMac) → HwmpProtocol →
    HwmpProtocol
  | [], s => s
  | i :: rest, s =>
    let d := s.GetForwardingDelay
    forwardPathErrorLoop perr rest (d.2.emit
      [Action.scheduleForwardPerr d.1 i.1 perr.destinations (receiversForInterface perr i.1),
       Action.macForwardPerr i.1 perr.destinations (receiversForInterface perr i.1)])

/-- The function `HwmpProtocol::ForwardPathError`. -/
def ForwardPathError (s : HwmpProtocol) (perr : PathError) : HwmpProtocol :=
  forwardPathErrorLoop perr s.m_interfaces s

/-- The loop of `ReceivePerr` that gathers the relevant failed destinations into
`retval`. -/
def perrAccept (s : HwmpProtocol) (from_ : Mac48Address) (interface : Nat) :
    List FailedDestination → List FailedDestination → List FailedDestination
  | [], retval => retval
  | d :: rest, retval =>
    let result := s.m_rtable.LookupReactiveExpired s.now d.destination
    if !(result.retransmitter != from_ || result.ifIndex != interface ||
          decide (sdiff result.seqnum d.seqnum > 0)) then
      perrAccept s from_ interface rest (retval ++ [d])
    else perrAccept s from_ interface rest retval

/-- The function `HwmpProtocol::ReceivePerr`. -/
def ReceivePerr (s : HwmpProtocol) (destinations : List FailedDestination) (from_ : Mac48Address)
    (interface : Nat) (_fromMp : Mac48Address) : HwmpProtocol :=
  let retval := perrAccept s from_ interface destinations []
  if retval.length = 0 then s
  else
    let r := s.MakePathError retval
    r.2.ForwardPathError r.1

/-- The function `HwmpProtocol::PeerLinkStatus`. -/
def PeerLinkStatus (s : HwmpProtocol) (_meshPointAddress peerAddress : Mac48Address)
    (_interface : Nat) (status : Bool) : HwmpProtocol :=
  if status then s
  else
    let destinations := s.m_rtable.GetUnreachableDestinations peerAddress
    let r := s.MakePathError destinations
    r.2.InitiatePathError r.1

/-- The assignment `m_hwmpSeqnoMetricDatabase[address] = std::make_pair (seqno,
metric)`. -/
def setSeqnoMetric (s : HwmpProtocol) (address : Mac48Address) (seqno metric : Nat) : HwmpProtocol :=
  { s with m_hwmpSeqnoMetricDatabase := mapInsert address (seqno, metric) s.m_hwmpSeqnoMetricDatabase }

/-- The acceptance criteria of `ReceivePreq` against the stored pair
`(sequence number, metric)` of the originator: `none` when the PREQ is dropped,
otherwise the value of `freshInfo`. -/
def preqAccept (entry : Option (Nat × Nat)) (preq : IePreq) : Option Bool :=
  match entry with
  | none => some true
  | some e =>
    if sdiff e.1 preq.originatorSeqNumber > 0 then none
    else if e.1 = preq.originatorSeqNumber then
      if e.2 ≤ preq.metric then none else some false
    else some true

/-- The acceptance criteria of `ReceivePrep` against the stored pair of the
originator: `none` when the PREP is dropped, otherwise the value of
`freshInfo`. -/
def prepAccept (entry : Option (Nat × Nat)) (sequence : Nat) : Option Bool :=
  match entry with
  | none => some true
  | some e =>
    if sdiff e.1 sequence > 0 then none
    else if e.1 = sequence then some false
    else some true

/-- The steps `AddReactivePath`, route-change trace that `ReceivePreq` and
`ReceivePrep` take when they install a reactive path; `lifetime` is the
lifetime field of the element. -/
def addReactive (s : HwmpProtocol) (dst from_ : Mac48Address) (interface metric lifetime
    seqnum : Nat) : HwmpProtocol :=
  let t := s.m_rtable.AddReactivePath s.now dst from_ interface metric (lifetimeTime lifetime)
    seqnum
  let s1 : HwmpProtocol := { s with m_rtable := t }
  s1.emit [addTrace RouteChangeType.addReactive dst from_ interface metric (lifetimeTime lifetime)
    seqnum]

/-- The steps `AddReactivePath`, route-change trace, `ReactivePathResolved` that
`ReceivePreq` and `ReceivePrep` take for the transmitting mesh point, and
`ReceivePreq` for the originator. -/
def installReactive (s : HwmpProtocol) (dst from_ : Mac48Address) (interface metric lifetime
    seqnum : Nat) : Except Fault HwmpProtocol :=
  (s.addReactive dst from_ interface metric lifetime seqnum).ReactivePathResolved dst

/-- Pair every element of the destination list with its position, which stands
for the identity of the shared `DestinationAddressUnit` object. -/
def tagFrom {α : Type} : Nat → List α → List (Nat × α)
  | _, [] => []
  | n, a :: t => (n, a) :: tagFrom (n + 1) t

/-- Modelled from the spec: `preq.DelDestinationAddressElement (address)`,
removal of the destination with that address from the PREQ. -/
def delDestinationAddressElement (address : Mac48Address) :
    List (Nat × DestinationAddressUnit) → List (Nat × DestinationAddressUnit)
  | [] => []
  | e :: t => if e.2.destinationAddress = address then t else e :: delDestinationAddressElement address t

/-- Modelled from the spec: `unit->SetFlags (true, false, usn)` on the unit at
position `idx`, as seen through the PREQ that shares it. -/
def setFlagsAt (idx : Nat) (live : List (Nat × DestinationAddressUnit)) :
    List (Nat × DestinationAddressUnit) :=
  live.map (fun e => if e.1 = idx then (e.1, { e.2 with doFlag := true, rfFlag := false }) else e)

/-- The time left of a lookup result in units of 1024 microseconds,
`uint32_t lifetime = result.lifetime.GetMicroSeconds () / 1024`. -/
def lifetimeTU (result : LookupResult) : Nat := ((result.lifetime.tdiv 1024) % 4294967296).toNat

/-- The call `m_rtable->AddPrecursor (dst, interface, address, lifetime)`. -/
def addPrecursor (s : HwmpProtocol) (dst : Mac48Address) (interface : Nat) (address : Mac48Address)
    (lifetime : Time) : HwmpProtocol :=
  { s with m_rtable := s.m_rtable.AddPrecursor s.now dst interface address lifetime }

/-- The steps `AddProactivePath`, route-change trace that `ReceivePreq` takes for
a proactive PREQ. -/
def addProactive (s : HwmpProtocol) (preq : IePreq) (from_ : Mac48Address) (interface : Nat) :
    HwmpProtocol :=
  let tb := s.m_rtable.AddProactivePath s.now preq.metric preq.originatorAddress from_ interface
    (lifetimeTime preq.lifetime) preq.originatorSeqNumber
  let t : HwmpProtocol := { s with m_rtable := tb }
  t.emit [addTrace RouteChangeType.addProactive preq.originatorAddress from_ interface preq.metric
    (lifetimeTime preq.lifetime) preq.originatorSeqNumber]

/-- The loop of `ReceivePreq` over the copied destination list; `live` is the
destination list still held by the PREQ. -/
def preqDestLoop (preq : IePreq) (from_ : Mac48Address) (interface : Nat) :
    List (Nat × DestinationAddressUnit) → HwmpProtocol → List (Nat × DestinationAddressUnit) →
    Except Fault (HwmpProtocol × List (Nat × DestinationAddressUnit))
  | [], s, live => .ok (s, live)
  | (idx, u) :: rest, s, live =>
    if u.destinationAddress = GetBroadcast then
      if live.length ≠ 1 then .error Fault.assertFailed
      else if !(u.doFlag && u.rfFlag) then .error Fault.assertFailed
      else
        (if (s.m_rtable.LookupProactive s.now).retransmitter = GetBroadcast ∨
            (s.m_rtable.LookupProactive s.now).metric > preq.metric then
          (s.addProactive preq from_ interface).ProactivePathResolved
         else .ok s) >>= fun s1 =>
        (if !preq.needNotPrep then
          s1.GetNextHwmpSeqno.2.SendPrep s1.m_address preq.originatorAddress from_ 0
            preq.originatorSeqNumber s1.GetNextHwmpSeqno.1 preq.lifetime interface
         else .ok s1) >>= fun s2 =>
        .ok (s2, live)
    else if u.destinationAddress = s.m_address then
      s.GetNextHwmpSeqno.2.SendPrep s.m_address preq.originatorAddress from_ 0
        preq.originatorSeqNumber s.GetNextHwmpSeqno.1 preq.lifetime interface >>= fun s1 =>
      if (s1.m_rtable.LookupReactive s1.now preq.originatorAddress).retransmitter = GetBroadcast then
        .error Fault.assertFailed
      else
        preqDestLoop preq from_ interface rest s1
          (delDestinationAddressElement u.destinationAddress live)
    else
      let result := s.m_rtable.LookupReactive s.now u.destinationAddress
      if !u.doFlag ∧ result.retransmitter ≠ GetBroadcast then
        if lifetimeTU result > 0 ∧ sdiff result.seqnum u.destSeqNumber ≥ 0 then
          s.SendPrep u.destinationAddress preq.originatorAddress from_ result.metric
            preq.originatorSeqNumber result.seqnum (lifetimeTU result) interface >>= fun s1 =>
          if u.rfFlag then
            preqDestLoop preq from_ interface rest
              (s1.addPrecursor u.destinationAddress interface from_ (lifetimeTime preq.lifetime))
              (setFlagsAt idx live)
          else
            preqDestLoop preq from_ interface rest
              (s1.addPrecursor u.destinationAddress interface from_ (lifetimeTime preq.lifetime))
              (delDestinationAddressElement u.destinationAddress live)
        else preqDestLoop preq from_ interface rest s live
      else preqDestLoop preq from_ interface rest s live

/-- The loop of `ReceivePreq` that schedules the forward of the PREQ on every
interface. -/
def forwardPreqLoop (preq : IePreq) : List (Nat × HwmpProtocolMac) → HwmpProtocol → HwmpProtocol
  | [], s => s
  | i :: rest, s =>
    forwardPreqLoop preq rest
      (s.GetForwardingDelay.2.emit [Action.scheduleSendPreq s.GetForwardingDelay.1 i.1 preq])

/-- The function `HwmpProtocol::ReceivePreq`. -/
def ReceivePreq (s : HwmpProtocol) (preq0 : IePreq) (from_ : Mac48Address) (interface : Nat)
    (fromMp : Mac48Address) (metric : Nat) : Except Fault HwmpProtocol :=
  let preq := preq0.IncrementMetric metric
  match preqAccept (mapFind s.m_hwmpSeqnoMetricDatabase preq.originatorAddress) preq with
  | none => .ok s
  | some freshInfo =>
    let s1 := s.setSeqnoMetric preq.originatorAddress preq.originatorSeqNumber preq.metric
    (if freshInfo ∨
        (s1.m_rtable.LookupReactive s1.now preq.originatorAddress).retransmitter = GetBroadcast ∨
        (s1.m_rtable.LookupReactive s1.now preq.originatorAddress).metric > preq.metric then
      s1.installReactive preq.originatorAddress from_ interface preq.metric preq.lifetime
        preq.originatorSeqNumber
     else .ok s1) >>= fun s2 =>
    (if (s2.m_rtable.LookupReactive s2.now fromMp).retransmitter = GetBroadcast ∨
        (s2.m_rtable.LookupReactive s2.now fromMp).metric > metric then
      s2.installReactive fromMp from_ interface metric preq.lifetime preq.originatorSeqNumber
     else .ok s2) >>= fun s3 =>
    preqDestLoop preq from_ interface (tagFrom 0 preq.destinations) s3
      (tagFrom 0 preq.destinations) >>= fun r =>
    if r.2.length = 0 then .ok r.1
    else .ok (forwardPreqLoop { preq with destinations := r.2.map Prod.snd } r.1.m_interfaces r.1)

/-- The table updates of `ReceivePrep` for the originator of the PREP:
`AddReactivePath`, the route-change trace, and the two `AddPrecursor` calls;
`result` is the reactive path to the destination of the PREP looked up before. -/
def prepInstall (s : HwmpProtocol) (prep : IePrep) (from_ : Mac48Address) (interface : Nat)
    (result : LookupResult) : HwmpProtocol :=
  let s2 := s.addReactive prep.originatorAddress from_ interface prep.metric prep.lifetime
    prep.destinationSeqNumber
  let s3 := s2.addPrecursor prep.destinationAddress interface from_ (lifetimeTime prep.lifetime)
  if result.retransmitter ≠ GetBroadcast then
    s3.addPrecursor prep.originatorAddress interface result.retransmitter result.lifetime
  else s3

/-- The function `HwmpProtocol::ReceivePrep`. -/
def ReceivePrep (s : HwmpProtocol) (prep0 : IePrep) (from_ : Mac48Address) (interface : Nat)
    (fromMp : Mac48Address) (metric : Nat) : Except Fault HwmpProtocol :=
  let prep := prep0.IncrementMetric metric
  let sequence := prep.destinationSeqNumber
  match prepAccept (mapFind s.m_hwmpSeqnoMetricDatabase prep.originatorAddress) sequence with
  | none => .ok s
  | some freshInfo =>
    let s1 := s.setSeqnoMetric prep.originatorAddress sequence prep.metric
    let result := s1.m_rtable.LookupReactive s1.now prep.destinationAddress
    (if freshInfo ∨
        (s1.m_rtable.LookupReactive s1.now prep.originatorAddress).retransmitter = GetBroadcast ∨
        (s1.m_rtable.LookupReactive s1.now prep.originatorAddress).metric > prep.metric then
      (s1.prepInstall prep from_ interface result).ReactivePathResolved prep.originatorAddress
     else .ok s1) >>= fun s2 =>
    (if (s2.m_rtable.LookupReactive s2.now fromMp).retransmitter = GetBroadcast ∨
        (s2.m_rtable.LookupReactive s2.now fromMp).metric > metric then
      s2.installReactive fromMp from_ interface metric prep.lifetime sequence
     else .ok s2) >>= fun s3 =>
    if prep.destinationAddress = s3.m_address then .ok s3
    else if result.retransmitter = GetBroadcast then .ok s3
    else
      match mapFind s3.m_interfaces result.ifIndex with
      | none => .error Fault.assertFailed
      | some _ =>
        .ok (s3.GetForwardingDelay.2.emit
          [Action.scheduleSendPrep s3.GetForwardingDelay.1 result.ifIndex prep result.retransmitter])

/-- The lookup that opens `ForwardUnicast` and `RetryPathDiscovery`: the valid
reactive path to `dst`, or else the valid proactive path. -/
def lookupPath (s : HwmpProtocol) (dst : Mac48Address) : LookupResult :=
  if (s.m_rtable.LookupReactive s.now dst).retransmitter = GetBroadcast then
    s.m_rtable.LookupProactive s.now
  else s.m_rtable.LookupReactive s.now dst

/-- The lookup of the path-error branch of `ForwardUnicast`: the reactive record
of `dst`, expired or not, or else the proactive record. -/
def lookupExpiredPath (s : HwmpProtocol) (dst : Mac48Address) : LookupResult :=
  if (s.m_rtable.LookupReactiveExpired s.now dst).retransmitter = GetBroadcast then
    s.m_rtable.LookupProactiveExpired s.now
  else s.m_rtable.LookupReactiveExpired s.now dst

/-- The body of the `while (packet.pkt)` loop of `RetryPathDiscovery` that purges
the queue, the loop running at most `fuel` times. -/
def retryPurgeLoop (dst : Mac48Address) : Nat → QueuedPacket → HwmpProtocol → HwmpProtocol
  | 0, _, s => s
  | fuel + 1, packet, s =>
    match packet.pkt with
    | none => s
    | some p =>
      let s1 : HwmpProtocol :=
        { s with m_stats := { s.m_stats with totalDropped := s.m_stats.totalDropped + 1 } }
      let s2 := s1.emit
        [Action.routeReply packet.reply false p packet.src packet.dst packet.protocol MAX_METRIC]
      retryPurgeLoop dst fuel (s2.DequeueFirstPacketByDst dst).1 (s2.DequeueFirstPacketByDst dst).2

/-- The calls `RequestDestination (dst, originSN, dstSN)` on every interface. -/
def requestDestinationAll (s : HwmpProtocol) (dst : Mac48Address) (originSN dstSN : Nat) :
    List Action :=
  s.m_interfaces.map (fun i => Action.macRequestDestination i.1 dst originSN dstSN)

/-- The function `HwmpProtocol::RetryPathDiscovery`; `numOfRetry` is a
`uint8_t`. -/
def RetryPathDiscovery (s : HwmpProtocol) (dst : Mac48Address) (numOfRetry : Nat) :
    Except Fault HwmpProtocol :=
  let result := s.lookupPath dst
  if result.retransmitter ≠ GetBroadcast then
    match mapFind s.m_preqTimeouts dst with
    | none => .error Fault.assertFailed
    | some _ => .ok { s with m_preqTimeouts := mapErase s.m_preqTimeouts dst }
  else if numOfRetry > s.m_dot11MeshHWMPmaxPREQretries then
    let s1 := retryPurgeLoop dst (s.m_rqueue.length + 1) (s.DequeueFirstPacketByDst dst).1
      (s.DequeueFirstPacketByDst dst).2
    match mapFind s1.m_preqTimeouts dst with
    | none => .error Fault.assertFailed
    | some ev =>
      let s2 := s1.emit [Action.routeDiscoveryTime (s1.now - ev.whenScheduled)]
      .ok { s2 with m_preqTimeouts := mapErase s2.m_preqTimeouts dst }
  else
    let n := u8 (numOfRetry + 1)
    let g := s.GetNextHwmpSeqno
    let dst_seqno := (g.2.m_rtable.LookupReactiveExpired g.2.now dst).seqnum
    let s1 := g.2.emit (requestDestinationAll g.2 dst g.1 dst_seqno)
    let started : Time :=
      match mapFind s1.m_preqTimeouts dst with
      | none => 0
      | some ev => ev.whenScheduled
    let ev : PreqEvent :=
      { preqTimeout :=
          { deadline := s1.now + (2 * ((n : Int) + 1)) * s1.m_dot11MeshHWMPnetDiameterTraversalTime,
            numOfRetry := n },
        whenScheduled := started }
    .ok { s1 with m_preqTimeouts := mapInsert dst ev s1.m_preqTimeouts }

/-- The function `HwmpProtocol::DropDataFrame`. -/
def DropDataFrame (s : HwmpProtocol) (seqno : Nat) (source : Mac48Address) : Bool × HwmpProtocol :=
  if source = s.m_address then (true, s)
  else
    match mapFind s.m_lastDataSeqno source with
    | none => (false, { s with m_lastDataSeqno := mapInsert source seqno s.m_lastDataSeqno })
    | some last =>
      if sdiff last seqno ≥ 0 then (true, s)
      else (false, { s with m_lastDataSeqno := mapInsert source seqno s.m_lastDataSeqno })

/-- The common body of `GetPreqReceivers` and `GetBroadcastReceivers`, for the
threshold of either. -/
def receiversWithThreshold (s : HwmpProtocol) (threshold interface : Nat) : List Mac48Address :=
  let retval : List Mac48Address :=
    match s.m_neighboursCallback with
    | none => []
    | some cb => cb interface
  if retval.length ≥ threshold ∨ retval.length = 0 then [GetBroadcast] else retval

/-- The function `HwmpProtocol::GetPreqReceivers`. -/
def GetPreqReceivers (s : HwmpProtocol) (interface : Nat) : List Mac48Address :=
  receiversWithThreshold s s.m_unicastPreqThreshold interface

/-- The function `HwmpProtocol::GetBroadcastReceivers`. -/
def GetBroadcastReceivers (s : HwmpProtocol) (interface : Nat) : List Mac48Address :=
  receiversWithThreshold s s.m_unicastDataThreshold interface

/-- The statement `m_stats.totalDropped++`. -/
def countDropped (s : HwmpProtocol) : HwmpProtocol :=
  { s with m_stats := { s.m_stats with totalDropped := s.m_stats.totalDropped + 1 } }

/-- The statement `m_stats.totalQueued++`. -/
def countQueued (s : HwmpProtocol) : HwmpProtocol :=
  { s with m_stats := { s.m_stats with totalQueued := s.m_stats.totalQueued + 1 } }

/-- The statement `m_stats.initiatedPreq++`. -/
def countInitiatedPreq (s : HwmpProtocol) : HwmpProtocol :=
  { s with m_stats := { s.m_stats with initiatedPreq := s.m_stats.initiatedPreq + 1 } }

/-- The statements `m_stats.txUnicast++; m_stats.txBytes += size`. -/
def countUnicast (s : HwmpProtocol) (size : Nat) : HwmpProtocol :=
  { s with m_stats := { s.m_stats with txUnicast := s.m_stats.txUnicast + 1,
                                       txBytes := s.m_stats.txBytes + size } }

/-- The branch "reply immediately" of `ForwardUnicast`. -/
def unicastReply (s : HwmpProtocol) (source destination : Mac48Address) (packet : Packet)
    (protocolType routeReply : Nat) (result : LookupResult) : Bool × HwmpProtocol :=
  (true, (s.emit [Action.routeReply routeReply true packet source destination protocolType
    result.ifIndex]).countUnicast packet.size)

/-- The branch "start path error procedure" of `ForwardUnicast`. -/
def unicastPathError (s : HwmpProtocol) (destination : Mac48Address) : Bool × HwmpProtocol :=
  let e1 := s.lookupExpiredPath destination
  let s1 :=
    if e1.retransmitter ≠ GetBroadcast then
      (s.MakePathError (s.m_rtable.GetUnreachableDestinations e1.retransmitter)).2.InitiatePathError
        (s.MakePathError (s.m_rtable.GetUnreachableDestinations e1.retransmitter)).1
    else s
  (false, s1.countDropped)

/-- The PREQ burst of the branch "request a destination" of `ForwardUnicast`,
sent when `ShouldSendPreq` allows it. -/
def unicastPreq (s : HwmpProtocol) (destination : Mac48Address) : HwmpProtocol :=
  let e := s.m_rtable.LookupReactiveExpired s.now destination
  if (s.ShouldSendPreq destination).1 then
    let g := (s.ShouldSendPreq destination).2.GetNextHwmpSeqno
    let dst_seqno := if e.retransmitter ≠ GetBroadcast then e.seqnum else 0
    g.2.countInitiatedPreq.emit (requestDestinationAll g.2 destination g.1 dst_seqno)
  else (s.ShouldSendPreq destination).2

/-- The branch "request a destination" of `ForwardUnicast`. -/
def unicastRequest (s : HwmpProtocol) (sourceIface : Nat) (source destination : Mac48Address)
    (packet : Packet) (protocolType routeReply : Nat) : Bool × HwmpProtocol :=
  let pkt : QueuedPacket :=
    { pkt := some packet, dst := destination, src := source, protocol := protocolType,
      reply := routeReply, inInterface := sourceIface }
  if ((s.unicastPreq destination).QueuePacket pkt).1 then
    (true, ((s.unicastPreq destination).QueuePacket pkt).2.countQueued)
  else (false, ((s.unicastPreq destination).QueuePacket pkt).2.countDropped)

/-- The function `HwmpProtocol::ForwardUnicast`. -/
def ForwardUnicast (s : HwmpProtocol) (sourceIface : Nat) (source destination : Mac48Address)
    (packet0 : Packet) (protocolType routeReply ttl : Nat) : Except Fault (Bool × HwmpProtocol) :=
  if destination = GetBroadcast then .error Fault.assertFailed
  else
    let result := s.lookupPath destination
    let tag : HwmpTag := { HwmpTag.new with address := result.retransmitter, ttl := u8 ttl }
    let packet : Packet := { packet0 with tag := some tag }
    if result.retransmitter ≠ GetBroadcast then
      .ok (s.unicastReply source destination packet protocolType routeReply result)
    else if sourceIface ≠ s.mpIfIndex then .ok (s.unicastPathError destination)
    else .ok (s.unicastRequest sourceIface source destination packet protocolType routeReply)

/-- The loop of `RequestRoute` over the interfaces for a broadcast frame;
`channels` holds the channels already served. -/
def broadcastLoop (s : HwmpProtocol) (packet : Packet) (tag : HwmpTag) (source destination :
    Mac48Address) (protocolType routeReply : Nat) :
    List (Nat × HwmpProtocolMac) → List Nat → List Action → List Action
  | [], _, acc => acc
  | plugin :: rest, channels, acc =>
    if channels.any (fun chan => chan == plugin.2.channelId) then
      broadcastLoop s packet tag source destination protocolType routeReply rest channels acc
    else
      broadcastLoop s packet tag source destination protocolType routeReply rest
        (channels ++ [plugin.2.channelId])
        (acc ++ (s.GetBroadcastReceivers plugin.1).map (fun address =>
          Action.routeReply routeReply true { packet with tag := some { tag with address := address } }
            source destination protocolType plugin.1))

/-- The part of `RequestRoute` after the tag has been prepared. -/
def dispatch (s : HwmpProtocol) (sourceIface : Nat) (source destination : Mac48Address)
    (packet : Packet) (tag : HwmpTag) (protocolType routeReply : Nat) :
    Except Fault (Bool × HwmpProtocol) :=
  if destination = GetBroadcast then
    let s1 : HwmpProtocol :=
      { s with m_stats := { s.m_stats with txBroadcast := s.m_stats.txBroadcast + 1,
                                           txBytes := s.m_stats.txBytes + packet.size } }
    .ok (true, s1.emit (broadcastLoop s1 packet tag source destination protocolType routeReply
      s1.m_interfaces [] []))
  else s.ForwardUnicast sourceIface source destination packet protocolType routeReply tag.ttl

/-- The function `HwmpProtocol::RequestRoute`. -/
def RequestRoute (s : HwmpProtocol) (sourceIface : Nat) (source destination : Mac48Address)
    (constPacket : Packet) (protocolType routeReply : Nat) : Except Fault (Bool × HwmpProtocol) :=
  if sourceIface = s.mpIfIndex then
    match constPacket.tag with
    | some _ => .error Fault.fatalError
    | none =>
      if destination = GetBroadcast then
        let tag : HwmpTag := { HwmpTag.new with seqno := s.m_dataSeqno, ttl := s.m_maxTtl }
        dispatch { s with m_dataSeqno := u32 (s.m_dataSeqno + 1) } sourceIface source destination
          constPacket tag protocolType routeReply
      else
        dispatch s sourceIface source destination constPacket
          { HwmpTag.new with ttl := s.m_maxTtl } protocolType routeReply
  else
    match constPacket.tag with
    | none => .error Fault.fatalError
    | some t =>
      if t.DecrementTtl.ttl = 0 then
        .ok (false, { s with m_stats := { s.m_stats with droppedTtl := s.m_stats.droppedTtl + 1 } })
      else
        dispatch s sourceIface source destination { constPacket with tag := none } t.DecrementTtl
          protocolType routeReply

/-- The function `HwmpProtocol::SetRoot`. -/
def SetRoot (s : HwmpProtocol) : HwmpProtocol := { s with m_isRoot := true }

/-- The function `HwmpProtocol::UnsetRoot`. -/
def UnsetRoot (s : HwmpProtocol) : HwmpProtocol := { s with m_proactivePreqTimer := none }

/-- The function `HwmpProtocol::SendProactivePreq`. -/
def SendProactivePreq (s : HwmpProtocol) : HwmpProtocol :=
  let i := s.GetNextPreqId
  let g := i.2.GetNextHwmpSeqno
  let preq : IePreq :=
    { hopcount := 0, ttl := s.m_maxTtl,
      lifetime := u32 (s.m_dot11MeshHWMPactiveRootTimeout.tdiv 1024 % 4294967296).toNat,
      destinations := [{ doFlag := true, rfFlag := true, usnFlag := false,
                         destinationAddress := GetBroadcast, destSeqNumber := 0 }],
      originatorAddress := s.m_address, preqId := i.1, originatorSeqNumber := g.1,
      metric := 0, needNotPrep := false }
  let s1 := g.2.emit (g.2.m_interfaces.map (fun p => Action.macSendPreq p.1 preq))
  { s1 with m_proactivePreqTimer := some (s1.now + s1.m_dot11MeshHWMPpathToRootInterval) }

/-- The function `HwmpProtocol::DoInitialize`; `randomStart` is the value drawn
from the random variable `m_coefficient`. -/
def DoInitialize (s : HwmpProtocol) (randomStart : Time) : HwmpProtocol :=
  if s.m_isRoot then { s with m_proactivePreqTimer := some (s.now + randomStart) } else s

/-- The station when the clock of the simulator shows `t`. -/
def atTime (s : HwmpProtocol) (t : Time) : HwmpProtocol := { s with now := t }

/-- The scheduler runs the pending `RetryPathDiscovery` event of `dst`: the
clock moves to the deadline of the event and the event is executed with the
argument it was scheduled with. -/
def fireRetryTimer (s : HwmpProtocol) (dst : Mac48Address) : Except Fault HwmpProtocol :=
  match mapFind s.m_preqTimeouts dst with
  | none => .ok s
  | some ev =>
    RetryPathDiscovery (s.atTime (max s.now ev.preqTimeout.deadline)) dst
      ev.preqTimeout.numOfRetry

/-- The scheduler runs the pending `SendProactivePreq` event. -/
def fireProactiveTimer (s : HwmpProtocol) : HwmpProtocol :=
  match s.m_proactivePreqTimer with
  | none => s
  | some deadline => SendProactivePreq (s.atTime (max s.now deadline))

/-- The discovery timer of `dst` fires `k` times in a row. -/
def runRetryTimer (dst : Mac48Address) : Nat → HwmpProtocol → Except Fault HwmpProtocol
  | 0, s => .ok s
  | k + 1, s =>
    match fireRetryTimer s dst with
    | .error e => .error e
    | .ok s1 => runRetryTimer dst k s1

end HwmpProtocol

/-- The events a station reacts to: the entry points called by the upper layer
and by the MAC plugins, the firing of its timers, and the passing of time. -/
inductive Call where
  | receivePreq (preq : IePreq) (from_ : Mac48Address) (interface : Nat) (fromMp : Mac48Address)
      (metric : Nat)
  | receivePrep (prep : IePrep) (from_ : Mac48Address) (interface : Nat) (fromMp : Mac48Address)
      (metric : Nat)
  | receivePerr (destinations : List FailedDestination) (from_ : Mac48Address) (interface : Nat)
      (fromMp : Mac48Address)
  | requestRoute (sourceIface : Nat) (source destination : Mac48Address) (constPacket : Packet)
      (protocolType routeReply : Nat)
  | peerLinkStatus (meshPointAddress peerAddress : Mac48Address) (interface : Nat) (status : Bool)
  | dropDataFrame (seqno : Nat) (source : Mac48Address)
  | retryTimer (dst : Mac48Address)
  | proactiveTimer
  | elapse (dt : Nat)
  | setRoot
  | unsetRoot
  | doInitialize (randomStart : Time)
  deriving DecidableEq, Repr

/-- The reaction of the station to one event. -/
def step (s : HwmpProtocol) : Call → Except Fault HwmpProtocol
  | .receivePreq preq from_ interface fromMp metric => s.ReceivePreq preq from_ interface fromMp metric
  | .receivePrep prep from_ interface fromMp metric => s.ReceivePrep prep from_ interface fromMp metric
  | .receivePerr destinations from_ interface fromMp =>
    .ok (s.ReceivePerr destinations from_ interface fromMp)
  | .requestRoute sourceIface source destination constPacket protocolType routeReply =>
    match s.RequestRoute sourceIface source destination constPacket protocolType routeReply with
    | .error e => .error e
    | .ok r => .ok r.2
  | .peerLinkStatus meshPointAddress peerAddress interface status =>
    .ok (s.PeerLinkStatus meshPointAddress peerAddress interface status)
  | .dropDataFrame seqno source => .ok (s.DropDataFrame seqno source).2
  | .retryTimer dst => s.fireRetryTimer dst
  | .proactiveTimer => .ok s.fireProactiveTimer
  | .elapse dt => .ok (s.atTime (s.now + dt))
  | .setRoot => .ok s.SetRoot
  | .unsetRoot => .ok s.UnsetRoot
  | .doInitialize randomStart => .ok (s.DoInitialize randomStart)

/-- The reaction of the station to a sequence of events. -/
def run (s : HwmpProtocol) : List Call → Except Fault HwmpProtocol
  | [] => .ok s
  | c :: cs =>
    match step s c with
    | .error e => .error e
    | .ok s1 => run s1 cs

/-! ## Observations on queues and logs

Functions in which the properties below are stated: what a loop that empties
the queue for one destination hands out and what it leaves, and the projections
of the log onto the calls of one kind. -/

/-- The frames that the loop `while (packet.pkt)` over
`DequeueFirstPacketByDst (dst)` processes: the frames for `dst`, in queue order,
up to the first one whose payload pointer is null. -/
def drainedBy (dst : Mac48Address) : List QueuedPacket → List QueuedPacket
  | [] => []
  | p :: q =>
    if p.dst = dst then
      match p.pkt with
      | none => []
      | some _ => p :: drainedBy dst q
    else drainedBy dst q

/-- The queue that the loop `while (packet.pkt)` over
`DequeueFirstPacketByDst (dst)` leaves behind. -/
def remainBy (dst : Mac48Address) : List QueuedPacket → List QueuedPacket
  | [] => []
  | p :: q =>
    if p.dst = dst then
      match p.pkt with
      | none => q
      | some _ => remainBy dst q
    else p :: remainBy dst q

/-- The sum of the payload sizes of a list of queued frames. -/
def bytesOf : List QueuedPacket → Nat
  | [] => 0
  | p :: q => (match p.pkt with | none => 0 | some x => x.size) + bytesOf q

/-- The successful route replies for a list of queued frames, each frame tagged
with the next hop of `result` and handed out on its interface. -/
def resolvedReplies (result : LookupResult) : List QueuedPacket → List Action
  | [] => []
  | p :: q =>
    match p.pkt with
    | none => resolvedReplies result q
    | some x =>
      Action.routeReply p.reply true
        { x with tag := some { (x.tag.getD HwmpTag.new) with address := result.retransmitter } }
        p.src p.dst p.protocol result.ifIndex :: resolvedReplies result q

/-- The failed route replies for a list of queued frames, `MAX_METRIC` in the
last slot. -/
def failedReplies : List QueuedPacket → List Action
  | [] => []
  | p :: q =>
    match p.pkt with
    | none => failedReplies q
    | some x =>
      Action.routeReply p.reply false x p.src p.dst p.protocol MAX_METRIC :: failedReplies q

/-- The station after the frames queued for `dst` have been handed out along
`result`. -/
def resolvedState (s : HwmpProtocol) (result : LookupResult) (dst : Mac48Address)
    (q : List QueuedPacket) : HwmpProtocol :=
  { s with m_rqueue := remainBy dst q,
           m_stats := { s.m_stats with txUnicast := s.m_stats.txUnicast + (drainedBy dst q).length,
                                       txBytes := s.m_stats.txBytes + bytesOf (drainedBy dst q) },
           out := s.out ++ resolvedReplies result (drainedBy dst q) }

/-- The station after the frames queued for `dst` have been given up. -/
def purgedState (s : HwmpProtocol) (dst : Mac48Address) (q : List QueuedPacket) : HwmpProtocol :=
  { s with m_rqueue := remainBy dst q,
           m_stats := { s.m_stats with
                          totalDropped := s.m_stats.totalDropped + (drainedBy dst q).length },
           out := s.out ++ failedReplies (drainedBy dst q) }

/-- The route-discovery-time sample that `ReactivePathResolved (dst)` hands to
its trace source when a discovery timer exists for `dst`. -/
def discoveryTrace (s : HwmpProtocol) (dst : Mac48Address) : List Action :=
  match mapFind s.m_preqTimeouts dst with
  | some ev => [Action.routeDiscoveryTime (s.now - ev.whenScheduled)]
  | none => []

/-- Every queued frame carries a payload. -/
def QueueWf (q : List QueuedPacket) : Prop := ∀ p ∈ q, p.pkt ≠ none

/-- The PREPs handed to the MAC plugins, `(interface, PREP, receiver)`. -/
def sentPreps : List Action → List (Nat × IePrep × Mac48Address)
  | [] => []
  | Action.macSendPrep i prep r :: t => (i, prep, r) :: sentPreps t
  | _ :: t => sentPreps t

/-- The PREQ forwards handed to the scheduler, `(delay, interface, PREQ)`. -/
def scheduledPreqs : List Action → List (Time × Nat × IePreq)
  | [] => []
  | Action.scheduleSendPreq d i preq :: t => (d, i, preq) :: scheduledPreqs t
  | _ :: t => scheduledPreqs t

/-- The PREQ bursts requested from the MAC plugins for `dst`,
`(interface, originSN, dstSN)`. -/
def requestedFor (dst : Mac48Address) : List Action → List (Nat × Nat × Nat)
  | [] => []
  | Action.macRequestDestination i d o n :: t =>
    if d = dst then (i, o, n) :: requestedFor dst t else requestedFor dst t
  | _ :: t => requestedFor dst t

/-- The calls made into MAC plugins, directly or through the scheduler. -/
def Action.isMac : Action → Bool
  | Action.routeReply _ _ _ _ _ _ _ => false
  | Action.routeChange _ => false
  | Action.routeDiscoveryTime _ => false
  | _ => true

/-- The part of the station that no handler of a received element touches
after the acceptance step: the clock, the identity and configuration of the
station, and the table of seen originators. -/
structure Frame (s s1 : HwmpProtocol) : Prop where
  db : s1.m_hwmpSeqnoMetricDatabase = s.m_hwmpSeqnoMetricDatabase
  now : s1.now = s.now
  address : s1.m_address = s.m_address
  interfaces : s1.m_interfaces = s.m_interfaces
  mpIfIndex : s1.mpIfIndex = s.mpIfIndex
  maxTtl : s1.m_maxTtl = s.m_maxTtl
  maxQueueSize : s1.m_maxQueueSize = s.m_maxQueueSize
  retries : s1.m_dot11MeshHWMPmaxPREQretries = s.m_dot11MeshHWMPmaxPREQretries
  traversal : s1.m_dot11MeshHWMPnetDiameterTraversalTime = s.m_dot11MeshHWMPnetDiameterTraversalTime
  timeouts : s1.m_preqTimeouts = s.m_preqTimeouts

/-- Facts that every reaction of the station carries from the state before to
the state after, for an address `A` to which the reaction installs no path: the
table holds no reactive record for `A`, every queued frame carries a payload,
and the address of the station stays the same. -/
structure Stable (A : Mac48Address) (s s1 : HwmpProtocol) : Prop where
  noRoute : mapFind s.m_rtable.m_routes A = none → mapFind s1.m_rtable.m_routes A = none
  queue : QueueWf s.m_rqueue → QueueWf s1.m_rqueue
  address : s1.m_address = s.m_address

/-! ## Example stations and elements -/

/-- A new station with address 7, mesh-point interface 0 and one radio
interface, number 1 on channel 1. -/
def station7 : HwmpProtocol := HwmpProtocol.new 7 0 [(1, { channelId := 1 })] (fun _ => 0)

/-- A station whose `MaxQueueSize` attribute is set to 1, with one interface. -/
def smallQueueStation : HwmpProtocol := { station7 with m_maxQueueSize := 1 }

/-- A frame of 100 bytes handed down by the upper layer. -/
def upperFrame : Packet := { size := 100, tag := none }

/-- A PREQ of originator 5 with sequence number `sn`, lifetime 100 TU and an
empty destination list. -/
def preqFrom5 (sn : Nat) : IePreq :=
  { originatorAddress := 5, originatorSeqNumber := sn, preqId := 1, hopcount := 0, ttl := 32,
    lifetime := 100, metric := 0, needNotPrep := false, destinations := [] }

/-- The state of a station after it has handled the given events, or the
station itself if one of them aborts it. -/
def after (s : HwmpProtocol) (cs : List Call) : HwmpProtocol :=
  match run s cs with
  | .ok s1 => s1
  | .error _ => s

/-- The events that name the address `A` as the originator of a received PREQ or
PREP or as the mesh point that transmitted it. -/
def Call.names (A : Mac48Address) : Call → Prop
  | Call.receivePreq preq _ _ fromMp _ => preq.originatorAddress = A ∨ fromMp = A
  | Call.receivePrep prep _ _ fromMp _ => prep.originatorAddress = A ∨ fromMp = A
  | _ => False

/-- The station after `RetryPathDiscovery (dst, n)` has given up: the frames for
`dst` handed back as failed, the discovery time traced, the timer forgotten. -/
def gaveUpState (s : HwmpProtocol) (dst : Mac48Address) (ev : PreqEvent) : HwmpProtocol :=
  let s1 := (purgedState s dst s.m_rqueue).emit [Action.routeDiscoveryTime (s.now - ev.whenScheduled)]
  { s1 with m_preqTimeouts := mapErase s.m_preqTimeouts dst }

/-- The timer entry that `RetryPathDiscovery (dst, n)` leaves when it schedules
itself again. -/
def nextPreqEvent (s : HwmpProtocol) (numOfRetry : Nat) (ev : PreqEvent) : PreqEvent :=
  { preqTimeout :=
      { deadline := s.now +
          (2 * ((u8 (numOfRetry + 1) : Nat) + 1)) * s.m_dot11MeshHWMPnetDiameterTraversalTime,
        numOfRetry := u8 (numOfRetry + 1) },
    whenScheduled := ev.whenScheduled }

/-- The station after `RetryPathDiscovery (dst, n)` has sent one more PREQ burst
and scheduled itself again. -/
def retriedState (s : HwmpProtocol) (dst : Mac48Address) (numOfRetry : Nat) (ev : PreqEvent) :
    HwmpProtocol :=
  let s1 := s.GetNextHwmpSeqno.2.emit
    (HwmpProtocol.requestDestinationAll s dst s.GetNextHwmpSeqno.1
      (s.m_rtable.LookupReactiveExpired s.now dst).seqnum)
  { s1 with m_preqTimeouts := mapInsert dst (nextPreqEvent s numOfRetry ev) s.m_preqTimeouts }

/-- A PREQ that names station 7 itself as its originator, as a neighbour
forwarding the station's own PREQ back to it would send. -/
def preqFrom7 : IePreq := { preqFrom5 1 with originatorAddress := 7 }

/-- A short history of station 7: a PREQ of originator 5 heard from neighbour 3,
a frame of the upper layer for the unknown destination 9, the first firing of
the discovery timer, and the loss of the link to neighbour 3. -/
def history7 : List Call :=
  [Call.receivePreq (preqFrom5 5) 3 1 3 10, Call.requestRoute 0 7 9 upperFrame 2048 0,
   Call.retryTimer 9, Call.peerLinkStatus 7 3 1 false]

/-- A station whose `Dot11MeshHWMPmaxPREQretries` attribute is set to 255, the
largest value its checker admits. -/
def station255 : HwmpProtocol := { station7 with m_dot11MeshHWMPmaxPREQretries := 255 }

/-- The state of a discovery for `dst` that finds no path: the table is empty,
the discovery timer of `dst` is pending with retry count `n`, and `bursts` PREQ
bursts have been requested on the one interface of the station. -/
structure Discovering (dst : Mac48Address) (n bursts : Nat) (s : HwmpProtocol) : Prop where
  table : s.m_rtable = HwmpRtable.empty
  interfaces : s.m_interfaces = [(1, { channelId := 1 })]
  retries : s.m_dot11MeshHWMPmaxPREQretries = 255
  timer : ∃ ev, mapFind s.m_preqTimeouts dst = some ev ∧ ev.preqTimeout.numOfRetry = n
  count : (requestedFor dst s.out).length = bursts

/-- The discovery of `dst` that station `s0` started is under way on station
`t`: the table is the one of `s0`, the clock has not passed the instant `due` at
which the discovery timer fires next, that timer carries the retry count `n`,
the queue is `queue`, and `bursts` PREQ bursts have gone out on every interface
since `s0`. -/
structure Pending (s0 : HwmpProtocol) (dst : Mac48Address) (queue : List QueuedPacket)
    (n : Nat) (due : Time) (bursts : Nat) (t : HwmpProtocol) : Prop where
  table : t.m_rtable = s0.m_rtable
  later : s0.now ≤ t.now
  before : t.now ≤ due
  traversal : t.m_dot11MeshHWMPnetDiameterTraversalTime = s0.m_dot11MeshHWMPnetDiameterTraversalTime
  retries : t.m_dot11MeshHWMPmaxPREQretries = s0.m_dot11MeshHWMPmaxPREQretries
  interfaces : t.m_interfaces = s0.m_interfaces
  timer : ∃ ev, mapFind t.m_preqTimeouts dst = some ev ∧
    ev.preqTimeout = { deadline := due, numOfRetry := n }
  queue : t.m_rqueue = queue
  count : (requestedFor dst t.out).length =
    (requestedFor dst s0.out).length + bursts * s0.m_interfaces.length

/-- The frame that `ForwardUnicast` queues for a frame of the upper layer while
no path to its destination is known. -/
def queuedFrame (s : HwmpProtocol) (source dst : Mac48Address) (frame : Packet)
    (protocolType routeReply : Nat) : QueuedPacket :=
  let tag : HwmpTag := { HwmpTag.new with address := GetBroadcast, ttl := u8 s.m_maxTtl }
  let packet : Packet := { frame with tag := some tag }
  { pkt := some packet, src := source, dst := dst, protocol := protocolType,
    inInterface := s.mpIfIndex, reply := routeReply }

/-- The frames of the upper layer that station 7 holds for destinations 9 and 8
when the discovery timer of 9 has fired three times. -/
def history9 : List Call :=
  [Call.requestRoute 0 7 9 upperFrame 2048 0, Call.requestRoute 0 7 8 upperFrame 2048 1,
   Call.requestRoute 0 7 9 upperFrame 2048 2, Call.retryTimer 9, Call.retryTimer 9,
   Call.retryTimer 9]

/-- Station 7 at the instant at which the discovery timer of 9 fires for the
fourth time. -/
def exhausted9 : HwmpProtocol := (after station7 history9).atTime 2662400

/-- The relevance test of section 4.4 of the specification for a failed
destination `d` of a PERR received from neighbour `from_` on `interface`: the
record of `d` has next hop `from_`, has interface `interface`, and its stored
sequence number is not strictly fresher than the advertised one. -/
def perrRelevant (s : HwmpProtocol) (from_ : Mac48Address) (interface : Nat)
    (d : FailedDestination) : Bool :=
  decide ((s.m_rtable.LookupReactiveExpired s.now d.destination).retransmitter = from_ ∧
    (s.m_rtable.LookupReactiveExpired s.now d.destination).ifIndex = interface ∧
    sdiff (s.m_rtable.LookupReactiveExpired s.now d.destination).seqnum d.seqnum ≤ 0)

/-- A PREQ of originator 5 with sequence number 5 and the given metric. -/
def preqMetric (m : Nat) : IePreq := { preqFrom5 5 with metric := m }

/-- A step that sends no PREP, schedules no PREQ forward and leaves the counter
of initiated PREPs and the HWMP sequence number as they are. -/
structure Quiet (s s1 : HwmpProtocol) : Prop where
  preps : sentPreps s1.out = sentPreps s.out
  preqs : scheduledPreqs s1.out = scheduledPreqs s.out
  initiatedPrep : s1.m_stats.initiatedPrep = s.m_stats.initiatedPrep
  seqno : s1.m_hwmpSeqno = s.m_hwmpSeqno

/-- A PREQ of originator 5 whose only destination is station 7. -/
def preqFor7 : IePreq :=
  { preqFrom5 5 with destinations :=
      [{ destinationAddress := 7, destSeqNumber := 0, doFlag := false, rfFlag := true,
         usnFlag := false }] }

/-- The route replies in a log that concern frames for destination `dst`. -/
def repliesTo (dst : Mac48Address) : List Action → List Action
  | [] => []
  | Action.routeReply cb accepted pkt src d protocol last :: t =>
    if d = dst then Action.routeReply cb accepted pkt src d protocol last :: repliesTo dst t
    else repliesTo dst t
  | _ :: t => repliesTo dst t

/-- A PREP that answers a discovery of station 7 for the target 5, the target
being two hops away: it arrives with metric 10. -/
def prepFrom5 : IePrep :=
  { originatorAddress := 5, originatorSeqNumber := 2, destinationAddress := 7,
    destinationSeqNumber := 4, hopcount := 1, ttl := 31, lifetime := 100, metric := 10 }

/-- Station 7 holding two frames of the upper layer for the target 5 and one for
the target 8. -/
def waiting7 : HwmpProtocol :=
  after station7 [Call.requestRoute 0 7 5 upperFrame 2048 0,
    Call.requestRoute 0 7 8 upperFrame 2048 1, Call.requestRoute 0 7 5 upperFrame 2048 2]

/-- A frame of 100 bytes received from a peer, carrying a tag with the given
TTL and the sequence number 0. -/
def meshFrame (ttl : Nat) : Packet :=
  { size := 100, tag := some { address := 7, ttl := ttl, seqno := 0 } }

/-- The statement `m_stats.droppedTtl++`. -/
def countDroppedTtl (s : HwmpProtocol) : HwmpProtocol :=
  { s with m_stats := { s.m_stats with droppedTtl := s.m_stats.droppedTtl + 1 } }

/-- The frame that `ForwardUnicast` hands out: the payload with a new tag whose
address is the next hop and whose TTL is the 8-bit value of `ttl`. -/
def unicastFrame (packet : Packet) (nextHop : Mac48Address) (ttl : Nat) : Packet :=
  { packet with tag := some { HwmpTag.new with address := nextHop, ttl := u8 ttl } }

/-- Station 7 after it has heard the PREQ of originator 5 from neighbour 3 over
a link of metric 10: it holds reactive paths to 5 and to 3, both through 3. -/
def routed7 : HwmpProtocol := after station7 [Call.receivePreq (preqFrom5 5) 3 1 3 10]

/-- The calls into MAC plugins recorded in a log, in order. -/
def macCalls (l : List Action) : List Action := l.filter Action.isMac

/-- Station 7 long after it has heard the PREQ of originator 5 from neighbour 3:
its reactive records for 5 and for 3 have expired, and neither has a
precursor. -/
def expired7 : HwmpProtocol :=
  after station7 [Call.receivePreq (preqFrom5 5) 3 1 3 10, Call.elapse 200000]

/-- The interface `p` has the lowest index among the interfaces of `ifs` that
share its channel. -/
def lowestOfChannel (ifs : List (Nat × HwmpProtocolMac)) (p : Nat × HwmpProtocolMac) : Bool :=
  ifs.all (fun q => !(q.2.channelId == p.2.channelId) || decide (p.1 ≤ q.1))

/-- The copies of a broadcast frame as the specification describes them: for
the lowest-indexed interface of every channel, in the order of the interfaces,
one successful route reply per receiver of that interface, the copy tagged with
the address of the receiver. -/
def broadcastCopies (receivers : Nat → List Mac48Address) (ifs : List (Nat × HwmpProtocolMac))
    (packet : Packet) (tag : HwmpTag) (source destination : Mac48Address)
    (protocolType routeReply : Nat) : List Action :=
  (ifs.filter (lowestOfChannel ifs)).flatMap (fun p =>
    (receivers p.1).map (fun address =>
      Action.routeReply routeReply true { packet with tag := some { tag with address := address } }
        source destination protocolType p.1))

/-- Station 7 with three radio interfaces: 1 and 2 on channel 1, 3 on channel
6. -/
def threeRadios : HwmpProtocol :=
  HwmpProtocol.new 7 0 [(2, { channelId := 1 }), (1, { channelId := 1 }), (3, { channelId := 6 })]
    (fun _ => 0)

/-- The statements `m_stats.txBroadcast++; m_stats.txBytes += size`. -/
def countBroadcast (s : HwmpProtocol) (size : Nat) : HwmpProtocol :=
  { s with m_stats := { s.m_stats with txBroadcast := s.m_stats.txBroadcast + 1,
                                       txBytes := s.m_stats.txBytes + size } }

/-- The increment of `m_dataSeqno++`. -/
def nextDataSeqno (s : HwmpProtocol) : HwmpProtocol :=
  { s with m_dataSeqno := u32 (s.m_dataSeqno + 1) }

/-- Station 7 after the PREP of originator 5 has reached it through neighbour 3
over a link of metric 5: it holds the pair `(4, 15)` for originator 5 and a
reactive path to 5 through 3 with metric 15. -/
def answered7 : HwmpProtocol := after station7 [Call.receivePrep prepFrom5 3 1 3 5]

/-- The neighbour list that the neighbours callback reports for an interface;
it is empty when no callback is set. -/
def neighbours (s : HwmpProtocol) (interface : Nat) : List Mac48Address :=
  match s.m_neighboursCallback with
  | none => []
  | some cb => cb interface

/-- The receiver list of the sending-threshold policy of the specification for
the neighbour list `N` and the threshold `t`. -/
def thresholdPolicy (N : List Mac48Address) (t : Nat) : List Mac48Address :=
  if N.length = 0 ∨ N.length ≥ t then [GetBroadcast] else N

/-- Station 7 with both data and PREQ thresholds set to 3 and a neighbours
callback that reports the two neighbours 3 and 4 on every interface. -/
def twoNeighbours7 : HwmpProtocol :=
  { station7 with m_unicastPreqThreshold := 3, m_unicastDataThreshold := 3,
                  m_neighboursCallback := some (fun _ => [3, 4]) }

/-- The default values that `HwmpProtocol::GetTypeId` declares for the
attributes of the station. -/
structure AttributeDefaults where
  randomStart : Time
  maxQueueSize : Nat
  maxPREQretries : Nat
  netDiameterTraversalTime : Time
  preqMinInterval : Time
  perrMinInterval : Time
  activeRootTimeout : Time
  activePathTimeout : Time
  pathToRootInterval : Time
  rannInterval : Time
  maxTtl : Nat
  unicastPerrThreshold : Nat
  unicastPreqThreshold : Nat
  unicastDataThreshold : Nat
  doFlag : Bool
  rfFlag : Bool
  deriving DecidableEq, Repr

/-- The function `HwmpProtocol::GetTypeId`, as far as the default values of the
attributes go. -/
def GetTypeId : AttributeDefaults :=
  { randomStart := 100000, maxQueueSize := 255, maxPREQretries := 3,
    netDiameterTraversalTime := 1024 * 100, preqMinInterval := 1024 * 100,
    perrMinInterval := 1024 * 100, activeRootTimeout := 1024 * 5000,
    activePathTimeout := 1024 * 5000, pathToRootInterval := 1024 * 2000,
    rannInterval := 1024 * 5000, maxTtl := 32, unicastPerrThreshold := 32,
    unicastPreqThreshold := 1, unicastDataThreshold := 1, doFlag := false, rfFlag := true }

/-- The proactive PREQs handed to the MAC plugins, `(interface, PREQ)`. -/
def sentPreqs : List Action → List (Nat × IePreq)
  | [] => []
  | Action.macSendPreq i preq :: t => (i, preq) :: sentPreqs t
  | _ :: t => sentPreqs t

/-- The condition under which `ReceivePreq` answers the destination `u` out of
its own table: the destination-only flag is clear, a valid reactive path to the
destination exists, the time left of that path is at least one unit of 1024
microseconds as the 32-bit count `lifetimeTU` has it, and the stored sequence
number is not older than the requested one. -/
def canAnswer (s : HwmpProtocol) (u : DestinationAddressUnit) : Bool :=
  !u.doFlag &&
  decide ((s.m_rtable.LookupReactive s.now u.destinationAddress).retransmitter ≠ GetBroadcast) &&
  decide (HwmpProtocol.lifetimeTU (s.m_rtable.LookupReactive s.now u.destinationAddress) > 0) &&
  decide (sdiff (s.m_rtable.LookupReactive s.now u.destinationAddress).seqnum u.destSeqNumber ≥ 0)

/-- The destination `u` is neither the broadcast address nor the station, and
the station can answer it out of its table. -/
def answeredForOther (s : HwmpProtocol) (u : DestinationAddressUnit) : Bool :=
  decide (u.destinationAddress ≠ GetBroadcast) && decide (u.destinationAddress ≠ s.m_address) &&
    canAnswer s u

/-- The PREP that answers the destination `u` of `preq` out of the table:
`(interface, PREP, receiver)`. -/
def answerFor (s : HwmpProtocol) (preq : IePreq) (from_ : Mac48Address) (interface : Nat)
    (u : DestinationAddressUnit) : Nat × IePrep × Mac48Address :=
  (interface,
   { originatorAddress := u.destinationAddress, originatorSeqNumber := preq.originatorSeqNumber,
     destinationAddress := preq.originatorAddress,
     destinationSeqNumber := (s.m_rtable.LookupReactive s.now u.destinationAddress).seqnum,
     hopcount := 0, ttl := s.m_maxTtl,
     lifetime := HwmpProtocol.lifetimeTU (s.m_rtable.LookupReactive s.now u.destinationAddress),
     metric := (s.m_rtable.LookupReactive s.now u.destinationAddress).metric },
   from_)

/-- The PREPs of a log that answer on behalf of an address other than `own`. -/
def intermediatePreps (own : Mac48Address) (l : List Action) : List (Nat × IePrep × Mac48Address) :=
  (sentPreps l).filter (fun e => decide (e.2.1.originatorAddress ≠ own))

/-- What the forwarded PREQ holds for the destination `u` according to the
specification: nothing when the station is the destination or has answered a
destination whose reply-and-forward flag is clear, the destination with `DO =
1, RF = 0` when it has answered one whose flag is set, and the destination as it
was otherwise. -/
def forwardedUnit (s : HwmpProtocol) (u : DestinationAddressUnit) : Option DestinationAddressUnit :=
  if u.destinationAddress = GetBroadcast then some u
  else if u.destinationAddress = s.m_address then none
  else if canAnswer s u then
    (if u.rfFlag then some { u with doFlag := true, rfFlag := false } else none)
  else some u

/-- A step that schedules no PREQ forward and draws no forwarding delay. -/
structure Steady (s s1 : HwmpProtocol) : Prop where
  preqs : scheduledPreqs s1.out = scheduledPreqs s.out
  draws : s1.delayDraws = s.delayDraws
  delay : s1.forwardingDelay = s.forwardingDelay

/-- A step that leaves the clock and every reactive lookup as they are. -/
structure SameLookup (s s1 : HwmpProtocol) : Prop where
  now : s1.now = s.now
  lookup : ∀ (t : Time) (d : Mac48Address),
    s1.m_rtable.LookupReactive t d = s.m_rtable.LookupReactive t d

/-- Every queued frame carries the HWMP tag, as `RequestRoute` leaves the frames
it hands to `ForwardUnicast`. -/
def QueueTagged (q : List QueuedPacket) : Prop :=
  ∀ p ∈ q, ∀ x, p.pkt = some x → x.tag ≠ none

/-- The destination list of a PREQ as stations build it: no destination is the
broadcast address, or the list is the single broadcast destination of a
proactive PREQ with the flags DO and RF set. -/
def WellFormedDestinations (l : List DestinationAddressUnit) : Prop :=
  (∀ u ∈ l, u.destinationAddress ≠ GetBroadcast) ∨
  ∃ u, l = [u] ∧ u.destinationAddress = GetBroadcast ∧ u.doFlag = true ∧ u.rfFlag = true

/-- A PREQ of originator 5 whose only destination is the broadcast address, with
the flags DO and RF clear. -/
def preqBroadcastNoFlags : IePreq :=
  { preqFrom5 5 with destinations :=
      [{ destinationAddress := GetBroadcast, destSeqNumber := 0, doFlag := false, rfFlag := false,
         usnFlag := false }] }

/-- The proactive PREQ of a root with address 5. -/
def proactivePreqFrom5 : IePreq :=
  { preqFrom5 5 with destinations :=
      [{ destinationAddress := GetBroadcast, destSeqNumber := 0, doFlag := true, rfFlag := true,
         usnFlag := false }] }

/-- The PREQ `preqFor7` with lifetime zero. -/
def preqZeroLifetime : IePreq := { preqFor7 with lifetime := 0 }

/-- The forwards that the last loop of `ReceivePreq` hands to the scheduler for
the interfaces `ifs`, the `n`-th delay drawn being `f n`. -/
def forwardsFrom (f : Nat → Time) (preq : IePreq) :
    Nat → List (Nat × HwmpProtocolMac) → List (Time × Nat × IePreq)
  | _, [] => []
  | n, i :: rest => (f n, i.1, preq) :: forwardsFrom f preq (n + 1) rest

/-- Station 7 after the PREQ of originator 5 with sequence number 5 has reached
it through neighbour 3 over a link of metric 10; the PREQ that follows, with
sequence number 6 and station 7 as destination. -/
def preqFor7Later : IePreq := { preqFor7 with originatorSeqNumber := 6 }

/-- The PREQ `preqFor7` as the originator would send it with an initial metric
of 3. -/
def preqFor7Metric3 : IePreq := { preqFor7 with metric := 3 }

/-- The reactive path to the transmitting mesh point `fromMp` that the station
holds when `ReceivePreq` has dealt with the originator: the path just installed
when `fromMp` is the originator and its path was installed, the path of before
otherwise. -/
def pathBeforeTransmitter (s : HwmpProtocol) (preq : IePreq) (from_ : Mac48Address)
    (interface : Nat) (fromMp : Mac48Address) (metric : Nat) (freshInfo : Bool) : LookupResult :=
  if (freshInfo = true ∨
      (s.m_rtable.LookupReactive s.now preq.originatorAddress).retransmitter = GetBroadcast ∨
      (s.m_rtable.LookupReactive s.now preq.originatorAddress).metric >
        u32 (preq.metric + metric)) ∧ preq.originatorAddress = fromMp then
    LookupResult.mk from_ interface (u32 (preq.metric + metric)) preq.originatorSeqNumber
      (HwmpProtocol.lifetimeTime preq.lifetime)
  else s.m_rtable.LookupReactive s.now fromMp

/-- A PREQ of originator 9 that asks for destination 5, destination-only flag
clear, reply-and-forward flag as given. -/
def preqFrom9For5 (rf : Bool) : IePreq :=
  { originatorAddress := 9, originatorSeqNumber := 1, preqId := 1, hopcount := 0, ttl := 32,
    lifetime := 100, metric := 0, needNotPrep := false,
    destinations := [{ destinationAddress := 5, destSeqNumber := 0, doFlag := false,
                       rfFlag := rf, usnFlag := false }] }

/-- The first two stages of `ReceivePreq` on an accepted PREQ `preq0` with the
given value of `freshInfo`: the record in the database, the reactive path to the
originator and the reactive path to the transmitting mesh point. -/
def reversePaths (s : HwmpProtocol) (preq0 : IePreq) (from_ : Mac48Address) (interface : Nat)
    (fromMp : Mac48Address) (metric : Nat) (freshInfo : Bool) : Except Fault HwmpProtocol :=
  (if freshInfo = true ∨
      (s.m_rtable.LookupReactive s.now preq0.originatorAddress).retransmitter = GetBroadcast ∨
      (s.m_rtable.LookupReactive s.now preq0.originatorAddress).metric >
        u32 (preq0.metric + metric) then
    (s.setSeqnoMetric preq0.originatorAddress preq0.originatorSeqNumber
      (u32 (preq0.metric + metric))).installReactive
      preq0.originatorAddress from_ interface (u32 (preq0.metric + metric)) preq0.lifetime
      preq0.originatorSeqNumber
   else .ok (s.setSeqnoMetric preq0.originatorAddress preq0.originatorSeqNumber
      (u32 (preq0.metric + metric)))) >>= fun s2 =>
  if (s2.m_rtable.LookupReactive s2.now fromMp).retransmitter = GetBroadcast ∨
      (s2.m_rtable.LookupReactive s2.now fromMp).metric > metric then
    s2.installReactive fromMp from_ interface metric preq0.lifetime preq0.originatorSeqNumber
  else .ok s2

/-- The PREQ that `ReceivePreq` forwards: the received PREQ with its metric
increased by the link metric and the destinations `l`. -/
def forwardedPreq (preq0 : IePreq) (metric : Nat) (l : List DestinationAddressUnit) : IePreq :=
  { preq0 with metric := u32 (preq0.metric + metric), destinations := l }

/-- A PREQ of originator 9 that names destination 5 twice, first with the
reply-and-forward flag set, then with that flag clear and the USN flag set. -/
def preqFrom9Twice5 : IePreq :=
  { originatorAddress := 9, originatorSeqNumber := 1, preqId := 1, hopcount := 0, ttl := 32,
    lifetime := 100, metric := 0, needNotPrep := false,
    destinations :=
      [{ destinationAddress := 5, destSeqNumber := 0, doFlag := false, rfFlag := true,
         usnFlag := false },
       { destinationAddress := 5, destSeqNumber := 0, doFlag := false, rfFlag := false,
         usnFlag := true }] }

/-- The PREPs of a log that the station with address `own` has sent in its own
name. -/
def ownPreps (own : Mac48Address) (l : List Action) : List (Nat × IePrep × Mac48Address) :=
  (sentPreps l).filter (fun e => decide (e.2.1.originatorAddress = own))

/-- The route-discovery-time samples that a log hands to the trace source, one
per call of `ReactivePathResolved` for a destination with a discovery timer. -/
def discoverySamples : List Action → List Time
  | [] => []
  | Action.routeDiscoveryTime d :: t => d :: discoverySamples t
  | _ :: t => discoverySamples t

/-- Station 7 after the PREP of 5 has resolved, through neighbour 3 over a link
of metric 5, the discovery it had started for the two frames it held for 5. -/
def resolved7 : HwmpProtocol := after waiting7 [Call.receivePrep prepFrom5 3 1 3 5]

/-- The step of `ReceivePreq` and `ReceivePrep` for the transmitting mesh point
`dst`: a reactive path to it is installed, and `ReactivePathResolved` called for
it, when the station holds no valid path to it or one with a larger metric. -/
def installIfBetter (t : HwmpProtocol) (dst from_ : Mac48Address) (interface metric lifetime
    seqnum : Nat) : Except Fault HwmpProtocol :=
  if (t.m_rtable.LookupReactive t.now dst).retransmitter = GetBroadcast ∨
      (t.m_rtable.LookupReactive t.now dst).metric > metric then
    t.installReactive dst from_ interface metric lifetime seqnum
  else .ok t

/-- A PREP of originator 5 on its way to the requester 4. -/
def prepFor4 : IePrep := { prepFrom5 with destinationAddress := 4 }

/-- A PREP of the target 9 for the requester 5. -/
def prepFrom9For5 : IePrep :=
  { originatorAddress := 9, originatorSeqNumber := 1, destinationAddress := 5,
    destinationSeqNumber := 1, hopcount := 1, ttl := 31, lifetime := 100, metric := 10 }

/-- The PREP of `prepFrom9For5` with target 6 in place of 9. -/
def prepFrom6For5 : IePrep := { prepFrom9For5 with originatorAddress := 6 }

/-- The PREP of `prepFrom9For5` with target 8 in place of 9. -/
def prepFrom8For5 : IePrep := { prepFrom9For5 with originatorAddress := 8 }

/-- Station 7 after it has heard the PREQ of originator 5 from neighbour 3 and
then, from neighbour 4, the PREPs of the targets 9, 6 and 8 for 5: it holds
paths to 9, 6, 8 and 4 through 4, and neighbour 3 is the one precursor of each
of the paths to 9, 6 and 8. -/
def fanned7 : HwmpProtocol :=
  after routed7 [Call.receivePrep prepFrom9For5 4 1 4 10, Call.receivePrep prepFrom6For5 4 1 4 10,
    Call.receivePrep prepFrom8For5 4 1 4 10]

/-- The calls that leave the stored metric of originator `O` the best one seen:
every `ReceivePreq`, and every `ReceivePrep` whose PREP names another
originator. -/
def Call.sparesMetric (O : Mac48Address) : Call → Bool
  | .receivePreq _ _ _ _ _ => true
  | .receivePrep prep _ _ _ _ => prep.originatorAddress != O
  | _ => false

/-- The pair `(sequence number, metric)` stored for originator `O` in
`m_hwmpSeqnoMetricDatabase`: before the calls and after each of them, as far as
the calls run. -/
def seenAlong (O : Mac48Address) : HwmpProtocol → List Call → List (Option (Nat × Nat))
  | s, [] => [mapFind s.m_hwmpSeqnoMetricDatabase O]
  | s, c :: cs =>
    mapFind s.m_hwmpSeqnoMetricDatabase O ::
      (match step s c with
       | .ok s1 => seenAlong O s1 cs
       | .error _ => [])

/-- A step that leaves the clock alone and installs every path and precursor
with the expiry `E`: each reactive record of the table after the step has the
expiry it had before or the expiry `E`; each precursor of a record was a
precursor of that record before, or expires at `E`, or is one of the entries
`extra`; and the proactive record is the one held before or expires at `E`. -/
structure Installs (E : Time) (extra : Mac48Address → Precursor → Prop)
    (s s1 : HwmpProtocol) : Prop where
  now : s1.now = s.now
  routes : ∀ (d : Mac48Address) (r1 : ReactiveRoute), mapFind s1.m_rtable.m_routes d = some r1 →
    (∃ r, mapFind s.m_rtable.m_routes d = some r ∧ r.whenExpire = r1.whenExpire) ∨
      r1.whenExpire = E
  precursors : ∀ (d : Mac48Address) (r1 : ReactiveRoute),
    mapFind s1.m_rtable.m_routes d = some r1 → ∀ p ∈ r1.precursors,
      (∃ r, mapFind s.m_rtable.m_routes d = some r ∧ p ∈ r.precursors) ∨
        p.whenExpire = E ∨ extra d p
  root : ∀ r1 : ProactiveRoute, s1.m_rtable.m_root = some r1 →
    s.m_rtable.m_root = some r1 ∨ r1.whenExpire = E

/-- Station 7, 1000 microseconds after it has heard the PREQ of originator 5
from neighbour 3: its path to 5 has 101400 microseconds left. -/
def elapsed7 : HwmpProtocol := after routed7 [Call.elapse 1000]

/-! ## Lemmas on maps and on the queue loops -/

theorem bind_ok_iff {ε α β : Type} (x : Except ε α) (f : α → Except ε β) (b : β) :
    (x >>= f) = Except.ok b ↔ ∃ a, x = Except.ok a ∧ f a = Except.ok b := by
  cases x with
  | error e => simp [bind, Except.bind]
  | ok a => simp [bind, Except.bind]

theorem mapFind_mapInsert {β : Type} (m : List (Nat × β)) (k k1 : Nat) (v : β) :
    mapFind (mapInsert k v m) k1 = if k = k1 then some v else mapFind m k1 := by
  induction m with
  | nil => simp [mapInsert, mapFind]
  | cons e t ih =>
    obtain ⟨k2, v2⟩ := e
    unfold mapInsert
    by_cases h1 : k < k2
    · simp [h1, mapFind]
    · by_cases h2 : k = k2
      · subst h2
        by_cases h3 : k = k1 <;> simp [mapFind, h3]
      · simp only [h1, h2, if_false]
        by_cases h3 : k = k1
        · subst h3
          have : ¬ k2 = k := fun h => h2 h.symm
          simp [mapFind, this, ih]
        · simp [mapFind, ih, h3]

theorem mapFind_mapErase {β : Type} (m : List (Nat × β)) (k k1 : Nat) :
    mapFind (mapErase m k) k1 = if k = k1 then none else mapFind m k1 := by
  induction m with
  | nil => simp [mapErase, mapFind]
  | cons e t ih =>
    obtain ⟨k2, v2⟩ := e
    unfold mapErase at ih ⊢
    by_cases h2 : k2 = k
    · subst h2
      by_cases h3 : k2 = k1
      · simpa [List.filter, h3] using ih
      · simpa [List.filter, mapFind, h3] using ih
    · have hne : (k2 != k) = true := by simpa using h2
      simp only [List.filter, hne]
      by_cases h3 : k = k1
      · subst h3
        simp only [mapFind, h2, if_false]
        simpa using ih
      · simp only [mapFind, h3, if_false] at ih ⊢
        rw [ih]

theorem eraseFirstByDst_none (dst : Mac48Address) (q : List QueuedPacket)
    (h : (HwmpProtocol.eraseFirstByDst dst q).1.pkt = none) :
    drainedBy dst q = [] ∧ remainBy dst q = (HwmpProtocol.eraseFirstByDst dst q).2 := by
  induction q with
  | nil => simp [drainedBy, remainBy, HwmpProtocol.eraseFirstByDst]
  | cons p q ih =>
    unfold HwmpProtocol.eraseFirstByDst at h ⊢
    unfold drainedBy remainBy
    by_cases hp : p.dst = dst
    · simp only [hp, if_true] at h ⊢
      simp [h]
    · simp only [hp, if_false] at h ⊢
      exact ⟨(ih h).1, by rw [(ih h).2]⟩

theorem eraseFirstByDst_some (dst : Mac48Address) (q : List QueuedPacket) (x : Packet)
    (h : (HwmpProtocol.eraseFirstByDst dst q).1.pkt = some x) :
    drainedBy dst q =
      (HwmpProtocol.eraseFirstByDst dst q).1 :: drainedBy dst (HwmpProtocol.eraseFirstByDst dst q).2 ∧
    remainBy dst q = remainBy dst (HwmpProtocol.eraseFirstByDst dst q).2 ∧
    (HwmpProtocol.eraseFirstByDst dst q).2.length < q.length := by
  induction q with
  | nil => simp [HwmpProtocol.eraseFirstByDst, QueuedPacket.new] at h
  | cons p q ih =>
    unfold HwmpProtocol.eraseFirstByDst at h ⊢
    by_cases hp : p.dst = dst
    · simp only [hp, if_true] at h ⊢
      simp [drainedBy, remainBy, hp, h]
    · simp only [hp, if_false] at h ⊢
      obtain ⟨h1, h2, h3⟩ := ih h
      refine ⟨?_, ?_, ?_⟩
      · simp only [drainedBy, hp, if_false]
        exact h1
      · simp only [remainBy, hp, if_false]
        rw [h2]
      · simp only [List.length_cons]; omega

theorem reactiveSendLoop_eq (result : LookupResult) (dst : Mac48Address) (fuel : Nat) :
    ∀ (q : List QueuedPacket) (s : HwmpProtocol), q.length < fuel →
    HwmpProtocol.reactiveSendLoop result dst fuel (HwmpProtocol.eraseFirstByDst dst q).1
      { s with m_rqueue := (HwmpProtocol.eraseFirstByDst dst q).2 } = resolvedState s result dst q := by
  induction fuel with
  | zero => intro q s h; omega
  | succ n ih =>
    intro q s hlen
    unfold HwmpProtocol.reactiveSendLoop
    cases hx : (HwmpProtocol.eraseFirstByDst dst q).1.pkt with
    | none =>
      obtain ⟨h1, h2⟩ := eraseFirstByDst_none dst q hx
      simp [resolvedState, h1, h2, bytesOf, resolvedReplies]
    | some x =>
      obtain ⟨h1, h2, h3⟩ := eraseFirstByDst_some dst q x hx
      simp only [HwmpProtocol.DequeueFirstPacketByDst, HwmpProtocol.emit]
      have := ih (HwmpProtocol.eraseFirstByDst dst q).2
        { s with m_stats := { s.m_stats with txUnicast := s.m_stats.txUnicast + 1,
                                             txBytes := s.m_stats.txBytes + x.size },
                 out := s.out ++ [Action.routeReply (HwmpProtocol.eraseFirstByDst dst q).1.reply true
                    { x with tag := some { (x.tag.getD HwmpTag.new) with address := result.retransmitter } }
                    (HwmpProtocol.eraseFirstByDst dst q).1.src (HwmpProtocol.eraseFirstByDst dst q).1.dst
                    (HwmpProtocol.eraseFirstByDst dst q).1.protocol result.ifIndex] } (by omega)
      simp only at this
      rw [this]
      simp [resolvedState, h1, h2, bytesOf, resolvedReplies, hx, Nat.add_assoc, Nat.add_comm 1]

theorem retryPurgeLoop_eq (dst : Mac48Address) (fuel : Nat) :
    ∀ (q : List QueuedPacket) (s : HwmpProtocol), q.length < fuel →
    HwmpProtocol.retryPurgeLoop dst fuel (HwmpProtocol.eraseFirstByDst dst q).1
      { s with m_rqueue := (HwmpProtocol.eraseFirstByDst dst q).2 } = purgedState s dst q := by
  induction fuel with
  | zero => intro q s h; omega
  | succ n ih =>
    intro q s hlen
    unfold HwmpProtocol.retryPurgeLoop
    cases hx : (HwmpProtocol.eraseFirstByDst dst q).1.pkt with
    | none =>
      obtain ⟨h1, h2⟩ := eraseFirstByDst_none dst q hx
      simp [purgedState, h1, h2, failedReplies]
    | some x =>
      obtain ⟨h1, h2, h3⟩ := eraseFirstByDst_some dst q x hx
      simp only [HwmpProtocol.DequeueFirstPacketByDst, HwmpProtocol.emit]
      have := ih (HwmpProtocol.eraseFirstByDst dst q).2
        { s with m_stats := { s.m_stats with totalDropped := s.m_stats.totalDropped + 1 },
                 out := s.out ++ [Action.routeReply (HwmpProtocol.eraseFirstByDst dst q).1.reply false x
                    (HwmpProtocol.eraseFirstByDst dst q).1.src (HwmpProtocol.eraseFirstByDst dst q).1.dst
                    (HwmpProtocol.eraseFirstByDst dst q).1.protocol MAX_METRIC] } (by omega)
      simp only at this
      rw [this]
      simp [purgedState, h1, h2, failedReplies, hx, Nat.add_assoc, Nat.add_comm 1]

/-- The function `ReactivePathResolved` in closed form: it aborts when no valid
reactive path to `dst` exists, and otherwise hands out every frame queued for
`dst`; the fuel of its loop never runs out. -/
theorem ReactivePathResolved_eq (s : HwmpProtocol) (dst : Mac48Address) :
    s.ReactivePathResolved dst =
      if (s.m_rtable.LookupReactive s.now dst).retransmitter = GetBroadcast then
        .error Fault.assertFailed
      else
        .ok (resolvedState (s.emit (discoveryTrace s dst)) (s.m_rtable.LookupReactive s.now dst) dst
          s.m_rqueue) := by
  unfold HwmpProtocol.ReactivePathResolved discoveryTrace
  cases hf : mapFind s.m_preqTimeouts dst with
  | none =>
    simp only [HwmpProtocol.DequeueFirstPacketByDst]
    split
    · rfl
    · have := reactiveSendLoop_eq (s.m_rtable.LookupReactive s.now dst) dst (s.m_rqueue.length + 1)
        s.m_rqueue s (by omega)
      rw [this]
      simp [resolvedState, HwmpProtocol.emit]
  | some ev =>
    simp only [HwmpProtocol.DequeueFirstPacketByDst, HwmpProtocol.emit]
    split
    · rfl
    · have := reactiveSendLoop_eq (s.m_rtable.LookupReactive s.now dst) dst (s.m_rqueue.length + 1)
        s.m_rqueue { s with out := s.out ++ [Action.routeDiscoveryTime (s.now - ev.whenScheduled)] }
        (by omega)
      simp only at this
      rw [this]

theorem drainedBy_eq_filter (dst : Mac48Address) (q : List QueuedPacket) (h : QueueWf q) :
    drainedBy dst q = q.filter (fun p => decide (p.dst = dst)) := by
  induction q with
  | nil => rfl
  | cons p q ih =>
    have hp : p.pkt ≠ none := h p (List.mem_cons_self _ _)
    have hq : QueueWf q := fun x hx => h x (List.mem_cons_of_mem _ hx)
    unfold drainedBy
    by_cases hd : p.dst = dst
    · cases hx : p.pkt with
      | none => exact absurd hx hp
      | some x => simp [hd, ih hq]
    · simp [hd, ih hq]

theorem remainBy_eq_filter (dst : Mac48Address) (q : List QueuedPacket) (h : QueueWf q) :
    remainBy dst q = q.filter (fun p => !decide (p.dst = dst)) := by
  induction q with
  | nil => rfl
  | cons p q ih =>
    have hp : p.pkt ≠ none := h p (List.mem_cons_self _ _)
    have hq : QueueWf q := fun x hx => h x (List.mem_cons_of_mem _ hx)
    unfold remainBy
    by_cases hd : p.dst = dst
    · cases hx : p.pkt with
      | none => exact absurd hx hp
      | some x => simp [hd, ih hq]
    · simp [hd, ih hq]

/-! ## The pending-packet queue -/

/-- C1: the queue bound fails by one.  `QueuePacket` rejects only when the queue
holds more than `m_maxQueueSize` frames.  On a station with `MaxQueueSize = 1`
two frames submitted by the upper layer for an unresolved destination are both
queued (two frames queued, none dropped), and `QueuePacket` on the queue that
already holds `m_maxQueueSize` frames returns true and appends. -/
theorem QueuePacket_exceeds_maxQueueSize :
    (run smallQueueStation
        [Call.requestRoute 0 7 9 upperFrame 2048 0, Call.requestRoute 0 7 9 upperFrame 2048 0]).map
      (fun s => (s.m_rqueue.length, s.m_maxQueueSize, s.m_stats.totalQueued, s.m_stats.totalDropped))
      = Except.ok (2, 1, 2, 0) ∧
    (({ smallQueueStation with m_rqueue := [QueuedPacket.new] }).QueuePacket QueuedPacket.new).1 = true ∧
    (({ smallQueueStation with m_rqueue := [QueuedPacket.new] }).QueuePacket
      QueuedPacket.new).2.m_rqueue.length = 2 :=
  ⟨rfl, rfl, rfl⟩

/-! ## What the sub-steps of the handlers leave alone -/

theorem Frame.frame_refl (s : HwmpProtocol) : Frame s s :=
  ⟨rfl, rfl, rfl, rfl, rfl, rfl, rfl, rfl, rfl, rfl⟩

theorem Frame.frame_trans {s s1 s2 : HwmpProtocol} (h1 : Frame s s1) (h2 : Frame s1 s2) : Frame s s2 :=
  ⟨h2.db.trans h1.db, h2.now.trans h1.now, h2.address.trans h1.address,
    h2.interfaces.trans h1.interfaces, h2.mpIfIndex.trans h1.mpIfIndex, h2.maxTtl.trans h1.maxTtl,
    h2.maxQueueSize.trans h1.maxQueueSize, h2.retries.trans h1.retries,
    h2.traversal.trans h1.traversal, h2.timeouts.trans h1.timeouts⟩

theorem Stable.stable_refl (A : Mac48Address) (s : HwmpProtocol) : Stable A s s := ⟨id, id, rfl⟩

theorem Stable.stable_trans {A : Mac48Address} {s s1 s2 : HwmpProtocol} (h1 : Stable A s s1)
    (h2 : Stable A s1 s2) : Stable A s s2 :=
  ⟨fun h => h2.noRoute (h1.noRoute h), fun h => h2.queue (h1.queue h),
    h2.address.trans h1.address⟩

theorem Stable.after {A : Mac48Address} {s s1 s2 : HwmpProtocol} (h2 : Stable A s1 s2)
    (h1 : Stable A s s1) : Stable A s s2 := h1.stable_trans h2

theorem remainBy_mem (dst : Mac48Address) (q : List QueuedPacket) :
    ∀ p ∈ remainBy dst q, p ∈ q := by
  induction q with
  | nil => intro p hp; simp [remainBy] at hp
  | cons a q ih =>
    intro p hp
    unfold remainBy at hp
    by_cases hd : a.dst = dst
    · simp only [hd, if_true] at hp
      cases hx : a.pkt with
      | none => rw [hx] at hp; exact List.mem_cons_of_mem _ hp
      | some x => rw [hx] at hp; exact List.mem_cons_of_mem _ (ih p hp)
    · simp only [hd, if_false] at hp
      rcases List.mem_cons.mp hp with h | h
      · rw [h]; exact List.mem_cons_self _ _
      · exact List.mem_cons_of_mem _ (ih p h)

theorem emit_frame (s : HwmpProtocol) (as : List Action) : Frame s (s.emit as) :=
  ⟨rfl, rfl, rfl, rfl, rfl, rfl, rfl, rfl, rfl, rfl⟩

theorem emit_stable (A : Mac48Address) (s : HwmpProtocol) (as : List Action) :
    Stable A s (s.emit as) := ⟨id, id, rfl⟩

theorem resolvedState_frame (s : HwmpProtocol) (result : LookupResult) (dst : Mac48Address)
    (q : List QueuedPacket) : Frame s (resolvedState s result dst q) :=
  ⟨rfl, rfl, rfl, rfl, rfl, rfl, rfl, rfl, rfl, rfl⟩

theorem resolvedState_stable (A : Mac48Address) (s : HwmpProtocol) (result : LookupResult)
    (dst : Mac48Address) : Stable A s (resolvedState s result dst s.m_rqueue) :=
  ⟨id, fun h p hp => h p (remainBy_mem dst s.m_rqueue p hp), rfl⟩

theorem ReactivePathResolved_frame {s s1 : HwmpProtocol} {dst : Mac48Address}
    (h : s.ReactivePathResolved dst = .ok s1) : Frame s s1 := by
  rw [ReactivePathResolved_eq] at h
  split at h
  · cases h
  · cases h
    exact (emit_frame s _).frame_trans (resolvedState_frame _ _ _ _)

theorem ReactivePathResolved_stable (A : Mac48Address) {s s1 : HwmpProtocol} {dst : Mac48Address}
    (h : s.ReactivePathResolved dst = .ok s1) : Stable A s s1 := by
  rw [ReactivePathResolved_eq] at h
  split at h
  · cases h
  · cases h
    exact (emit_stable A s _).stable_trans (resolvedState_stable A (s.emit _) _ dst)

theorem addReactive_frame (s : HwmpProtocol) (dst from_ : Mac48Address)
    (interface metric lifetime seqnum : Nat) :
    Frame s (s.addReactive dst from_ interface metric lifetime seqnum) :=
  ⟨rfl, rfl, rfl, rfl, rfl, rfl, rfl, rfl, rfl, rfl⟩

theorem addReactive_stable {A : Mac48Address} (s : HwmpProtocol) {dst : Mac48Address}
    (from_ : Mac48Address) (interface metric lifetime seqnum : Nat) (hA : dst ≠ A) :
    Stable A s (s.addReactive dst from_ interface metric lifetime seqnum) := by
  refine ⟨?_, id, rfl⟩
  intro hn
  simp only [HwmpProtocol.addReactive, HwmpProtocol.emit, HwmpRtable.AddReactivePath]
  rw [mapFind_mapInsert, if_neg hA]
  exact hn

theorem installReactive_frame {s s1 : HwmpProtocol} {dst from_ : Mac48Address}
    {interface metric lifetime seqnum : Nat}
    (h : s.installReactive dst from_ interface metric lifetime seqnum = .ok s1) : Frame s s1 :=
  (addReactive_frame s dst from_ interface metric lifetime seqnum).frame_trans
    (ReactivePathResolved_frame h)

theorem installReactive_stable {A : Mac48Address} {s s1 : HwmpProtocol} {dst from_ : Mac48Address}
    {interface metric lifetime seqnum : Nat} (hA : dst ≠ A)
    (h : s.installReactive dst from_ interface metric lifetime seqnum = .ok s1) : Stable A s s1 :=
  (addReactive_stable s from_ interface metric lifetime seqnum hA).stable_trans
    (ReactivePathResolved_stable A h)

theorem SendPrep_frame {s s1 : HwmpProtocol} {src dst retransmitter : Mac48Address}
    {initMetric originatorDsn destinationSN lifetime interface : Nat}
    (h : s.SendPrep src dst retransmitter initMetric originatorDsn destinationSN lifetime interface
      = .ok s1) : Frame s s1 := by
  unfold HwmpProtocol.SendPrep at h
  simp only at h
  split at h
  · cases h
  · cases h
    exact ⟨rfl, rfl, rfl, rfl, rfl, rfl, rfl, rfl, rfl, rfl⟩

theorem SendPrep_stable (A : Mac48Address) {s s1 : HwmpProtocol} {src dst retransmitter : Mac48Address}
    {initMetric originatorDsn destinationSN lifetime interface : Nat}
    (h : s.SendPrep src dst retransmitter initMetric originatorDsn destinationSN lifetime interface
      = .ok s1) : Stable A s s1 := by
  unfold HwmpProtocol.SendPrep at h
  simp only at h
  split at h
  · cases h
  · cases h
    exact ⟨id, id, rfl⟩

theorem AddPrecursor_noRoute (t : HwmpRtable) (now : Time) (dst : Mac48Address) (interface : Nat)
    (address : Mac48Address) (lifetime : Time) (A : Mac48Address)
    (h : mapFind t.m_routes A = none) :
    mapFind (t.AddPrecursor now dst interface address lifetime).m_routes A = none := by
  unfold HwmpRtable.AddPrecursor
  cases hd : mapFind t.m_routes dst with
  | none => exact h
  | some r =>
    simp only
    rw [mapFind_mapInsert]
    by_cases hA : dst = A
    · rw [hA, h] at hd; cases hd
    · rw [if_neg hA]; exact h

theorem addPrecursor_frame (s : HwmpProtocol) (dst : Mac48Address) (interface : Nat)
    (address : Mac48Address) (lifetime : Time) :
    Frame s (s.addPrecursor dst interface address lifetime) :=
  ⟨rfl, rfl, rfl, rfl, rfl, rfl, rfl, rfl, rfl, rfl⟩

theorem addPrecursor_stable (A : Mac48Address) (s : HwmpProtocol) (dst : Mac48Address)
    (interface : Nat) (address : Mac48Address) (lifetime : Time) :
    Stable A s (s.addPrecursor dst interface address lifetime) :=
  ⟨fun h => AddPrecursor_noRoute _ _ _ _ _ _ A h, id, rfl⟩

theorem addProactive_frame (s : HwmpProtocol) (preq : IePreq) (from_ : Mac48Address)
    (interface : Nat) : Frame s (s.addProactive preq from_ interface) :=
  ⟨rfl, rfl, rfl, rfl, rfl, rfl, rfl, rfl, rfl, rfl⟩

theorem addProactive_stable (A : Mac48Address) (s : HwmpProtocol) (preq : IePreq)
    (from_ : Mac48Address) (interface : Nat) : Stable A s (s.addProactive preq from_ interface) :=
  ⟨id, id, rfl⟩

theorem proactiveSendLoop_keeps (A : Mac48Address) (result : LookupResult) (fuel : Nat) :
    ∀ (p : QueuedPacket) (s s1 : HwmpProtocol),
      HwmpProtocol.proactiveSendLoop result fuel p s = .ok s1 → Frame s s1 ∧ Stable A s s1 := by
  induction fuel with
  | zero =>
    intro p s s1 h
    simp only [HwmpProtocol.proactiveSendLoop] at h
    cases h
    exact ⟨Frame.frame_refl s, Stable.stable_refl A s⟩
  | succ n ih =>
    intro p s s1 h
    unfold HwmpProtocol.proactiveSendLoop at h
    split at h
    · cases h
      exact ⟨Frame.frame_refl s, Stable.stable_refl A s⟩
    · split at h
      · cases h
      · obtain ⟨hf, hs⟩ := ih _ _ _ h
        refine ⟨Frame.frame_trans ?_ hf, Stable.stable_trans ?_ hs⟩
        · simp only [HwmpProtocol.DequeueFirstPacket, HwmpProtocol.emit]
          split <;> exact ⟨rfl, rfl, rfl, rfl, rfl, rfl, rfl, rfl, rfl, rfl⟩
        · simp only [HwmpProtocol.DequeueFirstPacket, HwmpProtocol.emit]
          split
          · exact ⟨id, id, rfl⟩
          · rename_i hq
            refine ⟨id, ?_, rfl⟩
            intro hw x hx
            exact hw x (by rw [hq]; exact List.mem_cons_of_mem _ hx)

theorem ProactivePathResolved_keeps (A : Mac48Address) {s s1 : HwmpProtocol}
    (h : s.ProactivePathResolved = .ok s1) : Frame s s1 ∧ Stable A s s1 := by
  unfold HwmpProtocol.ProactivePathResolved at h
  simp only at h
  split at h
  · cases h
  · obtain ⟨hf, hs⟩ := proactiveSendLoop_keeps A _ _ _ _ _ h
    refine ⟨Frame.frame_trans ?_ hf, Stable.stable_trans ?_ hs⟩
    · simp only [HwmpProtocol.DequeueFirstPacket]
      split <;> exact ⟨rfl, rfl, rfl, rfl, rfl, rfl, rfl, rfl, rfl, rfl⟩
    · simp only [HwmpProtocol.DequeueFirstPacket]
      split
      · exact ⟨id, id, rfl⟩
      · rename_i hq
        refine ⟨id, ?_, rfl⟩
        intro hw x hx
        exact hw x (by rw [hq]; exact List.mem_cons_of_mem _ hx)

theorem GetNextHwmpSeqno_frame (s : HwmpProtocol) : Frame s s.GetNextHwmpSeqno.2 :=
  ⟨rfl, rfl, rfl, rfl, rfl, rfl, rfl, rfl, rfl, rfl⟩

theorem GetNextHwmpSeqno_stable (A : Mac48Address) (s : HwmpProtocol) :
    Stable A s s.GetNextHwmpSeqno.2 := ⟨id, id, rfl⟩

theorem preqDestLoop_keeps (A : Mac48Address) (preq : IePreq) (from_ : Mac48Address)
    (interface : Nat) (dests : List (Nat × DestinationAddressUnit)) :
    ∀ (s : HwmpProtocol) (live : List (Nat × DestinationAddressUnit))
      (r : HwmpProtocol × List (Nat × DestinationAddressUnit)),
      HwmpProtocol.preqDestLoop preq from_ interface dests s live = .ok r →
      Frame s r.1 ∧ Stable A s r.1 := by
  induction dests with
  | nil =>
    intro s live r h
    simp only [HwmpProtocol.preqDestLoop] at h
    cases h
    exact ⟨Frame.frame_refl s, Stable.stable_refl A s⟩
  | cons d rest ih =>
    intro s live r h
    obtain ⟨idx, u⟩ := d
    unfold HwmpProtocol.preqDestLoop at h
    split at h
    · -- proactive PREQ
      split at h
      · cases h
      · split at h
        · cases h
        · rw [bind_ok_iff] at h
          obtain ⟨s1, h1, h⟩ := h
          rw [bind_ok_iff] at h
          obtain ⟨s2, h2, h⟩ := h
          cases h
          have k1 : Frame s s1 ∧ Stable A s s1 := by
            split at h1
            · obtain ⟨hf, hs⟩ := ProactivePathResolved_keeps A h1
              exact ⟨(addProactive_frame s preq from_ interface).frame_trans hf,
                (addProactive_stable A s preq from_ interface).stable_trans hs⟩
            · cases h1
              exact ⟨Frame.frame_refl s, Stable.stable_refl A s⟩
          have k2 : Frame s1 s2 ∧ Stable A s1 s2 := by
            split at h2
            · exact ⟨(GetNextHwmpSeqno_frame s1).frame_trans (SendPrep_frame h2),
                (GetNextHwmpSeqno_stable A s1).stable_trans (SendPrep_stable A h2)⟩
            · cases h2
              exact ⟨Frame.frame_refl s1, Stable.stable_refl A s1⟩
          exact ⟨k1.1.frame_trans k2.1, k1.2.stable_trans k2.2⟩
    · split at h
      · -- destination is this station
        rw [bind_ok_iff] at h
        obtain ⟨s1, h1, h⟩ := h
        split at h
        · cases h
        · obtain ⟨hf, hs⟩ := ih _ _ _ h
          exact ⟨((GetNextHwmpSeqno_frame s).frame_trans (SendPrep_frame h1)).frame_trans hf,
            ((GetNextHwmpSeqno_stable A s).stable_trans (SendPrep_stable A h1)).stable_trans hs⟩
      · simp only at h
        split at h
        · split at h
          · rw [bind_ok_iff] at h
            obtain ⟨s1, h1, h⟩ := h
            split at h
            · obtain ⟨hf, hs⟩ := ih _ _ _ h
              exact ⟨((SendPrep_frame h1).frame_trans (addPrecursor_frame s1 _ _ _ _)).frame_trans hf,
                ((SendPrep_stable A h1).stable_trans (addPrecursor_stable A s1 _ _ _ _)).stable_trans hs⟩
            · obtain ⟨hf, hs⟩ := ih _ _ _ h
              exact ⟨((SendPrep_frame h1).frame_trans (addPrecursor_frame s1 _ _ _ _)).frame_trans hf,
                ((SendPrep_stable A h1).stable_trans (addPrecursor_stable A s1 _ _ _ _)).stable_trans hs⟩
          · exact ih _ _ _ h
        · exact ih _ _ _ h

theorem forwardPreqLoop_keeps (A : Mac48Address) (preq : IePreq)
    (ifs : List (Nat × HwmpProtocolMac)) :
    ∀ s : HwmpProtocol, Frame s (HwmpProtocol.forwardPreqLoop preq ifs s) ∧
      Stable A s (HwmpProtocol.forwardPreqLoop preq ifs s) := by
  induction ifs with
  | nil => intro s; exact ⟨Frame.frame_refl s, Stable.stable_refl A s⟩
  | cons i rest ih =>
    intro s
    unfold HwmpProtocol.forwardPreqLoop
    obtain ⟨hf, hs⟩ := ih (s.GetForwardingDelay.2.emit
      [Action.scheduleSendPreq s.GetForwardingDelay.1 i.1 preq])
    have hf0 : Frame s (s.GetForwardingDelay.2.emit
        [Action.scheduleSendPreq s.GetForwardingDelay.1 i.1 preq]) :=
      ⟨rfl, rfl, rfl, rfl, rfl, rfl, rfl, rfl, rfl, rfl⟩
    have hs0 : Stable A s (s.GetForwardingDelay.2.emit
        [Action.scheduleSendPreq s.GetForwardingDelay.1 i.1 preq]) := ⟨id, id, rfl⟩
    exact ⟨hf0.frame_trans hf, hs0.stable_trans hs⟩

/-! ## The handlers of received elements, step by step -/

theorem ReceivePreq_dropped (s : HwmpProtocol) (preq0 : IePreq) (from_ : Mac48Address)
    (interface : Nat) (fromMp : Mac48Address) (metric : Nat)
    (h : HwmpProtocol.preqAccept (mapFind s.m_hwmpSeqnoMetricDatabase preq0.originatorAddress)
      (preq0.IncrementMetric metric) = none) :
    s.ReceivePreq preq0 from_ interface fromMp metric = .ok s := by
  unfold HwmpProtocol.ReceivePreq
  simp only [IePreq.IncrementMetric] at h ⊢
  rw [h]

/-- The stages of `ReceivePreq` on an accepted PREQ: the path to the originator,
the path to the transmitting mesh point, the loop over the destinations, the
forward. -/
theorem ReceivePreq_inv {s s1 : HwmpProtocol} {preq0 : IePreq} {from_ : Mac48Address}
    {interface : Nat} {fromMp : Mac48Address} {metric : Nat} {freshInfo : Bool}
    (hacc : HwmpProtocol.preqAccept (mapFind s.m_hwmpSeqnoMetricDatabase preq0.originatorAddress)
      (preq0.IncrementMetric metric) = some freshInfo)
    (h : s.ReceivePreq preq0 from_ interface fromMp metric = .ok s1) :
    ∃ s2 s3 r,
      (if freshInfo = true ∨
          (s.m_rtable.LookupReactive s.now preq0.originatorAddress).retransmitter = GetBroadcast ∨
          (s.m_rtable.LookupReactive s.now preq0.originatorAddress).metric >
            u32 (preq0.metric + metric) then
        (s.setSeqnoMetric preq0.originatorAddress preq0.originatorSeqNumber
          (u32 (preq0.metric + metric))).installReactive
          preq0.originatorAddress from_ interface (u32 (preq0.metric + metric)) preq0.lifetime
          preq0.originatorSeqNumber
       else .ok (s.setSeqnoMetric preq0.originatorAddress preq0.originatorSeqNumber
          (u32 (preq0.metric + metric)))) = .ok s2 ∧
      (if (s2.m_rtable.LookupReactive s2.now fromMp).retransmitter = GetBroadcast ∨
          (s2.m_rtable.LookupReactive s2.now fromMp).metric > metric then
        s2.installReactive fromMp from_ interface metric preq0.lifetime preq0.originatorSeqNumber
       else .ok s2) = .ok s3 ∧
      HwmpProtocol.preqDestLoop (preq0.IncrementMetric metric) from_ interface
        (HwmpProtocol.tagFrom 0 preq0.destinations) s3
        (HwmpProtocol.tagFrom 0 preq0.destinations) = .ok r ∧
      s1 = (if r.2.length = 0 then r.1
            else HwmpProtocol.forwardPreqLoop (IePreq.mk preq0.originatorAddress
              preq0.originatorSeqNumber preq0.preqId preq0.hopcount preq0.ttl preq0.lifetime
              (u32 (preq0.metric + metric)) preq0.needNotPrep (r.2.map Prod.snd))
              r.1.m_interfaces r.1) := by
  unfold HwmpProtocol.ReceivePreq at h
  simp only [IePreq.IncrementMetric] at h hacc
  simp only [hacc] at h
  rw [bind_ok_iff] at h
  obtain ⟨s2, h2, h⟩ := h
  rw [bind_ok_iff] at h
  obtain ⟨s3, h3, h⟩ := h
  rw [bind_ok_iff] at h
  obtain ⟨r, hr, h⟩ := h
  refine ⟨s2, s3, r, ?_, h3, hr, ?_⟩
  · rw [← h2]; simp only [HwmpProtocol.setSeqnoMetric]
  · split at h
    · cases h
      rw [if_pos ‹_›]
    · cases h
      rw [if_neg ‹_›]

theorem ReceivePrep_dropped (s : HwmpProtocol) (prep0 : IePrep) (from_ : Mac48Address)
    (interface : Nat) (fromMp : Mac48Address) (metric : Nat)
    (h : HwmpProtocol.prepAccept (mapFind s.m_hwmpSeqnoMetricDatabase prep0.originatorAddress)
      prep0.destinationSeqNumber = none) :
    s.ReceivePrep prep0 from_ interface fromMp metric = .ok s := by
  unfold HwmpProtocol.ReceivePrep
  simp only [IePrep.IncrementMetric]
  rw [h]

/-- The stages of `ReceivePrep` on an accepted PREP: the path to the originator
with its precursors, the path to the transmitting mesh point, the forward. -/
theorem ReceivePrep_inv {s s1 : HwmpProtocol} {prep0 : IePrep} {from_ : Mac48Address}
    {interface : Nat} {fromMp : Mac48Address} {metric : Nat} {freshInfo : Bool}
    (hacc : HwmpProtocol.prepAccept (mapFind s.m_hwmpSeqnoMetricDatabase prep0.originatorAddress)
      prep0.destinationSeqNumber = some freshInfo)
    (h : s.ReceivePrep prep0 from_ interface fromMp metric = .ok s1) :
    ∃ s2 s3,
      (if freshInfo = true ∨
          (s.m_rtable.LookupReactive s.now prep0.originatorAddress).retransmitter = GetBroadcast ∨
          (s.m_rtable.LookupReactive s.now prep0.originatorAddress).metric >
            u32 (prep0.metric + metric) then
        ((s.setSeqnoMetric prep0.originatorAddress prep0.destinationSeqNumber
          (u32 (prep0.metric + metric))).prepInstall (prep0.IncrementMetric metric) from_ interface
          (s.m_rtable.LookupReactive s.now prep0.destinationAddress)).ReactivePathResolved
            prep0.originatorAddress
       else .ok (s.setSeqnoMetric prep0.originatorAddress prep0.destinationSeqNumber
          (u32 (prep0.metric + metric)))) = .ok s2 ∧
      (if (s2.m_rtable.LookupReactive s2.now fromMp).retransmitter = GetBroadcast ∨
          (s2.m_rtable.LookupReactive s2.now fromMp).metric > metric then
        s2.installReactive fromMp from_ interface metric prep0.lifetime prep0.destinationSeqNumber
       else .ok s2) = .ok s3 ∧
      (if prep0.destinationAddress = s3.m_address then Except.ok s3
       else if (s.m_rtable.LookupReactive s.now prep0.destinationAddress).retransmitter
          = GetBroadcast then Except.ok s3
       else
        match mapFind s3.m_interfaces (s.m_rtable.LookupReactive s.now prep0.destinationAddress).ifIndex with
        | none => Except.error Fault.assertFailed
        | some _ =>
          Except.ok (s3.GetForwardingDelay.2.emit
            [Action.scheduleSendPrep s3.GetForwardingDelay.1
              (s.m_rtable.LookupReactive s.now prep0.destinationAddress).ifIndex
              (prep0.IncrementMetric metric)
              (s.m_rtable.LookupReactive s.now prep0.destinationAddress).retransmitter])) = .ok s1 := by
  unfold HwmpProtocol.ReceivePrep at h
  simp only [IePrep.IncrementMetric] at h hacc
  simp only [hacc] at h
  rw [bind_ok_iff] at h
  obtain ⟨s2, h2, h⟩ := h
  rw [bind_ok_iff] at h
  obtain ⟨s3, h3, h⟩ := h
  refine ⟨s2, s3, ?_, h3, ?_⟩
  · rw [← h2]; simp only [HwmpProtocol.setSeqnoMetric, IePrep.IncrementMetric]
  · rw [← h]; simp only [HwmpProtocol.setSeqnoMetric, IePrep.IncrementMetric]

theorem ReceivePreq_accepted_frame {s s1 : HwmpProtocol} {preq0 : IePreq} {from_ : Mac48Address}
    {interface : Nat} {fromMp : Mac48Address} {metric : Nat} {freshInfo : Bool}
    (hacc : HwmpProtocol.preqAccept (mapFind s.m_hwmpSeqnoMetricDatabase preq0.originatorAddress)
      (preq0.IncrementMetric metric) = some freshInfo)
    (h : s.ReceivePreq preq0 from_ interface fromMp metric = .ok s1) :
    Frame (s.setSeqnoMetric preq0.originatorAddress preq0.originatorSeqNumber
      (u32 (preq0.metric + metric))) s1 := by
  obtain ⟨s2, s3, r, h2, h3, hr, h1⟩ := ReceivePreq_inv hacc h
  have k2 : Frame (s.setSeqnoMetric preq0.originatorAddress preq0.originatorSeqNumber
      (u32 (preq0.metric + metric))) s2 := by
    split at h2
    · exact installReactive_frame h2
    · cases h2; exact Frame.frame_refl _
  have k3 : Frame s2 s3 := by
    split at h3
    · exact installReactive_frame h3
    · cases h3; exact Frame.frame_refl _
  have k4 : Frame s3 r.1 := (preqDestLoop_keeps 0 _ _ _ _ _ _ _ hr).1
  have k5 : Frame r.1 s1 := by
    rw [h1]
    split
    · exact Frame.frame_refl _
    · exact (forwardPreqLoop_keeps 0 _ _ _).1
  exact ((k2.frame_trans k3).frame_trans k4).frame_trans k5

theorem ReceivePreq_accepted_stable {A : Mac48Address} {s s1 : HwmpProtocol} {preq0 : IePreq}
    {from_ : Mac48Address} {interface : Nat} {fromMp : Mac48Address} {metric : Nat}
    {freshInfo : Bool} (hO : preq0.originatorAddress ≠ A) (hM : fromMp ≠ A)
    (hacc : HwmpProtocol.preqAccept (mapFind s.m_hwmpSeqnoMetricDatabase preq0.originatorAddress)
      (preq0.IncrementMetric metric) = some freshInfo)
    (h : s.ReceivePreq preq0 from_ interface fromMp metric = .ok s1) : Stable A s s1 := by
  obtain ⟨s2, s3, r, h2, h3, hr, h1⟩ := ReceivePreq_inv hacc h
  have k1 : Stable A s (s.setSeqnoMetric preq0.originatorAddress preq0.originatorSeqNumber
      (u32 (preq0.metric + metric))) := ⟨id, id, rfl⟩
  have k2 : Stable A (s.setSeqnoMetric preq0.originatorAddress preq0.originatorSeqNumber
      (u32 (preq0.metric + metric))) s2 := by
    split at h2
    · exact installReactive_stable hO h2
    · cases h2; exact Stable.stable_refl _ _
  have k3 : Stable A s2 s3 := by
    split at h3
    · exact installReactive_stable hM h3
    · cases h3; exact Stable.stable_refl _ _
  have k4 : Stable A s3 r.1 := (preqDestLoop_keeps A _ _ _ _ _ _ _ hr).2
  have k5 : Stable A r.1 s1 := by
    rw [h1]
    split
    · exact Stable.stable_refl _ _
    · exact (forwardPreqLoop_keeps A _ _ _).2
  exact (((k1.stable_trans k2).stable_trans k3).stable_trans k4).stable_trans k5

theorem prepInstall_frame (s : HwmpProtocol) (prep : IePrep) (from_ : Mac48Address)
    (interface : Nat) (result : LookupResult) :
    Frame s (s.prepInstall prep from_ interface result) := by
  unfold HwmpProtocol.prepInstall
  simp only
  split <;> exact ⟨rfl, rfl, rfl, rfl, rfl, rfl, rfl, rfl, rfl, rfl⟩

theorem prepInstall_stable {A : Mac48Address} (s : HwmpProtocol) (prep : IePrep)
    (from_ : Mac48Address) (interface : Nat) (result : LookupResult)
    (hO : prep.originatorAddress ≠ A) : Stable A s (s.prepInstall prep from_ interface result) := by
  unfold HwmpProtocol.prepInstall
  simp only
  have k1 := addReactive_stable s from_ interface prep.metric prep.lifetime
    prep.destinationSeqNumber hO
  have k2 := addPrecursor_stable A
    (s.addReactive prep.originatorAddress from_ interface prep.metric prep.lifetime
      prep.destinationSeqNumber) prep.destinationAddress interface from_
    (HwmpProtocol.lifetimeTime prep.lifetime)
  split
  · exact (k1.stable_trans k2).stable_trans (addPrecursor_stable A _ _ _ _ _)
  · exact k1.stable_trans k2

theorem ReceivePrep_accepted_frame {s s1 : HwmpProtocol} {prep0 : IePrep} {from_ : Mac48Address}
    {interface : Nat} {fromMp : Mac48Address} {metric : Nat} {freshInfo : Bool}
    (hacc : HwmpProtocol.prepAccept (mapFind s.m_hwmpSeqnoMetricDatabase prep0.originatorAddress)
      prep0.destinationSeqNumber = some freshInfo)
    (h : s.ReceivePrep prep0 from_ interface fromMp metric = .ok s1) :
    Frame (s.setSeqnoMetric prep0.originatorAddress prep0.destinationSeqNumber
      (u32 (prep0.metric + metric))) s1 := by
  obtain ⟨s2, s3, h2, h3, h1⟩ := ReceivePrep_inv hacc h
  have k2 : Frame (s.setSeqnoMetric prep0.originatorAddress prep0.destinationSeqNumber
      (u32 (prep0.metric + metric))) s2 := by
    split at h2
    · exact (prepInstall_frame _ _ _ _ _).frame_trans (ReactivePathResolved_frame h2)
    · cases h2; exact Frame.frame_refl _
  have k3 : Frame s2 s3 := by
    split at h3
    · exact installReactive_frame h3
    · cases h3; exact Frame.frame_refl _
  have k4 : Frame s3 s1 := by
    split at h1
    · cases h1; exact Frame.frame_refl _
    · split at h1
      · cases h1; exact Frame.frame_refl _
      · split at h1
        · cases h1
        · cases h1; exact ⟨rfl, rfl, rfl, rfl, rfl, rfl, rfl, rfl, rfl, rfl⟩
  exact (k2.frame_trans k3).frame_trans k4

theorem ReceivePrep_accepted_stable {A : Mac48Address} {s s1 : HwmpProtocol} {prep0 : IePrep}
    {from_ : Mac48Address} {interface : Nat} {fromMp : Mac48Address} {metric : Nat}
    {freshInfo : Bool} (hO : prep0.originatorAddress ≠ A) (hM : fromMp ≠ A)
    (hacc : HwmpProtocol.prepAccept (mapFind s.m_hwmpSeqnoMetricDatabase prep0.originatorAddress)
      prep0.destinationSeqNumber = some freshInfo)
    (h : s.ReceivePrep prep0 from_ interface fromMp metric = .ok s1) : Stable A s s1 := by
  obtain ⟨s2, s3, h2, h3, h1⟩ := ReceivePrep_inv hacc h
  have k1 : Stable A s (s.setSeqnoMetric prep0.originatorAddress prep0.destinationSeqNumber
      (u32 (prep0.metric + metric))) := ⟨id, id, rfl⟩
  have k2 : Stable A (s.setSeqnoMetric prep0.originatorAddress prep0.destinationSeqNumber
      (u32 (prep0.metric + metric))) s2 := by
    split at h2
    · exact (prepInstall_stable _ (prep0.IncrementMetric metric) _ _ _ hO).stable_trans
        (ReactivePathResolved_stable A h2)
    · cases h2; exact Stable.stable_refl _ _
  have k3 : Stable A s2 s3 := by
    split at h3
    · exact installReactive_stable hM h3
    · cases h3; exact Stable.stable_refl _ _
  have k4 : Stable A s3 s1 := by
    split at h1
    · cases h1; exact Stable.stable_refl _ _
    · split at h1
      · cases h1; exact Stable.stable_refl _ _
      · split at h1
        · cases h1
        · cases h1; exact ⟨id, id, rfl⟩
  exact ((k1.stable_trans k2).stable_trans k3).stable_trans k4

/-! ## Sequence numbers of seen originators -/

theorem sdiff_flip (a b : Nat) (h : sdiff a b ≤ 0) : 0 ≤ sdiff b a ∨ sub32 b a = 2147483648 := by
  unfold sdiff asInt32 sub32 u32 at *
  split at h <;> split <;> omega

theorem sdiff_self (a : Nat) : sdiff a a = 0 := by
  unfold sdiff asInt32 sub32 u32
  split <;> omega

theorem preqAccept_some_sdiff {e : Nat × Nat} {preq : IePreq} {f : Bool}
    (h : HwmpProtocol.preqAccept (some e) preq = some f) : sdiff e.1 preq.originatorSeqNumber ≤ 0 := by
  unfold HwmpProtocol.preqAccept at h
  simp only at h
  split at h
  · cases h
  · omega

theorem prepAccept_some_sdiff {e : Nat × Nat} {sequence : Nat} {f : Bool}
    (h : HwmpProtocol.prepAccept (some e) sequence = some f) : sdiff e.1 sequence ≤ 0 := by
  unfold HwmpProtocol.prepAccept at h
  simp only at h
  split at h
  · cases h
  · omega

theorem ReceivePreq_db {s s1 : HwmpProtocol} {preq0 : IePreq} {from_ : Mac48Address}
    {interface : Nat} {fromMp : Mac48Address} {metric : Nat} {O a ma b mb : Nat}
    (h : s.ReceivePreq preq0 from_ interface fromMp metric = .ok s1)
    (ha : mapFind s.m_hwmpSeqnoMetricDatabase O = some (a, ma))
    (hb : mapFind s1.m_hwmpSeqnoMetricDatabase O = some (b, mb)) : sdiff a b ≤ 0 := by
  cases hacc : HwmpProtocol.preqAccept (mapFind s.m_hwmpSeqnoMetricDatabase preq0.originatorAddress)
      (preq0.IncrementMetric metric) with
  | none =>
    rw [ReceivePreq_dropped s preq0 from_ interface fromMp metric hacc] at h
    cases h
    rw [ha] at hb
    cases hb
    rw [sdiff_self]
  | some f =>
    have hdb := (ReceivePreq_accepted_frame hacc h).db
    rw [hdb] at hb
    simp only [HwmpProtocol.setSeqnoMetric] at hb
    rw [mapFind_mapInsert] at hb
    by_cases hO : preq0.originatorAddress = O
    · rw [if_pos hO] at hb
      cases hb
      rw [hO, ha] at hacc
      exact preqAccept_some_sdiff hacc
    · rw [if_neg hO, ha] at hb
      cases hb
      rw [sdiff_self]

theorem ReceivePrep_db {s s1 : HwmpProtocol} {prep0 : IePrep} {from_ : Mac48Address}
    {interface : Nat} {fromMp : Mac48Address} {metric : Nat} {O a ma b mb : Nat}
    (h : s.ReceivePrep prep0 from_ interface fromMp metric = .ok s1)
    (ha : mapFind s.m_hwmpSeqnoMetricDatabase O = some (a, ma))
    (hb : mapFind s1.m_hwmpSeqnoMetricDatabase O = some (b, mb)) : sdiff a b ≤ 0 := by
  cases hacc : HwmpProtocol.prepAccept (mapFind s.m_hwmpSeqnoMetricDatabase prep0.originatorAddress)
      prep0.destinationSeqNumber with
  | none =>
    rw [ReceivePrep_dropped s prep0 from_ interface fromMp metric hacc] at h
    cases h
    rw [ha] at hb
    cases hb
    rw [sdiff_self]
  | some f =>
    have hdb := (ReceivePrep_accepted_frame hacc h).db
    rw [hdb] at hb
    simp only [HwmpProtocol.setSeqnoMetric] at hb
    rw [mapFind_mapInsert] at hb
    by_cases hO : prep0.originatorAddress = O
    · rw [if_pos hO] at hb
      cases hb
      rw [hO, ha] at hacc
      exact prepAccept_some_sdiff hacc
    · rw [if_neg hO, ha] at hb
      cases hb
      rw [sdiff_self]

/-- C2, as the code has it: whenever a `ReceivePreq` or a `ReceivePrep` call
changes the SeenOriginator entry of an originator `O` from sequence number `a`
to sequence number `b`, the old number is not strictly fresher than the new one,
`(int32)(a - b) <= 0`; hence `(int32)(b - a) >= 0` unless `b - a` is exactly
`2^31` modulo `2^32`. -/
theorem seenOriginator_sn_not_fresher_before (s s1 : HwmpProtocol) (element : IePreq ⊕ IePrep)
    (from_ : Mac48Address) (interface : Nat) (fromMp : Mac48Address) (metric : Nat)
    (O a ma b mb : Nat)
    (h : (match element with
          | .inl preq => s.ReceivePreq preq from_ interface fromMp metric
          | .inr prep => s.ReceivePrep prep from_ interface fromMp metric) = .ok s1)
    (ha : mapFind s.m_hwmpSeqnoMetricDatabase O = some (a, ma))
    (hb : mapFind s1.m_hwmpSeqnoMetricDatabase O = some (b, mb)) :
    sdiff a b ≤ 0 ∧ (0 ≤ sdiff b a ∨ sub32 b a = 2147483648) := by
  have key : sdiff a b ≤ 0 := by
    cases element with
    | inl preq => exact ReceivePreq_db h ha hb
    | inr prep => exact ReceivePrep_db h ha hb
  exact ⟨key, sdiff_flip a b key⟩

/-- Witness for C2: a station that has seen originator 5 at sequence number 5
receives its PREQ with sequence number 9. -/
theorem seenOriginator_sn_not_fresher_before_witness :
    sdiff 5 9 ≤ 0 ∧ (0 ≤ sdiff 9 5 ∨ sub32 9 5 = 2147483648) :=
  seenOriginator_sn_not_fresher_before
    (after station7 [Call.receivePreq (preqFrom5 5) 3 1 3 10])
    (after station7 [Call.receivePreq (preqFrom5 5) 3 1 3 10, Call.receivePreq (preqFrom5 9) 3 1 3 10])
    (.inl (preqFrom5 9)) 3 1 3 10 5 5 10 9 10 rfl rfl rfl

/-- C2, counterexample: a station that has seen originator 5 at sequence number
0 accepts its PREQ with sequence number `2^31`; the stored number changes from 0
to `2^31`, and `(int32)(2^31 - 0)` is negative. -/
theorem seenOriginator_sn_steps_back :
    mapFind (after station7 [Call.receivePreq (preqFrom5 0) 3 1 3 10]).m_hwmpSeqnoMetricDatabase 5
      = some (0, 10) ∧
    (after station7 [Call.receivePreq (preqFrom5 0) 3 1 3 10]).ReceivePreq (preqFrom5 2147483648)
      3 1 3 10 = .ok (after station7 [Call.receivePreq (preqFrom5 0) 3 1 3 10,
        Call.receivePreq (preqFrom5 2147483648) 3 1 3 10]) ∧
    mapFind (after station7 [Call.receivePreq (preqFrom5 0) 3 1 3 10,
        Call.receivePreq (preqFrom5 2147483648) 3 1 3 10]).m_hwmpSeqnoMetricDatabase 5
      = some (2147483648, 10) ∧
    sdiff 2147483648 0 < 0 :=
  ⟨rfl, rfl, rfl, by decide⟩

/-! ## Every reaction keeps the table free of a path to an unnamed address -/

theorem DeleteReactivePath_noRoute (t : HwmpRtable) (dst A : Mac48Address)
    (h : mapFind t.m_routes A = none) : mapFind (t.DeleteReactivePath dst).m_routes A = none := by
  unfold HwmpRtable.DeleteReactivePath
  simp only
  rw [mapFind_mapErase]
  split
  · rfl
  · exact h

theorem DeleteProactivePath_routes (t : HwmpRtable) (dst : Mac48Address) :
    (t.DeleteProactivePath dst).m_routes = t.m_routes := by
  unfold HwmpRtable.DeleteProactivePath
  split
  · rfl
  · split <;> rfl

theorem perrCollect_stable (A : Mac48Address) (l : List FailedDestination) :
    ∀ (s : HwmpProtocol) (retval : List (Nat × Mac48Address)),
      Stable A s (HwmpProtocol.perrCollect l s retval).2 := by
  induction l with
  | nil => intro s retval; exact Stable.stable_refl A s
  | cons d rest ih =>
    intro s retval
    unfold HwmpProtocol.perrCollect
    refine Stable.stable_trans ?_ (ih _ _)
    refine ⟨?_, id, rfl⟩
    intro hn
    simp only [HwmpProtocol.emit]
    rw [DeleteProactivePath_routes]
    exact DeleteReactivePath_noRoute _ _ _ hn

theorem makePathErrorLoop_stable (A : Mac48Address) (l : List FailedDestination) :
    ∀ s : HwmpProtocol, Stable A s (HwmpProtocol.makePathErrorLoop l s) := by
  induction l with
  | nil => intro s; exact Stable.stable_refl A s
  | cons d rest ih =>
    intro s
    unfold HwmpProtocol.makePathErrorLoop
    refine Stable.stable_trans ?_ (ih _)
    refine ⟨?_, id, rfl⟩
    intro hn
    simp only [HwmpProtocol.emit]
    exact DeleteReactivePath_noRoute _ _ _ hn

theorem MakePathError_stable (A : Mac48Address) (s : HwmpProtocol)
    (destinations : List FailedDestination) : Stable A s (s.MakePathError destinations).2 := by
  unfold HwmpProtocol.MakePathError HwmpProtocol.GetPerrReceivers
  simp only
  split
  · exact perrCollect_stable A destinations s []
  · refine Stable.stable_trans (perrCollect_stable A destinations s []) ?_
    refine Stable.stable_trans ?_ (makePathErrorLoop_stable A destinations _)
    exact ⟨id, id, rfl⟩

theorem InitiatePathError_stable (A : Mac48Address) (s : HwmpProtocol) (perr : PathError) :
    Stable A s (s.InitiatePathError perr) := ⟨id, id, rfl⟩

theorem forwardPathErrorLoop_stable (A : Mac48Address) (perr : PathError)
    (ifs : List (Nat × HwmpProtocolMac)) :
    ∀ s : HwmpProtocol, Stable A s (HwmpProtocol.forwardPathErrorLoop perr ifs s) := by
  induction ifs with
  | nil => intro s; exact Stable.stable_refl A s
  | cons i rest ih =>
    intro s
    unfold HwmpProtocol.forwardPathErrorLoop
    refine Stable.stable_trans ?_ (ih _)
    exact ⟨id, id, rfl⟩

theorem ReceivePerr_stable (A : Mac48Address) (s : HwmpProtocol)
    (destinations : List FailedDestination) (from_ : Mac48Address) (interface : Nat)
    (fromMp : Mac48Address) : Stable A s (s.ReceivePerr destinations from_ interface fromMp) := by
  unfold HwmpProtocol.ReceivePerr
  simp only
  split
  · exact Stable.stable_refl A s
  · exact (MakePathError_stable A s _).stable_trans (forwardPathErrorLoop_stable A _ _ _)

theorem PeerLinkStatus_stable (A : Mac48Address) (s : HwmpProtocol)
    (meshPointAddress peerAddress : Mac48Address) (interface : Nat) (status : Bool) :
    Stable A s (s.PeerLinkStatus meshPointAddress peerAddress interface status) := by
  unfold HwmpProtocol.PeerLinkStatus
  split
  · exact Stable.stable_refl A s
  · exact (MakePathError_stable A s _).stable_trans (InitiatePathError_stable A _ _)

theorem ShouldSendPreq_stable (A : Mac48Address) (s : HwmpProtocol) (dst : Mac48Address) :
    Stable A s (s.ShouldSendPreq dst).2 := by
  unfold HwmpProtocol.ShouldSendPreq
  split <;> exact ⟨id, id, rfl⟩

theorem QueuePacket_stable (A : Mac48Address) (s : HwmpProtocol) (packet : QueuedPacket)
    (hp : packet.pkt ≠ none) : Stable A s (s.QueuePacket packet).2 := by
  unfold HwmpProtocol.QueuePacket
  split
  · exact Stable.stable_refl A s
  · refine ⟨id, ?_, rfl⟩
    intro hw x hx
    simp only [List.mem_append, List.mem_singleton] at hx
    rcases hx with hx | hx
    · exact hw x hx
    · rw [hx]; exact hp

theorem unicastPreq_stable (A : Mac48Address) (s : HwmpProtocol) (destination : Mac48Address) :
    Stable A s (s.unicastPreq destination) := by
  unfold HwmpProtocol.unicastPreq
  simp only
  split
  · exact (ShouldSendPreq_stable A s destination).stable_trans ⟨id, id, rfl⟩
  · exact ShouldSendPreq_stable A s destination

theorem unicastRequest_stable (A : Mac48Address) (s : HwmpProtocol) (sourceIface : Nat)
    (source destination : Mac48Address) (packet : Packet) (protocolType routeReply : Nat) :
    Stable A s (s.unicastRequest sourceIface source destination packet protocolType routeReply).2 := by
  unfold HwmpProtocol.unicastRequest
  simp only
  split
  · exact ((unicastPreq_stable A s destination).stable_trans
      (QueuePacket_stable A _ _ (by simp))).stable_trans ⟨id, id, rfl⟩
  · exact ((unicastPreq_stable A s destination).stable_trans
      (QueuePacket_stable A _ _ (by simp))).stable_trans ⟨id, id, rfl⟩

theorem Stable.ite {A : Mac48Address} {s x y : HwmpProtocol} (c : Prop) [Decidable c]
    (hx : Stable A s x) (hy : Stable A s y) : Stable A s (if c then x else y) := by
  split
  · exact hx
  · exact hy

theorem countDropped_stable (A : Mac48Address) (s : HwmpProtocol) : Stable A s s.countDropped :=
  ⟨id, id, rfl⟩

theorem unicastPathError_stable (A : Mac48Address) (s : HwmpProtocol) (destination : Mac48Address) :
    Stable A s (s.unicastPathError destination).2 := by
  unfold HwmpProtocol.unicastPathError
  simp only
  exact (Stable.ite _ ((MakePathError_stable A s _).stable_trans (InitiatePathError_stable A _ _))
    (Stable.stable_refl A s)).stable_trans (countDropped_stable A _)

theorem ForwardUnicast_stable (A : Mac48Address) {s : HwmpProtocol} {sourceIface : Nat}
    {source destination : Mac48Address} {packet0 : Packet} {protocolType routeReply ttl : Nat}
    {r : Bool × HwmpProtocol}
    (h : s.ForwardUnicast sourceIface source destination packet0 protocolType routeReply ttl = .ok r) :
    Stable A s r.2 := by
  unfold HwmpProtocol.ForwardUnicast at h
  split at h
  · cases h
  · simp only at h
    split at h
    · cases h; exact ⟨id, id, rfl⟩
    · split at h
      · cases h; exact unicastPathError_stable A s destination
      · cases h; exact unicastRequest_stable A s _ _ _ _ _ _

/-- The function `RetryPathDiscovery` when a path has been found meanwhile. -/
theorem RetryPathDiscovery_found (s : HwmpProtocol) (dst : Mac48Address) (numOfRetry : Nat)
    (ev : PreqEvent) (hpath : (s.lookupPath dst).retransmitter ≠ GetBroadcast)
    (hev : mapFind s.m_preqTimeouts dst = some ev) :
    s.RetryPathDiscovery dst numOfRetry =
      .ok { s with m_preqTimeouts := mapErase s.m_preqTimeouts dst } := by
  unfold HwmpProtocol.RetryPathDiscovery
  simp only [hpath, hev, ne_eq, not_false_eq_true, if_true]

/-- The function `RetryPathDiscovery` when the retries are exhausted; the fuel
of its loop never runs out. -/
theorem RetryPathDiscovery_exhausted (s : HwmpProtocol) (dst : Mac48Address) (numOfRetry : Nat)
    (ev : PreqEvent) (hpath : (s.lookupPath dst).retransmitter = GetBroadcast)
    (hn : numOfRetry > s.m_dot11MeshHWMPmaxPREQretries)
    (hev : mapFind s.m_preqTimeouts dst = some ev) :
    s.RetryPathDiscovery dst numOfRetry = .ok (gaveUpState s dst ev) := by
  unfold HwmpProtocol.RetryPathDiscovery
  have hloop := retryPurgeLoop_eq dst (s.m_rqueue.length + 1) s.m_rqueue s (by omega)
  simp only [hpath, ne_eq, not_true_eq_false, if_false, hn, if_true,
    HwmpProtocol.DequeueFirstPacketByDst, hloop]
  have : (purgedState s dst s.m_rqueue).m_preqTimeouts = s.m_preqTimeouts := rfl
  rw [this, hev]
  rfl

/-- The function `RetryPathDiscovery` when one more retry is due. -/
theorem RetryPathDiscovery_retry (s : HwmpProtocol) (dst : Mac48Address) (numOfRetry : Nat)
    (ev : PreqEvent) (hpath : (s.lookupPath dst).retransmitter = GetBroadcast)
    (hn : ¬ numOfRetry > s.m_dot11MeshHWMPmaxPREQretries)
    (hev : mapFind s.m_preqTimeouts dst = some ev) :
    s.RetryPathDiscovery dst numOfRetry = .ok (retriedState s dst numOfRetry ev) := by
  unfold HwmpProtocol.RetryPathDiscovery
  simp only [hpath, ne_eq, not_true_eq_false, if_false, hn]
  have : (s.GetNextHwmpSeqno.2.emit (HwmpProtocol.requestDestinationAll s.GetNextHwmpSeqno.2 dst
      s.GetNextHwmpSeqno.1 (s.GetNextHwmpSeqno.2.m_rtable.LookupReactiveExpired
        s.GetNextHwmpSeqno.2.now dst).seqnum)).m_preqTimeouts = s.m_preqTimeouts := rfl
  rw [this, hev]
  rfl

theorem RetryPathDiscovery_stable (A : Mac48Address) {s s1 : HwmpProtocol} {dst : Mac48Address}
    {numOfRetry : Nat} (h : s.RetryPathDiscovery dst numOfRetry = .ok s1) : Stable A s s1 := by
  cases hev : mapFind s.m_preqTimeouts dst with
  | none =>
    unfold HwmpProtocol.RetryPathDiscovery at h
    have hloop := retryPurgeLoop_eq dst (s.m_rqueue.length + 1) s.m_rqueue s (by omega)
    have hq : (purgedState s dst s.m_rqueue).m_preqTimeouts = s.m_preqTimeouts := rfl
    by_cases hpath : (s.lookupPath dst).retransmitter = GetBroadcast
    · by_cases hn : numOfRetry > s.m_dot11MeshHWMPmaxPREQretries
      · simp only [hpath, ne_eq, not_true_eq_false, if_false, hn, if_true,
          HwmpProtocol.DequeueFirstPacketByDst, hloop, hq, hev] at h
        cases h
      · simp only [hpath, ne_eq, not_true_eq_false, if_false, hn] at h
        cases h
        exact ⟨id, id, rfl⟩
    · simp only [hpath, ne_eq, not_false_eq_true, if_true, hev] at h
      cases h
  | some ev =>
    by_cases hpath : (s.lookupPath dst).retransmitter = GetBroadcast
    · by_cases hn : numOfRetry > s.m_dot11MeshHWMPmaxPREQretries
      · rw [RetryPathDiscovery_exhausted s dst numOfRetry ev hpath hn hev] at h
        cases h
        exact ⟨id, fun hw p hp => hw p (remainBy_mem dst s.m_rqueue p hp), rfl⟩
      · rw [RetryPathDiscovery_retry s dst numOfRetry ev hpath hn hev] at h
        cases h
        exact ⟨id, id, rfl⟩
    · rw [RetryPathDiscovery_found s dst numOfRetry ev hpath hev] at h
      cases h
      exact ⟨id, id, rfl⟩

theorem fireRetryTimer_stable (A : Mac48Address) {s s1 : HwmpProtocol} {dst : Mac48Address}
    (h : s.fireRetryTimer dst = .ok s1) : Stable A s s1 := by
  unfold HwmpProtocol.fireRetryTimer at h
  split at h
  · cases h; exact Stable.stable_refl A s
  · exact (RetryPathDiscovery_stable A h).after ⟨id, id, rfl⟩

theorem dispatch_stable (A : Mac48Address) {s : HwmpProtocol} {sourceIface : Nat}
    {source destination : Mac48Address} {packet : Packet} {tag : HwmpTag}
    {protocolType routeReply : Nat} {r : Bool × HwmpProtocol}
    (h : HwmpProtocol.dispatch s sourceIface source destination packet tag protocolType routeReply
      = .ok r) : Stable A s r.2 := by
  unfold HwmpProtocol.dispatch at h
  split at h
  · cases h; exact ⟨id, id, rfl⟩
  · exact ForwardUnicast_stable A h

theorem RequestRoute_stable (A : Mac48Address) {s : HwmpProtocol} {sourceIface : Nat}
    {source destination : Mac48Address} {constPacket : Packet} {protocolType routeReply : Nat}
    {r : Bool × HwmpProtocol}
    (h : s.RequestRoute sourceIface source destination constPacket protocolType routeReply = .ok r) :
    Stable A s r.2 := by
  unfold HwmpProtocol.RequestRoute at h
  split at h
  · split at h
    · cases h
    · split at h
      · exact (dispatch_stable A h).after ⟨id, id, rfl⟩
      · exact dispatch_stable A h
  · split at h
    · cases h
    · split at h
      · cases h; exact ⟨id, id, rfl⟩
      · exact dispatch_stable A h

theorem DropDataFrame_stable (A : Mac48Address) (s : HwmpProtocol) (seqno : Nat)
    (source : Mac48Address) : Stable A s (s.DropDataFrame seqno source).2 := by
  unfold HwmpProtocol.DropDataFrame
  split
  · exact Stable.stable_refl A s
  · split
    · exact ⟨id, id, rfl⟩
    · split
      · exact Stable.stable_refl A s
      · exact ⟨id, id, rfl⟩

theorem fireProactiveTimer_stable (A : Mac48Address) (s : HwmpProtocol) :
    Stable A s s.fireProactiveTimer := by
  unfold HwmpProtocol.fireProactiveTimer
  split
  · exact Stable.stable_refl A s
  · exact ⟨id, id, rfl⟩

/-- Every reaction to an event that does not name `A` keeps the table free of a
reactive record for `A`, keeps every queued frame with a payload, and keeps the
address of the station. -/
theorem step_stable (A : Mac48Address) (s s1 : HwmpProtocol) (c : Call) (hc : ¬ c.names A)
    (h : step s c = .ok s1) : Stable A s s1 := by
  cases c with
  | receivePreq preq from_ interface fromMp metric =>
    simp only [Call.names, not_or] at hc
    simp only [step] at h
    cases hacc : HwmpProtocol.preqAccept (mapFind s.m_hwmpSeqnoMetricDatabase preq.originatorAddress)
        (preq.IncrementMetric metric) with
    | none =>
      rw [ReceivePreq_dropped s preq from_ interface fromMp metric hacc] at h
      cases h
      exact Stable.stable_refl A s
    | some f => exact ReceivePreq_accepted_stable hc.1 hc.2 hacc h
  | receivePrep prep from_ interface fromMp metric =>
    simp only [Call.names, not_or] at hc
    simp only [step] at h
    cases hacc : HwmpProtocol.prepAccept (mapFind s.m_hwmpSeqnoMetricDatabase prep.originatorAddress)
        prep.destinationSeqNumber with
    | none =>
      rw [ReceivePrep_dropped s prep from_ interface fromMp metric hacc] at h
      cases h
      exact Stable.stable_refl A s
    | some f => exact ReceivePrep_accepted_stable hc.1 hc.2 hacc h
  | receivePerr destinations from_ interface fromMp =>
    simp only [step] at h
    cases h
    exact ReceivePerr_stable A s _ _ _ _
  | requestRoute sourceIface source destination constPacket protocolType routeReply =>
    simp only [step] at h
    split at h
    · cases h
    · rename_i r hr
      cases h
      exact RequestRoute_stable A hr
  | peerLinkStatus meshPointAddress peerAddress interface status =>
    simp only [step] at h
    cases h
    exact PeerLinkStatus_stable A s _ _ _ _
  | dropDataFrame seqno source =>
    simp only [step] at h
    cases h
    exact DropDataFrame_stable A s _ _
  | retryTimer dst =>
    simp only [step] at h
    exact fireRetryTimer_stable A h
  | proactiveTimer =>
    simp only [step] at h
    cases h
    exact fireProactiveTimer_stable A s
  | elapse dt =>
    simp only [step] at h
    cases h
    exact ⟨id, id, rfl⟩
  | setRoot =>
    simp only [step] at h
    cases h
    exact ⟨id, id, rfl⟩
  | unsetRoot =>
    simp only [step] at h
    cases h
    exact ⟨id, id, rfl⟩
  | doInitialize randomStart =>
    simp only [step] at h
    cases h
    unfold HwmpProtocol.DoInitialize
    split
    · exact ⟨id, id, rfl⟩
    · exact Stable.stable_refl A s

theorem run_stable (A : Mac48Address) (cs : List Call) :
    ∀ (s s1 : HwmpProtocol), (∀ c ∈ cs, ¬ c.names A) → run s cs = .ok s1 → Stable A s s1 := by
  induction cs with
  | nil =>
    intro s s1 _ h
    simp only [run] at h
    cases h
    exact Stable.stable_refl A s
  | cons c cs ih =>
    intro s s1 hcs h
    simp only [run] at h
    split at h
    · cases h
    · rename_i s2 h2
      exact (step_stable A s s2 c (hcs c (List.mem_cons_self _ _)) h2).stable_trans
        (ih s2 s1 (fun x hx => hcs x (List.mem_cons_of_mem _ hx)) h)

/-! ## No path to the station itself -/

/-- C3, as the code has it: the core has no check of its own address, so a path
to the station itself is kept out of the table only as long as no received PREQ
or PREP names the station as originator or as transmitting mesh point.  From a
state without a reactive record for the own address, after any sequence of
`ReceivePreq`, `ReceivePrep`, `ReceivePerr`, `RequestRoute`, `PeerLinkStatus`
calls, timer firings and passing of time none of which names the own address,
`LookupReactive (own address)` is the broadcast sentinel. -/
theorem no_self_path_unless_named (s0 s : HwmpProtocol) (cs : List Call)
    (h0 : mapFind s0.m_rtable.m_routes s0.m_address = none)
    (hcs : ∀ c ∈ cs, ¬ c.names s0.m_address)
    (hrun : run s0 cs = .ok s) :
    s.m_address = s0.m_address ∧
    (s.m_rtable.LookupReactive s.now s.m_address).retransmitter = GetBroadcast := by
  have k := run_stable s0.m_address cs s0 s hcs hrun
  refine ⟨k.address, ?_⟩
  rw [k.address]
  unfold HwmpRtable.LookupReactive
  rw [k.noRoute h0]
  rfl

/-- Witness for C3: the history `history7` of station 7. -/
theorem no_self_path_unless_named_witness :
    (after station7 history7).m_address = 7 ∧
    ((after station7 history7).m_rtable.LookupReactive (after station7 history7).now
      (after station7 history7).m_address).retransmitter = GetBroadcast :=
  no_self_path_unless_named station7 (after station7 history7) history7 rfl
    (by
      intro c hc
      simp only [history7, List.mem_cons, List.mem_singleton, List.not_mem_nil, or_false] at hc
      rcases hc with rfl | rfl | rfl | rfl <;> simp [Call.names, preqFrom5, station7, HwmpProtocol.new])
    rfl

/-- C3, counterexample: station 7 receives from neighbour 3 a PREQ whose
originator is 7; `ReceivePreq` installs a reactive path to 7 via 3, and
`LookupReactive (7)` returns next hop 3. -/
theorem self_path_installed :
    station7.m_address = 7 ∧
    run station7 [Call.receivePreq preqFrom7 3 1 3 10]
      = .ok (after station7 [Call.receivePreq preqFrom7 3 1 3 10]) ∧
    ((after station7 [Call.receivePreq preqFrom7 3 1 3 10]).m_rtable.LookupReactive
      (after station7 [Call.receivePreq preqFrom7 3 1 3 10]).now 7).retransmitter = 3 ∧
    (3 : Nat) ≠ GetBroadcast :=
  ⟨rfl, rfl, rfl, by decide⟩

/-! ## The discovery timer -/

theorem requestedFor_append (dst : Mac48Address) (l1 l2 : List Action) :
    requestedFor dst (l1 ++ l2) = requestedFor dst l1 ++ requestedFor dst l2 := by
  induction l1 with
  | nil => rfl
  | cons a t ih =>
    rw [List.cons_append]
    cases a <;> simp only [requestedFor, ih]
    split <;> simp

theorem requestedFor_requestDestinationAll (s : HwmpProtocol) (dst : Mac48Address)
    (originSN dstSN : Nat) :
    (requestedFor dst (HwmpProtocol.requestDestinationAll s dst originSN dstSN)).length
      = s.m_interfaces.length := by
  unfold HwmpProtocol.requestDestinationAll
  induction s.m_interfaces with
  | nil => rfl
  | cons i t ih => simp [requestedFor, ih]

theorem lookupPath_empty (s : HwmpProtocol) (dst : Mac48Address)
    (h : s.m_rtable = HwmpRtable.empty) : (s.lookupPath dst).retransmitter = GetBroadcast := by
  unfold HwmpProtocol.lookupPath
  rw [h]
  simp only [HwmpRtable.LookupReactive, HwmpRtable.LookupProactive, HwmpRtable.empty, mapFind,
    LookupResult.sentinel, if_true]

theorem fireRetryTimer_discovering (dst : Mac48Address) (n bursts : Nat) (s : HwmpProtocol)
    (hn : n ≤ 255) (h : Discovering dst n bursts s) :
    ∃ s1, s.fireRetryTimer dst = .ok s1 ∧ Discovering dst (u8 (n + 1)) (bursts + 1) s1 := by
  obtain ⟨ev, hev, hnum⟩ := h.timer
  unfold HwmpProtocol.fireRetryTimer
  rw [hev]
  simp only
  have hr : ¬ ev.preqTimeout.numOfRetry >
      (s.atTime (max s.now ev.preqTimeout.deadline)).m_dot11MeshHWMPmaxPREQretries := by
    show ¬ ev.preqTimeout.numOfRetry > s.m_dot11MeshHWMPmaxPREQretries
    rw [h.retries, hnum]; omega
  rw [RetryPathDiscovery_retry (s.atTime (max s.now ev.preqTimeout.deadline)) dst
    ev.preqTimeout.numOfRetry ev (lookupPath_empty _ dst h.table) hr hev]
  refine ⟨_, rfl, ?_⟩
  refine ⟨h.table, h.interfaces, h.retries, ?_, ?_⟩
  · refine ⟨nextPreqEvent (s.atTime (max s.now ev.preqTimeout.deadline))
      ev.preqTimeout.numOfRetry ev, ?_, ?_⟩
    · show mapFind (mapInsert dst _ _) dst = _
      rw [mapFind_mapInsert, if_pos rfl]
    · show u8 (ev.preqTimeout.numOfRetry + 1) = u8 (n + 1)
      rw [hnum]
  · show (requestedFor dst (s.out ++ HwmpProtocol.requestDestinationAll
      (s.atTime (max s.now ev.preqTimeout.deadline)) dst _ _)).length = bursts + 1
    rw [requestedFor_append, List.length_append, requestedFor_requestDestinationAll]
    show (requestedFor dst s.out).length + s.m_interfaces.length = bursts + 1
    rw [h.interfaces, h.count, List.length_singleton]

theorem runRetryTimer_discovering (dst : Mac48Address) (k : Nat) :
    ∀ (n bursts : Nat) (s : HwmpProtocol), n ≤ 255 → Discovering dst n bursts s →
      ∃ s1 n1, HwmpProtocol.runRetryTimer dst k s = .ok s1 ∧ Discovering dst n1 (bursts + k) s1 := by
  induction k with
  | zero =>
    intro n bursts s _ h
    exact ⟨s, n, rfl, h⟩
  | succ k ih =>
    intro n bursts s hn h
    obtain ⟨s1, h1, hd⟩ := fireRetryTimer_discovering dst n bursts s hn h
    obtain ⟨s2, n2, h2, hd2⟩ := ih (u8 (n + 1)) (bursts + 1) s1
      (by unfold u8; omega) hd
    refine ⟨s2, n2, ?_, ?_⟩
    · simp only [HwmpProtocol.runRetryTimer, h1, h2]
    · have : bursts + (k + 1) = bursts + 1 + k := by omega
      rw [this]
      exact hd2

theorem station255_discovering :
    Discovering 9 1 1 (after station255 [Call.requestRoute 0 7 9 upperFrame 2048 0]) :=
  ⟨rfl, rfl, rfl, ⟨{ preqTimeout := { deadline := 204800, numOfRetry := 1 }, whenScheduled := 0 },
    rfl, rfl⟩, rfl⟩

/-- C4 at `maxPREQretries = 255`: the retry count is a `uint8_t`, so the test
`numOfRetry > 255` never holds and the count wraps from 255 to 0.  On a station
configured with 255 retries, after the upper layer has asked for the unreachable
destination 9 and the discovery timer has fired `k` times, for any `k`, the
timer entry of 9 is still there and `k + 1` PREQ bursts have been sent: the
cycle never ends and the bound of 256 bursts is passed. -/
theorem discovery_never_ends_at_255_retries (k : Nat) :
    ∃ s, HwmpProtocol.runRetryTimer 9 k
        (after station255 [Call.requestRoute 0 7 9 upperFrame 2048 0]) = .ok s ∧
      (mapFind s.m_preqTimeouts 9).isSome = true ∧
      (requestedFor 9 s.out).length = k + 1 := by
  obtain ⟨s, n, hs, hd⟩ := runRetryTimer_discovering 9 k 1 1 _ (by omega) station255_discovering
  refine ⟨s, hs, ?_, ?_⟩
  · obtain ⟨ev, hev, _⟩ := hd.timer
    rw [hev]; rfl
  · rw [hd.count]; omega

theorem LookupReactive_later (t : HwmpRtable) (now now1 : Time) (dst : Mac48Address)
    (h : now ≤ now1) (hb : (t.LookupReactive now dst).retransmitter = GetBroadcast) :
    (t.LookupReactive now1 dst).retransmitter = GetBroadcast := by
  unfold HwmpRtable.LookupReactive HwmpRtable.LookupReactiveExpired at *
  cases hf : mapFind t.m_routes dst with
  | none => rfl
  | some r =>
    simp only [hf] at hb ⊢
    by_cases h1 : now1 < r.whenExpire
    · have h0 : now < r.whenExpire := lt_of_le_of_lt h h1
      simp only [h0, if_true] at hb
      simp only [h1, if_true]
      exact hb
    · simp only [h1, if_false]
      rfl

theorem LookupProactive_later (t : HwmpRtable) (now now1 : Time)
    (h : now ≤ now1) (hb : (t.LookupProactive now).retransmitter = GetBroadcast) :
    (t.LookupProactive now1).retransmitter = GetBroadcast := by
  unfold HwmpRtable.LookupProactive HwmpRtable.LookupProactiveExpired at *
  cases hf : t.m_root with
  | none => rfl
  | some r =>
    simp only [hf] at hb ⊢
    by_cases h1 : now1 < r.whenExpire
    · have h0 : now < r.whenExpire := lt_of_le_of_lt h h1
      simp only [h0, if_true] at hb
      simp only [h1, if_true]
      exact hb
    · simp only [h1, if_false]
      rfl

theorem lookupPath_broadcast_iff (s : HwmpProtocol) (dst : Mac48Address) :
    (s.lookupPath dst).retransmitter = GetBroadcast ↔
      (s.m_rtable.LookupReactive s.now dst).retransmitter = GetBroadcast ∧
      (s.m_rtable.LookupProactive s.now).retransmitter = GetBroadcast := by
  unfold HwmpProtocol.lookupPath
  by_cases h : (s.m_rtable.LookupReactive s.now dst).retransmitter = GetBroadcast
  · simp only [h, if_true, true_and]
  · simp only [h, if_false, false_and]

/-- Once no valid path to `dst` exists, none exists at any later instant as long
as the table stays the same. -/
theorem lookupPath_later (s s1 : HwmpProtocol) (dst : Mac48Address)
    (ht : s1.m_rtable = s.m_rtable) (hn : s.now ≤ s1.now)
    (hb : (s.lookupPath dst).retransmitter = GetBroadcast) :
    (s1.lookupPath dst).retransmitter = GetBroadcast := by
  rw [lookupPath_broadcast_iff] at hb ⊢
  rw [ht]
  exact ⟨LookupReactive_later _ _ _ _ hn hb.1, LookupProactive_later _ _ _ hn hb.2⟩

theorem failedReplies_forall2 (l : List QueuedPacket) (h : QueueWf l) :
    List.Forall₂ (fun p a => ∃ x, p.pkt = some x ∧
      a = Action.routeReply p.reply false x p.src p.dst p.protocol MAX_METRIC) l (failedReplies l) := by
  induction l with
  | nil => exact List.Forall₂.nil
  | cons p q ih =>
    have hp : p.pkt ≠ none := h p (List.mem_cons_self _ _)
    have hq : QueueWf q := fun x hx => h x (List.mem_cons_of_mem _ hx)
    cases hx : p.pkt with
    | none => exact absurd hx hp
    | some x =>
      unfold failedReplies
      rw [hx]
      exact List.Forall₂.cons ⟨x, hx, rfl⟩ (ih hq)

theorem QueueWf_filter (l : List QueuedPacket) (f : QueuedPacket → Bool) (h : QueueWf l) :
    QueueWf (l.filter f) := fun p hp => h p (List.mem_of_mem_filter hp)

theorem failedReplies_not_mac (l : List QueuedPacket) :
    ∀ a ∈ failedReplies l, Action.isMac a = false := by
  induction l with
  | nil => intro a ha; cases ha
  | cons p q ih =>
    intro a ha
    unfold failedReplies at ha
    cases hx : p.pkt with
    | none => rw [hx] at ha; exact ih a ha
    | some x =>
      rw [hx] at ha
      rcases List.mem_cons.mp ha with h | h
      · rw [h]; rfl
      · exact ih a h

/-- C9: when `RetryPathDiscovery (dst, n)` fires (its timer entry exists, every
queued frame carries a payload) with no valid reactive or proactive path and
`n > maxPREQretries`, it completes; the reply callback of every frame queued for
`dst` is called once, in queue order, with `accepted = false` and `MAX_METRIC`
in the last slot, followed by the discovery-time trace sample, and nothing else
is sent (no call into a MAC plugin); the queue keeps exactly the frames for
other destinations, in order; `totalDropped` grows by the number of frames
handed back and no other counter changes; the HWMP sequence number and the
routing table are unchanged; the timer entry of `dst` is removed. -/
theorem retry_exhaustion_purges (s : HwmpProtocol) (dst : Mac48Address) (numOfRetry : Nat)
    (ev : PreqEvent)
    (hpath : (s.lookupPath dst).retransmitter = GetBroadcast)
    (hn : numOfRetry > s.m_dot11MeshHWMPmaxPREQretries)
    (hev : mapFind s.m_preqTimeouts dst = some ev)
    (hq : QueueWf s.m_rqueue) :
    ∃ s1 nacks, s.RetryPathDiscovery dst numOfRetry = .ok s1 ∧
      List.Forall₂ (fun p a => ∃ x, p.pkt = some x ∧
        a = Action.routeReply p.reply false x p.src p.dst p.protocol MAX_METRIC)
        (s.m_rqueue.filter (fun p => decide (p.dst = dst))) nacks ∧
      s1.out = s.out ++ nacks ++ [Action.routeDiscoveryTime (s.now - ev.whenScheduled)] ∧
      (∀ a ∈ nacks, Action.isMac a = false) ∧
      s1.m_rqueue = s.m_rqueue.filter (fun p => !decide (p.dst = dst)) ∧
      s1.m_stats = { s.m_stats with totalDropped := s.m_stats.totalDropped +
        (s.m_rqueue.filter (fun p => decide (p.dst = dst))).length } ∧
      s1.m_hwmpSeqno = s.m_hwmpSeqno ∧
      s1.m_rtable = s.m_rtable ∧
      mapFind s1.m_preqTimeouts dst = none := by
  refine ⟨gaveUpState s dst ev, failedReplies (s.m_rqueue.filter (fun p => decide (p.dst = dst))),
    RetryPathDiscovery_exhausted s dst numOfRetry ev hpath hn hev,
    failedReplies_forall2 _ (QueueWf_filter _ _ hq), ?_, failedReplies_not_mac _, ?_, ?_, rfl,
    rfl, ?_⟩
  · show (s.out ++ failedReplies (drainedBy dst s.m_rqueue)) ++ _ = _
    rw [drainedBy_eq_filter dst s.m_rqueue hq]
  · show remainBy dst s.m_rqueue = _
    rw [remainBy_eq_filter dst s.m_rqueue hq]
  · show ({ s.m_stats with totalDropped := s.m_stats.totalDropped + (drainedBy dst s.m_rqueue).length }
      : Statistics) = _
    rw [drainedBy_eq_filter dst s.m_rqueue hq]
  · show mapFind (mapErase s.m_preqTimeouts dst) dst = none
    rw [mapFind_mapErase, if_pos rfl]

theorem RequestRoute_local_miss (s : HwmpProtocol) (source dst : Mac48Address) (frame : Packet)
    (protocolType routeReply : Nat) (hdst : dst ≠ GetBroadcast) (htag : frame.tag = none)
    (hpath : (s.lookupPath dst).retransmitter = GetBroadcast) :
    s.RequestRoute s.mpIfIndex source dst frame protocolType routeReply =
      .ok (s.unicastRequest s.mpIfIndex source dst
        (Packet.mk frame.size (some (HwmpTag.mk GetBroadcast (u8 s.m_maxTtl) 0)))
        protocolType routeReply) := by
  unfold HwmpProtocol.RequestRoute
  simp only [if_true, htag, hdst, if_false]
  unfold HwmpProtocol.dispatch
  simp only [hdst, if_false]
  unfold HwmpProtocol.ForwardUnicast
  simp only [hdst, if_false, hpath, ne_eq, not_true_eq_false]
  rfl

theorem unicastRequest_pending (s : HwmpProtocol) (source dst : Mac48Address) (packet : Packet)
    (protocolType routeReply : Nat) (htimer : mapFind s.m_preqTimeouts dst = none)
    (hroom : s.m_rqueue.length ≤ s.m_maxQueueSize)
    (hD : 0 ≤ s.m_dot11MeshHWMPnetDiameterTraversalTime) :
    (s.unicastRequest s.mpIfIndex source dst packet protocolType routeReply).1 = true ∧
    Pending s dst (s.m_rqueue ++ [QueuedPacket.mk (some packet) source dst protocolType
        s.mpIfIndex routeReply]) 1
      (s.now + s.m_dot11MeshHWMPnetDiameterTraversalTime * 2) 1
      (s.unicastRequest s.mpIfIndex source dst packet protocolType routeReply).2 := by
  have hq : ¬ s.m_rqueue.length > s.m_maxQueueSize := by omega
  unfold HwmpProtocol.unicastRequest HwmpProtocol.unicastPreq HwmpProtocol.ShouldSendPreq
  simp only [htimer, if_true, HwmpProtocol.QueuePacket, HwmpProtocol.emit,
    HwmpProtocol.countInitiatedPreq, HwmpProtocol.GetNextHwmpSeqno, hq, if_false]
  refine ⟨trivial, rfl, le_refl _, ?_, rfl, rfl, rfl,
    ⟨PreqEvent.mk (EventId.mk (s.now + s.m_dot11MeshHWMPnetDiameterTraversalTime * 2) 1) s.now,
      ?_, rfl⟩, rfl, ?_⟩
  · show s.now ≤ s.now + s.m_dot11MeshHWMPnetDiameterTraversalTime * 2
    have h2 : (0 : Int) ≤ s.m_dot11MeshHWMPnetDiameterTraversalTime * 2 :=
      Int.mul_nonneg hD (by decide)
    exact Int.le_add_of_nonneg_right h2
  · show mapFind (mapInsert dst _ s.m_preqTimeouts) dst = _
    rw [mapFind_mapInsert, if_pos rfl]
  · show (requestedFor dst (s.out ++ HwmpProtocol.requestDestinationAll _ dst _ _)).length = _
    rw [requestedFor_append, List.length_append, requestedFor_requestDestinationAll]
    simp only [HwmpProtocol.countQueued, Nat.one_mul]

theorem fireRetryTimer_pending (s0 t : HwmpProtocol) (dst : Mac48Address)
    (queue : List QueuedPacket) (n : Nat) (due : Time) (bursts : Nat)
    (hpath : (s0.lookupPath dst).retransmitter = GetBroadcast)
    (hD : 0 ≤ s0.m_dot11MeshHWMPnetDiameterTraversalTime)
    (hn : ¬ n > s0.m_dot11MeshHWMPmaxPREQretries) (h8 : n + 1 < 256)
    (h : Pending s0 dst queue n due bursts t) :
    ∃ t1, t.fireRetryTimer dst = .ok t1 ∧ t1.now = due ∧
      Pending s0 dst queue (n + 1)
        (due + (2 * (((n + 1 : Nat) : Int) + 1)) * s0.m_dot11MeshHWMPnetDiameterTraversalTime)
        (bursts + 1) t1 := by
  obtain ⟨ev, hev, hevt⟩ := h.timer
  have hmax : max t.now ev.preqTimeout.deadline = due := by
    rw [hevt]; exact max_eq_right h.before
  have hnum : ev.preqTimeout.numOfRetry = n := by rw [hevt]
  have hu8 : u8 (n + 1) = n + 1 := by unfold u8; omega
  have hp : ((t.atTime due).lookupPath dst).retransmitter = GetBroadcast :=
    lookupPath_later s0 (t.atTime due) dst h.table (le_trans h.later h.before) hpath
  have hr : ¬ n > (t.atTime due).m_dot11MeshHWMPmaxPREQretries := by
    show ¬ n > t.m_dot11MeshHWMPmaxPREQretries
    rw [h.retries]; exact hn
  have hev1 : mapFind (t.atTime due).m_preqTimeouts dst = some ev := hev
  refine ⟨retriedState (t.atTime due) dst n ev, ?_, rfl, ?_⟩
  · unfold HwmpProtocol.fireRetryTimer
    rw [hev]
    simp only
    rw [hmax, hnum]
    exact RetryPathDiscovery_retry (t.atTime due) dst n ev hp hr hev1
  · refine ⟨h.table, le_trans h.later h.before, ?_, h.traversal, h.retries, h.interfaces,
      ⟨nextPreqEvent (t.atTime due) n ev, ?_, ?_⟩, h.queue, ?_⟩
    · show due ≤ due + _
      have h2 : (0 : Int) ≤
          (2 * (((n + 1 : Nat) : Int) + 1)) * s0.m_dot11MeshHWMPnetDiameterTraversalTime :=
        Int.mul_nonneg (by omega) hD
      exact Int.le_add_of_nonneg_right h2
    · show mapFind (mapInsert dst _ _) dst = _
      rw [mapFind_mapInsert, if_pos rfl]
    · show EventId.mk (due + (2 * ((u8 (n + 1) : Nat) + 1)) *
          t.m_dot11MeshHWMPnetDiameterTraversalTime) (u8 (n + 1)) = _
      rw [hu8, h.traversal]
    · show (requestedFor dst (t.out ++ HwmpProtocol.requestDestinationAll (t.atTime due) dst _ _)).length
        = _
      rw [requestedFor_append, List.length_append, requestedFor_requestDestinationAll]
      show (requestedFor dst t.out).length + t.m_interfaces.length = _
      rw [h.count, h.interfaces, Nat.add_mul, Nat.one_mul, Nat.add_assoc]

theorem fireRetryTimer_pending_exhausted (s0 t : HwmpProtocol) (dst : Mac48Address)
    (queue : List QueuedPacket) (n : Nat) (due : Time) (bursts : Nat)
    (hpath : (s0.lookupPath dst).retransmitter = GetBroadcast)
    (hn : n > s0.m_dot11MeshHWMPmaxPREQretries)
    (h : Pending s0 dst queue n due bursts t) :
    ∃ ev, mapFind t.m_preqTimeouts dst = some ev ∧
      t.fireRetryTimer dst = .ok (gaveUpState (t.atTime due) dst ev) := by
  obtain ⟨ev, hev, hevt⟩ := h.timer
  have hmax : max t.now ev.preqTimeout.deadline = due := by
    rw [hevt]; exact max_eq_right h.before
  have hnum : ev.preqTimeout.numOfRetry = n := by rw [hevt]
  have hp : ((t.atTime due).lookupPath dst).retransmitter = GetBroadcast :=
    lookupPath_later s0 (t.atTime due) dst h.table (le_trans h.later h.before) hpath
  have hr : n > (t.atTime due).m_dot11MeshHWMPmaxPREQretries := by
    show n > t.m_dot11MeshHWMPmaxPREQretries
    rw [h.retries]; exact hn
  have hev1 : mapFind (t.atTime due).m_preqTimeouts dst = some ev := hev
  refine ⟨ev, hev, ?_⟩
  unfold HwmpProtocol.fireRetryTimer
  rw [hev]
  simp only
  rw [hmax, hnum]
  exact RetryPathDiscovery_exhausted (t.atTime due) dst n ev hp hr hev1

theorem failedReplies_mem (l : List QueuedPacket) (p : QueuedPacket) (x : Packet)
    (hp : p ∈ l) (hx : p.pkt = some x) :
    Action.routeReply p.reply false x p.src p.dst p.protocol MAX_METRIC ∈ failedReplies l := by
  induction l with
  | nil => cases hp
  | cons a t ih =>
    unfold failedReplies
    rcases List.mem_cons.mp hp with h | h
    · subst h
      rw [hx]
      exact List.mem_cons_self _ _
    · cases ha : a.pkt with
      | none => exact ih h
      | some y => exact List.mem_cons_of_mem _ (ih h)

theorem requestedFor_failedReplies (dst : Mac48Address) (l : List QueuedPacket) :
    requestedFor dst (failedReplies l) = [] := by
  induction l with
  | nil => rfl
  | cons a t ih =>
    unfold failedReplies
    cases ha : a.pkt with
    | none => exact ih
    | some y => simp only [requestedFor, ih]

/-- C10, as the code has it: with `maxPREQretries = 3` and net-diameter
traversal time `D >= 0`, when the upper layer asks for a destination to which
no valid path exists and none is learned, the discovery timer fires at `2 D`,
`8 D`, `16 D` and `26 D` after the request (the retry intervals are `2 D`,
`6 D`, `8 D`, `10 D`); the first three firings send a PREQ burst each, which
with the initial one makes 4 bursts on every interface, and the fourth firing,
`26 D` after the request, hands the frame back to its reply callback with
`accepted = false` and `MAX_METRIC` and removes the timer entry. -/
theorem discovery_gives_up_after_26D (s : HwmpProtocol) (source dst : Mac48Address)
    (frame : Packet) (protocolType routeReply : Nat)
    (hmax : s.m_dot11MeshHWMPmaxPREQretries = 3)
    (hD : 0 ≤ s.m_dot11MeshHWMPnetDiameterTraversalTime)
    (hdst : dst ≠ GetBroadcast) (htag : frame.tag = none)
    (hpath : (s.lookupPath dst).retransmitter = GetBroadcast)
    (htimer : mapFind s.m_preqTimeouts dst = none)
    (hroom : s.m_rqueue.length ≤ s.m_maxQueueSize)
    (hq : QueueWf s.m_rqueue) :
    ∃ s1 s2 s3 s4 s5,
      s.RequestRoute s.mpIfIndex source dst frame protocolType routeReply = .ok (true, s1) ∧
      s1.fireRetryTimer dst = .ok s2 ∧ s2.fireRetryTimer dst = .ok s3 ∧
      s3.fireRetryTimer dst = .ok s4 ∧ s4.fireRetryTimer dst = .ok s5 ∧
      (mapFind s1.m_preqTimeouts dst).isSome = true ∧
      (mapFind s2.m_preqTimeouts dst).isSome = true ∧
      (mapFind s3.m_preqTimeouts dst).isSome = true ∧
      (mapFind s4.m_preqTimeouts dst).isSome = true ∧
      mapFind s5.m_preqTimeouts dst = none ∧
      s2.now = s.now + 2 * s.m_dot11MeshHWMPnetDiameterTraversalTime ∧
      s3.now = s.now + 8 * s.m_dot11MeshHWMPnetDiameterTraversalTime ∧
      s4.now = s.now + 16 * s.m_dot11MeshHWMPnetDiameterTraversalTime ∧
      s5.now = s.now + 26 * s.m_dot11MeshHWMPnetDiameterTraversalTime ∧
      (requestedFor dst s5.out).length =
        (requestedFor dst s.out).length + 4 * s.m_interfaces.length ∧
      Action.routeReply routeReply false
        (Packet.mk frame.size (some (HwmpTag.mk GetBroadcast (u8 s.m_maxTtl) 0)))
        source dst protocolType MAX_METRIC ∈ s5.out := by
  have hreq := RequestRoute_local_miss s source dst frame protocolType routeReply hdst htag hpath
  obtain ⟨hacc, p1⟩ := unicastRequest_pending s source dst
    (Packet.mk frame.size (some (HwmpTag.mk GetBroadcast (u8 s.m_maxTtl) 0)))
    protocolType routeReply htimer hroom hD
  obtain ⟨s2, f2, n2, p2⟩ := fireRetryTimer_pending s _ dst _ 1 _ 1 hpath hD
    (by rw [hmax]; omega) (by omega) p1
  obtain ⟨s3, f3, n3, p3⟩ := fireRetryTimer_pending s _ dst _ 2 _ 2 hpath hD
    (by rw [hmax]; omega) (by omega) p2
  obtain ⟨s4, f4, n4, p4⟩ := fireRetryTimer_pending s _ dst _ 3 _ 3 hpath hD
    (by rw [hmax]; omega) (by omega) p3
  obtain ⟨ev, hev, f5⟩ := fireRetryTimer_pending_exhausted s _ dst _ 4 _ 4 hpath
    (by rw [hmax]; omega) p4
  have isSome_of : ∀ {q n due b t}, Pending s dst q n due b t →
      (mapFind t.m_preqTimeouts dst).isSome = true := by
    intro q n due b t h
    obtain ⟨e, he, _⟩ := h.timer
    rw [he]; rfl
  refine ⟨_, s2, s3, s4, _, ?_, f2, f3, f4, f5, isSome_of p1, isSome_of p2, isSome_of p3,
    isSome_of p4, ?_, ?_, ?_, ?_, ?_, ?_, ?_⟩
  · rw [hreq]
    congr 1
    exact Prod.ext hacc rfl
  · show mapFind (mapErase _ dst) dst = none
    rw [mapFind_mapErase, if_pos rfl]
  · rw [n2]; ring
  · rw [n3]; push_cast; ring
  · rw [n4]; push_cast; ring
  · show _ + _ = _
    push_cast; ring
  · show (requestedFor dst ((s4.out ++ failedReplies (drainedBy dst s4.m_rqueue)) ++ _)).length = _
    rw [requestedFor_append, requestedFor_append, requestedFor_failedReplies]
    simp only [requestedFor, List.append_nil, p4.count]
  · show _ ∈ (s4.out ++ failedReplies (drainedBy dst s4.m_rqueue)) ++ _
    apply List.mem_append_left
    apply List.mem_append_right
    have hw : QueueWf s4.m_rqueue := by
      rw [p4.queue]
      intro p hp
      rcases List.mem_append.mp hp with h | h
      · exact hq p h
      · rw [List.mem_singleton.mp h]; simp
    rw [drainedBy_eq_filter dst s4.m_rqueue hw, p4.queue]
    exact failedReplies_mem _ (QueuedPacket.mk
      (some (Packet.mk frame.size (some (HwmpTag.mk GetBroadcast (u8 s.m_maxTtl) 0))))
      source dst protocolType s.mpIfIndex routeReply) _
      (by simp) rfl

/-- Witness for C9: station 7 holds two frames for destination 9 and one for
destination 8 when the discovery timer of 9 fires for the fourth time. -/
theorem retry_exhaustion_purges_witness :
    ∃ s1, exhausted9.RetryPathDiscovery 9 4 = .ok s1 ∧ s1.m_rqueue.length = 1 ∧
      s1.m_stats.totalDropped = 2 ∧ mapFind s1.m_preqTimeouts 9 = none := by
  obtain ⟨s1, nacks, h1, _, _, _, h5, h6, _, _, h9⟩ :=
    retry_exhaustion_purges exhausted9 9 4
      { preqTimeout := { deadline := 2662400, numOfRetry := 4 }, whenScheduled := 0 }
      rfl (by decide) rfl (by unfold QueueWf; decide)
  exact ⟨s1, h1, by rw [h5]; rfl, by rw [h6]; rfl, h9⟩

/-- Witness for C10: station 7, with the default `D = 102400` microseconds, asks
for destination 9 at time 0 and gives up at `26 D = 2662400`. -/
theorem discovery_gives_up_after_26D_witness :
    ∃ s1 s5, station7.RequestRoute 0 7 9 upperFrame 2048 0 = .ok (true, s1) ∧
      HwmpProtocol.runRetryTimer 9 4 s1 = .ok s5 ∧ s5.now = 2662400 ∧
      mapFind s5.m_preqTimeouts 9 = none := by
  obtain ⟨s1, s2, s3, s4, s5, h1, f2, f3, f4, f5, _, _, _, _, hnone, _, _, _, hnow, _, _⟩ :=
    discovery_gives_up_after_26D station7 7 9 upperFrame 2048 0 rfl (by decide) (by decide) rfl
      rfl rfl (by decide) (by intro p hp; cases hp)
  refine ⟨s1, s5, h1, ?_, ?_, hnone⟩
  · simp only [HwmpProtocol.runRetryTimer, f2, f3, f4, f5]
  · rw [hnow]; rfl

/-- C10, counterexample: station 7 (`maxPREQretries = 3`, `D = 102400`
microseconds) asks for the unreachable destination 9 at time 0.  After three
firings of the discovery timer the clock shows `16 D`, four bursts have gone out
and the timer is pending for `26 D = 2662400`; the fourth firing, which gives
up, happens at `26 D`, not at `20 D = 2048000`. -/
theorem discovery_gives_up_later_than_20D :
    station7.m_dot11MeshHWMPmaxPREQretries = 3 ∧
    station7.m_dot11MeshHWMPnetDiameterTraversalTime = 102400 ∧
    run station7 [Call.requestRoute 0 7 9 upperFrame 2048 0, Call.retryTimer 9, Call.retryTimer 9,
      Call.retryTimer 9] = .ok (after station7 [Call.requestRoute 0 7 9 upperFrame 2048 0,
        Call.retryTimer 9, Call.retryTimer 9, Call.retryTimer 9]) ∧
    (after station7 [Call.requestRoute 0 7 9 upperFrame 2048 0, Call.retryTimer 9,
      Call.retryTimer 9, Call.retryTimer 9]).now = 16 * 102400 ∧
    (requestedFor 9 (after station7 [Call.requestRoute 0 7 9 upperFrame 2048 0, Call.retryTimer 9,
      Call.retryTimer 9, Call.retryTimer 9]).out).length = 4 ∧
    mapFind (after station7 [Call.requestRoute 0 7 9 upperFrame 2048 0, Call.retryTimer 9,
      Call.retryTimer 9, Call.retryTimer 9]).m_preqTimeouts 9
      = some { preqTimeout := { deadline := 2662400, numOfRetry := 4 }, whenScheduled := 0 } ∧
    run station7 [Call.requestRoute 0 7 9 upperFrame 2048 0, Call.retryTimer 9, Call.retryTimer 9,
      Call.retryTimer 9, Call.retryTimer 9] = .ok (after station7
        [Call.requestRoute 0 7 9 upperFrame 2048 0, Call.retryTimer 9, Call.retryTimer 9,
          Call.retryTimer 9, Call.retryTimer 9]) ∧
    (after station7 [Call.requestRoute 0 7 9 upperFrame 2048 0, Call.retryTimer 9,
      Call.retryTimer 9, Call.retryTimer 9, Call.retryTimer 9]).now = 2662400 ∧
    mapFind (after station7 [Call.requestRoute 0 7 9 upperFrame 2048 0, Call.retryTimer 9,
      Call.retryTimer 9, Call.retryTimer 9, Call.retryTimer 9]).m_preqTimeouts 9 = none ∧
    (after station7 [Call.requestRoute 0 7 9 upperFrame 2048 0, Call.retryTimer 9,
      Call.retryTimer 9, Call.retryTimer 9, Call.retryTimer 9]).m_rqueue = [] ∧
    (2662400 : Int) ≠ 20 * 102400 :=
  ⟨rfl, rfl, rfl, rfl, rfl, rfl, rfl, rfl, rfl, rfl, by decide⟩

/-! ## Received path errors and stale path requests -/


theorem perrAccept_eq (s : HwmpProtocol) (from_ : Mac48Address) (interface : Nat)
    (l : List FailedDestination) :
    ∀ acc : List FailedDestination,
      HwmpProtocol.perrAccept s from_ interface l acc = acc ++ l.filter (perrRelevant s from_ interface) := by
  induction l with
  | nil => intro acc; simp [HwmpProtocol.perrAccept]
  | cons d rest ih =>
    intro acc
    unfold HwmpProtocol.perrAccept
    simp only
    by_cases h : perrRelevant s from_ interface d = true
    · have hc : (!((s.m_rtable.LookupReactiveExpired s.now d.destination).retransmitter != from_ ||
          (s.m_rtable.LookupReactiveExpired s.now d.destination).ifIndex != interface ||
          decide (sdiff (s.m_rtable.LookupReactiveExpired s.now d.destination).seqnum d.seqnum > 0)))
          = true := by
        unfold perrRelevant at h
        simp only [decide_eq_true_eq] at h
        obtain ⟨h1, h2, h3⟩ := h
        simp [h1, h2, h3]
      rw [if_pos hc, ih, List.filter_cons_of_pos h]
      simp
    · have hc : ¬ (!((s.m_rtable.LookupReactiveExpired s.now d.destination).retransmitter != from_ ||
          (s.m_rtable.LookupReactiveExpired s.now d.destination).ifIndex != interface ||
          decide (sdiff (s.m_rtable.LookupReactiveExpired s.now d.destination).seqnum d.seqnum > 0)))
          = true := by
        intro hc
        apply h
        unfold perrRelevant
        simp only [Bool.not_eq_true', Bool.or_eq_false_iff, bne_eq_false_iff_eq,
          decide_eq_false_iff_not, not_lt] at hc
        simp only [decide_eq_true_eq]
        exact ⟨hc.1.1, hc.1.2, by omega⟩
      rw [if_neg hc, ih, List.filter_cons_of_neg h]

/-- C5: the list of failed destinations that `ReceivePerr` gathers and hands on
to `MakePathError` and `ForwardPathError` is exactly the sub-list of the
received destinations, in the received order and with the advertised sequence
numbers, whose record (`LookupReactiveExpired`) has next hop `from_`, interface
`interface` and a stored sequence number that is not strictly fresher,
`(int32)(storedSN - d.seqnum) <= 0`; if that sub-list is empty `ReceivePerr`
returns the station unchanged, log of calls included. -/
theorem ReceivePerr_relevance (s : HwmpProtocol) (destinations : List FailedDestination)
    (from_ : Mac48Address) (interface : Nat) (fromMp : Mac48Address) :
    HwmpProtocol.perrAccept s from_ interface destinations []
      = destinations.filter (perrRelevant s from_ interface) ∧
    s.ReceivePerr destinations from_ interface fromMp =
      (if destinations.filter (perrRelevant s from_ interface) = [] then s
       else
        (s.MakePathError (destinations.filter (perrRelevant s from_ interface))).2.ForwardPathError
          (s.MakePathError (destinations.filter (perrRelevant s from_ interface))).1) := by
  have h := perrAccept_eq s from_ interface destinations []
  rw [List.nil_append] at h
  refine ⟨h, ?_⟩
  unfold HwmpProtocol.ReceivePerr
  simp only [h]
  by_cases he : destinations.filter (perrRelevant s from_ interface) = []
  · simp only [he, List.length_nil, if_true]
  · have hl : ¬ (destinations.filter (perrRelevant s from_ interface)).length = 0 := by
      intro h0
      exact he (List.length_eq_zero.mp h0)
    simp only [hl, he, if_false]

/-- C6: when the SeenOriginator table holds `(sn, m)` for the originator of a
PREQ and either `sn` is strictly fresher than the PREQ's originator sequence
number, `(int32)(sn - preqSN) > 0`, or `sn` equals it and `m` is at most the
metric of the PREQ increased by the link metric (the 32-bit sum that
`IncrementMetric` leaves in the PREQ), `ReceivePreq` returns the station
unchanged: no table, queue, counter or sequence number changes, and the log of
calls is the same, so no PREP is sent and no forward is scheduled. -/
theorem stale_preq_dropped (s : HwmpProtocol) (preq : IePreq) (from_ : Mac48Address)
    (interface : Nat) (fromMp : Mac48Address) (metric sn m : Nat)
    (hentry : mapFind s.m_hwmpSeqnoMetricDatabase preq.originatorAddress = some (sn, m))
    (hstale : sdiff sn preq.originatorSeqNumber > 0 ∨
      (sn = preq.originatorSeqNumber ∧ m ≤ u32 (preq.metric + metric))) :
    s.ReceivePreq preq from_ interface fromMp metric = .ok s := by
  apply ReceivePreq_dropped
  rw [hentry]
  unfold HwmpProtocol.preqAccept IePreq.IncrementMetric
  simp only
  rcases hstale with h | ⟨h1, h2⟩
  · rw [if_pos h]
  · by_cases h : sdiff sn preq.originatorSeqNumber > 0
    · rw [if_pos h]
    · rw [if_neg h, if_pos h1, if_pos h2]

/-- Witness for C6: the second scenario of the specification; after a PREQ of
originator 5 with sequence number 5 and metric 100, the PREQ with the same
sequence number and metric 120 is dropped. -/
theorem stale_preq_dropped_witness :
    (after station7 [Call.receivePreq (preqMetric 100) 3 1 3 10]).ReceivePreq (preqMetric 120)
      3 1 3 10 = .ok (after station7 [Call.receivePreq (preqMetric 100) 3 1 3 10]) :=
  stale_preq_dropped (after station7 [Call.receivePreq (preqMetric 100) 3 1 3 10])
    (preqMetric 120) 3 1 3 10 5 110 rfl (Or.inr ⟨rfl, by decide⟩)

/-- C6, counterexample: station 7 has stored (5, 110) for originator 5 and
receives a PREQ of 5 with the same sequence number 5 and metric 4294967295 over
a link of metric 10.  The stored metric 110 is at most 4294967295 + 10, yet the
PREQ is not dropped: the metric of the PREQ is a 32-bit field, the sum wraps to
9, and `ReceivePreq` stores (5, 9) and replaces the path to 5, metric 110, by
one of metric 9. -/
theorem wrapped_metric_preq_accepted :
    mapFind (after station7 [Call.receivePreq (preqMetric 100) 3 1 3 10]).m_hwmpSeqnoMetricDatabase
      (preqMetric 4294967295).originatorAddress = some (5, 110) ∧
    (preqMetric 4294967295).originatorSeqNumber = 5 ∧
    110 ≤ (preqMetric 4294967295).metric + 10 ∧
    u32 ((preqMetric 4294967295).metric + 10) = 9 ∧
    (after station7 [Call.receivePreq (preqMetric 100) 3 1 3 10]).m_rtable.LookupReactive
      (after station7 [Call.receivePreq (preqMetric 100) 3 1 3 10]).now 5 =
      { retransmitter := 3, ifIndex := 1, metric := 110, seqnum := 5, lifetime := 102400 } ∧
    run (after station7 [Call.receivePreq (preqMetric 100) 3 1 3 10])
        [Call.receivePreq (preqMetric 4294967295) 3 1 3 10] =
      .ok (after station7 [Call.receivePreq (preqMetric 100) 3 1 3 10,
        Call.receivePreq (preqMetric 4294967295) 3 1 3 10]) ∧
    mapFind (after station7 [Call.receivePreq (preqMetric 100) 3 1 3 10,
        Call.receivePreq (preqMetric 4294967295) 3 1 3 10]).m_hwmpSeqnoMetricDatabase 5 =
      some (5, 9) ∧
    (after station7 [Call.receivePreq (preqMetric 100) 3 1 3 10,
        Call.receivePreq (preqMetric 4294967295) 3 1 3 10]).m_rtable.LookupReactive
      (after station7 [Call.receivePreq (preqMetric 100) 3 1 3 10,
        Call.receivePreq (preqMetric 4294967295) 3 1 3 10]).now 5 =
      { retransmitter := 3, ifIndex := 1, metric := 9, seqnum := 5, lifetime := 102400 } :=
  ⟨by decide, rfl, by decide, by decide, by decide, rfl, by decide, by decide⟩

/-! ## Lookups after an insertion -/


theorem LookupReactive_AddReactivePath (t : HwmpRtable) (now : Int) (dst r : Mac48Address)
    (i m : Nat) (L : Int) (sn : Nat) (hL : 0 < L) :
    (t.AddReactivePath now dst r i m L sn).LookupReactive now dst =
      { retransmitter := r, ifIndex := i, metric := m, seqnum := sn, lifetime := L } := by
  unfold HwmpRtable.LookupReactive HwmpRtable.LookupReactiveExpired HwmpRtable.AddReactivePath
  simp only [mapFind_mapInsert, if_true]
  have h1 : now < now + L := by omega
  have h2 : now + L - now = L := by omega
  simp only [h1, if_true, h2]

theorem LookupReactive_AddReactivePath_ne (t : HwmpRtable) (now now1 : Time)
    (dst d r : Mac48Address) (i m : Nat) (L : Time) (sn : Nat) (h : dst ≠ d) :
    (t.AddReactivePath now dst r i m L sn).LookupReactive now1 d = t.LookupReactive now1 d := by
  unfold HwmpRtable.LookupReactive HwmpRtable.LookupReactiveExpired HwmpRtable.AddReactivePath
  simp only [mapFind_mapInsert, if_neg h]

theorem LookupReactive_AddPrecursor (t : HwmpRtable) (now now1 : Time) (dst d : Mac48Address)
    (i : Nat) (a : Mac48Address) (L : Time) :
    (t.AddPrecursor now dst i a L).LookupReactive now1 d = t.LookupReactive now1 d := by
  unfold HwmpRtable.AddPrecursor
  cases hf : mapFind t.m_routes dst with
  | none => rfl
  | some r =>
    unfold HwmpRtable.LookupReactive HwmpRtable.LookupReactiveExpired
    simp only [mapFind_mapInsert]
    by_cases h : dst = d
    · subst h
      simp only [if_true, hf]
    · simp only [if_neg h]

/-- The steps `AddReactivePath`, trace, `ReactivePathResolved` complete when the
lifetime is positive and the transmitter is not the broadcast address. -/
theorem installReactive_eq (s : HwmpProtocol) (dst from_ : Mac48Address)
    (interface metric lifetime seqnum : Nat) (hL : 0 < HwmpProtocol.lifetimeTime lifetime)
    (hfrom : from_ ≠ GetBroadcast) :
    s.installReactive dst from_ interface metric lifetime seqnum =
      .ok (resolvedState
        ((s.addReactive dst from_ interface metric lifetime seqnum).emit
          (discoveryTrace s dst))
        { retransmitter := from_, ifIndex := interface, metric := metric, seqnum := seqnum,
          lifetime := HwmpProtocol.lifetimeTime lifetime } dst s.m_rqueue) := by
  unfold HwmpProtocol.installReactive
  rw [ReactivePathResolved_eq]
  have hl : (s.addReactive dst from_ interface metric lifetime seqnum).m_rtable.LookupReactive
      (s.addReactive dst from_ interface metric lifetime seqnum).now dst =
      { retransmitter := from_, ifIndex := interface, metric := metric, seqnum := seqnum,
        lifetime := HwmpProtocol.lifetimeTime lifetime } :=
    LookupReactive_AddReactivePath s.m_rtable s.now dst from_ interface metric _ seqnum hL
  rw [hl]
  simp only [hfrom, if_false]
  rfl

/-! ## A path request for the station itself -/


theorem sentPreps_append (l1 l2 : List Action) :
    sentPreps (l1 ++ l2) = sentPreps l1 ++ sentPreps l2 := by
  induction l1 with
  | nil => rfl
  | cons a t ih =>
    rw [List.cons_append]
    cases a <;> simp only [sentPreps, ih, List.cons_append]

theorem scheduledPreqs_append (l1 l2 : List Action) :
    scheduledPreqs (l1 ++ l2) = scheduledPreqs l1 ++ scheduledPreqs l2 := by
  induction l1 with
  | nil => rfl
  | cons a t ih =>
    rw [List.cons_append]
    cases a <;> simp only [scheduledPreqs, ih, List.cons_append]

theorem sentPreps_resolvedReplies (result : LookupResult) (l : List QueuedPacket) :
    sentPreps (resolvedReplies result l) = [] := by
  induction l with
  | nil => rfl
  | cons p q ih =>
    unfold resolvedReplies
    cases hx : p.pkt with
    | none => exact ih
    | some x => simp only [sentPreps, ih]

theorem scheduledPreqs_resolvedReplies (result : LookupResult) (l : List QueuedPacket) :
    scheduledPreqs (resolvedReplies result l) = [] := by
  induction l with
  | nil => rfl
  | cons p q ih =>
    unfold resolvedReplies
    cases hx : p.pkt with
    | none => exact ih
    | some x => simp only [scheduledPreqs, ih]

theorem sentPreps_discoveryTrace (s : HwmpProtocol) (dst : Mac48Address) :
    sentPreps (discoveryTrace s dst) = [] := by
  unfold discoveryTrace
  split <;> rfl

theorem scheduledPreqs_discoveryTrace (s : HwmpProtocol) (dst : Mac48Address) :
    scheduledPreqs (discoveryTrace s dst) = [] := by
  unfold discoveryTrace
  split <;> rfl

theorem Quiet.quiet_refl (s : HwmpProtocol) : Quiet s s := ⟨rfl, rfl, rfl, rfl⟩

theorem Quiet.quiet_trans {s s1 s2 : HwmpProtocol} (h1 : Quiet s s1) (h2 : Quiet s1 s2) : Quiet s s2 :=
  ⟨h2.preps.trans h1.preps, h2.preqs.trans h1.preqs, h2.initiatedPrep.trans h1.initiatedPrep,
    h2.seqno.trans h1.seqno⟩

theorem ReactivePathResolved_quiet {s s1 : HwmpProtocol} {dst : Mac48Address}
    (h : s.ReactivePathResolved dst = .ok s1) : Quiet s s1 := by
  rw [ReactivePathResolved_eq] at h
  split at h
  · cases h
  · cases h
    refine ⟨?_, ?_, rfl, rfl⟩
    · show sentPreps ((s.out ++ discoveryTrace s dst) ++ resolvedReplies _ _) = _
      rw [sentPreps_append, sentPreps_append, sentPreps_resolvedReplies,
        sentPreps_discoveryTrace, List.append_nil, List.append_nil]
    · show scheduledPreqs ((s.out ++ discoveryTrace s dst) ++ resolvedReplies _ _) = _
      rw [scheduledPreqs_append, scheduledPreqs_append, scheduledPreqs_resolvedReplies,
        scheduledPreqs_discoveryTrace, List.append_nil, List.append_nil]

theorem installReactive_quiet {s s1 : HwmpProtocol} {dst from_ : Mac48Address}
    {interface metric lifetime seqnum : Nat}
    (h : s.installReactive dst from_ interface metric lifetime seqnum = .ok s1) : Quiet s s1 := by
  have k := ReactivePathResolved_quiet h
  have k0 : Quiet s (s.addReactive dst from_ interface metric lifetime seqnum) := by
    refine ⟨?_, ?_, rfl, rfl⟩
    · show sentPreps (s.out ++ [_]) = _
      rw [sentPreps_append]
      simp only [HwmpProtocol.addTrace, sentPreps, List.append_nil]
    · show scheduledPreqs (s.out ++ [_]) = _
      rw [scheduledPreqs_append]
      simp only [HwmpProtocol.addTrace, scheduledPreqs, List.append_nil]
  exact k0.quiet_trans k

/-- What `SendPrep` does when it completes. -/
theorem SendPrep_ok {s s1 : HwmpProtocol} {src dst retransmitter : Mac48Address}
    {initMetric originatorDsn destinationSN lifetime interface : Nat}
    (h : s.SendPrep src dst retransmitter initMetric originatorDsn destinationSN lifetime interface
      = .ok s1) :
    s1.out = s.out ++ [Action.macSendPrep interface
      (IePrep.mk src originatorDsn dst destinationSN 0 s.m_maxTtl lifetime initMetric)
      retransmitter] ∧
    s1.m_stats.initiatedPrep = s.m_stats.initiatedPrep + 1 ∧
    s1.m_hwmpSeqno = s.m_hwmpSeqno ∧ s1.m_rtable = s.m_rtable ∧ s1.now = s.now := by
  unfold HwmpProtocol.SendPrep at h
  simp only at h
  split at h
  · cases h
  · cases h
    exact ⟨rfl, rfl, rfl, rfl, rfl⟩

theorem SendPrep_installed (s : HwmpProtocol) (src dst retransmitter : Mac48Address)
    (initMetric originatorDsn destinationSN lifetime interface : Nat)
    (h : mapFind s.m_interfaces interface ≠ none) :
    ∃ s1, s.SendPrep src dst retransmitter initMetric originatorDsn destinationSN lifetime interface
      = .ok s1 := by
  unfold HwmpProtocol.SendPrep
  simp only
  cases hf : mapFind s.m_interfaces interface with
  | none => exact absurd hf h
  | some v => exact ⟨_, rfl⟩

/-- The only turn of the destination loop of `ReceivePreq` for a PREQ whose only
destination is the station itself. -/
theorem preqDestLoop_self (preq : IePreq) (from_ : Mac48Address) (interface : Nat)
    (u : DestinationAddressUnit) (s : HwmpProtocol) (hself : u.destinationAddress = s.m_address)
    (hown : s.m_address ≠ GetBroadcast) :
    HwmpProtocol.preqDestLoop preq from_ interface [(0, u)] s [(0, u)] =
      (s.GetNextHwmpSeqno.2.SendPrep s.m_address preq.originatorAddress from_ 0
        preq.originatorSeqNumber s.GetNextHwmpSeqno.1 preq.lifetime interface >>= fun s1 =>
        if (s1.m_rtable.LookupReactive s1.now preq.originatorAddress).retransmitter = GetBroadcast
        then .error Fault.assertFailed else .ok (s1, [])) := by
  have h1 : ¬ u.destinationAddress = GetBroadcast := by rw [hself]; exact hown
  unfold HwmpProtocol.preqDestLoop
  simp only [h1, hself, hown, if_false, if_true]
  congr 1
  funext s1
  split
  · rfl
  · simp only [HwmpProtocol.preqDestLoop, HwmpProtocol.delDestinationAddressElement, hself,
      if_true]

/-- The stage "install a reactive path if it is news or an improvement" of
`ReceivePreq` and `ReceivePrep`: when it completes, the clock is the same and the
lookups are those of before, except for the destination installed. -/
theorem stage_lookup {s s2 : HwmpProtocol} (c : Prop) [Decidable c] {dst from_ : Mac48Address}
    {interface metric lifetime seqnum : Nat} (hL : 0 < HwmpProtocol.lifetimeTime lifetime)
    (hfrom : from_ ≠ GetBroadcast)
    (h : (if c then s.installReactive dst from_ interface metric lifetime seqnum else .ok s)
      = .ok s2) (d : Mac48Address) :
    s2.now = s.now ∧
    s2.m_rtable.LookupReactive s2.now d =
      (if c ∧ dst = d then
        { retransmitter := from_, ifIndex := interface, metric := metric, seqnum := seqnum,
          lifetime := HwmpProtocol.lifetimeTime lifetime }
       else s.m_rtable.LookupReactive s.now d) := by
  by_cases hc : c
  · rw [if_pos hc, installReactive_eq s dst from_ interface metric lifetime seqnum hL hfrom] at h
    cases h
    refine ⟨rfl, ?_⟩
    show (s.m_rtable.AddReactivePath s.now dst from_ interface metric
      (HwmpProtocol.lifetimeTime lifetime) seqnum).LookupReactive s.now d = _
    by_cases hd : dst = d
    · subst hd
      rw [if_pos ⟨hc, rfl⟩]
      exact LookupReactive_AddReactivePath s.m_rtable s.now dst from_ interface metric _ seqnum hL
    · rw [if_neg (fun hh => hd hh.2)]
      exact LookupReactive_AddReactivePath_ne s.m_rtable s.now s.now dst d from_ interface metric
        _ seqnum hd
  · rw [if_neg hc] at h
    cases h
    exact ⟨rfl, by rw [if_neg (fun hh => hc hh.1)]⟩

theorem stage_ok (s : HwmpProtocol) (c : Prop) [Decidable c] (dst from_ : Mac48Address)
    (interface metric lifetime seqnum : Nat) (hL : 0 < HwmpProtocol.lifetimeTime lifetime)
    (hfrom : from_ ≠ GetBroadcast) :
    ∃ s2, (if c then s.installReactive dst from_ interface metric lifetime seqnum else .ok s)
      = .ok s2 := by
  by_cases hc : c
  · rw [if_pos hc, installReactive_eq s dst from_ interface metric lifetime seqnum hL hfrom]
    exact ⟨_, rfl⟩
  · rw [if_neg hc]
    exact ⟨_, rfl⟩

theorem stage_quiet {s s2 : HwmpProtocol} (c : Prop) [Decidable c] {dst from_ : Mac48Address}
    {interface metric lifetime seqnum : Nat}
    (h : (if c then s.installReactive dst from_ interface metric lifetime seqnum else .ok s)
      = .ok s2) : Quiet s s2 ∧ Frame s s2 := by
  by_cases hc : c
  · rw [if_pos hc] at h
    exact ⟨installReactive_quiet h, installReactive_frame h⟩
  · rw [if_neg hc] at h
    cases h
    exact ⟨Quiet.quiet_refl s, Frame.frame_refl s⟩

/-- The converse of `ReceivePreq_inv`: the stages of `ReceivePreq` put together. -/
theorem ReceivePreq_of_stages {s s2 s3 : HwmpProtocol} {preq0 : IePreq} {from_ : Mac48Address}
    {interface : Nat} {fromMp : Mac48Address} {metric : Nat} {freshInfo : Bool}
    {r : HwmpProtocol × List (Nat × DestinationAddressUnit)}
    (hacc : HwmpProtocol.preqAccept (mapFind s.m_hwmpSeqnoMetricDatabase preq0.originatorAddress)
      (preq0.IncrementMetric metric) = some freshInfo)
    (h2 : (if freshInfo = true ∨
          (s.m_rtable.LookupReactive s.now preq0.originatorAddress).retransmitter = GetBroadcast ∨
          (s.m_rtable.LookupReactive s.now preq0.originatorAddress).metric >
            u32 (preq0.metric + metric) then
        (s.setSeqnoMetric preq0.originatorAddress preq0.originatorSeqNumber
          (u32 (preq0.metric + metric))).installReactive
          preq0.originatorAddress from_ interface (u32 (preq0.metric + metric)) preq0.lifetime
          preq0.originatorSeqNumber
       else .ok (s.setSeqnoMetric preq0.originatorAddress preq0.originatorSeqNumber
          (u32 (preq0.metric + metric)))) = .ok s2)
    (h3 : (if (s2.m_rtable.LookupReactive s2.now fromMp).retransmitter = GetBroadcast ∨
          (s2.m_rtable.LookupReactive s2.now fromMp).metric > metric then
        s2.installReactive fromMp from_ interface metric preq0.lifetime preq0.originatorSeqNumber
       else .ok s2) = .ok s3)
    (hr : HwmpProtocol.preqDestLoop (preq0.IncrementMetric metric) from_ interface
        (HwmpProtocol.tagFrom 0 preq0.destinations) s3
        (HwmpProtocol.tagFrom 0 preq0.destinations) = .ok r)
    (hlen : r.2.length = 0) :
    s.ReceivePreq preq0 from_ interface fromMp metric = .ok r.1 := by
  unfold HwmpProtocol.ReceivePreq
  simp only [IePreq.IncrementMetric] at hacc hr ⊢
  simp only [hacc]
  rw [bind_ok_iff]
  refine ⟨s2, h2, ?_⟩
  rw [bind_ok_iff]
  refine ⟨s3, h3, ?_⟩
  rw [bind_ok_iff]
  refine ⟨r, hr, ?_⟩
  rw [if_pos hlen]

/-- C7: for every accepted PREQ whose only destination is the address of the
station (which is not the broadcast address), whenever `ReceivePreq` runs to its
end without violating an assertion it has sent exactly one PREP, to neighbour
`from_` on interface `interface`, with originator = this station, destination =
the originator of the PREQ, metric 0, hop count 0, TTL = `maxTtl` (and the
originator sequence number of the PREQ, a fresh HWMP sequence number as
destination sequence number, the lifetime of the PREQ), it has counted one more
initiated PREP, and it has scheduled no PREQ forward; and it does run to its end
whenever the lifetime of the PREQ gives a positive duration, `from_` is not the
broadcast address and `interface` is an installed interface. -/
theorem self_preq_answered_once (s : HwmpProtocol) (preq : IePreq) (u : DestinationAddressUnit)
    (from_ : Mac48Address) (interface : Nat) (fromMp : Mac48Address) (metric : Nat)
    (freshInfo : Bool)
    (hacc : HwmpProtocol.preqAccept (mapFind s.m_hwmpSeqnoMetricDatabase preq.originatorAddress)
      (preq.IncrementMetric metric) = some freshInfo)
    (hdest : preq.destinations = [u]) (hself : u.destinationAddress = s.m_address)
    (hown : s.m_address ≠ GetBroadcast) :
    (∀ s1, s.ReceivePreq preq from_ interface fromMp metric = .ok s1 →
      sentPreps s1.out = sentPreps s.out ++
        [(interface, IePrep.mk s.m_address preq.originatorSeqNumber preq.originatorAddress
            (u32 (s.m_hwmpSeqno + 1)) 0 s.m_maxTtl preq.lifetime 0, from_)] ∧
      scheduledPreqs s1.out = scheduledPreqs s.out ∧
      s1.m_stats.initiatedPrep = s.m_stats.initiatedPrep + 1) ∧
    (0 < HwmpProtocol.lifetimeTime preq.lifetime → from_ ≠ GetBroadcast →
      mapFind s.m_interfaces interface ≠ none →
      ∃ s1, s.ReceivePreq preq from_ interface fromMp metric = .ok s1) := by
  constructor
  · intro s1 hok
    obtain ⟨s2, s3, r, h2, h3, hr, h1⟩ := ReceivePreq_inv hacc hok
    obtain ⟨q2, f2⟩ := stage_quiet _ h2
    obtain ⟨q3, f3⟩ := stage_quiet _ h3
    have ha : s3.m_address = s.m_address := f3.address.trans f2.address
    have hm : s3.m_maxTtl = s.m_maxTtl := f3.maxTtl.trans f2.maxTtl
    have hq : Quiet s s3 := Quiet.quiet_trans ⟨q2.preps, q2.preqs, q2.initiatedPrep, q2.seqno⟩ q3
    rw [hdest] at hr
    have hr1 : HwmpProtocol.preqDestLoop (preq.IncrementMetric metric) from_ interface [(0, u)] s3
        [(0, u)] = .ok r := hr
    rw [preqDestLoop_self _ _ _ _ _ (hself.trans ha.symm) (by rw [ha]; exact hown),
      bind_ok_iff] at hr1
    obtain ⟨s4, hs4, hr2⟩ := hr1
    split at hr2
    · cases hr2
    · cases hr2
      obtain ⟨ho, hi, _, _, _⟩ := SendPrep_ok hs4
      have hs1 : s1 = s4 := by rw [h1]; rfl
      rw [hs1]
      refine ⟨?_, ?_, ?_⟩
      · rw [ho, sentPreps_append]
        show sentPreps s3.out ++ [(interface, IePrep.mk s3.m_address preq.originatorSeqNumber
          preq.originatorAddress (u32 (s3.m_hwmpSeqno + 1)) 0 s3.m_maxTtl preq.lifetime 0, from_)]
          = _
        rw [hq.preps, ha, hm, hq.seqno]
      · rw [ho, scheduledPreqs_append]
        show scheduledPreqs s3.out ++ [] = _
        rw [List.append_nil, hq.preqs]
      · rw [hi]
        show s3.m_stats.initiatedPrep + 1 = _
        rw [hq.initiatedPrep]
  · intro hL hfrom hif
    obtain ⟨s2, h2⟩ := stage_ok (s.setSeqnoMetric preq.originatorAddress preq.originatorSeqNumber
      (u32 (preq.metric + metric)))
      (freshInfo = true ∨
        (s.m_rtable.LookupReactive s.now preq.originatorAddress).retransmitter = GetBroadcast ∨
        (s.m_rtable.LookupReactive s.now preq.originatorAddress).metric > u32 (preq.metric + metric))
      preq.originatorAddress from_ interface (u32 (preq.metric + metric)) preq.lifetime
      preq.originatorSeqNumber hL hfrom
    obtain ⟨s3, h3⟩ := stage_ok s2
      ((s2.m_rtable.LookupReactive s2.now fromMp).retransmitter = GetBroadcast ∨
        (s2.m_rtable.LookupReactive s2.now fromMp).metric > metric)
      fromMp from_ interface metric preq.lifetime preq.originatorSeqNumber hL hfrom
    obtain ⟨_, f2⟩ := stage_quiet _ h2
    obtain ⟨_, f3⟩ := stage_quiet _ h3
    obtain ⟨_, l2⟩ := stage_lookup _ hL hfrom h2 preq.originatorAddress
    obtain ⟨_, l3⟩ := stage_lookup _ hL hfrom h3 preq.originatorAddress
    have ha : s3.m_address = s.m_address := f3.address.trans f2.address
    have hi3 : mapFind s3.GetNextHwmpSeqno.2.m_interfaces interface ≠ none := by
      show mapFind s3.m_interfaces interface ≠ none
      rw [f3.interfaces, f2.interfaces]
      exact hif
    -- a valid reactive path to the originator exists after the two stages
    have p2 : (s2.m_rtable.LookupReactive s2.now preq.originatorAddress).retransmitter
        ≠ GetBroadcast := by
      rw [l2]
      split
      · exact hfrom
      · rename_i hc
        intro hb
        exact hc ⟨Or.inr (Or.inl hb), rfl⟩
    have p3 : (s3.m_rtable.LookupReactive s3.now preq.originatorAddress).retransmitter
        ≠ GetBroadcast := by
      rw [l3]
      split
      · exact hfrom
      · exact p2
    obtain ⟨s4, hs4⟩ := SendPrep_installed s3.GetNextHwmpSeqno.2 s3.m_address
      preq.originatorAddress from_ 0 preq.originatorSeqNumber s3.GetNextHwmpSeqno.1 preq.lifetime
      interface hi3
    obtain ⟨_, _, _, ht, hn⟩ := SendPrep_ok hs4
    have p4 : (s4.m_rtable.LookupReactive s4.now preq.originatorAddress).retransmitter
        ≠ GetBroadcast := by
      rw [ht, hn]; exact p3
    have hloop : HwmpProtocol.preqDestLoop (preq.IncrementMetric metric) from_ interface
        (HwmpProtocol.tagFrom 0 preq.destinations) s3 (HwmpProtocol.tagFrom 0 preq.destinations)
        = .ok (s4, []) := by
      rw [hdest]
      show HwmpProtocol.preqDestLoop (preq.IncrementMetric metric) from_ interface [(0, u)] s3
        [(0, u)] = _
      rw [preqDestLoop_self _ _ _ _ _ (hself.trans ha.symm) (by rw [ha]; exact hown), bind_ok_iff]
      exact ⟨s4, hs4, if_neg p4⟩
    exact ⟨s4, ReceivePreq_of_stages hacc h2 h3 hloop rfl⟩

/-- Witness for C7: station 7 receives from neighbour 3 on interface 1 a PREQ of
originator 5 whose only destination is 7. -/
theorem self_preq_answered_once_witness :
    ∃ s1, station7.ReceivePreq preqFor7 3 1 3 10 = .ok s1 ∧
      sentPreps s1.out = [(1, IePrep.mk 7 5 5 2 0 32 100 0, 3)] ∧
      scheduledPreqs s1.out = [] ∧ s1.m_stats.initiatedPrep = 1 := by
  obtain ⟨hA, hB⟩ := self_preq_answered_once station7 preqFor7
    { destinationAddress := 7, destSeqNumber := 0, doFlag := false, rfFlag := true,
      usnFlag := false } 3 1 3 10 true rfl rfl rfl (by decide)
  obtain ⟨s1, h1⟩ := hB (by decide) (by decide) (by decide)
  obtain ⟨a, b, c⟩ := hA s1 h1
  exact ⟨s1, h1, a, b, c⟩

/-! ## Path resolution by PREP -/

theorem repliesTo_append (dst : Mac48Address) (l1 l2 : List Action) :
    repliesTo dst (l1 ++ l2) = repliesTo dst l1 ++ repliesTo dst l2 := by
  induction l1 with
  | nil => rfl
  | cons a t ih =>
    rw [List.cons_append]
    cases a <;> simp only [repliesTo, ih]
    split <;> simp only [List.cons_append]

theorem resolvedReplies_cons_none (result : LookupResult) (p : QueuedPacket)
    (q : List QueuedPacket) (h : p.pkt = none) :
    resolvedReplies result (p :: q) = resolvedReplies result q := by
  simp only [resolvedReplies, h]

theorem resolvedReplies_cons_some (result : LookupResult) (p : QueuedPacket)
    (q : List QueuedPacket) (x : Packet) (h : p.pkt = some x) :
    resolvedReplies result (p :: q) =
      Action.routeReply p.reply true
        (Packet.mk x.size (some (HwmpTag.mk result.retransmitter (x.tag.getD HwmpTag.new).ttl
          (x.tag.getD HwmpTag.new).seqno)))
        p.src p.dst p.protocol result.ifIndex :: resolvedReplies result q := by
  simp only [resolvedReplies, h]

theorem repliesTo_resolvedReplies (dst : Mac48Address) (result : LookupResult)
    (l : List QueuedPacket) :
    repliesTo dst (resolvedReplies result l)
      = resolvedReplies result (l.filter (fun p => decide (p.dst = dst))) := by
  induction l with
  | nil => rfl
  | cons p q ih =>
    by_cases hd : p.dst = dst
    · rw [List.filter_cons_of_pos (by simpa using hd)]
      cases hx : p.pkt with
      | none =>
        rw [resolvedReplies_cons_none _ _ _ hx, resolvedReplies_cons_none _ _ _ hx]
        exact ih
      | some x =>
        rw [resolvedReplies_cons_some _ _ _ x hx, resolvedReplies_cons_some _ _ _ x hx]
        simp only [repliesTo, hd, if_true, ih]
    · rw [List.filter_cons_of_neg (by simpa using hd)]
      cases hx : p.pkt with
      | none =>
        rw [resolvedReplies_cons_none _ _ _ hx]
        exact ih
      | some x =>
        rw [resolvedReplies_cons_some _ _ _ x hx]
        simp only [repliesTo, hd, if_false]
        exact ih

theorem repliesTo_discoveryTrace (dst : Mac48Address) (s : HwmpProtocol) (d : Mac48Address) :
    repliesTo dst (discoveryTrace s d) = [] := by
  unfold discoveryTrace
  split <;> rfl

theorem filter_eq_of_filter_ne (dst : Mac48Address) (q : List QueuedPacket) :
    (q.filter (fun p => !decide (p.dst = dst))).filter (fun p => decide (p.dst = dst)) = [] := by
  rw [List.filter_filter, List.filter_eq_nil_iff]
  intro a _
  by_cases h : a.dst = dst <;> simp [h]

theorem filter_others_of_filter_ne (a b : Mac48Address) (q : List QueuedPacket) :
    (q.filter (fun p => !decide (p.dst = a))).filter
        (fun p => !decide (p.dst = a) && !decide (p.dst = b))
      = q.filter (fun p => !decide (p.dst = a) && !decide (p.dst = b)) := by
  rw [List.filter_filter]
  congr 1
  funext p
  by_cases h : p.dst = a <;> simp [h]

theorem filter_others_of_filter_ne2 (a b : Mac48Address) (q : List QueuedPacket) :
    (q.filter (fun p => !decide (p.dst = b))).filter
        (fun p => !decide (p.dst = a) && !decide (p.dst = b))
      = q.filter (fun p => !decide (p.dst = a) && !decide (p.dst = b)) := by
  rw [List.filter_filter]
  congr 1
  funext p
  by_cases h : p.dst = b <;> simp [h]

theorem prepInstall_fields (s : HwmpProtocol) (prep : IePrep) (from_ : Mac48Address)
    (interface : Nat) (result : LookupResult) :
    (s.prepInstall prep from_ interface result).now = s.now ∧
    (s.prepInstall prep from_ interface result).m_rqueue = s.m_rqueue ∧
    (s.prepInstall prep from_ interface result).out = s.out ++
      [HwmpProtocol.addTrace RouteChangeType.addReactive prep.originatorAddress from_ interface
        prep.metric (HwmpProtocol.lifetimeTime prep.lifetime) prep.destinationSeqNumber] ∧
    ∀ d : Mac48Address,
      (s.prepInstall prep from_ interface result).m_rtable.LookupReactive s.now d =
        (s.m_rtable.AddReactivePath s.now prep.originatorAddress from_ interface prep.metric
          (HwmpProtocol.lifetimeTime prep.lifetime) prep.destinationSeqNumber).LookupReactive
          s.now d := by
  unfold HwmpProtocol.prepInstall
  simp only
  split
  · refine ⟨rfl, rfl, rfl, ?_⟩
    intro d
    show ((HwmpRtable.AddPrecursor _ _ _ _ _ _).AddPrecursor _ _ _ _ _).LookupReactive s.now d = _
    rw [LookupReactive_AddPrecursor, LookupReactive_AddPrecursor]
    rfl
  · refine ⟨rfl, rfl, rfl, ?_⟩
    intro d
    show (HwmpRtable.AddPrecursor _ _ _ _ _ _).LookupReactive s.now d = _
    rw [LookupReactive_AddPrecursor]
    rfl

/-- The stage "install a reactive path if it is news or an improvement": what it
leaves in the queue and which replies it adds for a destination `d`. -/
theorem stage_queue {s s2 : HwmpProtocol} (c : Prop) [Decidable c] {dst from_ : Mac48Address}
    {interface metric lifetime seqnum : Nat} (hL : 0 < HwmpProtocol.lifetimeTime lifetime)
    (hfrom : from_ ≠ GetBroadcast) (hq : QueueWf s.m_rqueue)
    (h : (if c then s.installReactive dst from_ interface metric lifetime seqnum else .ok s)
      = .ok s2) (d : Mac48Address) :
    s2.m_rqueue = (if c then s.m_rqueue.filter (fun p => !decide (p.dst = dst)) else s.m_rqueue) ∧
    repliesTo d s2.out = repliesTo d s.out ++
      (if c then
        resolvedReplies
          { retransmitter := from_, ifIndex := interface, metric := metric, seqnum := seqnum,
            lifetime := HwmpProtocol.lifetimeTime lifetime }
          ((s.m_rqueue.filter (fun p => decide (p.dst = dst))).filter
            (fun p => decide (p.dst = d)))
       else []) := by
  by_cases hc : c
  · rw [if_pos hc, installReactive_eq s dst from_ interface metric lifetime seqnum hL hfrom] at h
    cases h
    rw [if_pos hc, if_pos hc]
    refine ⟨?_, ?_⟩
    · show remainBy dst s.m_rqueue = _
      rw [remainBy_eq_filter dst s.m_rqueue hq]
    · show repliesTo d (((s.out ++ [_]) ++ discoveryTrace s dst) ++
        resolvedReplies _ (drainedBy dst s.m_rqueue)) = _
      rw [repliesTo_append, repliesTo_append, repliesTo_append, repliesTo_discoveryTrace,
        repliesTo_resolvedReplies, drainedBy_eq_filter dst s.m_rqueue hq]
      simp only [HwmpProtocol.addTrace, repliesTo, List.append_nil]
  · rw [if_neg hc] at h
    cases h
    rw [if_neg hc, if_neg hc, List.append_nil]
    exact ⟨rfl, rfl⟩

theorem resolve_stage {t s2 : HwmpProtocol} {dst : Mac48Address} {r : LookupResult} {now : Time}
    (hn : t.now = now) (hr : t.m_rtable.LookupReactive now dst = r) (hq : QueueWf t.m_rqueue)
    (h : t.ReactivePathResolved dst = .ok s2) (d : Mac48Address) :
    r.retransmitter ≠ GetBroadcast ∧ s2.now = t.now ∧ s2.m_rtable = t.m_rtable ∧
    s2.m_rqueue = t.m_rqueue.filter (fun p => !decide (p.dst = dst)) ∧
    repliesTo d s2.out = repliesTo d t.out ++
      resolvedReplies r ((t.m_rqueue.filter (fun p => decide (p.dst = dst))).filter
        (fun p => decide (p.dst = d))) := by
  subst hn
  rw [ReactivePathResolved_eq, hr] at h
  by_cases hb : r.retransmitter = GetBroadcast
  · rw [if_pos hb] at h
    cases h
  · rw [if_neg hb] at h
    cases h
    refine ⟨hb, rfl, rfl, remainBy_eq_filter dst t.m_rqueue hq, ?_⟩
    show repliesTo d ((t.out ++ discoveryTrace t dst) ++
      resolvedReplies r (drainedBy dst t.m_rqueue)) = _
    rw [repliesTo_append, repliesTo_append, repliesTo_discoveryTrace, List.append_nil,
      repliesTo_resolvedReplies, drainedBy_eq_filter dst t.m_rqueue hq]

theorem filter3_nil (a b : Mac48Address) (q : List QueuedPacket) :
    ((q.filter (fun p => !decide (p.dst = a))).filter (fun p => decide (p.dst = b))).filter
      (fun p => decide (p.dst = a)) = [] := by
  rw [List.filter_filter, List.filter_filter, List.filter_eq_nil_iff]
  intro x _
  by_cases h : x.dst = a <;> simp [h]

theorem filter_idem_dst (a : Mac48Address) (q : List QueuedPacket) :
    (q.filter (fun p => decide (p.dst = a))).filter (fun p => decide (p.dst = a))
      = q.filter (fun p => decide (p.dst = a)) := by
  rw [List.filter_filter]
  congr 1
  funext p
  by_cases h : p.dst = a <;> simp [h]

theorem filter_ne_ne_eq (a b : Mac48Address) (q : List QueuedPacket) :
    ((q.filter (fun p => !decide (p.dst = a))).filter (fun p => !decide (p.dst = b))).filter
      (fun p => decide (p.dst = a)) = [] := by
  rw [List.filter_filter, List.filter_filter, List.filter_eq_nil_iff]
  intro x _
  by_cases h : x.dst = a <;> simp [h]

theorem prep_last_stage {s s3 s1 : HwmpProtocol} {prep : IePrep} {metric : Nat}
    (h1 : (if prep.destinationAddress = s3.m_address then Except.ok s3
       else if (s.m_rtable.LookupReactive s.now prep.destinationAddress).retransmitter
          = GetBroadcast then Except.ok s3
       else
        match mapFind s3.m_interfaces (s.m_rtable.LookupReactive s.now prep.destinationAddress).ifIndex with
        | none => Except.error Fault.assertFailed
        | some _ =>
          Except.ok (s3.GetForwardingDelay.2.emit
            [Action.scheduleSendPrep s3.GetForwardingDelay.1
              (s.m_rtable.LookupReactive s.now prep.destinationAddress).ifIndex
              (prep.IncrementMetric metric)
              (s.m_rtable.LookupReactive s.now prep.destinationAddress).retransmitter])) = .ok s1)
    (d : Mac48Address) :
    s1.now = s3.now ∧ s1.m_rtable = s3.m_rtable ∧ s1.m_rqueue = s3.m_rqueue ∧
      repliesTo d s1.out = repliesTo d s3.out := by
  split at h1
  · cases h1; exact ⟨rfl, rfl, rfl, rfl⟩
  · split at h1
    · cases h1; exact ⟨rfl, rfl, rfl, rfl⟩
    · split at h1
      · cases h1
      · cases h1
        refine ⟨rfl, rfl, rfl, ?_⟩
        show repliesTo d (s3.out ++ _) = _
        rw [repliesTo_append]
        exact List.append_nil _

/-- The converse of `ReceivePrep_inv`: the stages of `ReceivePrep` put together. -/
theorem ReceivePrep_of_stages {s s1 s2 s3 : HwmpProtocol} {prep0 : IePrep} {from_ : Mac48Address}
    {interface : Nat} {fromMp : Mac48Address} {metric : Nat} {freshInfo : Bool}
    (hacc : HwmpProtocol.prepAccept (mapFind s.m_hwmpSeqnoMetricDatabase prep0.originatorAddress)
      prep0.destinationSeqNumber = some freshInfo)
    (h2 : (if freshInfo = true ∨
          (s.m_rtable.LookupReactive s.now prep0.originatorAddress).retransmitter = GetBroadcast ∨
          (s.m_rtable.LookupReactive s.now prep0.originatorAddress).metric >
            u32 (prep0.metric + metric) then
        ((s.setSeqnoMetric prep0.originatorAddress prep0.destinationSeqNumber
          (u32 (prep0.metric + metric))).prepInstall (prep0.IncrementMetric metric) from_ interface
          (s.m_rtable.LookupReactive s.now prep0.destinationAddress)).ReactivePathResolved
            prep0.originatorAddress
       else .ok (s.setSeqnoMetric prep0.originatorAddress prep0.destinationSeqNumber
          (u32 (prep0.metric + metric)))) = .ok s2)
    (h3 : (if (s2.m_rtable.LookupReactive s2.now fromMp).retransmitter = GetBroadcast ∨
          (s2.m_rtable.LookupReactive s2.now fromMp).metric > metric then
        s2.installReactive fromMp from_ interface metric prep0.lifetime prep0.destinationSeqNumber
       else .ok s2) = .ok s3)
    (h1 : (if prep0.destinationAddress = s3.m_address then Except.ok s3
       else if (s.m_rtable.LookupReactive s.now prep0.destinationAddress).retransmitter
          = GetBroadcast then Except.ok s3
       else
        match mapFind s3.m_interfaces (s.m_rtable.LookupReactive s.now prep0.destinationAddress).ifIndex with
        | none => Except.error Fault.assertFailed
        | some _ =>
          Except.ok (s3.GetForwardingDelay.2.emit
            [Action.scheduleSendPrep s3.GetForwardingDelay.1
              (s.m_rtable.LookupReactive s.now prep0.destinationAddress).ifIndex
              (prep0.IncrementMetric metric)
              (s.m_rtable.LookupReactive s.now prep0.destinationAddress).retransmitter])) = .ok s1) :
    s.ReceivePrep prep0 from_ interface fromMp metric = .ok s1 := by
  unfold HwmpProtocol.ReceivePrep
  simp only [IePrep.IncrementMetric] at hacc ⊢
  simp only [hacc]
  rw [bind_ok_iff]
  refine ⟨s2, h2, ?_⟩
  rw [bind_ok_iff]
  exact ⟨s3, h3, h1⟩

theorem ReceivePrep_completes (s : HwmpProtocol) (prep : IePrep) (from_ : Mac48Address)
    (interface : Nat) (fromMp : Mac48Address) (metric : Nat)
    (hacc : HwmpProtocol.prepAccept (mapFind s.m_hwmpSeqnoMetricDatabase prep.originatorAddress)
      prep.destinationSeqNumber = some true)
    (hL : 0 < HwmpProtocol.lifetimeTime prep.lifetime) (hfrom : from_ ≠ GetBroadcast)
    (hif : prep.destinationAddress = s.m_address ∨
      (s.m_rtable.LookupReactive s.now prep.destinationAddress).retransmitter = GetBroadcast ∨
      mapFind s.m_interfaces (s.m_rtable.LookupReactive s.now prep.destinationAddress).ifIndex
        ≠ none) :
    ∃ s1, s.ReceivePrep prep from_ interface fromMp metric = .ok s1 := by
  obtain ⟨fnow, -, -, flook⟩ := prepInstall_fields
    (s.setSeqnoMetric prep.originatorAddress prep.destinationSeqNumber (u32 (prep.metric + metric)))
    (prep.IncrementMetric metric) from_ interface
    (s.m_rtable.LookupReactive s.now prep.destinationAddress)
  have hnow0 : (s.setSeqnoMetric prep.originatorAddress prep.destinationSeqNumber
      (u32 (prep.metric + metric))).now = s.now := rfl
  rw [hnow0] at fnow flook
  have hr := (flook prep.originatorAddress).trans
    (LookupReactive_AddReactivePath s.m_rtable s.now prep.originatorAddress from_ interface
      (u32 (prep.metric + metric)) (HwmpProtocol.lifetimeTime prep.lifetime)
      prep.destinationSeqNumber hL)
  have h2 : ∃ s2, ((s.setSeqnoMetric prep.originatorAddress prep.destinationSeqNumber
      (u32 (prep.metric + metric))).prepInstall (prep.IncrementMetric metric) from_ interface
      (s.m_rtable.LookupReactive s.now prep.destinationAddress)).ReactivePathResolved
        prep.originatorAddress = .ok s2 := by
    rw [ReactivePathResolved_eq, fnow, hr, if_neg hfrom]
    exact ⟨_, rfl⟩
  obtain ⟨s2, h2⟩ := h2
  have f2 : Frame (s.setSeqnoMetric prep.originatorAddress prep.destinationSeqNumber
      (u32 (prep.metric + metric))) s2 :=
    (prepInstall_frame _ _ _ _ _).frame_trans (ReactivePathResolved_frame h2)
  obtain ⟨s3, h3⟩ := stage_ok s2
    ((s2.m_rtable.LookupReactive s2.now fromMp).retransmitter = GetBroadcast ∨
      (s2.m_rtable.LookupReactive s2.now fromMp).metric > metric)
    fromMp from_ interface metric prep.lifetime prep.destinationSeqNumber hL hfrom
  have f3 : Frame (s.setSeqnoMetric prep.originatorAddress prep.destinationSeqNumber
      (u32 (prep.metric + metric))) s3 := f2.frame_trans (stage_quiet _ h3).2
  have ha : s3.m_address = s.m_address := f3.address
  have hi : s3.m_interfaces = s.m_interfaces := f3.interfaces
  have h1 : ∃ s1, (if prep.destinationAddress = s3.m_address then Except.ok s3
       else if (s.m_rtable.LookupReactive s.now prep.destinationAddress).retransmitter
          = GetBroadcast then Except.ok s3
       else
        match mapFind s3.m_interfaces (s.m_rtable.LookupReactive s.now prep.destinationAddress).ifIndex with
        | none => Except.error Fault.assertFailed
        | some _ =>
          Except.ok (s3.GetForwardingDelay.2.emit
            [Action.scheduleSendPrep s3.GetForwardingDelay.1
              (s.m_rtable.LookupReactive s.now prep.destinationAddress).ifIndex
              (prep.IncrementMetric metric)
              (s.m_rtable.LookupReactive s.now prep.destinationAddress).retransmitter])) = .ok s1 := by
    rw [ha, hi]
    split
    · exact ⟨_, rfl⟩
    · split
      · exact ⟨_, rfl⟩
      · rename_i hne hnb
        rcases hif with hif | hif | hif
        · exact absurd hif hne
        · exact absurd hif hnb
        · split
          · rename_i hnone
            exact absurd hnone hif
          · exact ⟨_, rfl⟩
  obtain ⟨s1, h1⟩ := h1
  exact ⟨s1, ReceivePrep_of_stages hacc (by rw [if_pos (Or.inl rfl)]; exact h2) h3 h1⟩

theorem ReceivePrep_resolved (s s1 : HwmpProtocol) (prep : IePrep) (from_ : Mac48Address)
    (interface : Nat) (fromMp : Mac48Address) (metric : Nat)
    (hacc : HwmpProtocol.prepAccept (mapFind s.m_hwmpSeqnoMetricDatabase prep.originatorAddress)
      prep.destinationSeqNumber = some true)
    (hL : 0 < HwmpProtocol.lifetimeTime prep.lifetime)
    (hq : QueueWf s.m_rqueue)
    (hok : s.ReceivePrep prep from_ interface fromMp metric = .ok s1) :
    s1.m_rtable.LookupReactive s1.now prep.originatorAddress =
      { retransmitter := from_, ifIndex := interface,
        metric := (if fromMp = prep.originatorAddress ∧ metric < u32 (prep.metric + metric)
          then metric else u32 (prep.metric + metric)),
        seqnum := prep.destinationSeqNumber,
        lifetime := HwmpProtocol.lifetimeTime prep.lifetime } ∧
    s1.m_rqueue.filter (fun p => decide (p.dst = prep.originatorAddress)) = [] ∧
    s1.m_rqueue.filter (fun p => !decide (p.dst = prep.originatorAddress) &&
        !decide (p.dst = fromMp)) =
      s.m_rqueue.filter (fun p => !decide (p.dst = prep.originatorAddress) &&
        !decide (p.dst = fromMp)) ∧
    repliesTo prep.originatorAddress s1.out = repliesTo prep.originatorAddress s.out ++
      resolvedReplies
        { retransmitter := from_, ifIndex := interface, metric := u32 (prep.metric + metric),
          seqnum := prep.destinationSeqNumber,
          lifetime := HwmpProtocol.lifetimeTime prep.lifetime }
        (s.m_rqueue.filter (fun p => decide (p.dst = prep.originatorAddress))) := by
  obtain ⟨s2, s3, h2, h3, h1⟩ := ReceivePrep_inv hacc hok
  rw [if_pos (Or.inl rfl)] at h2
  obtain ⟨fnow, fqueue, fout, flook⟩ := prepInstall_fields
    (s.setSeqnoMetric prep.originatorAddress prep.destinationSeqNumber (u32 (prep.metric + metric)))
    (prep.IncrementMetric metric) from_ interface
    (s.m_rtable.LookupReactive s.now prep.destinationAddress)
  have hnow0 : (s.setSeqnoMetric prep.originatorAddress prep.destinationSeqNumber
      (u32 (prep.metric + metric))).now = s.now := rfl
  have hq0 : (s.setSeqnoMetric prep.originatorAddress prep.destinationSeqNumber
      (u32 (prep.metric + metric))).m_rqueue = s.m_rqueue := rfl
  have hout0 : (s.setSeqnoMetric prep.originatorAddress prep.destinationSeqNumber
      (u32 (prep.metric + metric))).out = s.out := rfl
  rw [hnow0] at fnow flook
  rw [hq0] at fqueue
  rw [hout0] at fout
  have hr := (flook prep.originatorAddress).trans
    (LookupReactive_AddReactivePath s.m_rtable s.now prep.originatorAddress from_ interface
      (u32 (prep.metric + metric)) (HwmpProtocol.lifetimeTime prep.lifetime)
      prep.destinationSeqNumber hL)
  obtain ⟨hfrom, g2now, g2tab, g2q, g2out⟩ :=
    resolve_stage fnow hr (by rw [fqueue]; exact hq) h2 prep.originatorAddress
  rw [fqueue] at g2q
  rw [fqueue, fout, repliesTo_append, filter_idem_dst] at g2out
  have g2out2 : repliesTo prep.originatorAddress s2.out =
      repliesTo prep.originatorAddress s.out ++ resolvedReplies
        { retransmitter := from_, ifIndex := interface, metric := u32 (prep.metric + metric),
          seqnum := prep.destinationSeqNumber,
          lifetime := HwmpProtocol.lifetimeTime prep.lifetime }
        (s.m_rqueue.filter (fun p => decide (p.dst = prep.originatorAddress))) := by
    rw [g2out]
    congr 1
    exact List.append_nil _
  have hr2 : s2.m_rtable.LookupReactive s2.now prep.originatorAddress =
      { retransmitter := from_, ifIndex := interface, metric := u32 (prep.metric + metric),
        seqnum := prep.destinationSeqNumber,
        lifetime := HwmpProtocol.lifetimeTime prep.lifetime } := by
    rw [g2now, g2tab, fnow]; exact hr
  have hq2 : QueueWf s2.m_rqueue := by rw [g2q]; exact QueueWf_filter _ _ hq
  obtain ⟨g3now, g3look⟩ := stage_lookup _ hL hfrom h3 prep.originatorAddress
  obtain ⟨g3q, g3out⟩ := stage_queue _ hL hfrom hq2 h3 prep.originatorAddress
  obtain ⟨g1now, g1tab, g1q, g1out⟩ := prep_last_stage h1 prep.originatorAddress
  refine ⟨?_, ?_, ?_, ?_⟩
  · rw [g1now, g1tab, g3look]
    by_cases hm : fromMp = prep.originatorAddress
    · subst hm
      rw [hr2]
      by_cases hlt : metric < u32 (prep.metric + metric)
      · rw [if_pos ⟨Or.inr hlt, rfl⟩, if_pos ⟨rfl, hlt⟩]
      · rw [if_neg, if_neg (fun hh => hlt hh.2)]
        rintro ⟨hc | hc, -⟩
        · exact hfrom hc
        · exact hlt hc
    · rw [if_neg (fun hh => hm hh.2), if_neg (fun hh => hm hh.1)]
      exact hr2
  · rw [g1q, g3q, g2q]
    split
    · exact filter_ne_ne_eq _ _ _
    · exact filter_eq_of_filter_ne _ _
  · rw [g1q, g3q, g2q]
    split
    · rw [filter_others_of_filter_ne2, filter_others_of_filter_ne]
    · rw [filter_others_of_filter_ne]
  · rw [g1out, g3out, g2out2, g2q]
    split
    · rw [filter3_nil]
      exact List.append_nil _
    · exact List.append_nil _

/-- C8: for every accepted PREP that carries fresh information and whose
lifetime gives a positive duration, every queued frame carrying a payload:
whenever `ReceivePrep` runs to its end, the lookup of the originator of the PREP
yields next hop `from_`, interface `interface`, the sequence number of the PREP,
and as metric the 32-bit sum of the PREP metric and the link metric, unless the
transmitting mesh point `fromMp` is that originator and the link metric is
smaller than the sum, in which case the metric is the link metric; no frame for
the originator is left in the queue; the frames for destinations other than the
originator and `fromMp` are queued as before; and the route replies for the
originator are those of before followed by one successful reply per frame that
was queued for it, in queue order, on interface `interface`.  The run reaches
its end whenever `from_` is not the broadcast address and the PREP is addressed
to the station, or the station has no path to its destination, or the interface
of that path is installed. -/
theorem prep_resolves_path (s : HwmpProtocol) (prep : IePrep) (from_ : Mac48Address)
    (interface : Nat) (fromMp : Mac48Address) (metric : Nat)
    (hacc : HwmpProtocol.prepAccept (mapFind s.m_hwmpSeqnoMetricDatabase prep.originatorAddress)
      prep.destinationSeqNumber = some true)
    (hL : 0 < HwmpProtocol.lifetimeTime prep.lifetime)
    (hq : QueueWf s.m_rqueue) :
    (∀ s1, s.ReceivePrep prep from_ interface fromMp metric = .ok s1 →
      s1.m_rtable.LookupReactive s1.now prep.originatorAddress =
        { retransmitter := from_, ifIndex := interface,
          metric := (if fromMp = prep.originatorAddress ∧ metric < u32 (prep.metric + metric)
            then metric else u32 (prep.metric + metric)),
          seqnum := prep.destinationSeqNumber,
          lifetime := HwmpProtocol.lifetimeTime prep.lifetime } ∧
      s1.m_rqueue.filter (fun p => decide (p.dst = prep.originatorAddress)) = [] ∧
      s1.m_rqueue.filter (fun p => !decide (p.dst = prep.originatorAddress) &&
          !decide (p.dst = fromMp)) =
        s.m_rqueue.filter (fun p => !decide (p.dst = prep.originatorAddress) &&
          !decide (p.dst = fromMp)) ∧
      repliesTo prep.originatorAddress s1.out = repliesTo prep.originatorAddress s.out ++
        resolvedReplies
          { retransmitter := from_, ifIndex := interface, metric := u32 (prep.metric + metric),
            seqnum := prep.destinationSeqNumber,
            lifetime := HwmpProtocol.lifetimeTime prep.lifetime }
          (s.m_rqueue.filter (fun p => decide (p.dst = prep.originatorAddress)))) ∧
    (from_ ≠ GetBroadcast →
      (prep.destinationAddress = s.m_address ∨
        (s.m_rtable.LookupReactive s.now prep.destinationAddress).retransmitter = GetBroadcast ∨
        mapFind s.m_interfaces (s.m_rtable.LookupReactive s.now prep.destinationAddress).ifIndex
          ≠ none) →
      ∃ s1, s.ReceivePrep prep from_ interface fromMp metric = .ok s1) :=
  ⟨fun s1 hok => ReceivePrep_resolved s s1 prep from_ interface fromMp metric hacc hL hq hok,
   fun hfrom hif => ReceivePrep_completes s prep from_ interface fromMp metric hacc hL hfrom hif⟩

/-- Witness for C8: station 7 holds two frames for the target 5 and one for the
target 8 when the PREP of 5 arrives from neighbour 3 on interface 1 over a link
of metric 10. -/
theorem prep_resolves_path_witness :
    ∃ s1, waiting7.ReceivePrep prepFrom5 3 1 3 10 = .ok s1 ∧
      s1.m_rtable.LookupReactive s1.now 5 =
        { retransmitter := 3, ifIndex := 1, metric := 20, seqnum := 4, lifetime := 102400 } ∧
      s1.m_rqueue.filter (fun p => decide (p.dst = 5)) = [] ∧
      (repliesTo 5 s1.out).length = 2 := by
  obtain ⟨hA, hB⟩ := prep_resolves_path waiting7 prepFrom5 3 1 3 10 rfl (by decide)
    (by unfold QueueWf; decide)
  obtain ⟨s1, h1⟩ := hB (by decide) (Or.inl rfl)
  obtain ⟨a, b, _, d⟩ := hA s1 h1
  exact ⟨s1, h1, a, b, (congrArg List.length d).trans rfl⟩

/-- C8, counterexample: station 7 receives the PREP of originator 5, metric 10,
directly from the mesh point 5 over a link of metric 10.  The PREP is accepted
as fresh and its lifetime is positive, yet after `ReceivePrep` the lookup of 5
yields metric 10, the link metric, not `10 + 10`. -/
theorem prep_metric_replaced_by_link_metric :
    HwmpProtocol.prepAccept (mapFind waiting7.m_hwmpSeqnoMetricDatabase
      prepFrom5.originatorAddress) prepFrom5.destinationSeqNumber = some true ∧
    0 < HwmpProtocol.lifetimeTime prepFrom5.lifetime ∧
    run waiting7 [Call.receivePrep prepFrom5 5 1 5 10]
      = .ok (after waiting7 [Call.receivePrep prepFrom5 5 1 5 10]) ∧
    (after waiting7 [Call.receivePrep prepFrom5 5 1 5 10]).m_rtable.LookupReactive
      (after waiting7 [Call.receivePrep prepFrom5 5 1 5 10]).now 5 =
        { retransmitter := 5, ifIndex := 1, metric := 10, seqnum := 4, lifetime := 102400 } ∧
    prepFrom5.metric + 10 = 20 :=
  ⟨rfl, by decide, rfl, rfl, rfl⟩

/-! ## Path errors on a failed link -/

theorem LookupReactiveExpired_none (t : HwmpRtable) (now : Time) (dst : Mac48Address)
    (h : mapFind t.m_routes dst = none) : t.LookupReactiveExpired now dst = LookupResult.sentinel := by
  unfold HwmpRtable.LookupReactiveExpired
  rw [h]

theorem perrCollect_deletes (l : List FailedDestination) :
    ∀ (s : HwmpProtocol) (retval : List (Nat × Mac48Address)) (d : FailedDestination), d ∈ l →
      mapFind (HwmpProtocol.perrCollect l s retval).2.m_rtable.m_routes d.destination = none := by
  induction l with
  | nil => intro s retval d hd; cases hd
  | cons e rest ih =>
    intro s retval d hd
    unfold HwmpProtocol.perrCollect
    rcases List.mem_cons.mp hd with h | h
    · subst h
      refine (perrCollect_stable d.destination rest _ _).noRoute ?_
      simp only [HwmpProtocol.emit]
      rw [DeleteProactivePath_routes]
      unfold HwmpRtable.DeleteReactivePath
      simp only
      rw [mapFind_mapErase, if_pos rfl]
    · exact ih _ _ d h

theorem GetPrecursors_DeleteReactivePath (t : HwmpRtable) (now : Time) (a b : Mac48Address)
    (h : a ≠ b) :
    ((t.DeleteReactivePath a).DeleteProactivePath a).GetPrecursors now b = t.GetPrecursors now b := by
  unfold HwmpRtable.GetPrecursors
  rw [DeleteProactivePath_routes]
  unfold HwmpRtable.DeleteReactivePath
  simp only
  rw [mapFind_mapErase, if_neg h]

theorem perrCollect_nonempty (l : List FailedDestination) :
    ∀ (s : HwmpProtocol) (retval : List (Nat × Mac48Address)),
      (retval ≠ [] ∨ ∃ d ∈ l, s.m_rtable.GetPrecursors s.now d.destination ≠ []) →
      (HwmpProtocol.perrCollect l s retval).1 ≠ [] := by
  induction l with
  | nil =>
    intro s retval h
    rcases h with h | ⟨d, hd, _⟩
    · exact h
    · cases hd
  | cons e rest ih =>
    intro s retval h
    unfold HwmpProtocol.perrCollect
    by_cases hr : retval ++ s.m_rtable.GetPrecursors s.now e.destination = []
    · obtain ⟨hr1, hr2⟩ := List.append_eq_nil.mp hr
      rcases h with h | ⟨d, hd, hp⟩
      · exact absurd hr1 h
      · rcases List.mem_cons.mp hd with h1 | h1
        · subst h1
          exact absurd hr2 hp
        · have hne : e.destination ≠ d.destination := by
            intro he
            rw [← he] at hp
            exact hp hr2
          refine ih _ _ (Or.inr ⟨d, h1, ?_⟩)
          simp only [HwmpProtocol.emit]
          rw [GetPrecursors_DeleteReactivePath _ _ _ _ hne]
          exact hp
    · exact ih _ _ (Or.inl hr)

theorem perrDedupInner_head (i : Nat) : ∀ (fuel j : Nat) (r : List (Nat × Mac48Address)),
    (HwmpProtocol.perrDedupInner i fuel (j + 1) r).head? = r.head? := by
  intro fuel
  induction fuel with
  | zero => intro j r; rfl
  | succ n ih =>
    intro j r
    unfold HwmpProtocol.perrDedupInner
    split
    · split
      · rw [ih]
        cases r with
        | nil => rfl
        | cons a t => rfl
      · exact ih _ _
    · rfl

theorem perrDedupOuter_head : ∀ (fuel i : Nat) (r : List (Nat × Mac48Address)),
    (HwmpProtocol.perrDedupOuter fuel i r).head? = r.head? := by
  intro fuel
  induction fuel with
  | zero => intro i r; rfl
  | succ n ih =>
    intro i r
    unfold HwmpProtocol.perrDedupOuter
    split
    · rw [ih, perrDedupInner_head]
    · rfl

theorem GetPerrReceivers_nonempty (s : HwmpProtocol) (l : List FailedDestination)
    (h : ∃ d ∈ l, s.m_rtable.GetPrecursors s.now d.destination ≠ []) :
    (s.GetPerrReceivers l).1 ≠ [] := by
  unfold HwmpProtocol.GetPerrReceivers
  simp only
  intro hnil
  have h1 := perrCollect_nonempty l s [] (Or.inr h)
  have h2 := perrDedupOuter_head (HwmpProtocol.perrCollect l s []).1.length 0
    (HwmpProtocol.perrCollect l s []).1
  rw [hnil] at h2
  cases hc : (HwmpProtocol.perrCollect l s []).1 with
  | nil => exact h1 hc
  | cons a t => rw [hc] at h2; cases h2

theorem perrCollect_interfaces (l : List FailedDestination) :
    ∀ (s : HwmpProtocol) (retval : List (Nat × Mac48Address)),
      (HwmpProtocol.perrCollect l s retval).2.m_interfaces = s.m_interfaces := by
  induction l with
  | nil => intro s retval; rfl
  | cons e rest ih =>
    intro s retval
    unfold HwmpProtocol.perrCollect
    exact (ih _ _).trans rfl

theorem makePathErrorLoop_interfaces (l : List FailedDestination) :
    ∀ s : HwmpProtocol, (HwmpProtocol.makePathErrorLoop l s).m_interfaces = s.m_interfaces := by
  induction l with
  | nil => intro s; rfl
  | cons e rest ih =>
    intro s
    unfold HwmpProtocol.makePathErrorLoop
    exact (ih _).trans rfl

theorem perrCollect_stats (l : List FailedDestination) :
    ∀ (s : HwmpProtocol) (retval : List (Nat × Mac48Address)),
      (HwmpProtocol.perrCollect l s retval).2.m_stats = s.m_stats := by
  induction l with
  | nil => intro s retval; rfl
  | cons e rest ih =>
    intro s retval
    unfold HwmpProtocol.perrCollect
    exact (ih _ _).trans rfl

theorem makePathErrorLoop_stats (l : List FailedDestination) :
    ∀ s : HwmpProtocol, (HwmpProtocol.makePathErrorLoop l s).m_stats = s.m_stats := by
  induction l with
  | nil => intro s; rfl
  | cons e rest ih =>
    intro s
    unfold HwmpProtocol.makePathErrorLoop
    exact (ih _).trans rfl

theorem MakePathError_interfaces (s : HwmpProtocol) (l : List FailedDestination) :
    (s.MakePathError l).2.m_interfaces = s.m_interfaces := by
  unfold HwmpProtocol.MakePathError HwmpProtocol.GetPerrReceivers
  simp only
  split
  · exact perrCollect_interfaces l s []
  · exact (makePathErrorLoop_interfaces l _).trans (perrCollect_interfaces l s [])

theorem MakePathError_deletes (s : HwmpProtocol) (l : List FailedDestination)
    (d : FailedDestination) (hd : d ∈ l) :
    mapFind (s.MakePathError l).2.m_rtable.m_routes d.destination = none := by
  unfold HwmpProtocol.MakePathError HwmpProtocol.GetPerrReceivers
  simp only
  split
  · exact perrCollect_deletes l s [] d hd
  · refine (makePathErrorLoop_stable d.destination l _).noRoute ?_
    exact perrCollect_deletes l s [] d hd

theorem MakePathError_destinations (s : HwmpProtocol) (l : List FailedDestination)
    (h : ∃ d ∈ l, s.m_rtable.GetPrecursors s.now d.destination ≠ []) :
    (s.MakePathError l).1.destinations = l ∧ (s.MakePathError l).1.receivers ≠ [] ∧
      (s.MakePathError l).2.m_stats.initiatedPerr = s.m_stats.initiatedPerr + 1 := by
  have hne := GetPerrReceivers_nonempty s l h
  have hlen : ¬ (s.GetPerrReceivers l).1.length = 0 := fun h0 => hne (List.length_eq_zero.mp h0)
  unfold HwmpProtocol.MakePathError
  simp only [hlen, if_false]
  refine ⟨trivial, hne, ?_⟩
  rw [makePathErrorLoop_stats]
  show (HwmpProtocol.perrCollect l s []).2.m_stats.initiatedPerr + 1 = _
  rw [perrCollect_stats]

/-- C11: for every list `L` of failed destinations, after `MakePathError (L)` the
table holds no reactive record for any address of `L`: `LookupReactiveExpired`
returns the sentinel, whose next hop is the broadcast address.  When at least
one address of `L` has a precursor, the returned `PathError` has receivers and
its destination list is `L` itself, same order, addresses and sequence numbers.
`PeerLinkStatus` with status `false` leaves the table that `MakePathError` leaves
for the destinations unreachable through the peer and hands the returned
`PathError` to `InitiatePerr` on every interface; with status `true` it returns
the station unchanged. -/
theorem peer_link_down_perr (s : HwmpProtocol) (L : List FailedDestination)
    (meshPointAddress peerAddress : Mac48Address) (interface : Nat) :
    (∀ d ∈ L, ∀ now : Time,
      (s.MakePathError L).2.m_rtable.LookupReactiveExpired now d.destination
        = LookupResult.sentinel) ∧
    LookupResult.sentinel.retransmitter = GetBroadcast ∧
    ((∃ d ∈ L, s.m_rtable.GetPrecursors s.now d.destination ≠ []) →
      (s.MakePathError L).1.destinations = L ∧ (s.MakePathError L).1.receivers ≠ []) ∧
    (s.PeerLinkStatus meshPointAddress peerAddress interface false).m_rtable =
      (s.MakePathError (s.m_rtable.GetUnreachableDestinations peerAddress)).2.m_rtable ∧
    (s.PeerLinkStatus meshPointAddress peerAddress interface false).out =
      (s.MakePathError (s.m_rtable.GetUnreachableDestinations peerAddress)).2.out ++
        s.m_interfaces.map (fun k => Action.macInitiatePerr k.1
          (s.MakePathError (s.m_rtable.GetUnreachableDestinations peerAddress)).1.destinations
          (HwmpProtocol.receiversForInterface
            (s.MakePathError (s.m_rtable.GetUnreachableDestinations peerAddress)).1 k.1)) ∧
    s.PeerLinkStatus meshPointAddress peerAddress interface true = s := by
  refine ⟨?_, rfl, ?_, rfl, ?_, rfl⟩
  · intro d hd now
    exact LookupReactiveExpired_none _ now _ (MakePathError_deletes s L d hd)
  · intro h
    exact ⟨(MakePathError_destinations s L h).1, (MakePathError_destinations s L h).2.1⟩
  · show (s.MakePathError _).2.out ++ (s.MakePathError _).2.m_interfaces.map _ = _
    rw [MakePathError_interfaces]

/-! ## Duplicate broadcast frames -/

theorem sdiff_neg_iff (a b : Nat) :
    sdiff a b < 0 ↔ (sdiff b a > 0 ∨ sub32 b a = 2147483648) := by
  unfold sdiff asInt32 sub32 u32
  constructor
  · intro h
    split at h <;> split <;> omega
  · intro h
    split at h <;> split <;> omega

/-- C12: `DropDataFrame (seqno, source)` for the station's own address returns
`true` and changes nothing.  For another source without a stored number it
returns `false` and stores `seqno`.  For another source with the stored number
`last` it returns `false` exactly when `(int32)(last - seqno) < 0` and then
stores `seqno`, and otherwise (an equal number included) returns `true` and
changes nothing; no other source's number is ever touched.  The test
`(int32)(last - seqno) < 0` holds exactly when `(int32)(seqno - last) > 0` or
`seqno - last` is `2^31` modulo `2^32`. -/
theorem DropDataFrame_dedup (s : HwmpProtocol) (seqno : Nat) (source : Mac48Address) :
    (source = s.m_address → s.DropDataFrame seqno source = (true, s)) ∧
    (source ≠ s.m_address → mapFind s.m_lastDataSeqno source = none →
      (s.DropDataFrame seqno source).1 = false ∧
      mapFind (s.DropDataFrame seqno source).2.m_lastDataSeqno source = some seqno) ∧
    (∀ last, source ≠ s.m_address → mapFind s.m_lastDataSeqno source = some last →
      ((s.DropDataFrame seqno source).1 = false ↔ sdiff last seqno < 0) ∧
      (sdiff last seqno < 0 →
        mapFind (s.DropDataFrame seqno source).2.m_lastDataSeqno source = some seqno) ∧
      (¬ sdiff last seqno < 0 → s.DropDataFrame seqno source = (true, s)) ∧
      (sdiff last seqno < 0 ↔ (sdiff seqno last > 0 ∨ sub32 seqno last = 2147483648)) ∧
      (seqno = last → s.DropDataFrame seqno source = (true, s))) ∧
    (∀ other, other ≠ source →
      mapFind (s.DropDataFrame seqno source).2.m_lastDataSeqno other
        = mapFind s.m_lastDataSeqno other) := by
  refine ⟨?_, ?_, ?_, ?_⟩
  · intro h
    unfold HwmpProtocol.DropDataFrame
    rw [if_pos h]
  · intro h hn
    unfold HwmpProtocol.DropDataFrame
    rw [if_neg h, hn]
    exact ⟨rfl, by simp only [mapFind_mapInsert, if_true]⟩
  · intro last h hl
    have hd : s.DropDataFrame seqno source =
        (if sdiff last seqno ≥ 0 then (true, s)
         else (false, { s with m_lastDataSeqno := mapInsert source seqno s.m_lastDataSeqno })) := by
      unfold HwmpProtocol.DropDataFrame
      rw [if_neg h, hl]
    refine ⟨?_, ?_, ?_, sdiff_neg_iff last seqno, ?_⟩
    · rw [hd]
      by_cases hc : sdiff last seqno ≥ 0
      · rw [if_pos hc]
        constructor
        · intro hh; cases hh
        · intro hh; omega
      · rw [if_neg hc]
        exact ⟨fun _ => by omega, fun _ => rfl⟩
    · intro hc
      rw [hd, if_neg (by omega)]
      simp only [mapFind_mapInsert, if_true]
    · intro hc
      rw [hd, if_pos (by omega)]
    · intro he
      rw [hd, he, sdiff_self, if_pos (le_refl _)]
  · intro other ho
    unfold HwmpProtocol.DropDataFrame
    split
    · rfl
    · split
      · simp only [mapFind_mapInsert, if_neg (Ne.symm ho)]
      · split
        · rfl
        · simp only [mapFind_mapInsert, if_neg (Ne.symm ho)]

/-- C12, counterexample: station 7 has recorded number 0 for source 5; the frame
of source 5 with number `2^31` is accepted and `2^31` is stored, although
`(int32)(2^31 - 0)` is not positive. -/
theorem data_frame_accepted_at_half_range :
    (station7.DropDataFrame 0 5).1 = false ∧
    mapFind (station7.DropDataFrame 0 5).2.m_lastDataSeqno 5 = some 0 ∧
    ((station7.DropDataFrame 0 5).2.DropDataFrame 2147483648 5).1 = false ∧
    mapFind ((station7.DropDataFrame 0 5).2.DropDataFrame 2147483648 5).2.m_lastDataSeqno 5
      = some 2147483648 ∧
    ¬ sdiff 2147483648 0 > 0 :=
  ⟨rfl, rfl, by decide, by decide, by decide⟩

/-! ## Frames entering RequestRoute -/

/-- C13: a frame that enters `RequestRoute` from an interface other than the one
of the mesh point and carries a tag has the TTL of its tag decremented by one in
8 bits.  If the result is zero `RequestRoute` returns `false` and the station is
the one before with `droppedTtl` increased by one: the log of calls, the table,
the queue, the discovery timers and the other counters are the same.  Otherwise
`RequestRoute` hands the frame on with the decremented tag, which for a received
TTL between 1 and 255 carries the received TTL minus one. -/
theorem mesh_frame_ttl (s : HwmpProtocol) (sourceIface : Nat) (source destination : Mac48Address)
    (constPacket : Packet) (t : HwmpTag) (protocolType routeReply : Nat)
    (hif : sourceIface ≠ s.mpIfIndex) (htag : constPacket.tag = some t) :
    t.DecrementTtl.ttl = (t.ttl + 255) % 256 ∧
    (t.ttl < 256 → (t.DecrementTtl.ttl = 0 ↔ t.ttl = 1)) ∧
    (1 ≤ t.ttl → t.ttl < 256 → t.DecrementTtl.ttl = t.ttl - 1) ∧
    (t.DecrementTtl.ttl = 0 →
      s.RequestRoute sourceIface source destination constPacket protocolType routeReply
        = .ok (false, countDroppedTtl s) ∧
      (countDroppedTtl s).m_stats.droppedTtl = s.m_stats.droppedTtl + 1 ∧
      (countDroppedTtl s).out = s.out ∧ (countDroppedTtl s).m_rtable = s.m_rtable ∧
      (countDroppedTtl s).m_rqueue = s.m_rqueue ∧
      (countDroppedTtl s).m_preqTimeouts = s.m_preqTimeouts ∧
      (countDroppedTtl s).m_stats = { s.m_stats with droppedTtl := s.m_stats.droppedTtl + 1 }) ∧
    (t.DecrementTtl.ttl ≠ 0 →
      s.RequestRoute sourceIface source destination constPacket protocolType routeReply
        = HwmpProtocol.dispatch s sourceIface source destination { constPacket with tag := none }
            t.DecrementTtl protocolType routeReply) := by
  refine ⟨rfl, ?_, ?_, ?_, ?_⟩
  · intro h
    show (t.ttl + 255) % 256 = 0 ↔ _
    omega
  · intro h1 h2
    show (t.ttl + 255) % 256 = _
    omega
  · intro h0
    refine ⟨?_, rfl, rfl, rfl, rfl, rfl, rfl⟩
    unfold HwmpProtocol.RequestRoute
    rw [if_neg hif]
    simp only [htag]
    rw [if_pos h0]
    rfl
  · intro h0
    unfold HwmpProtocol.RequestRoute
    rw [if_neg hif]
    simp only [htag]
    rw [if_neg h0]

/-- Witness for C13: station 7 receives on interface 1 a frame for destination 9
whose tag carries TTL 1. -/
theorem mesh_frame_ttl_witness :
    station7.RequestRoute 1 5 9 (meshFrame 1) 2048 0 = .ok (false, countDroppedTtl station7) ∧
    (countDroppedTtl station7).m_stats.droppedTtl = 1 :=
  ⟨((mesh_frame_ttl station7 1 5 9 (meshFrame 1) { address := 7, ttl := 1, seqno := 0 } 2048 0
      (by decide) rfl).2.2.2.1 rfl).1, rfl⟩

theorem ForwardUnicast_hit (s : HwmpProtocol) (sourceIface : Nat) (source destination : Mac48Address)
    (packet : Packet) (protocolType routeReply ttl : Nat)
    (hdst : destination ≠ GetBroadcast)
    (hpath : (s.lookupPath destination).retransmitter ≠ GetBroadcast) :
    s.ForwardUnicast sourceIface source destination packet protocolType routeReply ttl =
      .ok (true, (s.emit [Action.routeReply routeReply true
        (unicastFrame packet (s.lookupPath destination).retransmitter ttl) source destination
        protocolType (s.lookupPath destination).ifIndex]).countUnicast packet.size) := by
  unfold HwmpProtocol.ForwardUnicast
  rw [if_neg hdst]
  simp only
  rw [if_pos hpath]
  rfl

/-- C14: for a unicast frame to a destination with a valid reactive path, or
failing that a valid proactive path, `RequestRoute` returns `true` and the
station afterwards is the one before with one route reply appended to its log
of calls (success, the frame tagged with the next hop of the path and the TTL,
the interface of the path), `txUnicast` increased by one and `txBytes` by the
frame size: the queue, the discovery timers, the table, the HWMP sequence number
and the other counters are the same and no call to a MAC plugin is made.  The
TTL is `maxTtl` for a frame of the upper layer and the decremented TTL of the
received tag for a forwarded frame.  The path is the valid reactive path
whenever there is one. -/
theorem unicast_hit (s : HwmpProtocol) (source destination : Mac48Address)
    (packet : Packet) (protocolType routeReply : Nat)
    (hdst : destination ≠ GetBroadcast)
    (hpath : (s.lookupPath destination).retransmitter ≠ GetBroadcast) :
    ((s.m_rtable.LookupReactive s.now destination).retransmitter ≠ GetBroadcast →
      s.lookupPath destination = s.m_rtable.LookupReactive s.now destination) ∧
    ((s.m_rtable.LookupReactive s.now destination).retransmitter = GetBroadcast →
      s.lookupPath destination = s.m_rtable.LookupProactive s.now) ∧
    (∀ sourceIface ttl, ∃ s1,
      s.ForwardUnicast sourceIface source destination packet protocolType routeReply ttl
        = .ok (true, s1) ∧
      s1.out = s.out ++ [Action.routeReply routeReply true
        (unicastFrame packet (s.lookupPath destination).retransmitter ttl) source destination
        protocolType (s.lookupPath destination).ifIndex] ∧
      s1.m_stats = { s.m_stats with txUnicast := s.m_stats.txUnicast + 1,
                                    txBytes := s.m_stats.txBytes + packet.size } ∧
      s1.m_rqueue = s.m_rqueue ∧ s1.m_preqTimeouts = s.m_preqTimeouts ∧
      s1.m_rtable = s.m_rtable ∧ s1.m_hwmpSeqno = s.m_hwmpSeqno) ∧
    (packet.tag = none →
      s.RequestRoute s.mpIfIndex source destination packet protocolType routeReply =
        s.ForwardUnicast s.mpIfIndex source destination packet protocolType routeReply
          s.m_maxTtl) ∧
    (∀ sourceIface t, sourceIface ≠ s.mpIfIndex → packet.tag = some t → t.DecrementTtl.ttl ≠ 0 →
      s.RequestRoute sourceIface source destination packet protocolType routeReply =
        s.ForwardUnicast sourceIface source destination { packet with tag := none } protocolType
          routeReply t.DecrementTtl.ttl) := by
  refine ⟨?_, ?_, ?_, ?_, ?_⟩
  · intro h
    unfold HwmpProtocol.lookupPath
    rw [if_neg h]
  · intro h
    unfold HwmpProtocol.lookupPath
    rw [if_pos h]
  · intro sourceIface ttl
    exact ⟨_, ForwardUnicast_hit s sourceIface source destination packet protocolType routeReply
      ttl hdst hpath, rfl, rfl, rfl, rfl, rfl, rfl⟩
  · intro ht
    unfold HwmpProtocol.RequestRoute
    rw [if_pos rfl]
    simp only [ht]
    rw [if_neg hdst]
    unfold HwmpProtocol.dispatch
    rw [if_neg hdst]
  · intro sourceIface t hif ht h0
    unfold HwmpProtocol.RequestRoute
    rw [if_neg hif]
    simp only [ht]
    rw [if_neg h0]
    unfold HwmpProtocol.dispatch
    rw [if_neg hdst]

/-- Witness for C14: station 7 holds a reactive path to 5 through neighbour 3 on
interface 1 and is handed a frame for 5 by the upper layer. -/
theorem unicast_hit_witness :
    ∃ s1, routed7.RequestRoute 0 7 5 upperFrame 2048 0 = .ok (true, s1) ∧
      s1.out = routed7.out ++ [Action.routeReply 0 true
        { size := 100, tag := some { address := 3, ttl := 32, seqno := 0 } } 7 5 2048 1] ∧
      s1.m_stats.txUnicast = 1 ∧ s1.m_rqueue = [] := by
  obtain ⟨_, _, h3, h4, _⟩ := unicast_hit routed7 7 5 upperFrame 2048 0 (by decide) (by decide)
  obtain ⟨s1, a, b, c, d, _⟩ := h3 0 32
  refine ⟨s1, (h4 rfl).trans a, b, ?_, ?_⟩
  · rw [c]; rfl
  · rw [d]; rfl

theorem unicastPreq_pending (s : HwmpProtocol) (dst : Mac48Address) (ev : PreqEvent)
    (h : mapFind s.m_preqTimeouts dst = some ev) : s.unicastPreq dst = s := by
  unfold HwmpProtocol.unicastPreq HwmpProtocol.ShouldSendPreq
  simp only [h]
  rfl

theorem unicastPreq_started (s : HwmpProtocol) (dst : Mac48Address)
    (h : mapFind s.m_preqTimeouts dst = none) :
    (s.unicastPreq dst).out = s.out ++ s.m_interfaces.map (fun i =>
        Action.macRequestDestination i.1 dst (u32 (s.m_hwmpSeqno + 1))
          (if (s.m_rtable.LookupReactiveExpired s.now dst).retransmitter ≠ GetBroadcast then
            (s.m_rtable.LookupReactiveExpired s.now dst).seqnum else 0)) ∧
    (s.unicastPreq dst).m_hwmpSeqno = u32 (s.m_hwmpSeqno + 1) ∧
    (s.unicastPreq dst).m_stats = { s.m_stats with initiatedPreq := s.m_stats.initiatedPreq + 1 } ∧
    (s.unicastPreq dst).m_preqTimeouts = mapInsert dst
      { preqTimeout :=
          { deadline := s.now + s.m_dot11MeshHWMPnetDiameterTraversalTime * 2, numOfRetry := 1 },
        whenScheduled := s.now } s.m_preqTimeouts ∧
    (s.unicastPreq dst).m_rqueue = s.m_rqueue ∧
    (s.unicastPreq dst).m_maxQueueSize = s.m_maxQueueSize ∧
    (s.unicastPreq dst).m_rtable = s.m_rtable := by
  unfold HwmpProtocol.unicastPreq HwmpProtocol.ShouldSendPreq
  simp only [h, if_true]
  exact ⟨rfl, rfl, rfl, rfl, rfl, rfl, rfl⟩

theorem unicastRequest_queue (s : HwmpProtocol) (sourceIface : Nat) (source destination :
    Mac48Address) (packet : Packet) (protocolType routeReply : Nat) :
    (s.unicastRequest sourceIface source destination packet protocolType routeReply).2.out
      = (s.unicastPreq destination).out ∧
    (s.unicastRequest sourceIface source destination packet protocolType routeReply).2.m_hwmpSeqno
      = (s.unicastPreq destination).m_hwmpSeqno ∧
    (s.unicastRequest sourceIface source destination packet protocolType
      routeReply).2.m_preqTimeouts = (s.unicastPreq destination).m_preqTimeouts ∧
    (s.unicastRequest sourceIface source destination packet protocolType
      routeReply).2.m_stats.initiatedPreq = (s.unicastPreq destination).m_stats.initiatedPreq ∧
    (s.unicastRequest sourceIface source destination packet protocolType routeReply).2.m_rtable
      = (s.unicastPreq destination).m_rtable ∧
    ((s.unicastPreq destination).m_rqueue.length ≤ (s.unicastPreq destination).m_maxQueueSize →
      (s.unicastRequest sourceIface source destination packet protocolType routeReply).1 = true ∧
      (s.unicastRequest sourceIface source destination packet protocolType routeReply).2.m_rqueue
        = (s.unicastPreq destination).m_rqueue ++
          [{ pkt := some packet, src := source, dst := destination, protocol := protocolType,
             inInterface := sourceIface, reply := routeReply }] ∧
      (s.unicastRequest sourceIface source destination packet protocolType
        routeReply).2.m_stats.totalQueued = (s.unicastPreq destination).m_stats.totalQueued + 1 ∧
      (s.unicastRequest sourceIface source destination packet protocolType
        routeReply).2.m_stats.totalDropped = (s.unicastPreq destination).m_stats.totalDropped) ∧
    ((s.unicastPreq destination).m_rqueue.length > (s.unicastPreq destination).m_maxQueueSize →
      (s.unicastRequest sourceIface source destination packet protocolType routeReply).1 = false ∧
      (s.unicastRequest sourceIface source destination packet protocolType routeReply).2.m_rqueue
        = (s.unicastPreq destination).m_rqueue ∧
      (s.unicastRequest sourceIface source destination packet protocolType
        routeReply).2.m_stats.totalQueued = (s.unicastPreq destination).m_stats.totalQueued ∧
      (s.unicastRequest sourceIface source destination packet protocolType
        routeReply).2.m_stats.totalDropped
          = (s.unicastPreq destination).m_stats.totalDropped + 1) := by
  unfold HwmpProtocol.unicastRequest HwmpProtocol.QueuePacket
  by_cases hq : (s.unicastPreq destination).m_rqueue.length > (s.unicastPreq destination).m_maxQueueSize
  · simp only [hq, if_true]
    refine ⟨rfl, rfl, rfl, rfl, rfl, fun h => absurd hq (by omega), fun _ => ⟨by simp, rfl, rfl, rfl⟩⟩
  · simp only [hq, if_false]
    refine ⟨rfl, rfl, rfl, rfl, rfl, fun _ => ⟨by simp, rfl, rfl, rfl⟩, fun h => False.elim h⟩

/-- C15: for a unicast frame of the upper layer to a destination without a valid
reactive or proactive path, `RequestRoute` returns a result.  If no discovery
timer exists for the destination it requests the destination on every
interface, with the incremented HWMP sequence number as origin number and the
sequence number of the reactive record of the destination (expired or not; 0 if
the lookup returns the sentinel) as destination number, counts one initiated
PREQ and installs the timer for twice the net-diameter traversal time with
retry count 1.  If a timer exists the log of calls, the HWMP sequence number,
the counter of initiated PREQs and the timers stay the same.  In both cases the
frame is then queued: when the queue holds at most `maxQueueSize` frames the
result is `true`, the frame is the last of the queue and `totalQueued` is
increased by one; otherwise the result is `false`, the queue is the same and
`totalDropped` is increased by one. -/
theorem unicast_miss_local (s : HwmpProtocol) (source destination : Mac48Address)
    (packet : Packet) (protocolType routeReply : Nat)
    (hdst : destination ≠ GetBroadcast) (htag : packet.tag = none)
    (hpath : (s.lookupPath destination).retransmitter = GetBroadcast) :
    ∃ r, s.RequestRoute s.mpIfIndex source destination packet protocolType routeReply = .ok r ∧
      (mapFind s.m_preqTimeouts destination = none →
        r.2.out = s.out ++ s.m_interfaces.map (fun i =>
          Action.macRequestDestination i.1 destination (u32 (s.m_hwmpSeqno + 1))
            (if (s.m_rtable.LookupReactiveExpired s.now destination).retransmitter ≠ GetBroadcast
             then (s.m_rtable.LookupReactiveExpired s.now destination).seqnum else 0)) ∧
        r.2.m_hwmpSeqno = u32 (s.m_hwmpSeqno + 1) ∧
        r.2.m_stats.initiatedPreq = s.m_stats.initiatedPreq + 1 ∧
        mapFind r.2.m_preqTimeouts destination = some
          { preqTimeout :=
              { deadline := s.now + s.m_dot11MeshHWMPnetDiameterTraversalTime * 2,
                numOfRetry := 1 },
            whenScheduled := s.now }) ∧
      (∀ ev, mapFind s.m_preqTimeouts destination = some ev →
        r.2.out = s.out ∧ r.2.m_hwmpSeqno = s.m_hwmpSeqno ∧
        r.2.m_stats.initiatedPreq = s.m_stats.initiatedPreq ∧
        r.2.m_preqTimeouts = s.m_preqTimeouts) ∧
      (s.m_rqueue.length ≤ s.m_maxQueueSize →
        r.1 = true ∧
        r.2.m_rqueue = s.m_rqueue ++
          [queuedFrame s source destination packet protocolType routeReply] ∧
        r.2.m_stats.totalQueued = s.m_stats.totalQueued + 1 ∧
        r.2.m_stats.totalDropped = s.m_stats.totalDropped) ∧
      (s.m_rqueue.length > s.m_maxQueueSize →
        r.1 = false ∧ r.2.m_rqueue = s.m_rqueue ∧
        r.2.m_stats.totalQueued = s.m_stats.totalQueued ∧
        r.2.m_stats.totalDropped = s.m_stats.totalDropped + 1) ∧
      r.2.m_rtable = s.m_rtable := by
  refine ⟨_, RequestRoute_local_miss s source destination packet protocolType routeReply hdst htag
    hpath, ?_⟩
  obtain ⟨qout, qseq, qtim, qini, qtab, qyes, qno⟩ := unicastRequest_queue s s.mpIfIndex source
    destination (Packet.mk packet.size (some (HwmpTag.mk GetBroadcast (u8 s.m_maxTtl) 0)))
    protocolType routeReply
  have hbase : (s.unicastPreq destination).m_rqueue = s.m_rqueue ∧
      (s.unicastPreq destination).m_maxQueueSize = s.m_maxQueueSize ∧
      (s.unicastPreq destination).m_rtable = s.m_rtable ∧
      (s.unicastPreq destination).m_stats.totalQueued = s.m_stats.totalQueued ∧
      (s.unicastPreq destination).m_stats.totalDropped = s.m_stats.totalDropped := by
    cases ht : mapFind s.m_preqTimeouts destination with
    | none =>
      obtain ⟨_, _, c, _, e, f, g⟩ := unicastPreq_started s destination ht
      exact ⟨e, f, g, by rw [c], by rw [c]⟩
    | some ev =>
      rw [unicastPreq_pending s destination ev ht]
      exact ⟨rfl, rfl, rfl, rfl, rfl⟩
  obtain ⟨bq, bm, bt, btq, btd⟩ := hbase
  refine ⟨?_, ?_, ?_, ?_, ?_⟩
  · intro ht
    obtain ⟨a, b, c, d, _⟩ := unicastPreq_started s destination ht
    refine ⟨qout.trans a, qseq.trans b, ?_, ?_⟩
    · rw [qini, c]
    · rw [qtim, d, mapFind_mapInsert, if_pos rfl]
  · intro ev ht
    have hp := unicastPreq_pending s destination ev ht
    rw [hp] at qout qseq qtim qini
    exact ⟨qout, qseq, qini, qtim⟩
  · intro hroom
    obtain ⟨a, b, c, d⟩ := qyes (by rw [bq, bm]; exact hroom)
    refine ⟨a, ?_, ?_, ?_⟩
    · rw [b, bq]; rfl
    · rw [c, btq]
    · rw [d, btd]
  · intro hfull
    obtain ⟨a, b, c, d⟩ := qno (by rw [bq, bm]; exact hfull)
    refine ⟨a, ?_, ?_, ?_⟩
    · rw [b, bq]
    · rw [c, btq]
    · rw [d, btd]
  · rw [qtab, bt]

/-- Witness for C15: station 7, which knows no path and runs no discovery, is
handed a frame for destination 9 by the upper layer. -/
theorem unicast_miss_local_witness :
    ∃ r, station7.RequestRoute 0 7 9 upperFrame 2048 0 = .ok r ∧ r.1 = true ∧
      r.2.out = [Action.macRequestDestination 1 9 2 0] ∧ r.2.m_rqueue.length = 1 ∧
      r.2.m_stats.totalQueued = 1 := by
  obtain ⟨r, h, hnew, _, hroom, _, _⟩ :=
    unicast_miss_local station7 7 9 upperFrame 2048 0 (by decide) rfl (by decide)
  obtain ⟨a, _, _, _⟩ := hnew rfl
  obtain ⟨b, c, d, _⟩ := hroom (by decide)
  exact ⟨r, h, b, a, by rw [c]; rfl, d⟩

/-! ## Frames from the mesh without a path -/

theorem macCalls_append (l1 l2 : List Action) : macCalls (l1 ++ l2) = macCalls l1 ++ macCalls l2 :=
  List.filter_append l1 l2

theorem perrCollect_keeps (l : List FailedDestination) :
    ∀ (s : HwmpProtocol) (retval : List (Nat × Mac48Address)),
      (HwmpProtocol.perrCollect l s retval).2.m_rqueue = s.m_rqueue ∧
      (HwmpProtocol.perrCollect l s retval).2.m_preqTimeouts = s.m_preqTimeouts ∧
      (HwmpProtocol.perrCollect l s retval).2.m_hwmpSeqno = s.m_hwmpSeqno ∧
      macCalls (HwmpProtocol.perrCollect l s retval).2.out = macCalls s.out := by
  induction l with
  | nil => intro s retval; exact ⟨rfl, rfl, rfl, rfl⟩
  | cons e rest ih =>
    intro s retval
    unfold HwmpProtocol.perrCollect
    obtain ⟨a, b, c, d⟩ := ih
      ((({ ({ s with m_rtable := s.m_rtable.DeleteReactivePath e.destination } : HwmpProtocol).emit
            [HwmpProtocol.deleteTrace RouteChangeType.deleteReactive e] with
          m_rtable := (({ s with m_rtable := s.m_rtable.DeleteReactivePath e.destination } :
            HwmpProtocol).emit [HwmpProtocol.deleteTrace RouteChangeType.deleteReactive
              e]).m_rtable.DeleteProactivePath e.destination } : HwmpProtocol).emit
        [HwmpProtocol.deleteTrace RouteChangeType.deleteProactive e]))
      (retval ++ s.m_rtable.GetPrecursors s.now e.destination)
    refine ⟨a.trans rfl, b.trans rfl, c.trans rfl, d.trans ?_⟩
    show macCalls ((s.out ++ _) ++ _) = _
    rw [macCalls_append, macCalls_append]
    exact (List.append_nil _).trans (List.append_nil _)

theorem makePathErrorLoop_keeps (l : List FailedDestination) :
    ∀ s : HwmpProtocol,
      (HwmpProtocol.makePathErrorLoop l s).m_rqueue = s.m_rqueue ∧
      (HwmpProtocol.makePathErrorLoop l s).m_preqTimeouts = s.m_preqTimeouts ∧
      (HwmpProtocol.makePathErrorLoop l s).m_hwmpSeqno = s.m_hwmpSeqno ∧
      macCalls (HwmpProtocol.makePathErrorLoop l s).out = macCalls s.out := by
  induction l with
  | nil => intro s; exact ⟨rfl, rfl, rfl, rfl⟩
  | cons e rest ih =>
    intro s
    unfold HwmpProtocol.makePathErrorLoop
    obtain ⟨a, b, c, d⟩ := ih
      (({ s with m_rtable := s.m_rtable.DeleteReactivePath e.destination } : HwmpProtocol).emit
        [HwmpProtocol.deleteTrace RouteChangeType.deleteReactive e])
    refine ⟨a.trans rfl, b.trans rfl, c.trans rfl, d.trans ?_⟩
    show macCalls (s.out ++ _) = _
    rw [macCalls_append]
    exact List.append_nil _

theorem MakePathError_keeps (s : HwmpProtocol) (l : List FailedDestination) :
    (s.MakePathError l).2.m_rqueue = s.m_rqueue ∧
    (s.MakePathError l).2.m_preqTimeouts = s.m_preqTimeouts ∧
    (s.MakePathError l).2.m_hwmpSeqno = s.m_hwmpSeqno ∧
    macCalls (s.MakePathError l).2.out = macCalls s.out := by
  unfold HwmpProtocol.MakePathError HwmpProtocol.GetPerrReceivers
  simp only
  split
  · exact perrCollect_keeps l s []
  · obtain ⟨a, b, c, d⟩ := perrCollect_keeps l s []
    obtain ⟨a1, b1, c1, d1⟩ := makePathErrorLoop_keeps l
      ({ (HwmpProtocol.perrCollect l s []).2 with
          m_stats := { (HwmpProtocol.perrCollect l s []).2.m_stats with
            initiatedPerr := (HwmpProtocol.perrCollect l s []).2.m_stats.initiatedPerr + 1 } } :
        HwmpProtocol)
    exact ⟨a1.trans a, b1.trans b, c1.trans c, d1.trans d⟩

/-- The two outcomes of `MakePathError`: without receivers the returned
`PathError` is empty and the counters are untouched; with receivers it carries
the destinations handed in and one more PERR is counted. -/
theorem MakePathError_cases (s : HwmpProtocol) (l : List FailedDestination) :
    ((s.MakePathError l).1.receivers = [] ∧ (s.MakePathError l).1.destinations = [] ∧
      (s.MakePathError l).2.m_stats = s.m_stats) ∨
    ((s.MakePathError l).1.receivers ≠ [] ∧ (s.MakePathError l).1.destinations = l ∧
      (s.MakePathError l).2.m_stats =
        { s.m_stats with initiatedPerr := s.m_stats.initiatedPerr + 1 }) := by
  unfold HwmpProtocol.MakePathError
  simp only
  by_cases h : (s.GetPerrReceivers l).1.length = 0
  · left
    simp only [h, if_true]
    refine ⟨List.length_eq_zero.mp h, trivial, ?_⟩
    exact perrCollect_stats l s []
  · right
    simp only [h, if_false]
    refine ⟨fun hh => h (List.length_eq_zero.mpr hh), trivial, ?_⟩
    rw [makePathErrorLoop_stats]
    show ({ (HwmpProtocol.perrCollect l s []).2.m_stats with
      initiatedPerr := (HwmpProtocol.perrCollect l s []).2.m_stats.initiatedPerr + 1 } : Statistics)
        = _
    rw [perrCollect_stats]

theorem GetPrecursors_deleted (t : HwmpRtable) (now : Time) (a : Mac48Address) :
    ((t.DeleteReactivePath a).DeleteProactivePath a).GetPrecursors now a = [] := by
  unfold HwmpRtable.GetPrecursors
  rw [DeleteProactivePath_routes]
  unfold HwmpRtable.DeleteReactivePath
  simp only
  rw [mapFind_mapErase, if_pos rfl]

theorem perrCollect_empty (l : List FailedDestination) :
    ∀ (s : HwmpProtocol) (retval : List (Nat × Mac48Address)),
      (∀ d ∈ l, s.m_rtable.GetPrecursors s.now d.destination = []) →
      (HwmpProtocol.perrCollect l s retval).1 = retval := by
  induction l with
  | nil => intro s retval _; rfl
  | cons e rest ih =>
    intro s retval h
    unfold HwmpProtocol.perrCollect
    simp only
    rw [h e (List.mem_cons_self _ _), List.append_nil]
    apply ih
    intro d hd
    simp only [HwmpProtocol.emit]
    by_cases he : e.destination = d.destination
    · rw [← he]
      exact GetPrecursors_deleted _ _ _
    · rw [GetPrecursors_DeleteReactivePath _ _ _ _ he]
      exact h d (List.mem_cons_of_mem _ hd)

theorem perrDedupOuter_nil (fuel i : Nat) : HwmpProtocol.perrDedupOuter fuel i [] = [] := by
  cases fuel with
  | zero => rfl
  | succ n =>
    unfold HwmpProtocol.perrDedupOuter
    rw [if_neg (by simp)]

theorem GetPerrReceivers_empty (s : HwmpProtocol) (l : List FailedDestination)
    (h : ∀ d ∈ l, s.m_rtable.GetPrecursors s.now d.destination = []) :
    (s.GetPerrReceivers l).1 = [] := by
  unfold HwmpProtocol.GetPerrReceivers
  simp only
  rw [perrCollect_empty l s [] h]
  exact perrDedupOuter_nil _ _

theorem MakePathError_receivers (s : HwmpProtocol) (l : List FailedDestination) :
    (s.MakePathError l).1.receivers = (s.GetPerrReceivers l).1 := by
  unfold HwmpProtocol.MakePathError
  simp only
  split <;> rfl

theorem RequestRoute_mesh_miss (s : HwmpProtocol) (sourceIface : Nat) (source destination :
    Mac48Address) (packet : Packet) (t : HwmpTag) (protocolType routeReply : Nat)
    (hdst : destination ≠ GetBroadcast) (hif : sourceIface ≠ s.mpIfIndex)
    (htag : packet.tag = some t) (httl : t.DecrementTtl.ttl ≠ 0)
    (hpath : (s.lookupPath destination).retransmitter = GetBroadcast) :
    s.RequestRoute sourceIface source destination packet protocolType routeReply =
      .ok (s.unicastPathError destination) := by
  unfold HwmpProtocol.RequestRoute
  rw [if_neg hif]
  simp only [htag]
  rw [if_neg httl]
  unfold HwmpProtocol.dispatch
  rw [if_neg hdst]
  unfold HwmpProtocol.ForwardUnicast
  rw [if_neg hdst]
  simp only
  rw [if_neg (not_not.mpr hpath), if_pos hif]

/-- C16: a unicast frame received from a mesh interface, whose TTL has not
expired, for a destination without a valid reactive or proactive path is
dropped: `RequestRoute` returns `false`, `totalDropped` is increased by one, the
queue, the discovery timers, the HWMP sequence number and the counters of
queued frames and of initiated PREQs are the same.  If the table holds neither
a reactive record for the destination nor a proactive record, no call to a MAC
plugin is made.  Otherwise the only calls to MAC plugins are one `InitiatePerr`
per interface, for the destinations unreachable through the next hop of the
reactive record or, failing that, of the proactive record: the call names these
destinations and one more PERR is counted when one of them has a precursor, and
it names no destination and has no receiver when none of them has one. -/
theorem unicast_miss_from_mesh (s : HwmpProtocol) (sourceIface : Nat) (source destination :
    Mac48Address) (packet : Packet) (t : HwmpTag) (protocolType routeReply : Nat)
    (hdst : destination ≠ GetBroadcast) (hif : sourceIface ≠ s.mpIfIndex)
    (htag : packet.tag = some t) (httl : t.DecrementTtl.ttl ≠ 0)
    (hpath : (s.lookupPath destination).retransmitter = GetBroadcast) :
    ∃ s1, s.RequestRoute sourceIface source destination packet protocolType routeReply
        = .ok (false, s1) ∧
      s1.m_rqueue = s.m_rqueue ∧ s1.m_preqTimeouts = s.m_preqTimeouts ∧
      s1.m_hwmpSeqno = s.m_hwmpSeqno ∧
      s1.m_stats.totalDropped = s.m_stats.totalDropped + 1 ∧
      s1.m_stats.totalQueued = s.m_stats.totalQueued ∧
      s1.m_stats.initiatedPreq = s.m_stats.initiatedPreq ∧
      s.lookupExpiredPath destination =
        (if (s.m_rtable.LookupReactiveExpired s.now destination).retransmitter = GetBroadcast
         then s.m_rtable.LookupProactiveExpired s.now
         else s.m_rtable.LookupReactiveExpired s.now destination) ∧
      ((s.lookupExpiredPath destination).retransmitter = GetBroadcast →
        s1 = s.countDropped ∧ s1.out = s.out) ∧
      ((s.lookupExpiredPath destination).retransmitter ≠ GetBroadcast →
        macCalls s1.out = macCalls s.out ++ s.m_interfaces.map (fun k =>
          Action.macInitiatePerr k.1
            (s.MakePathError (s.m_rtable.GetUnreachableDestinations
              (s.lookupExpiredPath destination).retransmitter)).1.destinations
            (HwmpProtocol.receiversForInterface
              (s.MakePathError (s.m_rtable.GetUnreachableDestinations
                (s.lookupExpiredPath destination).retransmitter)).1 k.1)) ∧
        ((∃ d ∈ s.m_rtable.GetUnreachableDestinations
              (s.lookupExpiredPath destination).retransmitter,
            s.m_rtable.GetPrecursors s.now d.destination ≠ []) →
          (s.MakePathError (s.m_rtable.GetUnreachableDestinations
            (s.lookupExpiredPath destination).retransmitter)).1.destinations =
              s.m_rtable.GetUnreachableDestinations (s.lookupExpiredPath destination).retransmitter ∧
          s1.m_stats.initiatedPerr = s.m_stats.initiatedPerr + 1) ∧
        ((∀ d ∈ s.m_rtable.GetUnreachableDestinations
              (s.lookupExpiredPath destination).retransmitter,
            s.m_rtable.GetPrecursors s.now d.destination = []) →
          (s.MakePathError (s.m_rtable.GetUnreachableDestinations
            (s.lookupExpiredPath destination).retransmitter)).1.destinations = [] ∧
          (s.MakePathError (s.m_rtable.GetUnreachableDestinations
            (s.lookupExpiredPath destination).retransmitter)).1.receivers = [] ∧
          s1.m_stats.initiatedPerr = s.m_stats.initiatedPerr)) := by
  refine ⟨(s.unicastPathError destination).2,
    RequestRoute_mesh_miss s sourceIface source destination packet t protocolType routeReply hdst
      hif htag httl hpath, ?_⟩
  by_cases he : (s.lookupExpiredPath destination).retransmitter = GetBroadcast
  · have hs : (s.unicastPathError destination).2 = s.countDropped := by
      unfold HwmpProtocol.unicastPathError
      simp only
      rw [if_neg (not_not.mpr he)]
    rw [hs]
    exact ⟨rfl, rfl, rfl, rfl, rfl, rfl, rfl, fun _ => ⟨rfl, rfl⟩, fun h => absurd he h⟩
  · have hs : (s.unicastPathError destination).2 =
        ((s.MakePathError (s.m_rtable.GetUnreachableDestinations
          (s.lookupExpiredPath destination).retransmitter)).2.InitiatePathError
          (s.MakePathError (s.m_rtable.GetUnreachableDestinations
            (s.lookupExpiredPath destination).retransmitter)).1).countDropped := by
      unfold HwmpProtocol.unicastPathError
      simp only
      rw [if_pos he]
    rw [hs]
    obtain ⟨kq, kt, kh, km⟩ := MakePathError_keeps s (s.m_rtable.GetUnreachableDestinations
      (s.lookupExpiredPath destination).retransmitter)
    have ki := MakePathError_interfaces s (s.m_rtable.GetUnreachableDestinations
      (s.lookupExpiredPath destination).retransmitter)
    have kc := MakePathError_cases s (s.m_rtable.GetUnreachableDestinations
      (s.lookupExpiredPath destination).retransmitter)
    have kd := MakePathError_destinations s (s.m_rtable.GetUnreachableDestinations
      (s.lookupExpiredPath destination).retransmitter)
    have ke := GetPerrReceivers_empty s (s.m_rtable.GetUnreachableDestinations
      (s.lookupExpiredPath destination).retransmitter)
    rw [← MakePathError_receivers] at ke
    generalize s.MakePathError (s.m_rtable.GetUnreachableDestinations
      (s.lookupExpiredPath destination).retransmitter) = m at kq kt kh km ki kc kd ke ⊢
    have hstats : m.2.m_stats = s.m_stats ∨
        m.2.m_stats = { s.m_stats with initiatedPerr := s.m_stats.initiatedPerr + 1 } := by
      rcases kc with h | h
      · exact Or.inl h.2.2
      · exact Or.inr h.2.2
    refine ⟨kq, kt, kh, ?_, ?_, ?_, rfl, fun h => absurd h he, fun _ => ⟨?_, ?_, ?_⟩⟩
    · show m.2.m_stats.totalDropped + 1 = _
      rcases hstats with h | h <;> rw [h]
    · show m.2.m_stats.totalQueued = _
      rcases hstats with h | h <;> rw [h]
    · show m.2.m_stats.initiatedPreq = _
      rcases hstats with h | h <;> rw [h]
    · show macCalls (m.2.out ++ m.2.m_interfaces.map _) = _
      rw [macCalls_append, km, ki]
      congr 1
      unfold macCalls
      rw [List.filter_eq_self]
      intro a ha
      obtain ⟨k, _, rfl⟩ := List.mem_map.mp ha
      rfl
    · intro hp
      obtain ⟨a, _, c⟩ := kd hp
      exact ⟨a, c⟩
    · intro hp
      have hr := ke hp
      rcases kc with h | h
      · refine ⟨h.2.1, h.1, ?_⟩
        show m.2.m_stats.initiatedPerr = _
        rw [h.2.2]
      · exact absurd hr h.1

/-- Witness for C16: station 7, whose table is empty, receives on interface 1 a
frame for destination 9 with TTL 5. -/
theorem unicast_miss_from_mesh_witness :
    station7.RequestRoute 1 4 9 (meshFrame 5) 2048 0 = .ok (false, station7.countDropped) ∧
      station7.countDropped.m_stats.totalDropped = 1 ∧ station7.countDropped.out = [] := by
  obtain ⟨s1, h, _, _, _, _, _, _, _, hnone, _⟩ :=
    unicast_miss_from_mesh station7 1 4 9 (meshFrame 5) { address := 7, ttl := 5, seqno := 0 }
      2048 0 (by decide) (by decide) rfl (by decide) (by decide)
  obtain ⟨a, _⟩ := hnone (by decide)
  rw [a] at h
  exact ⟨h, rfl, rfl⟩

/-- C16, counterexample: station 7 holds expired reactive records for 5 and 3,
both through neighbour 3 and without precursors, and receives on interface 1 a
frame for destination 5.  The destinations unreachable through 3 are 3 and 5,
yet the one `InitiatePerr` call that `RequestRoute` makes names no destination
at all. -/
theorem perr_names_no_destination :
    (expired7.lookupPath 5).retransmitter = GetBroadcast ∧
    (expired7.lookupExpiredPath 5).retransmitter = 3 ∧
    expired7.m_rtable.GetUnreachableDestinations 3 =
      [{ destination := 3, seqnum := 6 }, { destination := 5, seqnum := 6 }] ∧
    run expired7 [Call.requestRoute 1 4 5 (meshFrame 5) 2048 0]
      = .ok (after expired7 [Call.requestRoute 1 4 5 (meshFrame 5) 2048 0]) ∧
    macCalls (after expired7 [Call.requestRoute 1 4 5 (meshFrame 5) 2048 0]).out
      = macCalls expired7.out ++ [Action.macInitiatePerr 1 [] []] :=
  ⟨by decide, by decide, by decide, rfl, by decide⟩

/-! ## Broadcast frames -/

theorem broadcastLoop_eq (s : HwmpProtocol) (packet : Packet) (tag : HwmpTag)
    (source destination : Mac48Address) (protocolType routeReply : Nat)
    (rest : List (Nat × HwmpProtocolMac)) :
    ∀ (channels : List Nat) (acc : List Action),
      rest.Pairwise (fun a b => a.1 < b.1) →
      HwmpProtocol.broadcastLoop s packet tag source destination protocolType routeReply rest
          channels acc =
        acc ++ (rest.filter (fun p => !(channels.any (fun chan => chan == p.2.channelId)) &&
            lowestOfChannel rest p)).flatMap (fun p =>
          (s.GetBroadcastReceivers p.1).map (fun address =>
            Action.routeReply routeReply true
              { packet with tag := some { tag with address := address } }
              source destination protocolType p.1)) := by
  induction rest with
  | nil => intro channels acc _; simp [HwmpProtocol.broadcastLoop]
  | cons p rest ih =>
    intro channels acc hs
    obtain ⟨hp, hrest⟩ := List.pairwise_cons.mp hs
    unfold HwmpProtocol.broadcastLoop
    by_cases hc : channels.any (fun chan => chan == p.2.channelId) = true
    · rw [if_pos hc, ih channels acc hrest]
      congr 2
      rw [List.filter_cons_of_neg (by simp [hc])]
      apply List.filter_congr
      intro q hq
      by_cases hqc : channels.any (fun chan => chan == q.2.channelId) = true
      · simp [hqc]
      · have hne : p.2.channelId ≠ q.2.channelId := by
          intro he
          rw [he] at hc
          exact hqc hc
        have hb : (p.2.channelId == q.2.channelId) = false := by simpa using hne
        simp [lowestOfChannel, hb]
    · rw [if_neg hc, ih _ _ hrest, List.append_assoc]
      congr 1
      have hpass : (!(channels.any (fun chan => chan == p.2.channelId)) &&
          lowestOfChannel (p :: rest) p) = true := by
        simp only [Bool.not_eq_true] at hc
        simp only [hc, Bool.not_false, Bool.true_and, lowestOfChannel, List.all_cons,
          Bool.and_eq_true, Bool.or_eq_true, decide_eq_true_eq, List.all_eq_true]
        exact ⟨Or.inr (le_refl _), fun q hq => Or.inr (le_of_lt (hp q hq))⟩
      rw [List.filter_cons, if_pos hpass, List.flatMap_cons]
      congr 2
      apply List.filter_congr
      intro q hq
      have hlt := hp q hq
      have hnle : ¬ q.1 ≤ p.1 := by omega
      by_cases he : p.2.channelId = q.2.channelId
      · simp [lowestOfChannel, he, hnle, List.any_append]
      · have hb : (p.2.channelId == q.2.channelId) = false := by simpa using he
        simp [lowestOfChannel, hb, List.any_append]

theorem lowestOfChannel_exists (l : List (Nat × HwmpProtocolMac)) (q : Nat × HwmpProtocolMac)
    (hq : q ∈ l) : ∃ p ∈ l, lowestOfChannel l p = true ∧ p.2.channelId = q.2.channelId := by
  obtain ⟨p, hp, hmin⟩ := Finset.exists_min_image
    (l.filter (fun r => r.2.channelId == q.2.channelId)).toFinset (fun r => r.1)
    ⟨q, by simp [hq]⟩
  simp only [List.mem_toFinset, List.mem_filter, beq_iff_eq] at hp hmin
  refine ⟨p, hp.1, ?_, hp.2⟩
  simp only [lowestOfChannel, List.all_eq_true, Bool.or_eq_true, Bool.not_eq_true',
    beq_eq_false_iff_ne, ne_eq, decide_eq_true_eq]
  intro r hr
  by_cases hc : r.2.channelId = p.2.channelId
  · exact Or.inr (hmin r ⟨hr, hc.trans hp.2⟩)
  · exact Or.inl hc

theorem lowestOfChannel_unique (l : List (Nat × HwmpProtocolMac)) (p q : Nat × HwmpProtocolMac)
    (hp : p ∈ l) (hq : q ∈ l) (lp : lowestOfChannel l p = true) (lq : lowestOfChannel l q = true)
    (hc : p.2.channelId = q.2.channelId) : p.1 = q.1 := by
  simp only [lowestOfChannel, List.all_eq_true, Bool.or_eq_true, Bool.not_eq_true',
    beq_eq_false_iff_ne, ne_eq, decide_eq_true_eq] at lp lq
  have h1 := lp q hq
  have h2 := lq p hp
  rcases h1 with h1 | h1
  · exact absurd hc.symm h1
  · rcases h2 with h2 | h2
    · exact absurd hc h2
    · omega

theorem dispatch_broadcast (s : HwmpProtocol) (sourceIface : Nat) (source : Mac48Address)
    (packet : Packet) (tag : HwmpTag) (protocolType routeReply : Nat) :
    s.dispatch sourceIface source GetBroadcast packet tag protocolType routeReply =
      .ok (true, (countBroadcast s packet.size).emit
        (HwmpProtocol.broadcastLoop (countBroadcast s packet.size) packet tag source GetBroadcast
          protocolType routeReply s.m_interfaces [] [])) := by
  unfold HwmpProtocol.dispatch
  rw [if_pos rfl]
  rfl

theorem RequestRoute_broadcast_local (s : HwmpProtocol) (source : Mac48Address) (packet : Packet)
    (protocolType routeReply : Nat) (ht : packet.tag = none) :
    s.RequestRoute s.mpIfIndex source GetBroadcast packet protocolType routeReply =
      (nextDataSeqno s).dispatch s.mpIfIndex source GetBroadcast packet
        { HwmpTag.new with seqno := s.m_dataSeqno, ttl := s.m_maxTtl } protocolType routeReply := by
  unfold HwmpProtocol.RequestRoute
  rw [if_pos rfl]
  simp only [ht, if_true]
  rfl

theorem RequestRoute_broadcast_mesh (s : HwmpProtocol) (sourceIface : Nat) (source : Mac48Address)
    (packet : Packet) (t : HwmpTag) (protocolType routeReply : Nat)
    (hif : sourceIface ≠ s.mpIfIndex) (ht : packet.tag = some t) (h0 : t.DecrementTtl.ttl ≠ 0) :
    s.RequestRoute sourceIface source GetBroadcast packet protocolType routeReply =
      s.dispatch sourceIface source GetBroadcast { packet with tag := none } t.DecrementTtl
        protocolType routeReply := by
  unfold HwmpProtocol.RequestRoute
  rw [if_neg hif]
  simp only [ht]
  rw [if_neg h0]

/-- C17: on a station whose interfaces are held in order of their index (the
order of the interface map), a broadcast frame that `RequestRoute` accepts (a
frame of the upper layer without a tag, or a frame from a mesh interface whose
decremented TTL is not zero) makes it return `true`, increase `txBroadcast` by
one and append to the log of calls exactly the copies of the specification: for
the lowest-indexed interface of every channel, and for no other interface, one
successful route reply per receiver that `GetBroadcastReceivers` returns for it,
the copy tagged with the address of that receiver and the TTL and sequence
number of the frame.  Two interfaces that both transmit never share a channel,
and every channel of an interface is served. -/
theorem broadcast_dispatch (s : HwmpProtocol) (source : Mac48Address) (packet : Packet)
    (protocolType routeReply : Nat)
    (hsorted : s.m_interfaces.Pairwise (fun a b => a.1 < b.1)) :
    (packet.tag = none → ∃ s1,
      s.RequestRoute s.mpIfIndex source GetBroadcast packet protocolType routeReply
        = .ok (true, s1) ∧
      s1.out = s.out ++ broadcastCopies s.GetBroadcastReceivers s.m_interfaces packet
        { HwmpTag.new with seqno := s.m_dataSeqno, ttl := s.m_maxTtl } source GetBroadcast
        protocolType routeReply ∧
      s1.m_stats.txBroadcast = s.m_stats.txBroadcast + 1 ∧
      s1.m_dataSeqno = u32 (s.m_dataSeqno + 1)) ∧
    (∀ sourceIface t, sourceIface ≠ s.mpIfIndex → packet.tag = some t →
      t.DecrementTtl.ttl ≠ 0 → ∃ s1,
      s.RequestRoute sourceIface source GetBroadcast packet protocolType routeReply
        = .ok (true, s1) ∧
      s1.out = s.out ++ broadcastCopies s.GetBroadcastReceivers s.m_interfaces
        { packet with tag := none } t.DecrementTtl source GetBroadcast protocolType routeReply ∧
      s1.m_stats.txBroadcast = s.m_stats.txBroadcast + 1) ∧
    (∀ p ∈ s.m_interfaces, ∀ q ∈ s.m_interfaces, lowestOfChannel s.m_interfaces p = true →
      lowestOfChannel s.m_interfaces q = true → p.2.channelId = q.2.channelId → p.1 = q.1) ∧
    (∀ q ∈ s.m_interfaces, ∃ p ∈ s.m_interfaces,
      lowestOfChannel s.m_interfaces p = true ∧ p.2.channelId = q.2.channelId) := by
  have hloop : ∀ (s0 : HwmpProtocol) (pk : Packet) (tg : HwmpTag),
      s0.GetBroadcastReceivers = s.GetBroadcastReceivers →
      HwmpProtocol.broadcastLoop s0 pk tg source GetBroadcast protocolType routeReply
        s.m_interfaces [] [] =
      broadcastCopies s.GetBroadcastReceivers s.m_interfaces pk tg source GetBroadcast
        protocolType routeReply := by
    intro s0 pk tg hr
    rw [broadcastLoop_eq s0 pk tg source GetBroadcast protocolType routeReply s.m_interfaces []
      [] hsorted, List.nil_append, hr]
    unfold broadcastCopies
    congr 2
  refine ⟨?_, ?_, ?_, ?_⟩
  · intro ht
    refine ⟨_, (RequestRoute_broadcast_local s source packet protocolType routeReply ht).trans
      (dispatch_broadcast _ _ _ _ _ _ _), ?_, rfl, rfl⟩
    show s.out ++ HwmpProtocol.broadcastLoop _ _ _ _ _ _ _ s.m_interfaces [] [] = _
    congr 1
    exact hloop _ _ _ rfl
  · intro sourceIface t hif ht h0
    refine ⟨_, (RequestRoute_broadcast_mesh s sourceIface source packet t protocolType routeReply
      hif ht h0).trans (dispatch_broadcast _ _ _ _ _ _ _), ?_, rfl⟩
    show s.out ++ HwmpProtocol.broadcastLoop _ _ _ _ _ _ _ s.m_interfaces [] [] = _
    congr 1
    exact hloop _ _ _ rfl
  · intro p hp q hq lp lq hc
    exact lowestOfChannel_unique s.m_interfaces p q hp hq lp lq hc
  · intro q hq
    exact lowestOfChannel_exists s.m_interfaces q hq

/-- Witness for C17: a station with interfaces 1 and 2 on channel 1 and
interface 3 on channel 6 is handed a broadcast frame by the upper layer; one
copy goes out on interface 1 and one on interface 3. -/
theorem broadcast_dispatch_witness :
    ∃ s1, threeRadios.RequestRoute 0 7 GetBroadcast upperFrame 2048 0 = .ok (true, s1) ∧
      s1.out =
        [Action.routeReply 0 true
          { size := 100, tag := some { address := GetBroadcast, ttl := 32, seqno := 1 } }
          7 GetBroadcast 2048 1,
         Action.routeReply 0 true
          { size := 100, tag := some { address := GetBroadcast, ttl := 32, seqno := 1 } }
          7 GetBroadcast 2048 3] ∧
      s1.m_stats.txBroadcast = 1 := by
  obtain ⟨h, _, _, _⟩ := broadcast_dispatch threeRadios 7 upperFrame 2048 0 (by decide)
  obtain ⟨s1, a, b, c, _⟩ := h rfl
  exact ⟨s1, a, b.trans (by decide), c⟩

/-! ## Acceptance of a PREP -/

theorem ReactivePathResolved_table {s s1 : HwmpProtocol} {dst : Mac48Address}
    (h : s.ReactivePathResolved dst = .ok s1) : s1.m_rtable = s.m_rtable ∧ s1.now = s.now := by
  rw [ReactivePathResolved_eq] at h
  split at h
  · cases h
  · cases h
    exact ⟨rfl, rfl⟩

/-- The stage "install a reactive path if it is news or an improvement" leaves
the lookup of every other destination as it was, and of every destination when
its condition fails. -/
theorem stage_other {s s2 : HwmpProtocol} (c : Prop) [Decidable c] {dst from_ : Mac48Address}
    {interface metric lifetime seqnum : Nat}
    (h : (if c then s.installReactive dst from_ interface metric lifetime seqnum else .ok s)
      = .ok s2) (d : Mac48Address) (hd : ¬ (c ∧ dst = d)) :
    s2.now = s.now ∧
    s2.m_rtable.LookupReactive s2.now d = s.m_rtable.LookupReactive s.now d := by
  by_cases hc : c
  · rw [if_pos hc] at h
    unfold HwmpProtocol.installReactive at h
    obtain ⟨ht, hn⟩ := ReactivePathResolved_table h
    have hne : dst ≠ d := fun hh => hd ⟨hc, hh⟩
    rw [hn, ht]
    refine ⟨rfl, ?_⟩
    show (s.m_rtable.AddReactivePath s.now dst from_ interface metric
      (HwmpProtocol.lifetimeTime lifetime) seqnum).LookupReactive s.now d = _
    exact LookupReactive_AddReactivePath_ne s.m_rtable s.now s.now dst d from_ interface metric _
      seqnum hne
  · rw [if_neg hc] at h
    cases h
    exact ⟨rfl, rfl⟩

theorem prepAccept_none_iff (entry : Option (Nat × Nat)) (sequence : Nat) :
    HwmpProtocol.prepAccept entry sequence = none ↔
      ∃ e, entry = some e ∧ sdiff e.1 sequence > 0 := by
  unfold HwmpProtocol.prepAccept
  cases entry with
  | none => simp
  | some e =>
    simp only [Option.some.injEq, exists_eq_left']
    by_cases h : sdiff e.1 sequence > 0
    · simp [h]
    · simp only [h, if_false, iff_false]
      split <;> simp

theorem prepAccept_equal (e : Nat × Nat) (sequence : Nat) (h : e.1 = sequence) :
    HwmpProtocol.prepAccept (some e) sequence = some false := by
  unfold HwmpProtocol.prepAccept
  simp only
  rw [h, sdiff_self, if_neg (by decide), if_pos rfl]

/-- An accepted PREP is processed to the end when its lifetime gives a positive
duration, it does not come from the broadcast address, and either it is
addressed to the station, or the station has no path to its destination, or the
interface of that path is installed. -/
theorem ReceivePrep_returns (s : HwmpProtocol) (prep : IePrep) (from_ : Mac48Address)
    (interface : Nat) (fromMp : Mac48Address) (metric : Nat) (freshInfo : Bool)
    (hacc : HwmpProtocol.prepAccept (mapFind s.m_hwmpSeqnoMetricDatabase prep.originatorAddress)
      prep.destinationSeqNumber = some freshInfo)
    (hL : 0 < HwmpProtocol.lifetimeTime prep.lifetime) (hfrom : from_ ≠ GetBroadcast)
    (hif : prep.destinationAddress = s.m_address ∨
      (s.m_rtable.LookupReactive s.now prep.destinationAddress).retransmitter = GetBroadcast ∨
      mapFind s.m_interfaces (s.m_rtable.LookupReactive s.now prep.destinationAddress).ifIndex
        ≠ none) :
    ∃ s1, s.ReceivePrep prep from_ interface fromMp metric = .ok s1 := by
  obtain ⟨fnow, -, -, flook⟩ := prepInstall_fields
    (s.setSeqnoMetric prep.originatorAddress prep.destinationSeqNumber (u32 (prep.metric + metric)))
    (prep.IncrementMetric metric) from_ interface
    (s.m_rtable.LookupReactive s.now prep.destinationAddress)
  have hnow0 : (s.setSeqnoMetric prep.originatorAddress prep.destinationSeqNumber
      (u32 (prep.metric + metric))).now = s.now := rfl
  rw [hnow0] at fnow flook
  have hr := (flook prep.originatorAddress).trans
    (LookupReactive_AddReactivePath s.m_rtable s.now prep.originatorAddress from_ interface
      (u32 (prep.metric + metric)) (HwmpProtocol.lifetimeTime prep.lifetime)
      prep.destinationSeqNumber hL)
  have h2 : ∃ s2, (if freshInfo = true ∨
          (s.m_rtable.LookupReactive s.now prep.originatorAddress).retransmitter = GetBroadcast ∨
          (s.m_rtable.LookupReactive s.now prep.originatorAddress).metric >
            u32 (prep.metric + metric) then
        ((s.setSeqnoMetric prep.originatorAddress prep.destinationSeqNumber
          (u32 (prep.metric + metric))).prepInstall (prep.IncrementMetric metric) from_ interface
          (s.m_rtable.LookupReactive s.now prep.destinationAddress)).ReactivePathResolved
            prep.originatorAddress
       else .ok (s.setSeqnoMetric prep.originatorAddress prep.destinationSeqNumber
          (u32 (prep.metric + metric)))) = .ok s2 ∧
      Frame (s.setSeqnoMetric prep.originatorAddress prep.destinationSeqNumber
        (u32 (prep.metric + metric))) s2 := by
    split
    · rw [ReactivePathResolved_eq, fnow, hr, if_neg hfrom]
      refine ⟨_, rfl, ?_⟩
      exact (prepInstall_frame _ _ _ _ _).frame_trans
        ((emit_frame _ _).frame_trans (resolvedState_frame _ _ _ _))
    · exact ⟨_, rfl, Frame.frame_refl _⟩
  obtain ⟨s2, h2, f2⟩ := h2
  obtain ⟨s3, h3⟩ := stage_ok s2
    ((s2.m_rtable.LookupReactive s2.now fromMp).retransmitter = GetBroadcast ∨
      (s2.m_rtable.LookupReactive s2.now fromMp).metric > metric)
    fromMp from_ interface metric prep.lifetime prep.destinationSeqNumber hL hfrom
  have f3 : Frame (s.setSeqnoMetric prep.originatorAddress prep.destinationSeqNumber
      (u32 (prep.metric + metric))) s3 := f2.frame_trans (stage_quiet _ h3).2
  have ha : s3.m_address = s.m_address := f3.address
  have hi : s3.m_interfaces = s.m_interfaces := f3.interfaces
  have h1 : ∃ s1, (if prep.destinationAddress = s3.m_address then Except.ok s3
       else if (s.m_rtable.LookupReactive s.now prep.destinationAddress).retransmitter
          = GetBroadcast then Except.ok s3
       else
        match mapFind s3.m_interfaces (s.m_rtable.LookupReactive s.now prep.destinationAddress).ifIndex with
        | none => Except.error Fault.assertFailed
        | some _ =>
          Except.ok (s3.GetForwardingDelay.2.emit
            [Action.scheduleSendPrep s3.GetForwardingDelay.1
              (s.m_rtable.LookupReactive s.now prep.destinationAddress).ifIndex
              (prep.IncrementMetric metric)
              (s.m_rtable.LookupReactive s.now prep.destinationAddress).retransmitter])) = .ok s1 := by
    rw [ha, hi]
    split
    · exact ⟨_, rfl⟩
    · split
      · exact ⟨_, rfl⟩
      · rename_i hne hnb
        rcases hif with hif | hif | hif
        · exact absurd hif hne
        · exact absurd hif hnb
        · split
          · rename_i hnone
            exact absurd hnone hif
          · exact ⟨_, rfl⟩
  obtain ⟨s1, h1⟩ := h1
  exact ⟨s1, ReceivePrep_of_stages hacc h2 h3 h1⟩

/-- The reactive path to the originator of a PREP that repeats the stored
sequence number changes only in the two ways the code allows. -/
theorem ReceivePrep_equal_sn_path {s s1 : HwmpProtocol} {prep : IePrep} {from_ : Mac48Address}
    {interface : Nat} {fromMp : Mac48Address} {metric : Nat}
    (hacc : HwmpProtocol.prepAccept (mapFind s.m_hwmpSeqnoMetricDatabase prep.originatorAddress)
      prep.destinationSeqNumber = some false)
    (hok : s.ReceivePrep prep from_ interface fromMp metric = .ok s1)
    (hchg : s1.m_rtable.LookupReactive s1.now prep.originatorAddress ≠
      s.m_rtable.LookupReactive s.now prep.originatorAddress) :
    (s.m_rtable.LookupReactive s.now prep.originatorAddress).retransmitter = GetBroadcast ∨
    (s.m_rtable.LookupReactive s.now prep.originatorAddress).metric > u32 (prep.metric + metric) ∨
    (fromMp = prep.originatorAddress ∧
      (s.m_rtable.LookupReactive s.now prep.originatorAddress).metric > metric) := by
  obtain ⟨s2, s3, h2, h3, h1⟩ := ReceivePrep_inv hacc hok
  obtain ⟨g1now, g1tab, -, -⟩ := prep_last_stage h1 prep.originatorAddress
  by_cases c1 : (s.m_rtable.LookupReactive s.now prep.originatorAddress).retransmitter
      = GetBroadcast ∨
      (s.m_rtable.LookupReactive s.now prep.originatorAddress).metric > u32 (prep.metric + metric)
  · rcases c1 with c1 | c1
    · exact Or.inl c1
    · exact Or.inr (Or.inl c1)
  · have hno : ¬ (false = true ∨
        (s.m_rtable.LookupReactive s.now prep.originatorAddress).retransmitter = GetBroadcast ∨
        (s.m_rtable.LookupReactive s.now prep.originatorAddress).metric >
          u32 (prep.metric + metric)) := by
      rintro (h | h)
      · cases h
      · exact c1 h
    rw [if_neg hno] at h2
    cases h2
    by_cases c2 : ((s.m_rtable.LookupReactive s.now fromMp).retransmitter = GetBroadcast ∨
        (s.m_rtable.LookupReactive s.now fromMp).metric > metric) ∧
        fromMp = prep.originatorAddress
    · obtain ⟨c, hm⟩ := c2
      rw [hm] at c
      rcases c with c | c
      · exact Or.inl c
      · exact Or.inr (Or.inr ⟨hm, c⟩)
    · exfalso
      apply hchg
      obtain ⟨n3, l3⟩ := stage_other _ h3 prep.originatorAddress c2
      rw [g1now, g1tab, l3]
      rfl

/-- C18: `ReceivePrep` takes its early return exactly when the table of seen
originators holds for the originator of the PREP a sequence number `sn` with
`(int32)(sn - destSN) > 0`, and then it returns the station unchanged, log of
calls included.  Otherwise the PREP is accepted, in particular when the stored
number equals its own (`freshInfo = false`): the table of seen originators then
records the sequence number of the PREP and the 32-bit sum of its metric and the
link metric, and the run reaches its end whenever the lifetime of the PREP gives
a positive duration, the PREP does not come from the broadcast address, and it
is addressed to the station, or the station has no path to its destination, or
the interface of that path is installed.  When the stored number equals the one
of the PREP, the lookup of the originator changes only if before there was no
valid path to it, or the metric of that path was larger than the sum, or the
transmitting mesh point is the originator itself and the metric of that path was
larger than the link metric. -/
theorem prep_acceptance (s : HwmpProtocol) (prep : IePrep) (from_ : Mac48Address)
    (interface : Nat) (fromMp : Mac48Address) (metric : Nat) :
    (HwmpProtocol.prepAccept (mapFind s.m_hwmpSeqnoMetricDatabase prep.originatorAddress)
        prep.destinationSeqNumber = none ↔
      ∃ e, mapFind s.m_hwmpSeqnoMetricDatabase prep.originatorAddress = some e ∧
        sdiff e.1 prep.destinationSeqNumber > 0) ∧
    (HwmpProtocol.prepAccept (mapFind s.m_hwmpSeqnoMetricDatabase prep.originatorAddress)
        prep.destinationSeqNumber = none →
      s.ReceivePrep prep from_ interface fromMp metric = .ok s) ∧
    (∀ e, mapFind s.m_hwmpSeqnoMetricDatabase prep.originatorAddress = some e →
      e.1 = prep.destinationSeqNumber →
      HwmpProtocol.prepAccept (mapFind s.m_hwmpSeqnoMetricDatabase prep.originatorAddress)
        prep.destinationSeqNumber = some false) ∧
    (∀ f s1, HwmpProtocol.prepAccept (mapFind s.m_hwmpSeqnoMetricDatabase prep.originatorAddress)
        prep.destinationSeqNumber = some f →
      s.ReceivePrep prep from_ interface fromMp metric = .ok s1 →
      mapFind s1.m_hwmpSeqnoMetricDatabase prep.originatorAddress
        = some (prep.destinationSeqNumber, u32 (prep.metric + metric))) ∧
    (∀ f, HwmpProtocol.prepAccept (mapFind s.m_hwmpSeqnoMetricDatabase prep.originatorAddress)
        prep.destinationSeqNumber = some f →
      0 < HwmpProtocol.lifetimeTime prep.lifetime → from_ ≠ GetBroadcast →
      (prep.destinationAddress = s.m_address ∨
        (s.m_rtable.LookupReactive s.now prep.destinationAddress).retransmitter = GetBroadcast ∨
        mapFind s.m_interfaces (s.m_rtable.LookupReactive s.now prep.destinationAddress).ifIndex
          ≠ none) →
      ∃ s1, s.ReceivePrep prep from_ interface fromMp metric = .ok s1) ∧
    (∀ s1, HwmpProtocol.prepAccept (mapFind s.m_hwmpSeqnoMetricDatabase prep.originatorAddress)
        prep.destinationSeqNumber = some false →
      s.ReceivePrep prep from_ interface fromMp metric = .ok s1 →
      s1.m_rtable.LookupReactive s1.now prep.originatorAddress ≠
        s.m_rtable.LookupReactive s.now prep.originatorAddress →
      (s.m_rtable.LookupReactive s.now prep.originatorAddress).retransmitter = GetBroadcast ∨
      (s.m_rtable.LookupReactive s.now prep.originatorAddress).metric
        > u32 (prep.metric + metric) ∨
      (fromMp = prep.originatorAddress ∧
        (s.m_rtable.LookupReactive s.now prep.originatorAddress).metric > metric)) := by
  refine ⟨prepAccept_none_iff _ _, ?_, ?_, ?_, ?_, ?_⟩
  · intro h
    exact ReceivePrep_dropped s prep from_ interface fromMp metric h
  · intro e he heq
    rw [he]
    exact prepAccept_equal e _ heq
  · intro f s1 hacc hok
    rw [(ReceivePrep_accepted_frame hacc hok).db]
    show mapFind (mapInsert _ _ _) _ = _
    rw [mapFind_mapInsert, if_pos rfl]
  · intro f hacc hL hfrom hif
    exact ReceivePrep_returns s prep from_ interface fromMp metric f hacc hL hfrom hif
  · intro s1 hacc hok hchg
    exact ReceivePrep_equal_sn_path hacc hok hchg

/-- C18, counterexample: station 7 holds the pair `(4, 15)` for originator 5 and
a valid path to 5 through neighbour 3 with metric 15.  The PREP of 5 with the
same sequence number 4 and metric 10 arrives directly from mesh point 5 over a
link of metric 10: the sum 20 is not smaller than 15, yet afterwards the path to
5 goes through 5 with metric 10. -/
theorem equal_sn_prep_replaces_better_path :
    mapFind answered7.m_hwmpSeqnoMetricDatabase 5 = some (4, 15) ∧
    prepFrom5.destinationSeqNumber = 4 ∧
    answered7.m_rtable.LookupReactive answered7.now 5 =
      { retransmitter := 3, ifIndex := 1, metric := 15, seqnum := 4, lifetime := 102400 } ∧
    run answered7 [Call.receivePrep prepFrom5 5 1 5 10]
      = .ok (after answered7 [Call.receivePrep prepFrom5 5 1 5 10]) ∧
    (after answered7 [Call.receivePrep prepFrom5 5 1 5 10]).m_rtable.LookupReactive
      (after answered7 [Call.receivePrep prepFrom5 5 1 5 10]).now 5 =
        { retransmitter := 5, ifIndex := 1, metric := 10, seqnum := 4, lifetime := 102400 } ∧
    ¬ u32 (prepFrom5.metric + 10) < 15 :=
  ⟨rfl, rfl, rfl, rfl, rfl, by decide⟩

/-! ## The pending queue -/

theorem eraseFirstByDst_absent (dst : Mac48Address) (q : List QueuedPacket)
    (h : ∀ p ∈ q, p.dst ≠ dst) : HwmpProtocol.eraseFirstByDst dst q = (QueuedPacket.new, q) := by
  induction q with
  | nil => rfl
  | cons p q ih =>
    unfold HwmpProtocol.eraseFirstByDst
    rw [if_neg (h p (List.mem_cons_self _ _)), ih (fun x hx => h x (List.mem_cons_of_mem _ hx))]

theorem eraseFirstByDst_split (dst : Mac48Address) (pre : List QueuedPacket) (p : QueuedPacket)
    (post : List QueuedPacket) (hpre : ∀ x ∈ pre, x.dst ≠ dst) (hp : p.dst = dst) :
    HwmpProtocol.eraseFirstByDst dst (pre ++ p :: post) = (p, pre ++ post) := by
  induction pre with
  | nil =>
    rw [List.nil_append]
    unfold HwmpProtocol.eraseFirstByDst
    simp only [hp, if_true, List.nil_append]
  | cons a t ih =>
    rw [List.cons_append]
    unfold HwmpProtocol.eraseFirstByDst
    rw [if_neg (hpre a (List.mem_cons_self _ _)),
      ih (fun x hx => hpre x (List.mem_cons_of_mem _ hx))]
    rfl

theorem first_with_dst (dst : Mac48Address) (q : List QueuedPacket)
    (h : ∃ p ∈ q, p.dst = dst) :
    ∃ pre p post, q = pre ++ p :: post ∧ (∀ x ∈ pre, x.dst ≠ dst) ∧ p.dst = dst := by
  induction q with
  | nil =>
    obtain ⟨p, hp, _⟩ := h
    cases hp
  | cons a t ih =>
    by_cases ha : a.dst = dst
    · refine ⟨[], a, t, rfl, ?_, ha⟩
      intro x hx
      cases hx
    · obtain ⟨p, hp, hd⟩ := h
      rcases List.mem_cons.mp hp with h1 | h1
      · rw [h1] at hd
        exact absurd hd ha
      · obtain ⟨pre, p1, post, e, hpre, hp1⟩ := ih ⟨p, h1, hd⟩
        refine ⟨a :: pre, p1, post, by rw [e]; rfl, ?_, hp1⟩
        intro x hx
        rcases List.mem_cons.mp hx with h2 | h2
        · rw [h2]; exact ha
        · exact hpre x h2

/-- C19: when no queued frame has destination `dst`, `DequeueFirstPacketByDst
(dst)` returns the empty packet, whose payload pointer is null, and leaves the
station as it is.  When the queue is `pre ++ p :: post` with `p` the first frame
for `dst`, it returns `p` and leaves the queue `pre ++ post`, one frame shorter
and otherwise in the same order; such a split exists whenever a frame for `dst`
is queued. -/
theorem DequeueFirstPacketByDst_first (s : HwmpProtocol) (dst : Mac48Address) :
    ((∀ p ∈ s.m_rqueue, p.dst ≠ dst) →
      (s.DequeueFirstPacketByDst dst).1 = QueuedPacket.new ∧
      (s.DequeueFirstPacketByDst dst).1.pkt = none ∧
      (s.DequeueFirstPacketByDst dst).2 = s) ∧
    (∀ pre p post, s.m_rqueue = pre ++ p :: post → (∀ x ∈ pre, x.dst ≠ dst) → p.dst = dst →
      (s.DequeueFirstPacketByDst dst).1 = p ∧
      (s.DequeueFirstPacketByDst dst).2 = { s with m_rqueue := pre ++ post } ∧
      (s.DequeueFirstPacketByDst dst).2.m_rqueue.length + 1 = s.m_rqueue.length) ∧
    ((∃ p ∈ s.m_rqueue, p.dst = dst) →
      ∃ pre p post, s.m_rqueue = pre ++ p :: post ∧ (∀ x ∈ pre, x.dst ≠ dst) ∧ p.dst = dst) := by
  refine ⟨?_, ?_, first_with_dst dst s.m_rqueue⟩
  · intro h
    unfold HwmpProtocol.DequeueFirstPacketByDst
    rw [eraseFirstByDst_absent dst s.m_rqueue h]
    exact ⟨rfl, rfl, rfl⟩
  · intro pre p post hq hpre hp
    unfold HwmpProtocol.DequeueFirstPacketByDst
    rw [hq, eraseFirstByDst_split dst pre p post hpre hp]
    refine ⟨rfl, rfl, ?_⟩
    simp only [List.length_append, List.length_cons]
    omega

/-! ## Receivers of a transmission -/

theorem receiversWithThreshold_eq (s : HwmpProtocol) (t interface : Nat) :
    s.receiversWithThreshold t interface = thresholdPolicy (neighbours s interface) t := by
  unfold HwmpProtocol.receiversWithThreshold thresholdPolicy neighbours
  generalize s.m_neighboursCallback = c
  cases c with
  | none => simp
  | some cb =>
    simp only
    by_cases h : (cb interface).length ≥ t ∨ (cb interface).length = 0
    · rw [if_pos h, if_pos (Or.symm h)]
    · rw [if_neg h, if_neg (fun hh => h (Or.symm hh))]

theorem thresholdPolicy_facts (N : List Mac48Address) (t : Nat) :
    (N.length = 0 ∨ N.length ≥ t → thresholdPolicy N t = [GetBroadcast]) ∧
    (¬ (N.length = 0 ∨ N.length ≥ t) → thresholdPolicy N t = N) ∧
    (thresholdPolicy N t = [GetBroadcast] ↔ (N.length = 0 ∨ N.length ≥ t ∨ N = [GetBroadcast])) ∧
    thresholdPolicy N t ≠ [] ∧
    (t ≤ 1 → thresholdPolicy N t = [GetBroadcast]) := by
  unfold thresholdPolicy
  refine ⟨fun h => if_pos h, fun h => if_neg h, ?_, ?_, ?_⟩
  · by_cases h : N.length = 0 ∨ N.length ≥ t
    · rw [if_pos h]
      constructor
      · intro _
        rcases h with h | h
        · exact Or.inl h
        · exact Or.inr (Or.inl h)
      · intro _; rfl
    · rw [if_neg h]
      constructor
      · intro hn; exact Or.inr (Or.inr hn)
      · rintro (h1 | h1 | h1)
        · exact absurd (Or.inl h1) h
        · exact absurd (Or.inr h1) h
        · exact h1
  · by_cases h : N.length = 0 ∨ N.length ≥ t
    · rw [if_pos h]
      exact List.cons_ne_nil _ _
    · rw [if_neg h]
      intro hn
      exact h (Or.inl (by rw [hn]; rfl))
  · intro ht
    apply if_pos
    by_cases h0 : N.length = 0
    · exact Or.inl h0
    · exact Or.inr (by omega)

/-- The receiver lists by cases, for any neighbour list: `GetPreqReceivers` and
`GetBroadcastReceivers` return `[broadcast]` when the neighbour list `N` that
the neighbours callback reports for the interface (empty when no callback is
set) is empty or has at least as many elements as the threshold, and `N` itself
otherwise; the result is never empty, it is `[broadcast]` when no callback is
set and whenever the threshold is at most 1, and a new station has both
thresholds equal to 1. -/
theorem sending_threshold (s : HwmpProtocol) (interface : Nat) :
    s.GetPreqReceivers interface
      = thresholdPolicy (neighbours s interface) s.m_unicastPreqThreshold ∧
    s.GetBroadcastReceivers interface
      = thresholdPolicy (neighbours s interface) s.m_unicastDataThreshold ∧
    (∀ t, ((neighbours s interface).length = 0 ∨ (neighbours s interface).length ≥ t →
        thresholdPolicy (neighbours s interface) t = [GetBroadcast]) ∧
      (¬ ((neighbours s interface).length = 0 ∨ (neighbours s interface).length ≥ t) →
        thresholdPolicy (neighbours s interface) t = neighbours s interface) ∧
      (thresholdPolicy (neighbours s interface) t = [GetBroadcast] ↔
        ((neighbours s interface).length = 0 ∨ (neighbours s interface).length ≥ t ∨
          neighbours s interface = [GetBroadcast])) ∧
      thresholdPolicy (neighbours s interface) t ≠ [] ∧
      (t ≤ 1 → thresholdPolicy (neighbours s interface) t = [GetBroadcast])) ∧
    (s.m_neighboursCallback = none →
      s.GetPreqReceivers interface = [GetBroadcast] ∧
      s.GetBroadcastReceivers interface = [GetBroadcast]) ∧
    (∀ cb, s.m_neighboursCallback = some cb → neighbours s interface = cb interface) ∧
    (∀ address mpIfIndex interfaces forwardingDelay,
      (HwmpProtocol.new address mpIfIndex interfaces forwardingDelay).m_unicastPreqThreshold = 1 ∧
      (HwmpProtocol.new address mpIfIndex interfaces forwardingDelay).m_unicastDataThreshold = 1) := by
  refine ⟨receiversWithThreshold_eq s _ interface, receiversWithThreshold_eq s _ interface,
    fun t => thresholdPolicy_facts _ t, ?_, ?_, fun _ _ _ _ => ⟨rfl, rfl⟩⟩
  · intro hn
    have h0 : neighbours s interface = [] := by
      unfold neighbours
      rw [hn]
    have hp : s.GetPreqReceivers interface = thresholdPolicy (neighbours s interface)
      s.m_unicastPreqThreshold := receiversWithThreshold_eq s _ interface
    have hb : s.GetBroadcastReceivers interface = thresholdPolicy (neighbours s interface)
      s.m_unicastDataThreshold := receiversWithThreshold_eq s _ interface
    rw [hp, hb, h0]
    exact ⟨rfl, rfl⟩
  · intro cb hc
    unfold neighbours
    rw [hc]

/-- C20: for every interface whose neighbours, as the neighbours callback
reports them, are unicast addresses, `GetPreqReceivers` with the threshold
`unicastPreqThreshold` and `GetBroadcastReceivers` with the threshold
`unicastDataThreshold` return the one-element list `[broadcast]` iff the
neighbour list `N` is empty, has at least as many elements as the threshold, or
no callback is set, and return exactly `N` otherwise.  The result is never
empty, with a threshold of at most 1 it is always `[broadcast]`, and a new
station has both thresholds equal to 1.  `N` is the list the callback returns
for the interface. -/
theorem sending_threshold_policy (s : HwmpProtocol) (interface : Nat)
    (hN : ∀ a ∈ neighbours s interface, a ≠ GetBroadcast) :
    (s.GetPreqReceivers interface = [GetBroadcast] ↔
      ((neighbours s interface).length = 0 ∨
        (neighbours s interface).length ≥ s.m_unicastPreqThreshold ∨
        s.m_neighboursCallback = none)) ∧
    (¬ ((neighbours s interface).length = 0 ∨
        (neighbours s interface).length ≥ s.m_unicastPreqThreshold ∨
        s.m_neighboursCallback = none) →
      s.GetPreqReceivers interface = neighbours s interface) ∧
    (s.GetBroadcastReceivers interface = [GetBroadcast] ↔
      ((neighbours s interface).length = 0 ∨
        (neighbours s interface).length ≥ s.m_unicastDataThreshold ∨
        s.m_neighboursCallback = none)) ∧
    (¬ ((neighbours s interface).length = 0 ∨
        (neighbours s interface).length ≥ s.m_unicastDataThreshold ∨
        s.m_neighboursCallback = none) →
      s.GetBroadcastReceivers interface = neighbours s interface) ∧
    s.GetPreqReceivers interface ≠ [] ∧ s.GetBroadcastReceivers interface ≠ [] ∧
    (s.m_unicastPreqThreshold ≤ 1 → s.GetPreqReceivers interface = [GetBroadcast]) ∧
    (s.m_unicastDataThreshold ≤ 1 → s.GetBroadcastReceivers interface = [GetBroadcast]) ∧
    (∀ cb, s.m_neighboursCallback = some cb → neighbours s interface = cb interface) ∧
    (∀ address mpIfIndex interfaces forwardingDelay,
      (HwmpProtocol.new address mpIfIndex interfaces forwardingDelay).m_unicastPreqThreshold = 1 ∧
      (HwmpProtocol.new address mpIfIndex interfaces forwardingDelay).m_unicastDataThreshold = 1) := by
  have hp : s.GetPreqReceivers interface = thresholdPolicy (neighbours s interface)
    s.m_unicastPreqThreshold := receiversWithThreshold_eq s _ interface
  have hb : s.GetBroadcastReceivers interface = thresholdPolicy (neighbours s interface)
    s.m_unicastDataThreshold := receiversWithThreshold_eq s _ interface
  have hnone : s.m_neighboursCallback = none → (neighbours s interface).length = 0 := by
    intro hn
    unfold neighbours
    rw [hn]
    rfl
  have hne : neighbours s interface ≠ [GetBroadcast] := by
    intro hh
    exact hN GetBroadcast (by rw [hh]; exact List.mem_singleton.mpr rfl) rfl
  have key : ∀ t, (thresholdPolicy (neighbours s interface) t = [GetBroadcast] ↔
        ((neighbours s interface).length = 0 ∨ (neighbours s interface).length ≥ t ∨
          s.m_neighboursCallback = none)) ∧
      (¬ ((neighbours s interface).length = 0 ∨ (neighbours s interface).length ≥ t ∨
          s.m_neighboursCallback = none) →
        thresholdPolicy (neighbours s interface) t = neighbours s interface) := by
    intro t
    obtain ⟨f1, f2, f3, _, _⟩ := thresholdPolicy_facts (neighbours s interface) t
    refine ⟨⟨?_, ?_⟩, ?_⟩
    · intro h
      rcases f3.mp h with h1 | h1 | h1
      · exact Or.inl h1
      · exact Or.inr (Or.inl h1)
      · exact absurd h1 hne
    · rintro (h1 | h1 | h1)
      · exact f1 (Or.inl h1)
      · exact f1 (Or.inr h1)
      · exact f1 (Or.inl (hnone h1))
    · intro h
      exact f2 (fun hh => h (hh.elim Or.inl (fun x => Or.inr (Or.inl x))))
  rw [hp, hb]
  refine ⟨(key _).1, (key _).2, (key _).1, (key _).2,
    (thresholdPolicy_facts _ _).2.2.2.1, (thresholdPolicy_facts _ _).2.2.2.1,
    (thresholdPolicy_facts _ _).2.2.2.2, (thresholdPolicy_facts _ _).2.2.2.2, ?_,
    fun _ _ _ _ => ⟨rfl, rfl⟩⟩
  intro cb hc
  unfold neighbours
  rw [hc]

/-- Witness for C20: station 7 with both thresholds 3 and the unicast neighbours
3 and 4 on interface 1: the list is neither empty nor at the threshold and a
callback is set, so both functions return the neighbours themselves. -/
theorem sending_threshold_policy_witness :
    (∀ a ∈ neighbours twoNeighbours7 1, a ≠ GetBroadcast) ∧
    neighbours twoNeighbours7 1 = [3, 4] ∧
    twoNeighbours7.GetPreqReceivers 1 = neighbours twoNeighbours7 1 ∧
    twoNeighbours7.GetBroadcastReceivers 1 = neighbours twoNeighbours7 1 :=
  ⟨by decide, rfl,
    (sending_threshold_policy twoNeighbours7 1 (by decide)).2.1
      (fun h => h.elim (by decide) (fun h => h.elim (by decide) (fun h => Option.noConfusion h))),
    (sending_threshold_policy twoNeighbours7 1 (by decide)).2.2.2.1
      (fun h => h.elim (by decide) (fun h => h.elim (by decide) (fun h => Option.noConfusion h)))⟩

/-! ## Configuration and the root role -/

/-- C21: the constructor gives a new station `maxQueueSize = 255`,
`maxPREQretries = 3`, `netDiameterTraversalTime = preqMinInterval =
perrMinInterval = 102400` microseconds, `activeRootTimeout = activePathTimeout =
rannInterval = 5120000` microseconds, `pathToRootInterval = 2048000`
microseconds, `maxTtl = 32`, `unicastPerrThreshold = 32`,
`unicastPreqThreshold = unicastDataThreshold = 1` and `doFlag = false`, each
equal to the default that `GetTypeId` declares for the attribute; but it sets
`rfFlag` to `false`, while `GetTypeId` declares the default `true`. -/
theorem constructor_rfFlag_differs (address : Mac48Address) (mpIfIndex : Nat)
    (interfaces : List (Nat × HwmpProtocolMac)) (forwardingDelay : Nat → Time) :
    (HwmpProtocol.new address mpIfIndex interfaces forwardingDelay).m_maxQueueSize = 255 ∧
    (HwmpProtocol.new address mpIfIndex interfaces forwardingDelay).m_dot11MeshHWMPmaxPREQretries
      = 3 ∧
    (HwmpProtocol.new address mpIfIndex interfaces
      forwardingDelay).m_dot11MeshHWMPnetDiameterTraversalTime = 102400 ∧
    (HwmpProtocol.new address mpIfIndex interfaces forwardingDelay).m_dot11MeshHWMPpreqMinInterval
      = 102400 ∧
    (HwmpProtocol.new address mpIfIndex interfaces forwardingDelay).m_dot11MeshHWMPperrMinInterval
      = 102400 ∧
    (HwmpProtocol.new address mpIfIndex interfaces forwardingDelay).m_dot11MeshHWMPactiveRootTimeout
      = 5120000 ∧
    (HwmpProtocol.new address mpIfIndex interfaces forwardingDelay).m_dot11MeshHWMPactivePathTimeout
      = 5120000 ∧
    (HwmpProtocol.new address mpIfIndex interfaces forwardingDelay).m_dot11MeshHWMPrannInterval
      = 5120000 ∧
    (HwmpProtocol.new address mpIfIndex interfaces
      forwardingDelay).m_dot11MeshHWMPpathToRootInterval = 2048000 ∧
    (HwmpProtocol.new address mpIfIndex interfaces forwardingDelay).m_maxTtl = 32 ∧
    (HwmpProtocol.new address mpIfIndex interfaces forwardingDelay).m_unicastPerrThreshold = 32 ∧
    (HwmpProtocol.new address mpIfIndex interfaces forwardingDelay).m_unicastPreqThreshold = 1 ∧
    (HwmpProtocol.new address mpIfIndex interfaces forwardingDelay).m_unicastDataThreshold = 1 ∧
    (HwmpProtocol.new address mpIfIndex interfaces forwardingDelay).m_doFlag = false ∧
    GetTypeId =
      { randomStart := (HwmpProtocol.new address mpIfIndex interfaces forwardingDelay).m_randomStart,
        maxQueueSize :=
          (HwmpProtocol.new address mpIfIndex interfaces forwardingDelay).m_maxQueueSize,
        maxPREQretries := (HwmpProtocol.new address mpIfIndex interfaces
          forwardingDelay).m_dot11MeshHWMPmaxPREQretries,
        netDiameterTraversalTime := (HwmpProtocol.new address mpIfIndex interfaces
          forwardingDelay).m_dot11MeshHWMPnetDiameterTraversalTime,
        preqMinInterval := (HwmpProtocol.new address mpIfIndex interfaces
          forwardingDelay).m_dot11MeshHWMPpreqMinInterval,
        perrMinInterval := (HwmpProtocol.new address mpIfIndex interfaces
          forwardingDelay).m_dot11MeshHWMPperrMinInterval,
        activeRootTimeout := (HwmpProtocol.new address mpIfIndex interfaces
          forwardingDelay).m_dot11MeshHWMPactiveRootTimeout,
        activePathTimeout := (HwmpProtocol.new address mpIfIndex interfaces
          forwardingDelay).m_dot11MeshHWMPactivePathTimeout,
        pathToRootInterval := (HwmpProtocol.new address mpIfIndex interfaces
          forwardingDelay).m_dot11MeshHWMPpathToRootInterval,
        rannInterval := (HwmpProtocol.new address mpIfIndex interfaces
          forwardingDelay).m_dot11MeshHWMPrannInterval,
        maxTtl := (HwmpProtocol.new address mpIfIndex interfaces forwardingDelay).m_maxTtl,
        unicastPerrThreshold :=
          (HwmpProtocol.new address mpIfIndex interfaces forwardingDelay).m_unicastPerrThreshold,
        unicastPreqThreshold :=
          (HwmpProtocol.new address mpIfIndex interfaces forwardingDelay).m_unicastPreqThreshold,
        unicastDataThreshold :=
          (HwmpProtocol.new address mpIfIndex interfaces forwardingDelay).m_unicastDataThreshold,
        doFlag := (HwmpProtocol.new address mpIfIndex interfaces forwardingDelay).m_doFlag,
        rfFlag := true } ∧
    (HwmpProtocol.new address mpIfIndex interfaces forwardingDelay).m_rfFlag = false ∧
    GetTypeId.rfFlag = true :=
  ⟨rfl, rfl, rfl, rfl, rfl, rfl, rfl, rfl, rfl, rfl, rfl, rfl, rfl, rfl, rfl, rfl, rfl⟩

/-- C22: `UnsetRoot` changes neither the table nor the queue, and while nothing
but the proactive timer is due after it no proactive PREQ goes out: the firing
finds no pending event.  But `UnsetRoot` leaves the root flag set, so that a
`DoInitialize` that follows it starts the proactive PREQs again: after
`SetRoot`, `UnsetRoot`, `DoInitialize` and one firing of the proactive timer
station 7 has sent a proactive PREQ on its interface and the timer is pending
again. -/
theorem proactive_preq_after_UnsetRoot (s : HwmpProtocol) :
    s.UnsetRoot.m_rtable = s.m_rtable ∧ s.UnsetRoot.m_rqueue = s.m_rqueue ∧
    s.UnsetRoot.fireProactiveTimer = s.UnsetRoot ∧
    s.UnsetRoot.m_isRoot = s.m_isRoot ∧
    run station7 [Call.setRoot, Call.unsetRoot, Call.doInitialize 50000, Call.proactiveTimer]
      = .ok (after station7
          [Call.setRoot, Call.unsetRoot, Call.doInitialize 50000, Call.proactiveTimer]) ∧
    sentPreqs (after station7
        [Call.setRoot, Call.unsetRoot, Call.doInitialize 50000, Call.proactiveTimer]).out =
      [(1, { originatorAddress := 7, originatorSeqNumber := 2, preqId := 1, hopcount := 0,
             ttl := 32, lifetime := 5000, metric := 0, needNotPrep := false,
             destinations := [{ destinationAddress := GetBroadcast, destSeqNumber := 0,
                                doFlag := true, rfFlag := true, usnFlag := false }] })] ∧
    (after station7 [Call.setRoot, Call.unsetRoot, Call.doInitialize 50000,
      Call.proactiveTimer]).m_proactivePreqTimer = some 2098000 :=
  ⟨rfl, rfl, rfl, rfl, rfl, by decide, by decide⟩

/-! ## The destination loop of ReceivePreq, turn by turn -/

/-- The four ways in which one turn of the destination loop of `ReceivePreq`
ends without a violated assertion. -/
theorem preqDestLoop_cons_inv {preq : IePreq} {from_ : Mac48Address} {interface idx : Nat}
    {u : DestinationAddressUnit} {rest live : List (Nat × DestinationAddressUnit)}
    {s : HwmpProtocol} {r : HwmpProtocol × List (Nat × DestinationAddressUnit)}
    (h : HwmpProtocol.preqDestLoop preq from_ interface ((idx, u) :: rest) s live = .ok r) :
    (u.destinationAddress = GetBroadcast ∧ live.length = 1 ∧ ∃ s1 s2,
      (if (s.m_rtable.LookupProactive s.now).retransmitter = GetBroadcast ∨
          (s.m_rtable.LookupProactive s.now).metric > preq.metric then
        (s.addProactive preq from_ interface).ProactivePathResolved
       else .ok s) = .ok s1 ∧
      (if !preq.needNotPrep then
        s1.GetNextHwmpSeqno.2.SendPrep s1.m_address preq.originatorAddress from_ 0
          preq.originatorSeqNumber s1.GetNextHwmpSeqno.1 preq.lifetime interface
       else .ok s1) = .ok s2 ∧ r = (s2, live)) ∨
    (u.destinationAddress ≠ GetBroadcast ∧ u.destinationAddress = s.m_address ∧ ∃ s1,
      s.GetNextHwmpSeqno.2.SendPrep s.m_address preq.originatorAddress from_ 0
        preq.originatorSeqNumber s.GetNextHwmpSeqno.1 preq.lifetime interface = .ok s1 ∧
      (s1.m_rtable.LookupReactive s1.now preq.originatorAddress).retransmitter ≠ GetBroadcast ∧
      HwmpProtocol.preqDestLoop preq from_ interface rest s1
        (HwmpProtocol.delDestinationAddressElement u.destinationAddress live) = .ok r) ∨
    (u.destinationAddress ≠ GetBroadcast ∧ u.destinationAddress ≠ s.m_address ∧
      canAnswer s u = true ∧ ∃ s1,
      s.SendPrep u.destinationAddress preq.originatorAddress from_
        (s.m_rtable.LookupReactive s.now u.destinationAddress).metric preq.originatorSeqNumber
        (s.m_rtable.LookupReactive s.now u.destinationAddress).seqnum
        (HwmpProtocol.lifetimeTU (s.m_rtable.LookupReactive s.now u.destinationAddress))
        interface = .ok s1 ∧
      HwmpProtocol.preqDestLoop preq from_ interface rest
        (s1.addPrecursor u.destinationAddress interface from_
          (HwmpProtocol.lifetimeTime preq.lifetime))
        (if u.rfFlag = true then HwmpProtocol.setFlagsAt idx live
         else HwmpProtocol.delDestinationAddressElement u.destinationAddress live) = .ok r) ∨
    (u.destinationAddress ≠ GetBroadcast ∧ u.destinationAddress ≠ s.m_address ∧
      canAnswer s u = false ∧
      HwmpProtocol.preqDestLoop preq from_ interface rest s live = .ok r) := by
  unfold HwmpProtocol.preqDestLoop at h
  by_cases hb : u.destinationAddress = GetBroadcast
  · rw [if_pos hb] at h
    left
    by_cases hl : live.length ≠ 1
    · rw [if_pos hl] at h
      cases h
    · rw [if_neg hl] at h
      split at h
      · cases h
      · rw [bind_ok_iff] at h
        obtain ⟨s1, h1, h⟩ := h
        rw [bind_ok_iff] at h
        obtain ⟨s2, h2, h⟩ := h
        cases h
        exact ⟨hb, not_not.mp hl, s1, s2, h1, h2, rfl⟩
  · rw [if_neg hb] at h
    right
    by_cases ho : u.destinationAddress = s.m_address
    · rw [if_pos ho] at h
      left
      rw [bind_ok_iff] at h
      obtain ⟨s1, h1, h⟩ := h
      split at h
      · cases h
      · rename_i hv
        exact ⟨hb, ho, s1, h1, hv, h⟩
    · rw [if_neg ho] at h
      right
      simp only at h
      by_cases c1 : (!u.doFlag) = true ∧
          (s.m_rtable.LookupReactive s.now u.destinationAddress).retransmitter ≠ GetBroadcast
      · rw [if_pos c1] at h
        by_cases c2 : HwmpProtocol.lifetimeTU
            (s.m_rtable.LookupReactive s.now u.destinationAddress) > 0 ∧
            sdiff (s.m_rtable.LookupReactive s.now u.destinationAddress).seqnum u.destSeqNumber ≥ 0
        · rw [if_pos c2] at h
          left
          rw [bind_ok_iff] at h
          obtain ⟨s1, h1, h⟩ := h
          refine ⟨hb, ho, ?_, s1, h1, ?_⟩
          · simp only [canAnswer, Bool.and_eq_true, decide_eq_true_eq]
            exact ⟨⟨⟨c1.1, c1.2⟩, c2.1⟩, c2.2⟩
          · split at h
            · rename_i hrf
              rw [if_pos hrf]
              exact h
            · rename_i hrf
              rw [if_neg hrf]
              exact h
        · rw [if_neg c2] at h
          right
          refine ⟨hb, ho, ?_, h⟩
          simp only [canAnswer, Bool.and_eq_false_iff, decide_eq_false_iff_not]
          by_cases c3 : HwmpProtocol.lifetimeTU
              (s.m_rtable.LookupReactive s.now u.destinationAddress) > 0
          · exact Or.inr (fun hh => c2 ⟨c3, hh⟩)
          · exact Or.inl (Or.inr c3)
      · rw [if_neg c1] at h
        right
        refine ⟨hb, ho, ?_, h⟩
        simp only [canAnswer, Bool.and_eq_false_iff, decide_eq_false_iff_not]
        by_cases c3 : (!u.doFlag) = true
        · exact Or.inl (Or.inl (Or.inr (fun hh => c1 ⟨c3, hh⟩)))
        · exact Or.inl (Or.inl (Or.inl (by simpa using c3)))

/-! ## What the destination loop leaves alone -/

theorem Steady.steady_refl (s : HwmpProtocol) : Steady s s := ⟨rfl, rfl, rfl⟩

theorem Steady.steady_trans {s s1 s2 : HwmpProtocol} (h1 : Steady s s1) (h2 : Steady s1 s2) :
    Steady s s2 :=
  ⟨h2.preqs.trans h1.preqs, h2.draws.trans h1.draws, h2.delay.trans h1.delay⟩

theorem SameLookup.same_refl (s : HwmpProtocol) : SameLookup s s := ⟨rfl, fun _ _ => rfl⟩

theorem SameLookup.same_trans {s s1 s2 : HwmpProtocol} (h1 : SameLookup s s1)
    (h2 : SameLookup s1 s2) : SameLookup s s2 :=
  ⟨h2.now.trans h1.now, fun t d => (h2.lookup t d).trans (h1.lookup t d)⟩

theorem sentPreps_snoc_reply (l : List Action) (n : Nat) (b : Bool) (p : Packet)
    (x y : Mac48Address) (a m : Nat) :
    sentPreps (l ++ [Action.routeReply n b p x y a m]) = sentPreps l := by
  rw [sentPreps_append]
  simp only [sentPreps, List.append_nil]

theorem scheduledPreqs_snoc_reply (l : List Action) (n : Nat) (b : Bool) (p : Packet)
    (x y : Mac48Address) (a m : Nat) :
    scheduledPreqs (l ++ [Action.routeReply n b p x y a m]) = scheduledPreqs l := by
  rw [scheduledPreqs_append]
  simp only [scheduledPreqs, List.append_nil]

/-- The loop of `ProactivePathResolved` sends no PREP, schedules no PREQ, draws
no delay and leaves the clock and the reactive paths alone. -/
theorem proactiveSendLoop_calm (result : LookupResult) (fuel : Nat) :
    ∀ (p : QueuedPacket) (s s1 : HwmpProtocol),
      HwmpProtocol.proactiveSendLoop result fuel p s = .ok s1 →
      Quiet s s1 ∧ SameLookup s s1 ∧ Steady s s1 := by
  induction fuel with
  | zero =>
    intro p s s1 h
    simp only [HwmpProtocol.proactiveSendLoop] at h
    cases h
    exact ⟨Quiet.quiet_refl s, SameLookup.same_refl s, Steady.steady_refl s⟩
  | succ n ih =>
    intro p s s1 h
    unfold HwmpProtocol.proactiveSendLoop at h
    split at h
    · cases h
      exact ⟨Quiet.quiet_refl s, SameLookup.same_refl s, Steady.steady_refl s⟩
    · split at h
      · cases h
      · obtain ⟨hq, hl, hs⟩ := ih _ _ _ h
        refine ⟨Quiet.quiet_trans ?_ hq, SameLookup.same_trans ?_ hl, Steady.steady_trans ?_ hs⟩
        · simp only [HwmpProtocol.DequeueFirstPacket, HwmpProtocol.emit]
          split <;>
            exact ⟨sentPreps_snoc_reply _ _ _ _ _ _ _ _, scheduledPreqs_snoc_reply _ _ _ _ _ _ _ _,
              rfl, rfl⟩
        · simp only [HwmpProtocol.DequeueFirstPacket, HwmpProtocol.emit]
          split <;> exact ⟨rfl, fun _ _ => rfl⟩
        · simp only [HwmpProtocol.DequeueFirstPacket, HwmpProtocol.emit]
          split <;> exact ⟨scheduledPreqs_snoc_reply _ _ _ _ _ _ _ _, rfl, rfl⟩

theorem ProactivePathResolved_calm {s s1 : HwmpProtocol}
    (h : s.ProactivePathResolved = .ok s1) : Quiet s s1 ∧ SameLookup s s1 ∧ Steady s s1 := by
  unfold HwmpProtocol.ProactivePathResolved at h
  simp only at h
  split at h
  · cases h
  · obtain ⟨hq, hl, hs⟩ := proactiveSendLoop_calm _ _ _ _ _ h
    refine ⟨Quiet.quiet_trans ?_ hq, SameLookup.same_trans ?_ hl, Steady.steady_trans ?_ hs⟩
    · simp only [HwmpProtocol.DequeueFirstPacket]
      split <;> exact ⟨rfl, rfl, rfl, rfl⟩
    · simp only [HwmpProtocol.DequeueFirstPacket]
      split <;> exact ⟨rfl, fun _ _ => rfl⟩
    · simp only [HwmpProtocol.DequeueFirstPacket]
      split <;> exact ⟨rfl, rfl, rfl⟩

theorem addProactive_calm (s : HwmpProtocol) (preq : IePreq) (from_ : Mac48Address)
    (interface : Nat) :
    Quiet s (s.addProactive preq from_ interface) ∧
    SameLookup s (s.addProactive preq from_ interface) ∧
    Steady s (s.addProactive preq from_ interface) := by
  refine ⟨⟨?_, ?_, rfl, rfl⟩, ⟨rfl, fun _ _ => rfl⟩, ⟨?_, rfl, rfl⟩⟩
  · show sentPreps (s.out ++ [_]) = _
    rw [sentPreps_append]
    simp only [HwmpProtocol.addTrace, sentPreps, List.append_nil]
  · show scheduledPreqs (s.out ++ [_]) = _
    rw [scheduledPreqs_append]
    simp only [HwmpProtocol.addTrace, scheduledPreqs, List.append_nil]
  · show scheduledPreqs (s.out ++ [_]) = _
    rw [scheduledPreqs_append]
    simp only [HwmpProtocol.addTrace, scheduledPreqs, List.append_nil]

theorem addPrecursor_calm (s : HwmpProtocol) (dst : Mac48Address) (interface : Nat)
    (address : Mac48Address) (lifetime : Time) :
    Quiet s (s.addPrecursor dst interface address lifetime) ∧
    SameLookup s (s.addPrecursor dst interface address lifetime) ∧
    Steady s (s.addPrecursor dst interface address lifetime) :=
  ⟨⟨rfl, rfl, rfl, rfl⟩,
   ⟨rfl, fun t d => LookupReactive_AddPrecursor s.m_rtable s.now t dst d interface address lifetime⟩,
   ⟨rfl, rfl, rfl⟩⟩

/-- What `SendPrep` leaves alone. -/
theorem SendPrep_calm {s s1 : HwmpProtocol} {src dst retransmitter : Mac48Address}
    {initMetric originatorDsn destinationSN lifetime interface : Nat}
    (h : s.SendPrep src dst retransmitter initMetric originatorDsn destinationSN lifetime interface
      = .ok s1) : SameLookup s s1 ∧ Steady s s1 := by
  unfold HwmpProtocol.SendPrep at h
  simp only at h
  split at h
  · cases h
  · cases h
    refine ⟨⟨rfl, fun _ _ => rfl⟩, ⟨?_, rfl, rfl⟩⟩
    show scheduledPreqs (s.out ++ [_]) = _
    rw [scheduledPreqs_append]
    simp only [scheduledPreqs, List.append_nil]

theorem GetNextHwmpSeqno_calm (s : HwmpProtocol) :
    SameLookup s s.GetNextHwmpSeqno.2 ∧ Steady s s.GetNextHwmpSeqno.2 :=
  ⟨⟨rfl, fun _ _ => rfl⟩, ⟨rfl, rfl, rfl⟩⟩

/-- The destination loop of `ReceivePreq` installs no reactive path, schedules
nothing and leaves the clock alone. -/
theorem preqDestLoop_calm (preq : IePreq) (from_ : Mac48Address) (interface : Nat) :
    ∀ (dests : List (Nat × DestinationAddressUnit)) (s : HwmpProtocol)
      (live : List (Nat × DestinationAddressUnit))
      (r : HwmpProtocol × List (Nat × DestinationAddressUnit)),
      HwmpProtocol.preqDestLoop preq from_ interface dests s live = .ok r →
      SameLookup s r.1 ∧ Steady s r.1 := by
  intro dests
  induction dests with
  | nil =>
    intro s live r h
    simp only [HwmpProtocol.preqDestLoop] at h
    cases h
    exact ⟨SameLookup.same_refl s, Steady.steady_refl s⟩
  | cons e rest ih =>
    obtain ⟨idx, u⟩ := e
    intro s live r h
    rcases preqDestLoop_cons_inv h with
      ⟨_, _, s1, s2, h1, h2, hr⟩ | ⟨_, _, s1, h1, _, hr⟩ | ⟨_, _, _, s1, h1, hr⟩ | ⟨_, _, _, hr⟩
    · subst hr
      have k1 : SameLookup s s1 ∧ Steady s s1 := by
        split at h1
        · obtain ⟨_, a, b⟩ := addProactive_calm s preq from_ interface
          obtain ⟨_, c, d⟩ := ProactivePathResolved_calm h1
          exact ⟨a.same_trans c, b.steady_trans d⟩
        · cases h1
          exact ⟨SameLookup.same_refl s, Steady.steady_refl s⟩
      have k2 : SameLookup s1 s2 ∧ Steady s1 s2 := by
        split at h2
        · obtain ⟨a, b⟩ := GetNextHwmpSeqno_calm s1
          obtain ⟨c, d⟩ := SendPrep_calm h2
          exact ⟨a.same_trans c, b.steady_trans d⟩
        · cases h2
          exact ⟨SameLookup.same_refl s1, Steady.steady_refl s1⟩
      exact ⟨k1.1.same_trans k2.1, k1.2.steady_trans k2.2⟩
    · obtain ⟨a, b⟩ := GetNextHwmpSeqno_calm s
      obtain ⟨c, d⟩ := SendPrep_calm h1
      obtain ⟨e, f⟩ := ih _ _ _ hr
      exact ⟨(a.same_trans c).same_trans e, (b.steady_trans d).steady_trans f⟩
    · obtain ⟨c, d⟩ := SendPrep_calm h1
      obtain ⟨_, a, b⟩ := addPrecursor_calm s1 u.destinationAddress interface from_
        (HwmpProtocol.lifetimeTime preq.lifetime)
      obtain ⟨e, f⟩ := ih _ _ _ hr
      exact ⟨(c.same_trans a).same_trans e, (d.steady_trans b).steady_trans f⟩
    · exact ih _ _ _ hr

/-! ## Completion of ReceivePreq -/

theorem stage_steady {s s2 : HwmpProtocol} (c : Prop) [Decidable c] {dst from_ : Mac48Address}
    {interface metric lifetime seqnum : Nat}
    (h : (if c then s.installReactive dst from_ interface metric lifetime seqnum else .ok s)
      = .ok s2) : Steady s s2 := by
  have hq := (stage_quiet c h).1
  refine ⟨hq.preqs, ?_, ?_⟩
  · by_cases hc : c
    · rw [if_pos hc] at h
      unfold HwmpProtocol.installReactive at h
      rw [ReactivePathResolved_eq] at h
      split at h
      · cases h
      · cases h
        rfl
    · rw [if_neg hc] at h
      cases h
      rfl
  · by_cases hc : c
    · rw [if_pos hc] at h
      unfold HwmpProtocol.installReactive at h
      rw [ReactivePathResolved_eq] at h
      split at h
      · cases h
      · cases h
        rfl
    · rw [if_neg hc] at h
      cases h
      rfl

theorem stage_tagged {s s2 : HwmpProtocol} (c : Prop) [Decidable c] {dst from_ : Mac48Address}
    {interface metric lifetime seqnum : Nat}
    (h : (if c then s.installReactive dst from_ interface metric lifetime seqnum else .ok s)
      = .ok s2) (hq : QueueTagged s.m_rqueue) : QueueTagged s2.m_rqueue := by
  by_cases hc : c
  · rw [if_pos hc] at h
    unfold HwmpProtocol.installReactive at h
    rw [ReactivePathResolved_eq] at h
    split at h
    · cases h
    · cases h
      intro p hp
      exact hq p (remainBy_mem dst s.m_rqueue p hp)
  · rw [if_neg hc] at h
    cases h
    exact hq

/-- A stage that installs a path and completes had a positive lifetime and a
transmitter other than the broadcast address. -/
theorem stage_done {s s2 : HwmpProtocol} {dst from_ : Mac48Address}
    {interface metric lifetime seqnum : Nat}
    (h : s.installReactive dst from_ interface metric lifetime seqnum = .ok s2) :
    0 < HwmpProtocol.lifetimeTime lifetime ∧ from_ ≠ GetBroadcast := by
  unfold HwmpProtocol.installReactive at h
  rw [ReactivePathResolved_eq] at h
  split at h
  · cases h
  · rename_i hv
    have hv2 : ((s.m_rtable.AddReactivePath s.now dst from_ interface metric
        (HwmpProtocol.lifetimeTime lifetime) seqnum).LookupReactive s.now dst).retransmitter
        ≠ GetBroadcast := hv
    unfold HwmpRtable.LookupReactive HwmpRtable.LookupReactiveExpired
      HwmpRtable.AddReactivePath at hv2
    simp only [mapFind_mapInsert, if_true] at hv2
    by_cases hl : s.now < s.now + HwmpProtocol.lifetimeTime lifetime
    · simp only [hl, if_true] at hv2
      exact ⟨(lt_add_iff_pos_right _).mp hl, hv2⟩
    · simp only [hl, if_false] at hv2
      exact absurd rfl hv2

theorem DequeueFirstPacket_tagged (s : HwmpProtocol) (l : List QueuedPacket)
    (hl : s.m_rqueue = l) (h : QueueTagged l) :
    (∀ x, s.DequeueFirstPacket.1.pkt = some x → x.tag ≠ none) ∧
    QueueTagged s.DequeueFirstPacket.2.m_rqueue := by
  subst hl
  unfold HwmpProtocol.DequeueFirstPacket
  split
  · refine ⟨?_, h⟩
    intro x hx
    cases hx
  · rename_i p q hq
    rw [hq] at h
    refine ⟨fun x hx => h p (List.mem_cons_self _ _) x hx, ?_⟩
    intro a ha
    exact h a (List.mem_cons_of_mem _ ha)

/-- The loop of `ProactivePathResolved` completes on a queue of tagged frames. -/
theorem proactiveSendLoop_ok (result : LookupResult) (fuel : Nat) :
    ∀ (p : QueuedPacket) (s : HwmpProtocol), (∀ x, p.pkt = some x → x.tag ≠ none) →
      QueueTagged s.m_rqueue → ∃ s1, HwmpProtocol.proactiveSendLoop result fuel p s = .ok s1 := by
  induction fuel with
  | zero =>
    intro p s _ _
    exact ⟨s, rfl⟩
  | succ n ih =>
    intro p s hp hq
    unfold HwmpProtocol.proactiveSendLoop
    split
    · exact ⟨s, rfl⟩
    · rename_i x hx
      split
      · rename_i ht
        exact absurd ht (hp x hx)
      · rename_i t ht
        refine ih _ _ ?_ ?_
        · exact (DequeueFirstPacket_tagged _ s.m_rqueue (by rfl) hq).1
        · exact (DequeueFirstPacket_tagged _ s.m_rqueue (by rfl) hq).2

theorem ProactivePathResolved_ok (s : HwmpProtocol)
    (hv : (s.m_rtable.LookupProactive s.now).retransmitter ≠ GetBroadcast)
    (hq : QueueTagged s.m_rqueue) : ∃ s1, s.ProactivePathResolved = .ok s1 := by
  unfold HwmpProtocol.ProactivePathResolved
  simp only
  rw [if_neg hv]
  exact proactiveSendLoop_ok _ _ _ _ (DequeueFirstPacket_tagged s _ rfl hq).1
    (DequeueFirstPacket_tagged s _ rfl hq).2

theorem LookupProactive_AddProactivePath (t : HwmpRtable) (now : Int) (m : Nat)
    (root r : Mac48Address) (i : Nat) (L : Int) (sn : Nat) (hL : 0 < L) :
    (t.AddProactivePath now m root r i L sn).LookupProactive now =
      { retransmitter := r, ifIndex := i, metric := m, seqnum := sn, lifetime := L } := by
  unfold HwmpRtable.LookupProactive HwmpRtable.LookupProactiveExpired HwmpRtable.AddProactivePath
  have h1 : now < now + L := by omega
  have h2 : now + L - now = L := by omega
  simp only [h1, if_true, h2]

/-- The destination loop of `ReceivePreq` completes when no destination is the
broadcast address, the receiving interface is installed and the station holds a
valid path to the originator. -/
theorem preqDestLoop_ok (preq : IePreq) (from_ : Mac48Address) (interface : Nat) :
    ∀ (dests : List (Nat × DestinationAddressUnit)) (s : HwmpProtocol)
      (live : List (Nat × DestinationAddressUnit)),
      (∀ e ∈ dests, e.2.destinationAddress ≠ GetBroadcast) →
      mapFind s.m_interfaces interface ≠ none →
      (s.m_rtable.LookupReactive s.now preq.originatorAddress).retransmitter ≠ GetBroadcast →
      ∃ r, HwmpProtocol.preqDestLoop preq from_ interface dests s live = .ok r := by
  intro dests
  induction dests with
  | nil =>
    intro s live _ _ _
    exact ⟨(s, live), rfl⟩
  | cons e rest ih =>
    obtain ⟨idx, u⟩ := e
    intro s live hd hif hv
    have hb : u.destinationAddress ≠ GetBroadcast := hd (idx, u) (List.mem_cons_self _ _)
    have hrest : ∀ e ∈ rest, e.2.destinationAddress ≠ GetBroadcast :=
      fun e he => hd e (List.mem_cons_of_mem _ he)
    unfold HwmpProtocol.preqDestLoop
    rw [if_neg hb]
    by_cases ho : u.destinationAddress = s.m_address
    · rw [if_pos ho]
      obtain ⟨s1, h1⟩ := SendPrep_installed s.GetNextHwmpSeqno.2 s.m_address
        preq.originatorAddress from_ 0 preq.originatorSeqNumber s.GetNextHwmpSeqno.1 preq.lifetime
        interface hif
      have c := (SendPrep_calm h1).1
      have f := SendPrep_frame h1
      have hv1 : (s1.m_rtable.LookupReactive s1.now preq.originatorAddress).retransmitter
          ≠ GetBroadcast := by
        rw [c.now, c.lookup]
        exact hv
      obtain ⟨r, hr⟩ := ih s1 (HwmpProtocol.delDestinationAddressElement u.destinationAddress live)
        hrest (by rw [f.interfaces]; exact hif) hv1
      refine ⟨r, ?_⟩
      rw [bind_ok_iff]
      exact ⟨s1, h1, by rw [if_neg hv1]; exact hr⟩
    · rw [if_neg ho]
      simp only
      by_cases c1 : (!u.doFlag) = true ∧
          (s.m_rtable.LookupReactive s.now u.destinationAddress).retransmitter ≠ GetBroadcast
      · rw [if_pos c1]
        by_cases c2 : HwmpProtocol.lifetimeTU
            (s.m_rtable.LookupReactive s.now u.destinationAddress) > 0 ∧
            sdiff (s.m_rtable.LookupReactive s.now u.destinationAddress).seqnum u.destSeqNumber ≥ 0
        · rw [if_pos c2]
          obtain ⟨s1, h1⟩ := SendPrep_installed s u.destinationAddress
            preq.originatorAddress from_
            (s.m_rtable.LookupReactive s.now u.destinationAddress).metric
            preq.originatorSeqNumber
            (s.m_rtable.LookupReactive s.now u.destinationAddress).seqnum
            (HwmpProtocol.lifetimeTU (s.m_rtable.LookupReactive s.now u.destinationAddress))
            interface hif
          have c := (SendPrep_calm h1).1
          have f := SendPrep_frame h1
          have c' := (addPrecursor_calm s1 u.destinationAddress interface from_
            (HwmpProtocol.lifetimeTime preq.lifetime)).2.1
          have f' := addPrecursor_frame s1 u.destinationAddress interface from_
            (HwmpProtocol.lifetimeTime preq.lifetime)
          have hv1 : ((s1.addPrecursor u.destinationAddress interface from_
              (HwmpProtocol.lifetimeTime preq.lifetime)).m_rtable.LookupReactive
              (s1.addPrecursor u.destinationAddress interface from_
                (HwmpProtocol.lifetimeTime preq.lifetime)).now
              preq.originatorAddress).retransmitter ≠ GetBroadcast := by
            rw [c'.now, c'.lookup, c.now, c.lookup]
            exact hv
          have hif1 : mapFind (s1.addPrecursor u.destinationAddress interface from_
              (HwmpProtocol.lifetimeTime preq.lifetime)).m_interfaces interface ≠ none := by
            rw [f'.interfaces, f.interfaces]
            exact hif
          by_cases hrf : u.rfFlag = true
          · obtain ⟨r, hr⟩ := ih _ (HwmpProtocol.setFlagsAt idx live) hrest hif1 hv1
            refine ⟨r, ?_⟩
            rw [bind_ok_iff]
            exact ⟨s1, h1, by rw [if_pos hrf]; exact hr⟩
          · obtain ⟨r, hr⟩ := ih _
              (HwmpProtocol.delDestinationAddressElement u.destinationAddress live) hrest hif1 hv1
            refine ⟨r, ?_⟩
            rw [bind_ok_iff]
            exact ⟨s1, h1, by rw [if_neg hrf]; exact hr⟩
        · rw [if_neg c2]
          exact ih s live hrest hif hv
      · rw [if_neg c1]
        exact ih s live hrest hif hv

/-- The only turn of the destination loop for a proactive PREQ completes, and
keeps the destination in the PREQ. -/
theorem preqDestLoop_proactive_ok (preq : IePreq) (from_ : Mac48Address) (interface : Nat)
    (u : DestinationAddressUnit) (s : HwmpProtocol) (hu : u.destinationAddress = GetBroadcast)
    (hdo : u.doFlag = true) (hrf : u.rfFlag = true)
    (hL : 0 < HwmpProtocol.lifetimeTime preq.lifetime) (hfrom : from_ ≠ GetBroadcast)
    (hif : mapFind s.m_interfaces interface ≠ none) (hq : QueueTagged s.m_rqueue) :
    ∃ r, HwmpProtocol.preqDestLoop preq from_ interface [(0, u)] s [(0, u)] = .ok r ∧
      r.2 = [(0, u)] := by
  have hstage : ∃ s1, (if (s.m_rtable.LookupProactive s.now).retransmitter = GetBroadcast ∨
        (s.m_rtable.LookupProactive s.now).metric > preq.metric then
        (s.addProactive preq from_ interface).ProactivePathResolved
      else .ok s) = .ok s1 ∧ s1.m_interfaces = s.m_interfaces := by
    split
    · have hv : ((s.addProactive preq from_ interface).m_rtable.LookupProactive
          (s.addProactive preq from_ interface).now).retransmitter ≠ GetBroadcast := by
        show ((s.m_rtable.AddProactivePath s.now preq.metric preq.originatorAddress from_ interface
          (HwmpProtocol.lifetimeTime preq.lifetime) preq.originatorSeqNumber).LookupProactive
          s.now).retransmitter ≠ GetBroadcast
        rw [LookupProactive_AddProactivePath _ _ _ _ _ _ _ _ hL]
        exact hfrom
      obtain ⟨s1, h1⟩ := ProactivePathResolved_ok (s.addProactive preq from_ interface) hv hq
      exact ⟨s1, h1, (ProactivePathResolved_keeps 0 h1).1.interfaces⟩
    · exact ⟨s, rfl, rfl⟩
  obtain ⟨s1, h1, hi1⟩ := hstage
  have hprep : ∃ s2, (if (!preq.needNotPrep) = true then
        s1.GetNextHwmpSeqno.2.SendPrep s1.m_address preq.originatorAddress from_ 0
          preq.originatorSeqNumber s1.GetNextHwmpSeqno.1 preq.lifetime interface
      else .ok s1) = .ok s2 := by
    split
    · exact SendPrep_installed s1.GetNextHwmpSeqno.2 _ _ _ _ _ _ _ interface
        (by rw [show s1.GetNextHwmpSeqno.2.m_interfaces = s1.m_interfaces from rfl, hi1]; exact hif)
    · exact ⟨s1, rfl⟩
  obtain ⟨s2, h2⟩ := hprep
  refine ⟨(s2, [(0, u)]), ?_, rfl⟩
  unfold HwmpProtocol.preqDestLoop
  rw [if_pos hu, if_neg (by simp), if_neg (by simp [hdo, hrf])]
  rw [bind_ok_iff]
  refine ⟨s1, h1, ?_⟩
  rw [bind_ok_iff]
  exact ⟨s2, h2, rfl⟩

/-- The stages of `ReceivePreq` put together, whatever the destination loop
leaves in the PREQ. -/
theorem ReceivePreq_of_loop {s s2 s3 : HwmpProtocol} {preq0 : IePreq} {from_ : Mac48Address}
    {interface : Nat} {fromMp : Mac48Address} {metric : Nat} {freshInfo : Bool}
    {r : HwmpProtocol × List (Nat × DestinationAddressUnit)}
    (hacc : HwmpProtocol.preqAccept (mapFind s.m_hwmpSeqnoMetricDatabase preq0.originatorAddress)
      (preq0.IncrementMetric metric) = some freshInfo)
    (h2 : (if freshInfo = true ∨
          (s.m_rtable.LookupReactive s.now preq0.originatorAddress).retransmitter = GetBroadcast ∨
          (s.m_rtable.LookupReactive s.now preq0.originatorAddress).metric >
            u32 (preq0.metric + metric) then
        (s.setSeqnoMetric preq0.originatorAddress preq0.originatorSeqNumber
          (u32 (preq0.metric + metric))).installReactive
          preq0.originatorAddress from_ interface (u32 (preq0.metric + metric)) preq0.lifetime
          preq0.originatorSeqNumber
       else .ok (s.setSeqnoMetric preq0.originatorAddress preq0.originatorSeqNumber
          (u32 (preq0.metric + metric)))) = .ok s2)
    (h3 : (if (s2.m_rtable.LookupReactive s2.now fromMp).retransmitter = GetBroadcast ∨
          (s2.m_rtable.LookupReactive s2.now fromMp).metric > metric then
        s2.installReactive fromMp from_ interface metric preq0.lifetime preq0.originatorSeqNumber
       else .ok s2) = .ok s3)
    (hr : HwmpProtocol.preqDestLoop (preq0.IncrementMetric metric) from_ interface
        (HwmpProtocol.tagFrom 0 preq0.destinations) s3
        (HwmpProtocol.tagFrom 0 preq0.destinations) = .ok r) :
    s.ReceivePreq preq0 from_ interface fromMp metric =
      .ok (if r.2.length = 0 then r.1
           else HwmpProtocol.forwardPreqLoop (IePreq.mk preq0.originatorAddress
              preq0.originatorSeqNumber preq0.preqId preq0.hopcount preq0.ttl preq0.lifetime
              (u32 (preq0.metric + metric)) preq0.needNotPrep (r.2.map Prod.snd))
              r.1.m_interfaces r.1) := by
  unfold HwmpProtocol.ReceivePreq
  simp only [IePreq.IncrementMetric] at hacc hr ⊢
  simp only [hacc]
  rw [bind_ok_iff]
  refine ⟨s2, h2, ?_⟩
  rw [bind_ok_iff]
  refine ⟨s3, h3, ?_⟩
  rw [bind_ok_iff]
  refine ⟨r, hr, ?_⟩
  split <;> rfl

theorem tagFrom_mem {α : Type} (l : List α) :
    ∀ (n : Nat) (e : Nat × α), e ∈ HwmpProtocol.tagFrom n l → e.2 ∈ l := by
  induction l with
  | nil =>
    intro n e he
    cases he
  | cons a t ih =>
    intro n e he
    simp only [HwmpProtocol.tagFrom, List.mem_cons] at he
    rcases he with h | h
    · rw [h]
      exact List.mem_cons_self _ _
    · exact List.mem_cons_of_mem _ (ih _ _ h)

theorem tagFrom_map_snd {α : Type} (l : List α) :
    ∀ n : Nat, (HwmpProtocol.tagFrom n l).map Prod.snd = l := by
  induction l with
  | nil => intro n; rfl
  | cons a t ih =>
    intro n
    simp only [HwmpProtocol.tagFrom, List.map_cons, ih]

/-- After the two path stages of `ReceivePreq` on an accepted PREQ the station
holds a valid path to the originator, the interfaces are those of before and
the queue holds frames of the queue of before. -/
theorem ReceivePreq_stages_ok (s : HwmpProtocol) (preq0 : IePreq) (from_ : Mac48Address)
    (interface : Nat) (fromMp : Mac48Address) (metric : Nat) (freshInfo : Bool)
    (hL : 0 < HwmpProtocol.lifetimeTime preq0.lifetime) (hfrom : from_ ≠ GetBroadcast) :
    ∃ s2 s3,
      (if freshInfo = true ∨
          (s.m_rtable.LookupReactive s.now preq0.originatorAddress).retransmitter = GetBroadcast ∨
          (s.m_rtable.LookupReactive s.now preq0.originatorAddress).metric >
            u32 (preq0.metric + metric) then
        (s.setSeqnoMetric preq0.originatorAddress preq0.originatorSeqNumber
          (u32 (preq0.metric + metric))).installReactive
          preq0.originatorAddress from_ interface (u32 (preq0.metric + metric)) preq0.lifetime
          preq0.originatorSeqNumber
       else .ok (s.setSeqnoMetric preq0.originatorAddress preq0.originatorSeqNumber
          (u32 (preq0.metric + metric)))) = .ok s2 ∧
      (if (s2.m_rtable.LookupReactive s2.now fromMp).retransmitter = GetBroadcast ∨
          (s2.m_rtable.LookupReactive s2.now fromMp).metric > metric then
        s2.installReactive fromMp from_ interface metric preq0.lifetime preq0.originatorSeqNumber
       else .ok s2) = .ok s3 ∧
      s3.m_interfaces = s.m_interfaces ∧
      (QueueTagged s.m_rqueue → QueueTagged s3.m_rqueue) ∧
      (s3.m_rtable.LookupReactive s3.now preq0.originatorAddress).retransmitter ≠ GetBroadcast := by
  obtain ⟨s2, h2⟩ := stage_ok (s.setSeqnoMetric preq0.originatorAddress preq0.originatorSeqNumber
    (u32 (preq0.metric + metric)))
    (freshInfo = true ∨
      (s.m_rtable.LookupReactive s.now preq0.originatorAddress).retransmitter = GetBroadcast ∨
      (s.m_rtable.LookupReactive s.now preq0.originatorAddress).metric >
        u32 (preq0.metric + metric))
    preq0.originatorAddress from_ interface (u32 (preq0.metric + metric)) preq0.lifetime
    preq0.originatorSeqNumber hL hfrom
  obtain ⟨s3, h3⟩ := stage_ok s2
    ((s2.m_rtable.LookupReactive s2.now fromMp).retransmitter = GetBroadcast ∨
      (s2.m_rtable.LookupReactive s2.now fromMp).metric > metric)
    fromMp from_ interface metric preq0.lifetime preq0.originatorSeqNumber hL hfrom
  refine ⟨s2, s3, h2, h3, ?_, ?_, ?_⟩
  · rw [(stage_quiet _ h3).2.interfaces, (stage_quiet _ h2).2.interfaces]
    rfl
  · intro hq
    exact stage_tagged _ h3 (stage_tagged _ h2 hq)
  · have k2 := (stage_lookup _ hL hfrom h2 preq0.originatorAddress).2
    have k3 := (stage_lookup _ hL hfrom h3 preq0.originatorAddress).2
    rw [k3]
    split
    · exact hfrom
    · rw [k2]
      split
      · exact hfrom
      · rename_i hc
        intro hb
        exact hc ⟨Or.inr (Or.inl hb), rfl⟩

/-- Completion of `ReceivePreq` on a well-formed PREQ. -/
theorem ReceivePreq_completes (s : HwmpProtocol) (preq : IePreq) (from_ : Mac48Address)
    (interface : Nat) (fromMp : Mac48Address) (metric : Nat)
    (hL : 0 < HwmpProtocol.lifetimeTime preq.lifetime) (hfrom : from_ ≠ GetBroadcast)
    (hif : mapFind s.m_interfaces interface ≠ none) (hq : QueueTagged s.m_rqueue)
    (hd : WellFormedDestinations preq.destinations) :
    ∃ s1, s.ReceivePreq preq from_ interface fromMp metric = .ok s1 := by
  cases hacc : HwmpProtocol.preqAccept
      (mapFind s.m_hwmpSeqnoMetricDatabase preq.originatorAddress)
      (preq.IncrementMetric metric) with
  | none => exact ⟨s, ReceivePreq_dropped s preq from_ interface fromMp metric hacc⟩
  | some freshInfo =>
    obtain ⟨s2, s3, h2, h3, hi, hq3, hv⟩ :=
      ReceivePreq_stages_ok s preq from_ interface fromMp metric freshInfo hL hfrom
    have hif3 : mapFind s3.m_interfaces interface ≠ none := by rw [hi]; exact hif
    rcases hd with hd | ⟨u, hu, hb, hdo, hrf⟩
    · obtain ⟨r, hr⟩ := preqDestLoop_ok (preq.IncrementMetric metric) from_ interface
        (HwmpProtocol.tagFrom 0 preq.destinations) s3 (HwmpProtocol.tagFrom 0 preq.destinations)
        (fun e he => hd e.2 (tagFrom_mem _ _ _ he)) hif3 hv
      exact ⟨_, ReceivePreq_of_loop hacc h2 h3 hr⟩
    · obtain ⟨r, hr, _⟩ := preqDestLoop_proactive_ok (preq.IncrementMetric metric) from_ interface
        u s3 hb hdo hrf hL hfrom hif3 (hq3 hq)
      have hr' : HwmpProtocol.preqDestLoop (preq.IncrementMetric metric) from_ interface
          (HwmpProtocol.tagFrom 0 preq.destinations) s3
          (HwmpProtocol.tagFrom 0 preq.destinations) = .ok r := by
        rw [hu]
        exact hr
      exact ⟨_, ReceivePreq_of_loop hacc h2 h3 hr'⟩

/-- C23: a PREQ of a peer aborts the station.  Station 7 accepts the PREQ of
originator 5 whose only destination is the broadcast address with the flags DO
and RF clear, received from neighbour 3 on interface 1, and `ReceivePreq` ends
in the violated assertion on the flags of a proactive PREQ; the same PREQ with
both flags set is processed to the end. -/
theorem peer_preq_aborts_station :
    HwmpProtocol.preqAccept (mapFind station7.m_hwmpSeqnoMetricDatabase
      preqBroadcastNoFlags.originatorAddress) (preqBroadcastNoFlags.IncrementMetric 10)
      = some true ∧
    station7.ReceivePreq preqBroadcastNoFlags 3 1 3 10 = .error Fault.assertFailed ∧
    ∃ s1, station7.ReceivePreq proactivePreqFrom5 3 1 3 10 = .ok s1 :=
  ⟨rfl, rfl, ReceivePreq_completes station7 proactivePreqFrom5 3 1 3 10 (by decide) (by decide)
    (by decide) (fun p hp => by cases hp) (Or.inr ⟨_, rfl, rfl, rfl, rfl⟩)⟩

/-- A PREQ with lifetime zero aborts station 7 as well when a path is valid iff
`now < lifetime`: the path just installed is invalid at once, and
`ReactivePathResolved` finds its assertion violated. -/
theorem zero_lifetime_preq_aborts :
    station7.ReceivePreq preqZeroLifetime 3 1 3 10 = .error Fault.assertFailed :=
  rfl

/-! ## The reverse paths of a PREQ -/

/-- The forwarding loop of `ReceivePreq` appends one forward per interface, in
the order of the interface map, with consecutive draws of the delay. -/
theorem forwardPreqLoop_preqs (preq : IePreq) (ifs : List (Nat × HwmpProtocolMac)) :
    ∀ s : HwmpProtocol,
      scheduledPreqs (HwmpProtocol.forwardPreqLoop preq ifs s).out =
        scheduledPreqs s.out ++ forwardsFrom s.forwardingDelay preq s.delayDraws ifs ∧
      sentPreps (HwmpProtocol.forwardPreqLoop preq ifs s).out = sentPreps s.out ∧
      SameLookup s (HwmpProtocol.forwardPreqLoop preq ifs s) ∧
      (HwmpProtocol.forwardPreqLoop preq ifs s).m_hwmpSeqno = s.m_hwmpSeqno := by
  induction ifs with
  | nil =>
    intro s
    exact ⟨(List.append_nil _).symm, rfl, SameLookup.same_refl s, rfl⟩
  | cons i rest ih =>
    intro s
    unfold HwmpProtocol.forwardPreqLoop
    obtain ⟨h1, h2, h3, h4⟩ := ih (s.GetForwardingDelay.2.emit
      [Action.scheduleSendPreq s.GetForwardingDelay.1 i.1 preq])
    refine ⟨?_, ?_, ?_, ?_⟩
    · rw [h1]
      show scheduledPreqs (s.out ++ [_]) ++ forwardsFrom s.forwardingDelay preq (s.delayDraws + 1)
        rest = _
      rw [scheduledPreqs_append]
      simp only [scheduledPreqs, forwardsFrom, HwmpProtocol.GetForwardingDelay,
        List.append_assoc, List.singleton_append]
    · rw [h2]
      show sentPreps (s.out ++ [_]) = _
      rw [sentPreps_append]
      simp only [sentPreps, List.append_nil]
    · have h0 : SameLookup s (s.GetForwardingDelay.2.emit
          [Action.scheduleSendPreq s.GetForwardingDelay.1 i.1 preq]) := ⟨rfl, fun _ _ => rfl⟩
      exact h0.same_trans h3
    · rw [h4]
      rfl

/-- The stage "install a reactive path if it is news or an improvement": the
lookups after it, whenever it completes. -/
theorem stage_result {s s2 : HwmpProtocol} (c : Prop) [Decidable c] {dst from_ : Mac48Address}
    {interface metric lifetime seqnum : Nat}
    (h : (if c then s.installReactive dst from_ interface metric lifetime seqnum else .ok s)
      = .ok s2) (d : Mac48Address) :
    s2.now = s.now ∧
    s2.m_rtable.LookupReactive s2.now d =
      (if c ∧ dst = d then
        { retransmitter := from_, ifIndex := interface, metric := metric, seqnum := seqnum,
          lifetime := HwmpProtocol.lifetimeTime lifetime }
       else s.m_rtable.LookupReactive s.now d) := by
  by_cases hc : c
  · have h' := h
    rw [if_pos hc] at h'
    obtain ⟨hL, hfrom⟩ := stage_done h'
    exact stage_lookup c hL hfrom h d
  · obtain ⟨hn, hl⟩ := stage_other c h d (fun hh => hc hh.1)
    exact ⟨hn, by rw [hl, if_neg (fun hh => hc hh.1)]⟩

/-- The stages of `ReceivePreq` on an accepted PREQ, with what the loops after
the path stages leave alone. -/
theorem ReceivePreq_inv_calm {s s1 : HwmpProtocol} {preq0 : IePreq} {from_ : Mac48Address}
    {interface : Nat} {fromMp : Mac48Address} {metric : Nat} {freshInfo : Bool}
    (hacc : HwmpProtocol.preqAccept (mapFind s.m_hwmpSeqnoMetricDatabase preq0.originatorAddress)
      (preq0.IncrementMetric metric) = some freshInfo)
    (h : s.ReceivePreq preq0 from_ interface fromMp metric = .ok s1) :
    ∃ s2 s3,
      (if freshInfo = true ∨
          (s.m_rtable.LookupReactive s.now preq0.originatorAddress).retransmitter = GetBroadcast ∨
          (s.m_rtable.LookupReactive s.now preq0.originatorAddress).metric >
            u32 (preq0.metric + metric) then
        (s.setSeqnoMetric preq0.originatorAddress preq0.originatorSeqNumber
          (u32 (preq0.metric + metric))).installReactive
          preq0.originatorAddress from_ interface (u32 (preq0.metric + metric)) preq0.lifetime
          preq0.originatorSeqNumber
       else .ok (s.setSeqnoMetric preq0.originatorAddress preq0.originatorSeqNumber
          (u32 (preq0.metric + metric)))) = .ok s2 ∧
      (if (s2.m_rtable.LookupReactive s2.now fromMp).retransmitter = GetBroadcast ∨
          (s2.m_rtable.LookupReactive s2.now fromMp).metric > metric then
        s2.installReactive fromMp from_ interface metric preq0.lifetime preq0.originatorSeqNumber
       else .ok s2) = .ok s3 ∧
      SameLookup s3 s1 := by
  obtain ⟨s2, s3, r, h2, h3, hr, h1⟩ := ReceivePreq_inv hacc h
  refine ⟨s2, s3, h2, h3, ?_⟩
  have k := (preqDestLoop_calm _ _ _ _ _ _ _ hr).1
  rw [h1]
  split
  · exact k
  · exact k.same_trans (forwardPreqLoop_preqs _ _ _).2.2.1

/-- The reactive paths to the originator and to the transmitting mesh point
after `ReceivePreq` has processed an accepted PREQ to its end. -/
theorem ReceivePreq_paths {s s1 : HwmpProtocol} {preq0 : IePreq} {from_ : Mac48Address}
    {interface : Nat} {fromMp : Mac48Address} {metric : Nat} {freshInfo : Bool}
    (hacc : HwmpProtocol.preqAccept (mapFind s.m_hwmpSeqnoMetricDatabase preq0.originatorAddress)
      (preq0.IncrementMetric metric) = some freshInfo)
    (h : s.ReceivePreq preq0 from_ interface fromMp metric = .ok s1) (d : Mac48Address) :
    s1.now = s.now ∧
    s1.m_rtable.LookupReactive s1.now d =
      (if ((if (freshInfo = true ∨
              (s.m_rtable.LookupReactive s.now preq0.originatorAddress).retransmitter
                = GetBroadcast ∨
              (s.m_rtable.LookupReactive s.now preq0.originatorAddress).metric >
                u32 (preq0.metric + metric)) ∧ preq0.originatorAddress = fromMp then
              LookupResult.mk from_ interface (u32 (preq0.metric + metric))
                preq0.originatorSeqNumber (HwmpProtocol.lifetimeTime preq0.lifetime)
            else s.m_rtable.LookupReactive s.now fromMp).retransmitter = GetBroadcast ∨
           (if (freshInfo = true ∨
              (s.m_rtable.LookupReactive s.now preq0.originatorAddress).retransmitter
                = GetBroadcast ∨
              (s.m_rtable.LookupReactive s.now preq0.originatorAddress).metric >
                u32 (preq0.metric + metric)) ∧ preq0.originatorAddress = fromMp then
              LookupResult.mk from_ interface (u32 (preq0.metric + metric))
                preq0.originatorSeqNumber (HwmpProtocol.lifetimeTime preq0.lifetime)
            else s.m_rtable.LookupReactive s.now fromMp).metric > metric) ∧ fromMp = d then
        LookupResult.mk from_ interface metric preq0.originatorSeqNumber
          (HwmpProtocol.lifetimeTime preq0.lifetime)
       else if (freshInfo = true ∨
              (s.m_rtable.LookupReactive s.now preq0.originatorAddress).retransmitter
                = GetBroadcast ∨
              (s.m_rtable.LookupReactive s.now preq0.originatorAddress).metric >
                u32 (preq0.metric + metric)) ∧ preq0.originatorAddress = d then
        LookupResult.mk from_ interface (u32 (preq0.metric + metric))
          preq0.originatorSeqNumber (HwmpProtocol.lifetimeTime preq0.lifetime)
       else s.m_rtable.LookupReactive s.now d) := by
  obtain ⟨s2, s3, h2, h3, hc⟩ := ReceivePreq_inv_calm hacc h
  have a2 := stage_result _ h2
  have a3 := stage_result _ h3
  have n2 : s2.now = s.now := (a2 d).1
  have n3 : s3.now = s.now := (a3 d).1.trans n2
  refine ⟨hc.now.trans n3, ?_⟩
  rw [hc.now, hc.lookup, (a3 d).2, (a2 fromMp).2, (a2 d).2]
  rfl

/-- The value of `freshInfo` for an accepted PREQ: no pair is stored for the
originator, or the stored sequence number differs from that of the PREQ. -/
theorem preqAccept_fresh_iff {entry : Option (Nat × Nat)} {preq : IePreq} {f : Bool}
    (h : HwmpProtocol.preqAccept entry preq = some f) :
    f = true ↔ ∀ e, entry = some e → e.1 ≠ preq.originatorSeqNumber := by
  unfold HwmpProtocol.preqAccept at h
  cases entry with
  | none =>
    simp only [Option.some.injEq] at h
    subst h
    simp
  | some e0 =>
    simp only at h
    split at h
    · cases h
    · split at h
      · rename_i heq
        split at h
        · cases h
        · simp only [Option.some.injEq] at h
          subst h
          constructor
          · intro hc
            cases hc
          · intro hall
            exact absurd heq (hall e0 rfl)
      · rename_i hne
        simp only [Option.some.injEq] at h
        subst h
        constructor
        · intro _ e he
          cases he
          exact hne
        · intro _
          rfl

/-- A completed run on a fresh PREQ has installed the path to the originator, so
the lifetime was positive and the transmitter not the broadcast address. -/
theorem ReceivePreq_fresh_done {s s1 : HwmpProtocol} {preq0 : IePreq} {from_ : Mac48Address}
    {interface : Nat} {fromMp : Mac48Address} {metric : Nat}
    (hacc : HwmpProtocol.preqAccept (mapFind s.m_hwmpSeqnoMetricDatabase preq0.originatorAddress)
      (preq0.IncrementMetric metric) = some true)
    (h : s.ReceivePreq preq0 from_ interface fromMp metric = .ok s1) :
    0 < HwmpProtocol.lifetimeTime preq0.lifetime ∧ from_ ≠ GetBroadcast := by
  obtain ⟨s2, s3, h2, _, _⟩ := ReceivePreq_inv_calm hacc h
  rw [if_pos (Or.inl rfl)] at h2
  exact stage_done h2

/-- The record of the originator in the database after an accepted PREQ. -/
theorem ReceivePreq_recorded {s s1 : HwmpProtocol} {preq0 : IePreq} {from_ : Mac48Address}
    {interface : Nat} {fromMp : Mac48Address} {metric : Nat} {freshInfo : Bool}
    (hacc : HwmpProtocol.preqAccept (mapFind s.m_hwmpSeqnoMetricDatabase preq0.originatorAddress)
      (preq0.IncrementMetric metric) = some freshInfo)
    (h : s.ReceivePreq preq0 from_ interface fromMp metric = .ok s1) :
    mapFind s1.m_hwmpSeqnoMetricDatabase preq0.originatorAddress =
      some (preq0.originatorSeqNumber, u32 (preq0.metric + metric)) := by
  rw [(ReceivePreq_accepted_frame hacc h).db]
  simp only [HwmpProtocol.setSeqnoMetric]
  rw [mapFind_mapInsert, if_pos rfl]

/-- The path to the originator after a fresh PREQ. -/
theorem ReceivePreq_fresh_path {s s1 : HwmpProtocol} {preq0 : IePreq} {from_ : Mac48Address}
    {interface : Nat} {fromMp : Mac48Address} {metric : Nat}
    (hacc : HwmpProtocol.preqAccept (mapFind s.m_hwmpSeqnoMetricDatabase preq0.originatorAddress)
      (preq0.IncrementMetric metric) = some true)
    (h : s.ReceivePreq preq0 from_ interface fromMp metric = .ok s1) :
    s1.m_rtable.LookupReactive s1.now preq0.originatorAddress =
      { retransmitter := from_, ifIndex := interface,
        metric := (if fromMp = preq0.originatorAddress ∧ metric < u32 (preq0.metric + metric)
          then metric else u32 (preq0.metric + metric)),
        seqnum := preq0.originatorSeqNumber,
        lifetime := HwmpProtocol.lifetimeTime preq0.lifetime } := by
  obtain ⟨_, hfrom⟩ := ReceivePreq_fresh_done hacc h
  rw [(ReceivePreq_paths hacc h preq0.originatorAddress).2]
  by_cases hm : fromMp = preq0.originatorAddress
  · subst hm
    simp only [true_or, and_self, if_true, and_true, true_and, hfrom, false_or]
    by_cases hlt : metric < u32 (preq0.metric + metric)
    · rw [if_pos hlt, if_pos hlt]
    · rw [if_neg hlt, if_neg hlt]
  · rw [if_neg (fun hh => hm hh.2), if_pos ⟨Or.inl rfl, rfl⟩, if_neg (fun hh => hm hh.1)]

/-- C24: for every PREQ that the acceptance rule does not drop, `freshInfo` is
set iff no pair is stored for the originator or the stored sequence number
differs from that of the PREQ; whenever `ReceivePreq` runs to its end it has
recorded the pair (originator sequence number of the PREQ, 32-bit sum of the
PREQ metric and the link metric) for the originator, and, if the information is
fresh, the lookup of the originator yields next hop `from_`, interface
`interface`, the sequence number of the PREQ and as metric that sum, unless the
transmitting mesh point `fromMp` is the originator and the link metric is
smaller than the sum, in which case the metric is the link metric.  The run
reaches its end whenever the lifetime gives a positive duration, `from_` is not
the broadcast address, the interface is installed, the queued frames are tagged
and the destination list is well formed. -/
theorem preq_reverse_path (s : HwmpProtocol) (preq : IePreq) (from_ : Mac48Address)
    (interface : Nat) (fromMp : Mac48Address) (metric : Nat) (freshInfo : Bool)
    (hacc : HwmpProtocol.preqAccept (mapFind s.m_hwmpSeqnoMetricDatabase preq.originatorAddress)
      (preq.IncrementMetric metric) = some freshInfo) :
    (freshInfo = true ↔ ∀ e, mapFind s.m_hwmpSeqnoMetricDatabase preq.originatorAddress = some e →
      e.1 ≠ preq.originatorSeqNumber) ∧
    (∀ s1, s.ReceivePreq preq from_ interface fromMp metric = .ok s1 →
      mapFind s1.m_hwmpSeqnoMetricDatabase preq.originatorAddress =
        some (preq.originatorSeqNumber, u32 (preq.metric + metric)) ∧
      (freshInfo = true →
        s1.m_rtable.LookupReactive s1.now preq.originatorAddress =
          { retransmitter := from_, ifIndex := interface,
            metric := (if fromMp = preq.originatorAddress ∧ metric < u32 (preq.metric + metric)
              then metric else u32 (preq.metric + metric)),
            seqnum := preq.originatorSeqNumber,
            lifetime := HwmpProtocol.lifetimeTime preq.lifetime })) ∧
    (0 < HwmpProtocol.lifetimeTime preq.lifetime → from_ ≠ GetBroadcast →
      mapFind s.m_interfaces interface ≠ none → QueueTagged s.m_rqueue →
      WellFormedDestinations preq.destinations →
      ∃ s1, s.ReceivePreq preq from_ interface fromMp metric = .ok s1) := by
  have hfresh := @preqAccept_fresh_iff _ (preq.IncrementMetric metric) _ hacc
  refine ⟨hfresh, ?_, ?_⟩
  · intro s1 h
    refine ⟨ReceivePreq_recorded hacc h, ?_⟩
    intro hf
    subst hf
    exact ReceivePreq_fresh_path hacc h
  · intro hL hfrom hif hq hd
    exact ReceivePreq_completes s preq from_ interface fromMp metric hL hfrom hif hq hd

/-- Witness for C24: station 7 receives the PREQ of originator 5 through
neighbour 3 on interface 1 over a link of metric 10. -/
theorem preq_reverse_path_witness :
    ∃ s1, station7.ReceivePreq preqFor7 3 1 3 10 = .ok s1 ∧
      mapFind s1.m_hwmpSeqnoMetricDatabase 5 = some (5, 10) ∧
      s1.m_rtable.LookupReactive s1.now 5 =
        { retransmitter := 3, ifIndex := 1, metric := 10, seqnum := 5, lifetime := 102400 } := by
  obtain ⟨_, hA, hB⟩ := preq_reverse_path station7 preqFor7 3 1 3 10 true rfl
  obtain ⟨s1, h1⟩ := hB (by decide) (by decide) (by decide) (fun p hp => by cases hp)
    (Or.inl (by decide))
  exact ⟨s1, h1, (hA s1 h1).1, (hA s1 h1).2 rfl⟩

/-- C24, counterexample: station 7 receives the PREQ of originator 5 with metric
3 directly from the mesh point 5 over a link of metric 10.  The PREQ is accepted
as fresh and its lifetime is positive, yet after `ReceivePreq` the lookup of 5
yields metric 10, the link metric, not `3 + 10`. -/
theorem preq_metric_replaced_by_link_metric :
    HwmpProtocol.preqAccept (mapFind station7.m_hwmpSeqnoMetricDatabase
      preqFor7Metric3.originatorAddress) (preqFor7Metric3.IncrementMetric 10) = some true ∧
    0 < HwmpProtocol.lifetimeTime preqFor7Metric3.lifetime ∧
    run station7 [Call.receivePreq preqFor7Metric3 5 1 5 10]
      = .ok (after station7 [Call.receivePreq preqFor7Metric3 5 1 5 10]) ∧
    (after station7 [Call.receivePreq preqFor7Metric3 5 1 5 10]).m_rtable.LookupReactive
      (after station7 [Call.receivePreq preqFor7Metric3 5 1 5 10]).now 5 =
        { retransmitter := 5, ifIndex := 1, metric := 10, seqnum := 5, lifetime := 102400 } ∧
    preqFor7Metric3.metric + 10 = 13 :=
  ⟨rfl, by decide, rfl, rfl, rfl⟩

/-- C25: whenever `ReceivePreq` processes an accepted PREQ to its end, the
reactive path to the transmitting mesh point `fromMp` is the path (next hop
`from_`, interface `interface`, metric = link metric) exactly when the path to
`fromMp` that the station held once the originator was dealt with was missing or
had a larger metric than the link metric, and is that earlier path otherwise;
for a transmitting mesh point other than the originator the earlier path is the
path of before the PREQ, so that `freshInfo` plays no part.  The run reaches its
end under the conditions of C24. -/
theorem transmitter_path_rule (s : HwmpProtocol) (preq : IePreq) (from_ : Mac48Address)
    (interface : Nat) (fromMp : Mac48Address) (metric : Nat) (freshInfo : Bool)
    (hacc : HwmpProtocol.preqAccept (mapFind s.m_hwmpSeqnoMetricDatabase preq.originatorAddress)
      (preq.IncrementMetric metric) = some freshInfo) :
    (∀ s1, s.ReceivePreq preq from_ interface fromMp metric = .ok s1 →
      s1.m_rtable.LookupReactive s1.now fromMp =
        (if (pathBeforeTransmitter s preq from_ interface fromMp metric freshInfo).retransmitter
              = GetBroadcast ∨
            (pathBeforeTransmitter s preq from_ interface fromMp metric freshInfo).metric > metric
         then
          { retransmitter := from_, ifIndex := interface, metric := metric,
            seqnum := preq.originatorSeqNumber,
            lifetime := HwmpProtocol.lifetimeTime preq.lifetime }
         else pathBeforeTransmitter s preq from_ interface fromMp metric freshInfo)) ∧
    (preq.originatorAddress ≠ fromMp →
      pathBeforeTransmitter s preq from_ interface fromMp metric freshInfo =
        s.m_rtable.LookupReactive s.now fromMp) ∧
    (0 < HwmpProtocol.lifetimeTime preq.lifetime → from_ ≠ GetBroadcast →
      mapFind s.m_interfaces interface ≠ none → QueueTagged s.m_rqueue →
      WellFormedDestinations preq.destinations →
      ∃ s1, s.ReceivePreq preq from_ interface fromMp metric = .ok s1) := by
  refine ⟨?_, ?_, ?_⟩
  · intro s1 h
    rw [(ReceivePreq_paths hacc h fromMp).2]
    unfold pathBeforeTransmitter
    simp only [and_true]
  · intro hne
    unfold pathBeforeTransmitter
    rw [if_neg (fun hh => hne hh.2)]
  · intro hL hfrom hif hq hd
    exact ReceivePreq_completes s preq from_ interface fromMp metric hL hfrom hif hq hd

/-- Witness for C25: station 7, which holds a path to neighbour 3 with metric
10, receives a later PREQ of originator 5 through 3 over a link of metric 20. -/
theorem transmitter_path_rule_witness :
    ∃ s1, routed7.ReceivePreq preqFor7Later 3 1 3 20 = .ok s1 ∧
      s1.m_rtable.LookupReactive s1.now 3 = routed7.m_rtable.LookupReactive routed7.now 3 := by
  obtain ⟨hA, _, hB⟩ := transmitter_path_rule routed7 preqFor7Later 3 1 3 20 true rfl
  obtain ⟨s1, h1⟩ := hB (by decide) (by decide) (by decide) (fun p hp => by cases hp)
    (Or.inl (by decide))
  exact ⟨s1, h1, (hA s1 h1).trans rfl⟩

/-- C25, counterexample: station 7 holds a valid path to neighbour 3 with metric
10.  A PREQ of originator 5 with a new sequence number arrives through 3 over a
link of metric 20: it is accepted as fresh and the path to the originator is
replaced, yet the path to the transmitting mesh point 3 is not installed anew,
its metric stays 10 and not the link metric 20. -/
theorem fresh_preq_keeps_transmitter_path :
    HwmpProtocol.preqAccept (mapFind routed7.m_hwmpSeqnoMetricDatabase
      preqFor7Later.originatorAddress) (preqFor7Later.IncrementMetric 20) = some true ∧
    routed7.m_rtable.LookupReactive routed7.now 3 =
      { retransmitter := 3, ifIndex := 1, metric := 10, seqnum := 5, lifetime := 102400 } ∧
    run routed7 [Call.receivePreq preqFor7Later 3 1 3 20]
      = .ok (after routed7 [Call.receivePreq preqFor7Later 3 1 3 20]) ∧
    (after routed7 [Call.receivePreq preqFor7Later 3 1 3 20]).m_rtable.LookupReactive
      (after routed7 [Call.receivePreq preqFor7Later 3 1 3 20]).now 5 =
        { retransmitter := 3, ifIndex := 1, metric := 20, seqnum := 6, lifetime := 102400 } ∧
    (after routed7 [Call.receivePreq preqFor7Later 3 1 3 20]).m_rtable.LookupReactive
      (after routed7 [Call.receivePreq preqFor7Later 3 1 3 20]).now 3 =
        { retransmitter := 3, ifIndex := 1, metric := 10, seqnum := 5, lifetime := 102400 } :=
  ⟨rfl, rfl, rfl, rfl, rfl⟩

/-! ## Answers on behalf of a destination -/

theorem del_map_address (a : Mac48Address) (live : List (Nat × DestinationAddressUnit)) :
    (HwmpProtocol.delDestinationAddressElement a live).map (fun e => e.2.destinationAddress) =
      (live.map (fun e => e.2.destinationAddress)).erase a := by
  induction live with
  | nil => rfl
  | cons e t ih =>
    unfold HwmpProtocol.delDestinationAddressElement
    rw [List.map_cons, List.erase_cons]
    by_cases h : e.2.destinationAddress = a
    · rw [if_pos h, if_pos (by simpa using h)]
    · rw [if_neg h, if_neg (by simpa using h), List.map_cons, ih]

theorem setFlagsAt_map_address (idx : Nat) (live : List (Nat × DestinationAddressUnit)) :
    (HwmpProtocol.setFlagsAt idx live).map (fun e => e.2.destinationAddress) =
      live.map (fun e => e.2.destinationAddress) := by
  unfold HwmpProtocol.setFlagsAt
  rw [List.map_map]
  apply List.map_congr_left
  intro e _
  simp only [Function.comp]
  split <;> rfl

/-- States with the same clock, lookups, address and TTL answer the same
destinations with the same PREPs. -/
theorem answers_congr {s s1 : HwmpProtocol} (hl : SameLookup s s1)
    (ha : s1.m_address = s.m_address) (ht : s1.m_maxTtl = s.m_maxTtl) :
    canAnswer s1 = canAnswer s ∧ answeredForOther s1 = answeredForOther s ∧
    answerFor s1 = answerFor s := by
  have h1 : canAnswer s1 = canAnswer s := by
    funext u
    unfold canAnswer
    rw [hl.now, hl.lookup]
  refine ⟨h1, ?_, ?_⟩
  · funext u
    unfold answeredForOther
    rw [h1, ha]
  · funext preq from_ interface u
    unfold answerFor
    rw [hl.now, hl.lookup, ht]

theorem intermediatePreps_append (own : Mac48Address) (l1 l2 : List Action) :
    intermediatePreps own (l1 ++ l2) = intermediatePreps own l1 ++ intermediatePreps own l2 := by
  unfold intermediatePreps
  rw [sentPreps_append, List.filter_append]

/-- What `SendPrep` adds to the PREPs sent on behalf of others. -/
theorem SendPrep_intermediate {s s1 : HwmpProtocol} {src dst retransmitter : Mac48Address}
    {initMetric originatorDsn destinationSN lifetime interface : Nat} (own : Mac48Address)
    (h : s.SendPrep src dst retransmitter initMetric originatorDsn destinationSN lifetime interface
      = .ok s1) :
    intermediatePreps own s1.out = intermediatePreps own s.out ++
      (if src = own then []
       else [(interface, IePrep.mk src originatorDsn dst destinationSN 0 s.m_maxTtl lifetime
          initMetric, retransmitter)]) := by
  rw [(SendPrep_ok h).1, intermediatePreps_append]
  congr 1
  unfold intermediatePreps
  simp only [sentPreps, List.filter_cons, List.filter_nil]
  by_cases hs : src = own
  · simp [hs]
  · simp [hs]

/-- The PREPs that the destination loop of `ReceivePreq` sends on behalf of
other stations: one for every destination that the station can answer, in the
order of the destinations.  A broadcast destination ends the loop, and is the
last destination whenever the loop gets past its assertions. -/
theorem preqDestLoop_preps (preq : IePreq) (from_ : Mac48Address) (interface : Nat)
    (own : Mac48Address) :
    ∀ (dests : List (Nat × DestinationAddressUnit)) (s : HwmpProtocol)
      (live : List (Nat × DestinationAddressUnit))
      (r : HwmpProtocol × List (Nat × DestinationAddressUnit)),
      s.m_address = own →
      List.Sublist (dests.map (fun e => e.2.destinationAddress))
        (live.map (fun e => e.2.destinationAddress)) →
      HwmpProtocol.preqDestLoop preq from_ interface dests s live = .ok r →
      intermediatePreps own r.1.out = intermediatePreps own s.out ++
        ((dests.map Prod.snd).filter (answeredForOther s)).map
          (answerFor s preq from_ interface) := by
  intro dests
  induction dests with
  | nil =>
    intro s live r _ _ h
    simp only [HwmpProtocol.preqDestLoop] at h
    cases h
    simp
  | cons e rest ih =>
    obtain ⟨idx, u⟩ := e
    intro s live r hown hsub h
    have hsub' : List.Sublist (rest.map (fun e => e.2.destinationAddress))
        (live.map (fun e => e.2.destinationAddress)) :=
      (List.sublist_cons_self _ _).trans hsub
    rcases preqDestLoop_cons_inv h with
      ⟨hb, hlen, s1, s2, h1, h2, hr⟩ | ⟨hb, ho, s1, h1, _, hr⟩ |
      ⟨hb, ho, hc, s1, h1, hr⟩ | ⟨hb, ho, hc, hr⟩
    · subst hr
      have hrest : rest = [] := by
        have hl := hsub.length_le
        simp only [List.length_map, List.length_cons, hlen] at hl
        exact List.eq_nil_of_length_eq_zero (by omega)
      subst hrest
      have k1 : intermediatePreps own s1.out = intermediatePreps own s.out ∧
          s1.m_address = s.m_address := by
        split at h1
        · have a := (addProactive_calm s preq from_ interface).1.preps
          have b := (ProactivePathResolved_calm h1).1.preps
          refine ⟨?_, (ProactivePathResolved_keeps 0 h1).1.address⟩
          unfold intermediatePreps
          rw [b, a]
        · cases h1
          exact ⟨rfl, rfl⟩
      have k2 : intermediatePreps own s2.out = intermediatePreps own s1.out := by
        split at h2
        · rw [SendPrep_intermediate own h2, if_pos (k1.2.trans hown)]
          exact List.append_nil _
        · cases h2
          rfl
      have hf : answeredForOther s u = false := by
        unfold answeredForOther
        simp [hb]
      show intermediatePreps own s2.out = _
      rw [k2, k1.1]
      simp [hf]
    · have k1 := SendPrep_intermediate own h1
      rw [if_pos hown] at k1
      have c := (SendPrep_calm h1).1
      have f := SendPrep_frame h1
      have hsub1 : List.Sublist (rest.map (fun e => e.2.destinationAddress))
          ((HwmpProtocol.delDestinationAddressElement u.destinationAddress live).map
            (fun e => e.2.destinationAddress)) := by
        rw [del_map_address]
        have := hsub.erase u.destinationAddress
        rw [List.map_cons, List.erase_cons_head] at this
        exact this
      have k := ih s1 _ r (f.address.trans hown) hsub1 hr
      obtain ⟨_, e2, e3⟩ := answers_congr ((GetNextHwmpSeqno_calm s).1.same_trans c)
        f.address f.maxTtl
      have hf : answeredForOther s u = false := by
        unfold answeredForOther
        simp [ho]
      rw [k, k1, e2, e3]
      simp [hf]
      rfl
    · have k1 := SendPrep_intermediate own h1
      rw [if_neg (fun hh => ho (hh.trans hown.symm))] at k1
      have c := (SendPrep_calm h1).1
      have f := SendPrep_frame h1
      have c' := (addPrecursor_calm s1 u.destinationAddress interface from_
        (HwmpProtocol.lifetimeTime preq.lifetime)).2.1
      have f' := addPrecursor_frame s1 u.destinationAddress interface from_
        (HwmpProtocol.lifetimeTime preq.lifetime)
      have hsub1 : List.Sublist (rest.map (fun e => e.2.destinationAddress))
          ((if u.rfFlag = true then HwmpProtocol.setFlagsAt idx live
            else HwmpProtocol.delDestinationAddressElement u.destinationAddress live).map
            (fun e => e.2.destinationAddress)) := by
        split
        · rw [setFlagsAt_map_address]
          exact hsub'
        · rw [del_map_address]
          have := hsub.erase u.destinationAddress
          rw [List.map_cons, List.erase_cons_head] at this
          exact this
      have k := ih _ _ r ((f'.address.trans f.address).trans hown) hsub1 hr
      obtain ⟨_, e2, e3⟩ := answers_congr (c.same_trans c') (f'.address.trans f.address)
        (f'.maxTtl.trans f.maxTtl)
      have ht : answeredForOther s u = true := by
        unfold answeredForOther
        simp [hb, ho, hc]
      have ho' : (s1.addPrecursor u.destinationAddress interface from_
          (HwmpProtocol.lifetimeTime preq.lifetime)).out = s1.out := rfl
      rw [k, ho', k1, e2, e3]
      simp only [List.map_cons, List.filter_cons, ht, if_true, List.append_assoc,
        List.singleton_append]
      rfl
    · have hf : answeredForOther s u = false := by
        unfold answeredForOther
        simp [hc]
      rw [ih s live r hown hsub' hr]
      simp [hf]

/-- The 32-bit count of units of 1024 microseconds left of a path is positive
iff at least one unit is left, for every time left below `2^32` units. -/
theorem lifetimeTU_pos_iff (r : LookupResult) (h0 : 0 ≤ r.lifetime)
    (h1 : r.lifetime < 1024 * 4294967296) :
    HwmpProtocol.lifetimeTU r > 0 ↔ 1024 ≤ r.lifetime := by
  have key : ∀ L : Int, 0 ≤ L → L < 1024 * 4294967296 →
      ((L / 1024 % 4294967296).toNat > 0 ↔ 1024 ≤ L) := by
    intro L h0 h1
    omega
  unfold HwmpProtocol.lifetimeTU
  rw [Int.tdiv_eq_ediv h0 (by decide)]
  exact key r.lifetime h0 h1

theorem answeredForOther_iff (t : HwmpProtocol) (u : DestinationAddressUnit) :
    answeredForOther t u = true ↔
      u.destinationAddress ≠ GetBroadcast ∧ u.destinationAddress ≠ t.m_address ∧
      u.doFlag = false ∧
      (t.m_rtable.LookupReactive t.now u.destinationAddress).retransmitter ≠ GetBroadcast ∧
      HwmpProtocol.lifetimeTU (t.m_rtable.LookupReactive t.now u.destinationAddress) > 0 ∧
      sdiff (t.m_rtable.LookupReactive t.now u.destinationAddress).seqnum u.destSeqNumber ≥ 0 := by
  unfold answeredForOther canAnswer
  simp only [Bool.and_eq_true, decide_eq_true_eq, Bool.not_eq_true']
  tauto

/-- The PREPs sent on behalf of other stations by a completed `ReceivePreq`. -/
theorem ReceivePreq_intermediate {s s1 : HwmpProtocol} {preq : IePreq} {from_ : Mac48Address}
    {interface : Nat} {fromMp : Mac48Address} {metric : Nat} {freshInfo : Bool}
    (hacc : HwmpProtocol.preqAccept (mapFind s.m_hwmpSeqnoMetricDatabase preq.originatorAddress)
      (preq.IncrementMetric metric) = some freshInfo)
    (h : s.ReceivePreq preq from_ interface fromMp metric = .ok s1) :
    intermediatePreps s.m_address s1.out = intermediatePreps s.m_address s.out ++
      (preq.destinations.filter (answeredForOther s1)).map
        (answerFor s1 (preq.IncrementMetric metric) from_ interface) ∧
    s1.now = s.now ∧ s1.m_address = s.m_address ∧ s1.m_maxTtl = s.m_maxTtl ∧
    (∀ d, d ≠ preq.originatorAddress → d ≠ fromMp →
      s1.m_rtable.LookupReactive s1.now d = s.m_rtable.LookupReactive s.now d) := by
  obtain ⟨s2, s3, r, h2, h3, hr, h1⟩ := ReceivePreq_inv hacc h
  have q2 := stage_quiet _ h2
  have q3 := stage_quiet _ h3
  have fr := ReceivePreq_accepted_frame hacc h
  have f3 : Frame (s.setSeqnoMetric preq.originatorAddress preq.originatorSeqNumber
      (u32 (preq.metric + metric))) s3 := q2.2.frame_trans q3.2
  have a3 : s3.m_address = s.m_address := f3.address
  have c4 := (preqDestLoop_calm _ _ _ _ _ _ _ hr).1
  have f4 := (preqDestLoop_keeps 0 _ _ _ _ _ _ _ hr).1
  have k := preqDestLoop_preps (preq.IncrementMetric metric) from_ interface s.m_address
    (HwmpProtocol.tagFrom 0 preq.destinations) s3 (HwmpProtocol.tagFrom 0 preq.destinations) r a3
    (List.Sublist.refl _) hr
  rw [tagFrom_map_snd] at k
  have p3 : intermediatePreps s.m_address s3.out = intermediatePreps s.m_address s.out := by
    unfold intermediatePreps
    rw [q3.1.preps, q2.1.preps]
    rfl
  have hs1 : sentPreps s1.out = sentPreps r.1.out ∧ SameLookup r.1 s1 ∧
      s1.m_maxTtl = r.1.m_maxTtl ∧ s1.m_address = r.1.m_address := by
    rw [h1]
    split
    · exact ⟨rfl, SameLookup.same_refl _, rfl, rfl⟩
    · exact ⟨(forwardPreqLoop_preqs _ _ _).2.1, (forwardPreqLoop_preqs _ _ _).2.2.1,
        (forwardPreqLoop_keeps 0 _ _ _).1.maxTtl, (forwardPreqLoop_keeps 0 _ _ _).1.address⟩
  obtain ⟨_, e2, e3⟩ := answers_congr (c4.same_trans hs1.2.1)
    (hs1.2.2.2.trans f4.address) (hs1.2.2.1.trans f4.maxTtl)
  have paths := ReceivePreq_paths hacc h
  refine ⟨?_, (paths 0).1, fr.address, fr.maxTtl, ?_⟩
  · rw [e2, e3, ← p3, ← k]
    unfold intermediatePreps
    rw [hs1.1]
  · intro d hd1 hd2
    rw [(paths d).2, if_neg (fun hh => hd2 hh.2.symm), if_neg (fun hh => hd1 hh.2.symm)]

/-- C26: whenever `ReceivePreq` processes an accepted PREQ to its end, the PREPs
it has sent on behalf of stations other than itself are, in the order of the
destination list, one PREP for every destination that is neither the broadcast
address nor the station, whose DO flag is clear, to which the station holds a
valid reactive path at the time the destinations are examined, whose path has a
positive count of units of 1024 microseconds left and a stored sequence number
not older than the requested one; no other destination is answered, a
destination with DO set in particular.  The PREP for such a destination names
it as originator and the originator of the PREQ as destination and carries the
stored sequence number as destination sequence number, the stored metric and
the lifetime left in units, and goes to `from_` on `interface`.  The lookups at
the time the destinations are examined are those of the final state, and those
of the state before for every destination other than the originator and the
transmitting mesh point.  The count of units is positive iff at least 1024
microseconds are left, for every time left below `2^32` units. -/
theorem intermediate_reply (s : HwmpProtocol) (preq : IePreq) (from_ : Mac48Address)
    (interface : Nat) (fromMp : Mac48Address) (metric : Nat) (freshInfo : Bool)
    (hacc : HwmpProtocol.preqAccept (mapFind s.m_hwmpSeqnoMetricDatabase preq.originatorAddress)
      (preq.IncrementMetric metric) = some freshInfo) :
    (∀ s1, s.ReceivePreq preq from_ interface fromMp metric = .ok s1 →
      intermediatePreps s.m_address s1.out = intermediatePreps s.m_address s.out ++
        (preq.destinations.filter (answeredForOther s1)).map
          (answerFor s1 (preq.IncrementMetric metric) from_ interface) ∧
      s1.now = s.now ∧ s1.m_address = s.m_address ∧ s1.m_maxTtl = s.m_maxTtl ∧
      (∀ d, d ≠ preq.originatorAddress → d ≠ fromMp →
        s1.m_rtable.LookupReactive s1.now d = s.m_rtable.LookupReactive s.now d)) ∧
    (∀ (t : HwmpProtocol) (u : DestinationAddressUnit),
      (answeredForOther t u = true ↔
        u.destinationAddress ≠ GetBroadcast ∧ u.destinationAddress ≠ t.m_address ∧
        u.doFlag = false ∧
        (t.m_rtable.LookupReactive t.now u.destinationAddress).retransmitter ≠ GetBroadcast ∧
        HwmpProtocol.lifetimeTU (t.m_rtable.LookupReactive t.now u.destinationAddress) > 0 ∧
        sdiff (t.m_rtable.LookupReactive t.now u.destinationAddress).seqnum u.destSeqNumber
          ≥ 0) ∧
      answerFor t (preq.IncrementMetric metric) from_ interface u =
        (interface,
         IePrep.mk u.destinationAddress preq.originatorSeqNumber preq.originatorAddress
           (t.m_rtable.LookupReactive t.now u.destinationAddress).seqnum 0 t.m_maxTtl
           (HwmpProtocol.lifetimeTU (t.m_rtable.LookupReactive t.now u.destinationAddress))
           (t.m_rtable.LookupReactive t.now u.destinationAddress).metric,
         from_)) ∧
    (∀ r : LookupResult, 0 ≤ r.lifetime → r.lifetime < 1024 * 4294967296 →
      (HwmpProtocol.lifetimeTU r > 0 ↔ 1024 ≤ r.lifetime)) ∧
    (0 < HwmpProtocol.lifetimeTime preq.lifetime → from_ ≠ GetBroadcast →
      mapFind s.m_interfaces interface ≠ none → QueueTagged s.m_rqueue →
      WellFormedDestinations preq.destinations →
      ∃ s1, s.ReceivePreq preq from_ interface fromMp metric = .ok s1) := by
  refine ⟨fun s1 h => ReceivePreq_intermediate hacc h,
    fun t u => ⟨answeredForOther_iff t u, rfl⟩, lifetimeTU_pos_iff, ?_⟩
  intro hL hfrom hif hq hd
  exact ReceivePreq_completes s preq from_ interface fromMp metric hL hfrom hif hq hd

/-- Witness for C26: station 7 holds a path to 5 with sequence number 5 and
metric 10, of which 102400 microseconds are left, when the PREQ of originator 9
for destination 5 arrives from neighbour 3 on interface 1: it answers with one
PREP on behalf of 5. -/
theorem intermediate_reply_witness :
    routed7.ReceivePreq (preqFrom9For5 true) 3 1 3 10
      = .ok (after routed7 [Call.receivePreq (preqFrom9For5 true) 3 1 3 10]) ∧
    intermediatePreps 7 (after routed7 [Call.receivePreq (preqFrom9For5 true) 3 1 3 10]).out =
      [(1, { originatorAddress := 5, originatorSeqNumber := 1, destinationAddress := 9,
             destinationSeqNumber := 5, hopcount := 0, ttl := 32, lifetime := 100,
             metric := 10 }, 3)] :=
  ⟨rfl, ((intermediate_reply routed7 (preqFrom9For5 true) 3 1 3 10 true rfl).1 _ rfl).1.trans
    (by decide)⟩

/-! ## The destinations left in a forwarded PREQ -/

theorem del_append_current (a : Mac48Address) (done rest : List (Nat × DestinationAddressUnit))
    (e : Nat × DestinationAddressUnit) (he : e.2.destinationAddress = a)
    (hd : ∀ x ∈ done, x.2.destinationAddress ≠ a) :
    HwmpProtocol.delDestinationAddressElement a (done ++ e :: rest) = done ++ rest := by
  induction done with
  | nil =>
    simp only [List.nil_append, HwmpProtocol.delDestinationAddressElement, he, if_true]
  | cons x t ih =>
    rw [List.cons_append]
    unfold HwmpProtocol.delDestinationAddressElement
    rw [if_neg (hd x (List.mem_cons_self _ _)), ih (fun y hy => hd y (List.mem_cons_of_mem _ hy))]
    rfl

theorem setFlagsAt_absent (idx : Nat) (l : List (Nat × DestinationAddressUnit))
    (h : ∀ x ∈ l, x.1 ≠ idx) : HwmpProtocol.setFlagsAt idx l = l := by
  unfold HwmpProtocol.setFlagsAt
  induction l with
  | nil => rfl
  | cons x t ih =>
    rw [List.map_cons, if_neg (h x (List.mem_cons_self _ _)),
      ih (fun y hy => h y (List.mem_cons_of_mem _ hy))]

theorem setFlagsAt_append_current (idx : Nat) (done rest : List (Nat × DestinationAddressUnit))
    (u : DestinationAddressUnit) (hd : ∀ x ∈ done, x.1 ≠ idx) (hr : ∀ x ∈ rest, x.1 ≠ idx) :
    HwmpProtocol.setFlagsAt idx (done ++ (idx, u) :: rest) =
      done ++ (idx, { u with doFlag := true, rfFlag := false }) :: rest := by
  have h1 := setFlagsAt_absent idx done hd
  have h2 := setFlagsAt_absent idx rest hr
  unfold HwmpProtocol.setFlagsAt at h1 h2 ⊢
  rw [List.map_append, List.map_cons, h1, h2, if_pos rfl]

theorem forwardedUnit_congr {s s1 : HwmpProtocol} (hl : SameLookup s s1)
    (ha : s1.m_address = s.m_address) (ht : s1.m_maxTtl = s.m_maxTtl) :
    forwardedUnit s1 = forwardedUnit s := by
  funext u
  unfold forwardedUnit
  rw [(answers_congr hl ha ht).1, ha]

theorem tagFrom_fst_ge {α : Type} (l : List α) :
    ∀ (n : Nat) (e : Nat × α), e ∈ HwmpProtocol.tagFrom n l → n ≤ e.1 := by
  induction l with
  | nil =>
    intro n e he
    cases he
  | cons a t ih =>
    intro n e he
    simp only [HwmpProtocol.tagFrom, List.mem_cons] at he
    rcases he with h | h
    · rw [h]
    · exact Nat.le_of_succ_le (ih _ _ h)

theorem tagFrom_fst_nodup {α : Type} (l : List α) :
    ∀ n : Nat, ((HwmpProtocol.tagFrom n l).map Prod.fst).Nodup := by
  induction l with
  | nil =>
    intro n
    exact List.nodup_nil
  | cons a t ih =>
    intro n
    simp only [HwmpProtocol.tagFrom, List.map_cons, List.nodup_cons]
    refine ⟨?_, ih _⟩
    intro hm
    obtain ⟨e, he, hn⟩ := List.mem_map.mp hm
    have := tagFrom_fst_ge t (n + 1) e he
    omega

theorem tagFrom_map_address (l : List DestinationAddressUnit) :
    ∀ n : Nat, (HwmpProtocol.tagFrom n l).map (fun e => e.2.destinationAddress) =
      l.map (fun u => u.destinationAddress) := by
  induction l with
  | nil => intro n; rfl
  | cons a t ih =>
    intro n
    simp only [HwmpProtocol.tagFrom, List.map_cons, ih]

theorem tagFrom_filterMap (f : DestinationAddressUnit → Option DestinationAddressUnit)
    (l : List DestinationAddressUnit) :
    ∀ n : Nat, ((HwmpProtocol.tagFrom n l).filterMap
        (fun e => (f e.2).map (fun v => (e.1, v)))).map Prod.snd = l.filterMap f := by
  induction l with
  | nil => intro n; rfl
  | cons a t ih =>
    intro n
    simp only [HwmpProtocol.tagFrom, List.filterMap_cons]
    cases hf : f a with
    | none => simpa using ih (n + 1)
    | some v => simpa using ih (n + 1)

/-- The destination list that the loop of `ReceivePreq` leaves in the PREQ, for
destinations with pairwise distinct addresses: `done` holds the outcome of the
turns taken, the destinations still to examine follow it unchanged. -/
theorem preqDestLoop_live (preq : IePreq) (from_ : Mac48Address) (interface : Nat) :
    ∀ (dests : List (Nat × DestinationAddressUnit)) (s : HwmpProtocol)
      (done : List (Nat × DestinationAddressUnit))
      (r : HwmpProtocol × List (Nat × DestinationAddressUnit)),
      ((done ++ dests).map Prod.fst).Nodup →
      ((done ++ dests).map (fun e => e.2.destinationAddress)).Nodup →
      HwmpProtocol.preqDestLoop preq from_ interface dests s (done ++ dests) = .ok r →
      r.2 = done ++ dests.filterMap (fun e => (forwardedUnit s e.2).map (fun v => (e.1, v))) := by
  intro dests
  induction dests with
  | nil =>
    intro s done r _ _ h
    simp only [HwmpProtocol.preqDestLoop] at h
    cases h
    simp
  | cons e rest ih =>
    obtain ⟨idx, u⟩ := e
    intro s done r hti hta h
    have hdi : ∀ x ∈ done, x.1 ≠ idx := by
      intro x hx hxe
      rw [List.map_append, List.map_cons] at hti
      have h1 := List.disjoint_of_nodup_append hti
      exact h1 (List.mem_map_of_mem Prod.fst hx) (by rw [hxe]; exact List.mem_cons_self _ _)
    have hri : ∀ x ∈ rest, x.1 ≠ idx := by
      intro x hx hxe
      rw [List.map_append, List.map_cons] at hti
      have h1 := (List.nodup_cons.mp (List.nodup_append.mp hti).2.1).1
      exact h1 (List.mem_map.mpr ⟨x, hx, hxe⟩)
    have hda : ∀ x ∈ done, x.2.destinationAddress ≠ u.destinationAddress := by
      intro x hx hxe
      rw [List.map_append, List.map_cons] at hta
      have h1 := List.disjoint_of_nodup_append hta
      exact h1 (List.mem_map_of_mem (fun e => e.2.destinationAddress) hx)
        (by rw [hxe]; exact List.mem_cons_self _ _)
    have hti1 : ((done ++ rest).map Prod.fst).Nodup := by
      refine List.Nodup.sublist ?_ hti
      exact List.Sublist.map _ (List.Sublist.append_left (List.sublist_cons_self _ _) _)
    have hta1 : ((done ++ rest).map (fun e => e.2.destinationAddress)).Nodup := by
      refine List.Nodup.sublist ?_ hta
      exact List.Sublist.map _ (List.Sublist.append_left (List.sublist_cons_self _ _) _)
    have hti2 : ∀ v : DestinationAddressUnit,
        (((done ++ [(idx, v)]) ++ rest).map Prod.fst).Nodup := by
      intro v
      have : ((done ++ [(idx, v)]) ++ rest).map Prod.fst =
          (done ++ (idx, u) :: rest).map Prod.fst := by simp
      rw [this]
      exact hti
    have hta2 : ∀ v : DestinationAddressUnit, v.destinationAddress = u.destinationAddress →
        (((done ++ [(idx, v)]) ++ rest).map (fun e => e.2.destinationAddress)).Nodup := by
      intro v hv
      have : ((done ++ [(idx, v)]) ++ rest).map (fun e => e.2.destinationAddress) =
          (done ++ (idx, u) :: rest).map (fun e => e.2.destinationAddress) := by simp [hv]
      rw [this]
      exact hta
    rcases preqDestLoop_cons_inv h with
      ⟨hb, hlen, s1, s2, h1, h2, hr⟩ | ⟨hb, ho, s1, h1, _, hr⟩ |
      ⟨hb, ho, hc, s1, h1, hr⟩ | ⟨hb, ho, hc, hr⟩
    · subst hr
      have hl : done.length + (rest.length + 1) = 1 := by
        simpa using hlen
      have hd0 : done = [] := List.eq_nil_of_length_eq_zero (by omega)
      have hr0 : rest = [] := List.eq_nil_of_length_eq_zero (by omega)
      subst hd0
      subst hr0
      have hfu : forwardedUnit s u = some u := by
        unfold forwardedUnit
        rw [if_pos hb]
      show [(idx, u)] = _
      rw [List.nil_append, List.filterMap_cons, hfu]
      rfl
    · rw [del_append_current u.destinationAddress done rest (idx, u) rfl hda] at hr
      have c := (SendPrep_calm h1).1
      have f := SendPrep_frame h1
      have e1 := forwardedUnit_congr ((GetNextHwmpSeqno_calm s).1.same_trans c) f.address f.maxTtl
      have hfu : forwardedUnit s u = none := by
        unfold forwardedUnit
        rw [if_neg hb, if_pos ho]
      rw [ih s1 done r hti1 hta1 hr, e1, List.filterMap_cons, hfu]
      rfl
    · have c := (SendPrep_calm h1).1
      have f := SendPrep_frame h1
      have c' := (addPrecursor_calm s1 u.destinationAddress interface from_
        (HwmpProtocol.lifetimeTime preq.lifetime)).2.1
      have f' := addPrecursor_frame s1 u.destinationAddress interface from_
        (HwmpProtocol.lifetimeTime preq.lifetime)
      have e1 := forwardedUnit_congr (c.same_trans c') (f'.address.trans f.address)
        (f'.maxTtl.trans f.maxTtl)
      by_cases hrf : u.rfFlag = true
      · rw [if_pos hrf, setFlagsAt_append_current idx done rest u hdi hri] at hr
        have hr' : HwmpProtocol.preqDestLoop preq from_ interface rest
            (s1.addPrecursor u.destinationAddress interface from_
              (HwmpProtocol.lifetimeTime preq.lifetime))
            ((done ++ [(idx, { u with doFlag := true, rfFlag := false })]) ++ rest) = .ok r := by
          rw [List.append_assoc]
          exact hr
        have hfu : forwardedUnit s u = some { u with doFlag := true, rfFlag := false } := by
          unfold forwardedUnit
          rw [if_neg hb, if_neg ho, if_pos hc, if_pos hrf]
        rw [ih _ _ r (hti2 { u with doFlag := true, rfFlag := false })
          (hta2 { u with doFlag := true, rfFlag := false } rfl) hr', e1, List.filterMap_cons, hfu,
          List.append_assoc]
        rfl
      · rw [if_neg hrf, del_append_current u.destinationAddress done rest (idx, u) rfl hda] at hr
        have hfu : forwardedUnit s u = none := by
          unfold forwardedUnit
          rw [if_neg hb, if_neg ho, if_pos hc, if_neg hrf]
        rw [ih _ done r hti1 hta1 hr, e1, List.filterMap_cons, hfu]
        rfl
    · have hr' : HwmpProtocol.preqDestLoop preq from_ interface rest s
          ((done ++ [(idx, u)]) ++ rest) = .ok r := by
        rw [List.append_assoc]
        exact hr
      have hfu : forwardedUnit s u = some u := by
        unfold forwardedUnit
        rw [if_neg hb, if_neg ho, if_neg (by rw [hc]; decide)]
      rw [ih s _ r (hti2 u) (hta2 u rfl) hr', List.filterMap_cons, hfu, List.append_assoc]
      rfl

/-- A broadcast destination is never removed: if the loop of `ReceivePreq`
completes on a list that holds one, the PREQ keeps at least one destination. -/
theorem preqDestLoop_broadcast_stays (preq : IePreq) (from_ : Mac48Address) (interface : Nat) :
    ∀ (dests : List (Nat × DestinationAddressUnit)) (s : HwmpProtocol)
      (live : List (Nat × DestinationAddressUnit))
      (r : HwmpProtocol × List (Nat × DestinationAddressUnit)),
      (∃ e ∈ dests, e.2.destinationAddress = GetBroadcast) →
      HwmpProtocol.preqDestLoop preq from_ interface dests s live = .ok r → r.2 ≠ [] := by
  intro dests
  induction dests with
  | nil =>
    intro s live r hex _
    obtain ⟨e, he, _⟩ := hex
    cases he
  | cons e rest ih =>
    obtain ⟨idx, u⟩ := e
    intro s live r hex h
    have hrest : u.destinationAddress ≠ GetBroadcast →
        ∃ e ∈ rest, e.2.destinationAddress = GetBroadcast := by
      intro hb
      obtain ⟨e, he, hbe⟩ := hex
      rcases List.mem_cons.mp he with h0 | h0
      · rw [h0] at hbe
        exact absurd hbe hb
      · exact ⟨e, h0, hbe⟩
    rcases preqDestLoop_cons_inv h with
      ⟨hb, hlen, s1, s2, h1, h2, hr⟩ | ⟨hb, ho, s1, h1, _, hr⟩ |
      ⟨hb, ho, hc, s1, h1, hr⟩ | ⟨hb, ho, hc, hr⟩
    · subst hr
      intro hnil
      have hnil' : live = [] := hnil
      rw [hnil'] at hlen
      cases hlen
    · exact ih _ _ r (hrest hb) hr
    · exact ih _ _ r (hrest hb) hr
    · exact ih _ _ r (hrest hb) hr

theorem forwardsFrom_interfaces (f : Nat → Time) (preq : IePreq)
    (ifs : List (Nat × HwmpProtocolMac)) :
    ∀ n : Nat, (forwardsFrom f preq n ifs).map (fun e => e.2) = ifs.map (fun i => (i.1, preq)) ∧
      (forwardsFrom f preq n ifs).map (fun e => e.1) =
        (List.range ifs.length).map (fun k => f (n + k)) := by
  induction ifs with
  | nil =>
    intro n
    exact ⟨rfl, rfl⟩
  | cons i rest ih =>
    intro n
    obtain ⟨h1, h2⟩ := ih (n + 1)
    refine ⟨?_, ?_⟩
    · simp only [forwardsFrom, List.map_cons, h1]
    · simp only [forwardsFrom, List.map_cons, h2, List.length_cons, List.range_succ_eq_map,
        List.map_map, Nat.add_zero]
      congr 1
      apply List.map_congr_left
      intro k _
      simp only [Function.comp]
      congr 1
      omega

/-- The stages of `ReceivePreq` on an accepted PREQ and the forwards it hands to
the scheduler. -/
theorem ReceivePreq_forwards {s s1 : HwmpProtocol} {preq : IePreq} {from_ : Mac48Address}
    {interface : Nat} {fromMp : Mac48Address} {metric : Nat} {freshInfo : Bool}
    (hacc : HwmpProtocol.preqAccept (mapFind s.m_hwmpSeqnoMetricDatabase preq.originatorAddress)
      (preq.IncrementMetric metric) = some freshInfo)
    (h : s.ReceivePreq preq from_ interface fromMp metric = .ok s1) :
    ∃ s3 r,
      reversePaths s preq from_ interface fromMp metric freshInfo = .ok s3 ∧
      HwmpProtocol.preqDestLoop (preq.IncrementMetric metric) from_ interface
        (HwmpProtocol.tagFrom 0 preq.destinations) s3
        (HwmpProtocol.tagFrom 0 preq.destinations) = .ok r ∧
      scheduledPreqs s1.out = scheduledPreqs s.out ++
        (if r.2.map Prod.snd = [] then []
         else forwardsFrom s.forwardingDelay (forwardedPreq preq metric (r.2.map Prod.snd))
           s.delayDraws s.m_interfaces) ∧
      forwardedUnit s1 = forwardedUnit s3 := by
  obtain ⟨s2, s3, r, h2, h3, hr, h1⟩ := ReceivePreq_inv hacc h
  refine ⟨s3, r, ?_, hr, ?_, ?_⟩
  · unfold reversePaths
    rw [bind_ok_iff]
    exact ⟨s2, h2, h3⟩
  · have t2 := stage_steady _ h2
    have t3 := stage_steady _ h3
    have t4 := (preqDestLoop_calm _ _ _ _ _ _ _ hr).2
    have t : Steady s r.1 := by
      have t0 : Steady s (s.setSeqnoMetric preq.originatorAddress preq.originatorSeqNumber
          (u32 (preq.metric + metric))) := ⟨rfl, rfl, rfl⟩
      exact ((t0.steady_trans t2).steady_trans t3).steady_trans t4
    have fi : r.1.m_interfaces = s.m_interfaces := by
      rw [(preqDestLoop_keeps 0 _ _ _ _ _ _ _ hr).1.interfaces,
        (stage_quiet _ h3).2.interfaces, (stage_quiet _ h2).2.interfaces]
      rfl
    rw [h1]
    by_cases hl : r.2.length = 0
    · rw [if_pos hl, if_pos (by rw [List.eq_nil_of_length_eq_zero hl]; rfl), List.append_nil]
      exact t.preqs
    · have hne : r.2.map Prod.snd ≠ [] := by
        intro hm
        apply hl
        rw [← List.length_map r.2 Prod.snd, hm]
        rfl
      rw [if_neg hl, if_neg hne, (forwardPreqLoop_preqs _ _ _).1, t.preqs, t.delay, t.draws, fi]
      rfl
  · have c4 := (preqDestLoop_calm _ _ _ _ _ _ _ hr).1
    have f4 := (preqDestLoop_keeps 0 _ _ _ _ _ _ _ hr).1
    have hs1 : SameLookup r.1 s1 ∧ s1.m_maxTtl = r.1.m_maxTtl ∧ s1.m_address = r.1.m_address := by
      rw [h1]
      split
      · exact ⟨SameLookup.same_refl _, rfl, rfl⟩
      · exact ⟨(forwardPreqLoop_preqs _ _ _).2.2.1, (forwardPreqLoop_keeps 0 _ _ _).1.maxTtl,
          (forwardPreqLoop_keeps 0 _ _ _).1.address⟩
    exact forwardedUnit_congr (c4.same_trans hs1.1) (hs1.2.2.trans f4.address)
      (hs1.2.1.trans f4.maxTtl)

/-- The destinations of the forwarded PREQ when the addresses of the
destinations are pairwise distinct. -/
theorem ReceivePreq_remaining {s s3 : HwmpProtocol} {preq : IePreq} {from_ : Mac48Address}
    {interface : Nat} {metric : Nat} {r : HwmpProtocol × List (Nat × DestinationAddressUnit)}
    (hnd : (preq.destinations.map (fun u => u.destinationAddress)).Nodup)
    (hr : HwmpProtocol.preqDestLoop (preq.IncrementMetric metric) from_ interface
      (HwmpProtocol.tagFrom 0 preq.destinations) s3
      (HwmpProtocol.tagFrom 0 preq.destinations) = .ok r)
    (hf : forwardedUnit s = forwardedUnit s3) :
    r.2.map Prod.snd = preq.destinations.filterMap (forwardedUnit s) := by
  have k := preqDestLoop_live (preq.IncrementMetric metric) from_ interface
    (HwmpProtocol.tagFrom 0 preq.destinations) s3 [] r
    (by rw [List.nil_append]; exact tagFrom_fst_nodup _ _)
    (by rw [List.nil_append, tagFrom_map_address]; exact hnd)
    (by rw [List.nil_append]; exact hr)
  rw [k, List.nil_append, tagFrom_filterMap, hf]

theorem forwardedUnit_cases (t : HwmpProtocol) (u : DestinationAddressUnit) :
    (answeredForOther t u = true → u.rfFlag = true →
      forwardedUnit t u = some { u with doFlag := true, rfFlag := false }) ∧
    (answeredForOther t u = true → u.rfFlag = false → forwardedUnit t u = none) ∧
    (u.destinationAddress ≠ t.m_address → answeredForOther t u = false →
      forwardedUnit t u = some u) ∧
    (u.destinationAddress ≠ GetBroadcast → u.destinationAddress = t.m_address →
      forwardedUnit t u = none) := by
  unfold answeredForOther forwardedUnit
  refine ⟨?_, ?_, ?_, ?_⟩
  · intro h hrf
    simp only [Bool.and_eq_true, decide_eq_true_eq] at h
    rw [if_neg h.1.1, if_neg h.1.2, if_pos h.2, if_pos hrf]
  · intro h hrf
    simp only [Bool.and_eq_true, decide_eq_true_eq] at h
    rw [if_neg h.1.1, if_neg h.1.2, if_pos h.2, if_neg (by rw [hrf]; decide)]
  · intro ho h
    by_cases hb : u.destinationAddress = GetBroadcast
    · rw [if_pos hb]
    · rw [if_neg hb, if_neg ho]
      simp only [hb, ho, ne_eq, not_false_eq_true, decide_True, Bool.and_self, Bool.true_and] at h
      rw [if_neg (by rw [h]; decide)]
  · intro hb ho
    rw [if_neg hb, if_pos ho]

/-- C27: for an accepted PREQ whose destinations have pairwise distinct
addresses, whenever `ReceivePreq` runs to its end the PREQ it forwards holds, in
the original order: every destination it has answered on behalf of another
station whose RF flag was set, with DO = 1, RF = 0 and address, sequence number
and USN flag unchanged; no destination it has answered whose RF flag was clear,
and no destination that is the station itself; and every other destination
unchanged.  If no destination is left nothing is scheduled, otherwise that PREQ
is scheduled on every interface.  The answers are decided on the lookups of the
final state, which are those of the state before for every destination other
than the originator and the transmitting mesh point. -/
theorem answer_and_forward (s : HwmpProtocol) (preq : IePreq) (from_ : Mac48Address)
    (interface : Nat) (fromMp : Mac48Address) (metric : Nat) (freshInfo : Bool)
    (hacc : HwmpProtocol.preqAccept (mapFind s.m_hwmpSeqnoMetricDatabase preq.originatorAddress)
      (preq.IncrementMetric metric) = some freshInfo)
    (hnd : (preq.destinations.map (fun u => u.destinationAddress)).Nodup) :
    (∀ s1, s.ReceivePreq preq from_ interface fromMp metric = .ok s1 →
      scheduledPreqs s1.out = scheduledPreqs s.out ++
        (if preq.destinations.filterMap (forwardedUnit s1) = [] then []
         else forwardsFrom s.forwardingDelay
           (forwardedPreq preq metric (preq.destinations.filterMap (forwardedUnit s1)))
           s.delayDraws s.m_interfaces) ∧
      s1.m_address = s.m_address ∧
      (∀ d, d ≠ preq.originatorAddress → d ≠ fromMp →
        s1.m_rtable.LookupReactive s1.now d = s.m_rtable.LookupReactive s.now d)) ∧
    (∀ (t : HwmpProtocol) (u : DestinationAddressUnit),
      (answeredForOther t u = true → u.rfFlag = true →
        forwardedUnit t u = some { u with doFlag := true, rfFlag := false }) ∧
      (answeredForOther t u = true → u.rfFlag = false → forwardedUnit t u = none) ∧
      (u.destinationAddress ≠ t.m_address → answeredForOther t u = false →
        forwardedUnit t u = some u) ∧
      (u.destinationAddress ≠ GetBroadcast → u.destinationAddress = t.m_address →
        forwardedUnit t u = none)) ∧
    (0 < HwmpProtocol.lifetimeTime preq.lifetime → from_ ≠ GetBroadcast →
      mapFind s.m_interfaces interface ≠ none → QueueTagged s.m_rqueue →
      WellFormedDestinations preq.destinations →
      ∃ s1, s.ReceivePreq preq from_ interface fromMp metric = .ok s1) := by
  refine ⟨?_, forwardedUnit_cases, ?_⟩
  · intro s1 h
    obtain ⟨s3, r, _, hr, hs, hf⟩ := ReceivePreq_forwards hacc h
    have hi := ReceivePreq_intermediate hacc h
    rw [ReceivePreq_remaining hnd hr hf] at hs
    exact ⟨hs, hi.2.2.1, hi.2.2.2.2⟩
  · intro hL hfrom hif hq hd
    exact ReceivePreq_completes s preq from_ interface fromMp metric hL hfrom hif hq hd

/-- Witness for C27: station 7 answers the PREQ of originator 9 for destination
5 out of its table; the reply-and-forward flag is set, and the PREQ is forwarded
with the destination rewritten. -/
theorem answer_and_forward_witness :
    routed7.ReceivePreq (preqFrom9For5 true) 3 1 3 10
      = .ok (after routed7 [Call.receivePreq (preqFrom9For5 true) 3 1 3 10]) ∧
    scheduledPreqs (after routed7 [Call.receivePreq (preqFrom9For5 true) 3 1 3 10]).out =
      [(0, 1, forwardedPreq (preqFrom9For5 true) 10
        [{ destinationAddress := 5, destSeqNumber := 0, doFlag := true, rfFlag := false,
           usnFlag := false }])] :=
  ⟨rfl, ((answer_and_forward routed7 (preqFrom9For5 true) 3 1 3 10 true rfl
    (by decide)).1 _ rfl).1.trans (by decide)⟩

/-- C27, counterexample: the PREQ names destination 5 twice, first with RF set,
then with RF clear.  Station 7 answers both on behalf of 5.  The second answer
removes the destination with address 5 from the PREQ, which is the first one,
already rewritten: the forwarded PREQ does not hold the destination answered
with RF set, and still holds, unchanged, the destination answered with RF
clear. -/
theorem duplicate_destination_forwarded_wrong :
    run routed7 [Call.receivePreq preqFrom9Twice5 3 1 3 10]
      = .ok (after routed7 [Call.receivePreq preqFrom9Twice5 3 1 3 10]) ∧
    (intermediatePreps 7 (after routed7 [Call.receivePreq preqFrom9Twice5 3 1 3 10]).out).map
        (fun e => e.2.1.originatorAddress) = [5, 5] ∧
    scheduledPreqs (after routed7 [Call.receivePreq preqFrom9Twice5 3 1 3 10]).out =
      [(0, 1, forwardedPreq preqFrom9Twice5 10
        [{ destinationAddress := 5, destSeqNumber := 0, doFlag := false, rfFlag := false,
           usnFlag := true }])] :=
  ⟨rfl, by decide, by decide⟩

/-! ## Forwarding of a PREQ -/

theorem tagFrom_mem_of {α : Type} (l : List α) :
    ∀ (n : Nat) (a : α), a ∈ l → ∃ e ∈ HwmpProtocol.tagFrom n l, e.2 = a := by
  induction l with
  | nil =>
    intro n a ha
    cases ha
  | cons b t ih =>
    intro n a ha
    rcases List.mem_cons.mp ha with h | h
    · exact ⟨(n, b), List.mem_cons_self _ _, h.symm⟩
    · obtain ⟨e, he, hea⟩ := ih (n + 1) a h
      exact ⟨e, List.mem_cons_of_mem _ he, hea⟩

/-- C28: `ReceivePreq` leaves the station as it is when the acceptance rule
drops the PREQ, so nothing is scheduled.  When the PREQ is accepted and
`ReceivePreq` runs to its end, the forwards it has handed to the scheduler are
none if the destination loop left no destination in the PREQ, and otherwise one
per installed interface, in the order of the interface map, each with the next
draw of the forwarding delay and each carrying the PREQ with its metric
increased by the link metric and the destinations that the loop left.  A PREQ
that holds a broadcast destination keeps a destination, so an accepted proactive
PREQ is forwarded; for destinations with pairwise distinct addresses the
destinations left are those of C27.  The run reaches its end whenever the
lifetime gives a positive duration, `from_` is not the broadcast address, the
interface is installed, the queued frames are tagged and the destination list is
well formed. -/
theorem preq_forwarding (s : HwmpProtocol) (preq : IePreq) (from_ : Mac48Address)
    (interface : Nat) (fromMp : Mac48Address) (metric : Nat) :
    (HwmpProtocol.preqAccept (mapFind s.m_hwmpSeqnoMetricDatabase preq.originatorAddress)
        (preq.IncrementMetric metric) = none →
      s.ReceivePreq preq from_ interface fromMp metric = .ok s) ∧
    (∀ (freshInfo : Bool) (s1 : HwmpProtocol),
      HwmpProtocol.preqAccept (mapFind s.m_hwmpSeqnoMetricDatabase preq.originatorAddress)
        (preq.IncrementMetric metric) = some freshInfo →
      s.ReceivePreq preq from_ interface fromMp metric = .ok s1 →
      ∃ s3 r,
        reversePaths s preq from_ interface fromMp metric freshInfo = .ok s3 ∧
        HwmpProtocol.preqDestLoop (preq.IncrementMetric metric) from_ interface
          (HwmpProtocol.tagFrom 0 preq.destinations) s3
          (HwmpProtocol.tagFrom 0 preq.destinations) = .ok r ∧
        scheduledPreqs s1.out = scheduledPreqs s.out ++
          (if r.2.map Prod.snd = [] then []
           else forwardsFrom s.forwardingDelay (forwardedPreq preq metric (r.2.map Prod.snd))
             s.delayDraws s.m_interfaces) ∧
        ((∃ u ∈ preq.destinations, u.destinationAddress = GetBroadcast) →
          r.2.map Prod.snd ≠ []) ∧
        ((preq.destinations.map (fun u => u.destinationAddress)).Nodup →
          r.2.map Prod.snd = preq.destinations.filterMap (forwardedUnit s1))) ∧
    (∀ (f : Nat → Time) (p : IePreq) (n : Nat) (ifs : List (Nat × HwmpProtocolMac)),
      (forwardsFrom f p n ifs).map (fun e => e.2) = ifs.map (fun i => (i.1, p)) ∧
      (forwardsFrom f p n ifs).map (fun e => e.1) =
        (List.range ifs.length).map (fun k => f (n + k))) ∧
    (∀ l : List DestinationAddressUnit,
      (forwardedPreq preq metric l).metric = u32 (preq.metric + metric) ∧
      (forwardedPreq preq metric l).destinations = l ∧
      (forwardedPreq preq metric l).originatorAddress = preq.originatorAddress ∧
      (forwardedPreq preq metric l).originatorSeqNumber = preq.originatorSeqNumber) ∧
    (0 < HwmpProtocol.lifetimeTime preq.lifetime → from_ ≠ GetBroadcast →
      mapFind s.m_interfaces interface ≠ none → QueueTagged s.m_rqueue →
      WellFormedDestinations preq.destinations →
      ∃ s1, s.ReceivePreq preq from_ interface fromMp metric = .ok s1) := by
  refine ⟨ReceivePreq_dropped s preq from_ interface fromMp metric, ?_,
    fun f p n ifs => forwardsFrom_interfaces f p ifs n, fun l => ⟨rfl, rfl, rfl, rfl⟩, ?_⟩
  · intro freshInfo s1 hacc h
    obtain ⟨s3, r, h3, hr, hs, hf⟩ := ReceivePreq_forwards hacc h
    refine ⟨s3, r, h3, hr, hs, ?_, ?_⟩
    · intro hex
      obtain ⟨u, hu, hb⟩ := hex
      obtain ⟨e, he, heu⟩ := tagFrom_mem_of preq.destinations 0 u hu
      have k := preqDestLoop_broadcast_stays _ _ _ _ _ _ r ⟨e, he, by rw [heu]; exact hb⟩ hr
      intro hm
      apply k
      exact List.map_eq_nil_iff.mp hm
    · intro hnd
      exact ReceivePreq_remaining hnd hr hf
  · intro hL hfrom hif hq hd
    exact ReceivePreq_completes s preq from_ interface fromMp metric hL hfrom hif hq hd

/-! ## Sequence numbers of the station -/

theorem sdiff_succ (n : Nat) : sdiff (u32 (n + 1)) n = 1 := by
  unfold sdiff sub32 asInt32 u32
  have h : (((n + 1) % 4294967296) % 4294967296 + 4294967296 - n % 4294967296) % 4294967296
      = 1 := by omega
  rw [h]
  rfl

theorem ownPreps_append (own : Mac48Address) (l1 l2 : List Action) :
    ownPreps own (l1 ++ l2) = ownPreps own l1 ++ ownPreps own l2 := by
  unfold ownPreps
  rw [sentPreps_append, List.filter_append]

/-- What `SendPrep` adds to the PREPs sent in the name of the station. -/
theorem SendPrep_own {s s1 : HwmpProtocol} {src dst retransmitter : Mac48Address}
    {initMetric originatorDsn destinationSN lifetime interface : Nat} (own : Mac48Address)
    (h : s.SendPrep src dst retransmitter initMetric originatorDsn destinationSN lifetime interface
      = .ok s1) :
    ownPreps own s1.out = ownPreps own s.out ++
      (if src = own then
        [(interface, IePrep.mk src originatorDsn dst destinationSN 0 s.m_maxTtl lifetime
          initMetric, retransmitter)]
       else []) := by
  rw [(SendPrep_ok h).1, ownPreps_append]
  congr 1
  unfold ownPreps
  simp only [sentPreps, List.filter_cons, List.filter_nil]
  by_cases hs : src = own
  · simp [hs]
  · simp [hs]

/-- Turns of the destination loop for destinations other than the station and
the broadcast address send no PREP in the name of the station and leave its
sequence number alone. -/
theorem preqDestLoop_others (preq : IePreq) (from_ : Mac48Address) (interface : Nat)
    (own : Mac48Address) :
    ∀ (dests : List (Nat × DestinationAddressUnit)) (s : HwmpProtocol)
      (live : List (Nat × DestinationAddressUnit))
      (r : HwmpProtocol × List (Nat × DestinationAddressUnit)),
      s.m_address = own →
      (∀ e ∈ dests, e.2.destinationAddress ≠ GetBroadcast ∧ e.2.destinationAddress ≠ own) →
      HwmpProtocol.preqDestLoop preq from_ interface dests s live = .ok r →
      ownPreps own r.1.out = ownPreps own s.out ∧ r.1.m_hwmpSeqno = s.m_hwmpSeqno := by
  intro dests
  induction dests with
  | nil =>
    intro s live r _ _ h
    simp only [HwmpProtocol.preqDestLoop] at h
    cases h
    exact ⟨rfl, rfl⟩
  | cons e rest ih =>
    obtain ⟨idx, u⟩ := e
    intro s live r hown hd h
    have hu := hd (idx, u) (List.mem_cons_self _ _)
    have hrest : ∀ e ∈ rest, e.2.destinationAddress ≠ GetBroadcast ∧
        e.2.destinationAddress ≠ own := fun e he => hd e (List.mem_cons_of_mem _ he)
    rcases preqDestLoop_cons_inv h with
      ⟨hb, _, _, _, _, _, _⟩ | ⟨_, ho, _, _, _, _⟩ | ⟨_, ho, _, s1, h1, hr⟩ | ⟨_, _, _, hr⟩
    · exact absurd hb hu.1
    · exact absurd (ho.trans hown) hu.2
    · have k1 := SendPrep_own own h1
      rw [if_neg hu.2, List.append_nil] at k1
      have f := SendPrep_frame h1
      have f' := addPrecursor_frame s1 u.destinationAddress interface from_
        (HwmpProtocol.lifetimeTime preq.lifetime)
      obtain ⟨a, b⟩ := ih _ _ r ((f'.address.trans f.address).trans hown) hrest hr
      exact ⟨a.trans k1, b.trans (SendPrep_ok h1).2.2.1⟩
    · exact ih s live r hown hrest hr

/-- The destination loop on destinations with pairwise distinct addresses, none
the broadcast address and one the station: the station sends one PREP in its
own name, with the incremented sequence number, which is its sequence number
afterwards. -/
theorem preqDestLoop_own (preq : IePreq) (from_ : Mac48Address) (interface : Nat)
    (own : Mac48Address) :
    ∀ (dests : List (Nat × DestinationAddressUnit)) (s : HwmpProtocol)
      (live : List (Nat × DestinationAddressUnit))
      (r : HwmpProtocol × List (Nat × DestinationAddressUnit)),
      s.m_address = own →
      (∀ e ∈ dests, e.2.destinationAddress ≠ GetBroadcast) →
      (dests.map (fun e => e.2.destinationAddress)).Nodup →
      own ∈ dests.map (fun e => e.2.destinationAddress) →
      HwmpProtocol.preqDestLoop preq from_ interface dests s live = .ok r →
      ownPreps own r.1.out = ownPreps own s.out ++
        [(interface, IePrep.mk own preq.originatorSeqNumber preq.originatorAddress
          (u32 (s.m_hwmpSeqno + 1)) 0 s.m_maxTtl preq.lifetime 0, from_)] ∧
      r.1.m_hwmpSeqno = u32 (s.m_hwmpSeqno + 1) := by
  intro dests
  induction dests with
  | nil =>
    intro s live r _ _ _ hm _
    cases hm
  | cons e rest ih =>
    obtain ⟨idx, u⟩ := e
    intro s live r hown hd hnd hm h
    have hu := hd (idx, u) (List.mem_cons_self _ _)
    have hrest : ∀ e ∈ rest, e.2.destinationAddress ≠ GetBroadcast :=
      fun e he => hd e (List.mem_cons_of_mem _ he)
    rw [List.map_cons, List.nodup_cons] at hnd
    have hm' : u.destinationAddress ≠ own → own ∈ rest.map (fun e => e.2.destinationAddress) := by
      intro hne
      rw [List.map_cons] at hm
      rcases List.mem_cons.mp hm with h0 | h0
      · exact absurd h0.symm hne
      · exact h0
    rcases preqDestLoop_cons_inv h with
      ⟨hb, _, _, _, _, _, _⟩ | ⟨_, ho, s1, h1, _, hr⟩ | ⟨_, ho, _, s1, h1, hr⟩ | ⟨_, ho, _, hr⟩
    · exact absurd hb hu
    · have k1 := SendPrep_own own h1
      rw [if_pos hown] at k1
      have f := SendPrep_frame h1
      have hothers : ∀ e ∈ rest, e.2.destinationAddress ≠ GetBroadcast ∧
          e.2.destinationAddress ≠ own := by
        intro e he
        refine ⟨hrest e he, ?_⟩
        intro hc
        apply hnd.1
        rw [ho, hown, ← hc]
        exact List.mem_map_of_mem (fun e => e.2.destinationAddress) he
      obtain ⟨a, b⟩ := preqDestLoop_others preq from_ interface own rest s1 _ r
        (f.address.trans hown) hothers hr
      refine ⟨?_, b.trans (SendPrep_ok h1).2.2.1⟩
      rw [a, k1, hown]
      rfl
    · have hne : u.destinationAddress ≠ own := fun hc => ho (hc.trans hown.symm)
      have k1 := SendPrep_own own h1
      rw [if_neg hne, List.append_nil] at k1
      have f := SendPrep_frame h1
      have f' := addPrecursor_frame s1 u.destinationAddress interface from_
        (HwmpProtocol.lifetimeTime preq.lifetime)
      obtain ⟨a, b⟩ := ih _ _ r ((f'.address.trans f.address).trans hown) hrest hnd.2
        (hm' hne) hr
      have hseq : (s1.addPrecursor u.destinationAddress interface from_
          (HwmpProtocol.lifetimeTime preq.lifetime)).m_hwmpSeqno = s.m_hwmpSeqno :=
        (SendPrep_ok h1).2.2.1
      have hout : ownPreps own (s1.addPrecursor u.destinationAddress interface from_
          (HwmpProtocol.lifetimeTime preq.lifetime)).out = ownPreps own s.out := k1
      rw [hseq, hout, f'.maxTtl, f.maxTtl] at a
      rw [hseq] at b
      exact ⟨a, b⟩
    · have hne : u.destinationAddress ≠ own := fun hc => ho (hc.trans hown.symm)
      exact ih s live r hown hrest hnd.2 (hm' hne) hr

/-- The PREP that a completed `ReceivePreq` sends in the name of the station for
a PREQ that names the station once. -/
theorem ReceivePreq_own {s s1 : HwmpProtocol} {preq : IePreq} {from_ : Mac48Address}
    {interface : Nat} {fromMp : Mac48Address} {metric : Nat} {freshInfo : Bool}
    (hacc : HwmpProtocol.preqAccept (mapFind s.m_hwmpSeqnoMetricDatabase preq.originatorAddress)
      (preq.IncrementMetric metric) = some freshInfo)
    (hb : ∀ u ∈ preq.destinations, u.destinationAddress ≠ GetBroadcast)
    (hnd : (preq.destinations.map (fun u => u.destinationAddress)).Nodup)
    (hm : s.m_address ∈ preq.destinations.map (fun u => u.destinationAddress))
    (h : s.ReceivePreq preq from_ interface fromMp metric = .ok s1) :
    ownPreps s.m_address s1.out = ownPreps s.m_address s.out ++
      [(interface, IePrep.mk s.m_address preq.originatorSeqNumber preq.originatorAddress
        (u32 (s.m_hwmpSeqno + 1)) 0 s.m_maxTtl preq.lifetime 0, from_)] ∧
    s1.m_hwmpSeqno = u32 (s.m_hwmpSeqno + 1) := by
  obtain ⟨s2, s3, r, h2, h3, hr, h1⟩ := ReceivePreq_inv hacc h
  obtain ⟨q2, f2⟩ := stage_quiet _ h2
  obtain ⟨q3, f3⟩ := stage_quiet _ h3
  have ha : s3.m_address = s.m_address := f3.address.trans f2.address
  have ht : s3.m_maxTtl = s.m_maxTtl := f3.maxTtl.trans f2.maxTtl
  have hq : Quiet s s3 := Quiet.quiet_trans ⟨q2.preps, q2.preqs, q2.initiatedPrep, q2.seqno⟩ q3
  obtain ⟨a, b⟩ := preqDestLoop_own (preq.IncrementMetric metric) from_ interface s.m_address
    (HwmpProtocol.tagFrom 0 preq.destinations) s3 (HwmpProtocol.tagFrom 0 preq.destinations) r ha
    (fun e he => hb e.2 (tagFrom_mem _ _ _ he))
    (by rw [tagFrom_map_address]; exact hnd) (by rw [tagFrom_map_address]; exact hm) hr
  have hs1 : sentPreps s1.out = sentPreps r.1.out ∧ s1.m_hwmpSeqno = r.1.m_hwmpSeqno := by
    rw [h1]
    split
    · exact ⟨rfl, rfl⟩
    · exact ⟨(forwardPreqLoop_preqs _ _ _).2.1, (forwardPreqLoop_preqs _ _ _).2.2.2⟩
  have p3 : ownPreps s.m_address s3.out = ownPreps s.m_address s.out := by
    unfold ownPreps
    rw [hq.preps]
  rw [p3, hq.seqno, ht] at a
  rw [hq.seqno] at b
  refine ⟨?_, hs1.2.trans b⟩
  refine Eq.trans ?_ a
  unfold ownPreps
  rw [hs1.1]

/-- C29: `GetNextHwmpSeqno` returns the sequence number of the station
incremented by one modulo `2^32` and stores it; the returned number is strictly
fresher, under the signed 32-bit difference, than the number stored before and
than the number returned by the call before.  When `ReceivePreq` processes to
its end an accepted PREQ that names the station among its destinations (the
destination addresses pairwise distinct, none the broadcast address), the one
PREP that the station sends in its own name carries as destination sequence
number the counter of before plus one (modulo `2^32`), and the counter of the
station equals that value afterwards.  Such a run reaches its end whenever the
lifetime gives a positive duration, `from_` is not the broadcast address, the
interface is installed and the queued frames are tagged. -/
theorem fresh_sequence_numbers (s : HwmpProtocol) :
    s.GetNextHwmpSeqno.1 = u32 (s.m_hwmpSeqno + 1) ∧
    s.GetNextHwmpSeqno.2.m_hwmpSeqno = s.GetNextHwmpSeqno.1 ∧
    sdiff s.GetNextHwmpSeqno.1 s.m_hwmpSeqno > 0 ∧
    sdiff s.GetNextHwmpSeqno.2.GetNextHwmpSeqno.1 s.GetNextHwmpSeqno.1 > 0 ∧
    (∀ (preq : IePreq) (from_ : Mac48Address) (interface : Nat) (fromMp : Mac48Address)
      (metric : Nat) (freshInfo : Bool),
      HwmpProtocol.preqAccept (mapFind s.m_hwmpSeqnoMetricDatabase preq.originatorAddress)
        (preq.IncrementMetric metric) = some freshInfo →
      (∀ u ∈ preq.destinations, u.destinationAddress ≠ GetBroadcast) →
      (preq.destinations.map (fun u => u.destinationAddress)).Nodup →
      s.m_address ∈ preq.destinations.map (fun u => u.destinationAddress) →
      (∀ s1, s.ReceivePreq preq from_ interface fromMp metric = .ok s1 →
        ownPreps s.m_address s1.out = ownPreps s.m_address s.out ++
          [(interface, IePrep.mk s.m_address preq.originatorSeqNumber preq.originatorAddress
            (u32 (s.m_hwmpSeqno + 1)) 0 s.m_maxTtl preq.lifetime 0, from_)] ∧
        s1.m_hwmpSeqno = u32 (s.m_hwmpSeqno + 1)) ∧
      (0 < HwmpProtocol.lifetimeTime preq.lifetime → from_ ≠ GetBroadcast →
        mapFind s.m_interfaces interface ≠ none → QueueTagged s.m_rqueue →
        ∃ s1, s.ReceivePreq preq from_ interface fromMp metric = .ok s1)) := by
  refine ⟨rfl, rfl, ?_, ?_, ?_⟩
  · show sdiff (u32 (s.m_hwmpSeqno + 1)) s.m_hwmpSeqno > 0
    rw [sdiff_succ]
    decide
  · show sdiff (u32 (u32 (s.m_hwmpSeqno + 1) + 1)) (u32 (s.m_hwmpSeqno + 1)) > 0
    rw [sdiff_succ]
    decide
  · intro preq from_ interface fromMp metric freshInfo hacc hb hnd hm
    refine ⟨fun s1 h => ReceivePreq_own hacc hb hnd hm h, ?_⟩
    intro hL hfrom hif hq
    exact ReceivePreq_completes s preq from_ interface fromMp metric hL hfrom hif hq (Or.inl hb)

/-! ## A PREP addressed to the station -/

theorem macCalls_resolvedReplies (result : LookupResult) (l : List QueuedPacket) :
    macCalls (resolvedReplies result l) = [] := by
  induction l with
  | nil => rfl
  | cons p q ih =>
    unfold resolvedReplies
    cases hx : p.pkt with
    | none => exact ih
    | some x =>
      show macCalls (_ :: resolvedReplies result q) = []
      unfold macCalls at ih ⊢
      rw [List.filter_cons_of_neg (by simp [Action.isMac])]
      exact ih

theorem macCalls_discoveryTrace (s : HwmpProtocol) (dst : Mac48Address) :
    macCalls (discoveryTrace s dst) = [] := by
  unfold discoveryTrace
  split <;> rfl

theorem ReactivePathResolved_mac {s s1 : HwmpProtocol} {dst : Mac48Address}
    (h : s.ReactivePathResolved dst = .ok s1) : macCalls s1.out = macCalls s.out := by
  rw [ReactivePathResolved_eq] at h
  split at h
  · cases h
  · cases h
    show macCalls ((s.out ++ discoveryTrace s dst) ++ resolvedReplies _ _) = _
    rw [macCalls_append, macCalls_append, macCalls_resolvedReplies, macCalls_discoveryTrace,
      List.append_nil, List.append_nil]

theorem stage_mac {s s2 : HwmpProtocol} (c : Prop) [Decidable c] {dst from_ : Mac48Address}
    {interface metric lifetime seqnum : Nat}
    (h : (if c then s.installReactive dst from_ interface metric lifetime seqnum else .ok s)
      = .ok s2) : macCalls s2.out = macCalls s.out := by
  by_cases hc : c
  · rw [if_pos hc] at h
    unfold HwmpProtocol.installReactive at h
    rw [ReactivePathResolved_mac h]
    show macCalls (s.out ++ [_]) = _
    rw [macCalls_append]
    exact List.append_nil _
  · rw [if_neg hc] at h
    cases h
    rfl

/-- The queue after the stage "install a reactive path if it is news or an
improvement", whenever it completes. -/
theorem stage_drains {s s2 : HwmpProtocol} (c : Prop) [Decidable c] {dst from_ : Mac48Address}
    {interface metric lifetime seqnum : Nat} (hq : QueueWf s.m_rqueue)
    (h : (if c then s.installReactive dst from_ interface metric lifetime seqnum else .ok s)
      = .ok s2) :
    s2.m_rqueue = (if c then s.m_rqueue.filter (fun p => !decide (p.dst = dst)) else s.m_rqueue) := by
  by_cases hc : c
  · have h' := h
    rw [if_pos hc] at h'
    obtain ⟨hL, hfrom⟩ := stage_done h'
    exact (stage_queue c hL hfrom hq h dst).1
  · rw [if_neg hc] at h
    cases h
    rw [if_neg hc]

/-- What `ReceivePrep` does with an accepted PREP addressed to the station. -/
theorem ReceivePrep_for_self {s s1 : HwmpProtocol} {prep : IePrep} {from_ : Mac48Address}
    {interface : Nat} {fromMp : Mac48Address} {metric : Nat} {freshInfo : Bool}
    (hacc : HwmpProtocol.prepAccept (mapFind s.m_hwmpSeqnoMetricDatabase prep.originatorAddress)
      prep.destinationSeqNumber = some freshInfo)
    (hself : prep.destinationAddress = s.m_address)
    (h : s.ReceivePrep prep from_ interface fromMp metric = .ok s1) :
    macCalls s1.out = macCalls s.out ∧
    ((freshInfo = true ∨
        (s.m_rtable.LookupReactive s.now prep.originatorAddress).retransmitter = GetBroadcast ∨
        (s.m_rtable.LookupReactive s.now prep.originatorAddress).metric >
          u32 (prep.metric + metric)) →
      (∃ s2,
        ((s.setSeqnoMetric prep.originatorAddress prep.destinationSeqNumber
          (u32 (prep.metric + metric))).prepInstall (prep.IncrementMetric metric) from_ interface
          (s.m_rtable.LookupReactive s.now prep.destinationAddress)).ReactivePathResolved
            prep.originatorAddress = .ok s2 ∧
        (if (s2.m_rtable.LookupReactive s2.now fromMp).retransmitter = GetBroadcast ∨
            (s2.m_rtable.LookupReactive s2.now fromMp).metric > metric then
          s2.installReactive fromMp from_ interface metric prep.lifetime
            prep.destinationSeqNumber
         else .ok s2) = .ok s1) ∧
      (QueueWf s.m_rqueue →
        s1.m_rqueue.filter (fun p => decide (p.dst = prep.originatorAddress)) = [])) ∧
    (¬ (freshInfo = true ∨
        (s.m_rtable.LookupReactive s.now prep.originatorAddress).retransmitter = GetBroadcast ∨
        (s.m_rtable.LookupReactive s.now prep.originatorAddress).metric >
          u32 (prep.metric + metric)) →
      (if ((s.setSeqnoMetric prep.originatorAddress prep.destinationSeqNumber
              (u32 (prep.metric + metric))).m_rtable.LookupReactive s.now fromMp).retransmitter
            = GetBroadcast ∨
          ((s.setSeqnoMetric prep.originatorAddress prep.destinationSeqNumber
              (u32 (prep.metric + metric))).m_rtable.LookupReactive s.now fromMp).metric > metric
        then
          (s.setSeqnoMetric prep.originatorAddress prep.destinationSeqNumber
            (u32 (prep.metric + metric))).installReactive fromMp from_ interface metric
            prep.lifetime prep.destinationSeqNumber
        else .ok (s.setSeqnoMetric prep.originatorAddress prep.destinationSeqNumber
            (u32 (prep.metric + metric)))) = .ok s1 ∧
      (QueueWf s.m_rqueue → fromMp ≠ prep.originatorAddress →
        s1.m_rqueue.filter (fun p => decide (p.dst = prep.originatorAddress)) =
          s.m_rqueue.filter (fun p => decide (p.dst = prep.originatorAddress)))) := by
  obtain ⟨s2, s3, h2, h3, hlast⟩ := ReceivePrep_inv hacc h
  have f2 : Frame (s.setSeqnoMetric prep.originatorAddress prep.destinationSeqNumber
      (u32 (prep.metric + metric))) s2 := by
    split at h2
    · exact (prepInstall_frame _ _ _ _ _).frame_trans (ReactivePathResolved_frame h2)
    · cases h2
      exact Frame.frame_refl _
  have f3 := (stage_quiet _ h3).2
  have ha : s3.m_address = s.m_address := f3.address.trans f2.address
  rw [if_pos (hself.trans ha.symm)] at hlast
  cases hlast
  have m3 := stage_mac _ h3
  refine ⟨?_, ?_, ?_⟩
  · rw [m3]
    split at h2
    · rw [ReactivePathResolved_mac h2]
      rw [(prepInstall_fields _ _ _ _ _).2.2.1, macCalls_append]
      exact List.append_nil _
    · cases h2
      rfl
  · intro hc
    rw [if_pos hc] at h2
    refine ⟨⟨s2, h2, h3⟩, ?_⟩
    intro hq
    have hq0 : QueueWf ((s.setSeqnoMetric prep.originatorAddress prep.destinationSeqNumber
        (u32 (prep.metric + metric))).prepInstall (prep.IncrementMetric metric) from_ interface
        (s.m_rtable.LookupReactive s.now prep.destinationAddress)).m_rqueue := by
      rw [(prepInstall_fields _ _ _ _ _).2.1]
      exact hq
    obtain ⟨_, _, _, hq2, _⟩ := resolve_stage rfl rfl hq0 h2 prep.originatorAddress
    rw [(prepInstall_fields _ _ _ _ _).2.1] at hq2
    have hq2' : s2.m_rqueue = s.m_rqueue.filter
        (fun p => !decide (p.dst = prep.originatorAddress)) := hq2
    have hw2 : QueueWf s2.m_rqueue := by
      rw [hq2']
      exact QueueWf_filter _ _ hq
    rw [stage_drains _ hw2 h3, hq2']
    split
    · exact filter_ne_ne_eq _ _ _
    · exact filter_eq_of_filter_ne _ _
  · intro hc
    rw [if_neg hc] at h2
    cases h2
    refine ⟨h3, ?_⟩
    intro hq hne
    have hq0 : QueueWf (s.setSeqnoMetric prep.originatorAddress prep.destinationSeqNumber
        (u32 (prep.metric + metric))).m_rqueue := hq
    rw [stage_drains _ hq0 h3]
    split
    · show (s.m_rqueue.filter (fun p => !decide (p.dst = fromMp))).filter
        (fun p => decide (p.dst = prep.originatorAddress)) = _
      rw [List.filter_filter]
      apply List.filter_congr
      intro p _
      by_cases hp : p.dst = prep.originatorAddress
      · simp [hp, Ne.symm hne]
      · simp [hp]
    · rfl

/-- C30: for every accepted PREP whose destination address is the address of
the station, whenever `ReceivePrep` runs to its end it has made no call into a
MAC plugin, directly or through the scheduler: no PREP is forwarded or
scheduled.  If the PREP carries fresh information, or the station held no valid
path to the originator, or one with a larger metric than the 32-bit sum of the
PREP metric and the link metric, `ReceivePrep` has installed the path and called
`ReactivePathResolved` for the originator, then dealt with the transmitting mesh
point and stopped, and no frame for the originator is left in a queue whose
frames all carry a payload.  Otherwise it has not called `ReactivePathResolved`
for the originator: it has only dealt with the transmitting mesh point, and the
frames queued for the originator are those of before when the transmitting mesh
point is another station.  The run reaches its end whenever the lifetime gives a
positive duration and `from_` is not the broadcast address. -/
theorem prep_to_self (s : HwmpProtocol) (prep : IePrep) (from_ : Mac48Address)
    (interface : Nat) (fromMp : Mac48Address) (metric : Nat) (freshInfo : Bool)
    (hacc : HwmpProtocol.prepAccept (mapFind s.m_hwmpSeqnoMetricDatabase prep.originatorAddress)
      prep.destinationSeqNumber = some freshInfo)
    (hself : prep.destinationAddress = s.m_address) :
    (∀ s1, s.ReceivePrep prep from_ interface fromMp metric = .ok s1 →
      macCalls s1.out = macCalls s.out ∧
      ((freshInfo = true ∨
          (s.m_rtable.LookupReactive s.now prep.originatorAddress).retransmitter = GetBroadcast ∨
          (s.m_rtable.LookupReactive s.now prep.originatorAddress).metric >
            u32 (prep.metric + metric)) →
        (∃ s2,
          ((s.setSeqnoMetric prep.originatorAddress prep.destinationSeqNumber
            (u32 (prep.metric + metric))).prepInstall (prep.IncrementMetric metric) from_
            interface (s.m_rtable.LookupReactive s.now prep.destinationAddress)).ReactivePathResolved
              prep.originatorAddress = .ok s2 ∧
          installIfBetter s2 fromMp from_ interface metric prep.lifetime
            prep.destinationSeqNumber = .ok s1) ∧
        (QueueWf s.m_rqueue →
          s1.m_rqueue.filter (fun p => decide (p.dst = prep.originatorAddress)) = [])) ∧
      (¬ (freshInfo = true ∨
          (s.m_rtable.LookupReactive s.now prep.originatorAddress).retransmitter = GetBroadcast ∨
          (s.m_rtable.LookupReactive s.now prep.originatorAddress).metric >
            u32 (prep.metric + metric)) →
        installIfBetter (s.setSeqnoMetric prep.originatorAddress prep.destinationSeqNumber
          (u32 (prep.metric + metric))) fromMp from_ interface metric prep.lifetime
          prep.destinationSeqNumber = .ok s1 ∧
        (QueueWf s.m_rqueue → fromMp ≠ prep.originatorAddress →
          s1.m_rqueue.filter (fun p => decide (p.dst = prep.originatorAddress)) =
            s.m_rqueue.filter (fun p => decide (p.dst = prep.originatorAddress))))) ∧
    (0 < HwmpProtocol.lifetimeTime prep.lifetime → from_ ≠ GetBroadcast →
      ∃ s1, s.ReceivePrep prep from_ interface fromMp metric = .ok s1) := by
  refine ⟨?_, ?_⟩
  · intro s1 h
    obtain ⟨a, b, c⟩ := ReceivePrep_for_self hacc hself h
    exact ⟨a, b, c⟩
  · intro hL hfrom
    exact ReceivePrep_returns s prep from_ interface fromMp metric freshInfo hacc hL hfrom
      (Or.inl hself)

/-- Witness for C30: station 7 holds two frames for 5 when the PREP of 5,
addressed to 7, arrives from neighbour 3: both frames leave the queue and no
call goes to a MAC plugin. -/
theorem prep_to_self_witness :
    waiting7.ReceivePrep prepFrom5 3 1 3 5
      = .ok (after waiting7 [Call.receivePrep prepFrom5 3 1 3 5]) ∧
    macCalls (after waiting7 [Call.receivePrep prepFrom5 3 1 3 5]).out = macCalls waiting7.out ∧
    (after waiting7 [Call.receivePrep prepFrom5 3 1 3 5]).m_rqueue.filter
      (fun p => decide (p.dst = 5)) = [] :=
  ⟨rfl, ((prep_to_self waiting7 prepFrom5 3 1 3 5 true rfl rfl).1 _ rfl).1,
    ((((prep_to_self waiting7 prepFrom5 3 1 3 5 true rfl rfl).1 _ rfl).2.1 (Or.inl rfl)).2
      (by unfold QueueWf; decide))⟩

/-- C30, counterexample: station 7 has resolved its discovery of 5 through
neighbour 3, with metric 15; the discovery timer of 5 is still armed.  The same
PREP of 5, addressed to 7, arrives through neighbour 4 over a link of metric 20:
it is accepted, with the stored sequence number and no better metric.
`ReceivePrep` runs to its end without a call of `ReactivePathResolved` for 5: no
route-discovery-time sample is handed to the trace source, although the call
would have produced one. -/
theorem equal_sn_prep_not_resolved :
    HwmpProtocol.prepAccept (mapFind resolved7.m_hwmpSeqnoMetricDatabase
      prepFrom5.originatorAddress) prepFrom5.destinationSeqNumber = some false ∧
    prepFrom5.destinationAddress = resolved7.m_address ∧
    run resolved7 [Call.receivePrep prepFrom5 4 1 4 20]
      = .ok (after resolved7 [Call.receivePrep prepFrom5 4 1 4 20]) ∧
    discoverySamples (after resolved7 [Call.receivePrep prepFrom5 4 1 4 20]).out
      = discoverySamples resolved7.out ∧
    discoveryTrace (after resolved7 [Call.receivePrep prepFrom5 4 1 4 20]) 5
      = [Action.routeDiscoveryTime 0] ∧
    (after resolved7 [Call.receivePrep prepFrom5 4 1 4 20]).m_rtable.LookupReactive
      (after resolved7 [Call.receivePrep prepFrom5 4 1 4 20]).now 5 =
        { retransmitter := 3, ifIndex := 1, metric := 15, seqnum := 4, lifetime := 102400 } :=
  ⟨rfl, rfl, rfl, by decide, rfl, rfl⟩

/-! ## Forwarding of a PREP -/

theorem ReactivePathResolved_steady {s s1 : HwmpProtocol} {dst : Mac48Address}
    (h : s.ReactivePathResolved dst = .ok s1) : Steady s s1 := by
  refine ⟨(ReactivePathResolved_quiet h).preqs, ?_, ?_⟩
  · rw [ReactivePathResolved_eq] at h
    split at h
    · cases h
    · cases h
      rfl
  · rw [ReactivePathResolved_eq] at h
    split at h
    · cases h
    · cases h
      rfl

theorem prepInstall_draws (s : HwmpProtocol) (prep : IePrep) (from_ : Mac48Address)
    (interface : Nat) (result : LookupResult) :
    (s.prepInstall prep from_ interface result).delayDraws = s.delayDraws ∧
    (s.prepInstall prep from_ interface result).forwardingDelay = s.forwardingDelay := by
  unfold HwmpProtocol.prepInstall
  simp only
  split <;> exact ⟨rfl, rfl⟩

/-- The calls into MAC plugins that a completed `ReceivePrep` has made for an
accepted PREP: none but the scheduled forward of the PREP, along the path to its
destination that the station held when the PREP arrived. -/
theorem ReceivePrep_forward {s s1 : HwmpProtocol} {prep : IePrep} {from_ : Mac48Address}
    {interface : Nat} {fromMp : Mac48Address} {metric : Nat} {freshInfo : Bool}
    (hacc : HwmpProtocol.prepAccept (mapFind s.m_hwmpSeqnoMetricDatabase prep.originatorAddress)
      prep.destinationSeqNumber = some freshInfo)
    (h : s.ReceivePrep prep from_ interface fromMp metric = .ok s1) :
    macCalls s1.out = macCalls s.out ++
      (if prep.destinationAddress = s.m_address ∨
          (s.m_rtable.LookupReactive s.now prep.destinationAddress).retransmitter = GetBroadcast
       then []
       else [Action.scheduleSendPrep (s.forwardingDelay s.delayDraws)
          (s.m_rtable.LookupReactive s.now prep.destinationAddress).ifIndex
          (prep.IncrementMetric metric)
          (s.m_rtable.LookupReactive s.now prep.destinationAddress).retransmitter]) := by
  obtain ⟨s2, s3, h2, h3, hlast⟩ := ReceivePrep_inv hacc h
  have f2 : Frame (s.setSeqnoMetric prep.originatorAddress prep.destinationSeqNumber
      (u32 (prep.metric + metric))) s2 := by
    split at h2
    · exact (prepInstall_frame _ _ _ _ _).frame_trans (ReactivePathResolved_frame h2)
    · cases h2
      exact Frame.frame_refl _
  have f3 := (stage_quiet _ h3).2
  have ha : s3.m_address = s.m_address := f3.address.trans f2.address
  have m2 : macCalls s2.out = macCalls s.out := by
    split at h2
    · rw [ReactivePathResolved_mac h2, (prepInstall_fields _ _ _ _ _).2.2.1, macCalls_append]
      exact List.append_nil _
    · cases h2
      rfl
  have m3 : macCalls s3.out = macCalls s.out := (stage_mac _ h3).trans m2
  have d2 : s2.delayDraws = s.delayDraws ∧ s2.forwardingDelay = s.forwardingDelay := by
    split at h2
    · have t := ReactivePathResolved_steady h2
      have p := prepInstall_draws (s.setSeqnoMetric prep.originatorAddress
        prep.destinationSeqNumber (u32 (prep.metric + metric))) (prep.IncrementMetric metric)
        from_ interface (s.m_rtable.LookupReactive s.now prep.destinationAddress)
      exact ⟨t.draws.trans p.1, t.delay.trans p.2⟩
    · cases h2
      exact ⟨rfl, rfl⟩
  have t3 := stage_steady _ h3
  have d3 : s3.delayDraws = s.delayDraws ∧ s3.forwardingDelay = s.forwardingDelay :=
    ⟨t3.draws.trans d2.1, t3.delay.trans d2.2⟩
  rw [ha] at hlast
  by_cases hd : prep.destinationAddress = s.m_address
  · rw [if_pos hd] at hlast
    cases hlast
    rw [if_pos (Or.inl hd), List.append_nil]
    exact m3
  · rw [if_neg hd] at hlast
    by_cases hb : (s.m_rtable.LookupReactive s.now prep.destinationAddress).retransmitter
        = GetBroadcast
    · rw [if_pos hb] at hlast
      cases hlast
      rw [if_pos (Or.inr hb), List.append_nil]
      exact m3
    · rw [if_neg hb] at hlast
      rw [if_neg (fun hh => hh.elim hd hb)]
      split at hlast
      · cases hlast
      · cases hlast
        show macCalls (s3.out ++ [_]) = _
        rw [macCalls_append, m3]
        congr 1
        show [Action.scheduleSendPrep (s3.forwardingDelay s3.delayDraws) _ _ _] = _
        rw [d3.1, d3.2]

/-- The lookups of destinations other than the originator of the PREP and the
transmitting mesh point are the same before and after `ReceivePrep`. -/
theorem ReceivePrep_other {s s1 : HwmpProtocol} {prep : IePrep} {from_ : Mac48Address}
    {interface : Nat} {fromMp : Mac48Address} {metric : Nat} {freshInfo : Bool}
    (hacc : HwmpProtocol.prepAccept (mapFind s.m_hwmpSeqnoMetricDatabase prep.originatorAddress)
      prep.destinationSeqNumber = some freshInfo)
    (h : s.ReceivePrep prep from_ interface fromMp metric = .ok s1) (d : Mac48Address)
    (hd1 : d ≠ prep.originatorAddress) (hd2 : d ≠ fromMp) :
    s1.now = s.now ∧ s1.m_rtable.LookupReactive s1.now d = s.m_rtable.LookupReactive s.now d := by
  obtain ⟨s2, s3, h2, h3, hlast⟩ := ReceivePrep_inv hacc h
  obtain ⟨n1, t1, _, _⟩ := prep_last_stage hlast d
  obtain ⟨n3, l3⟩ := stage_other _ h3 d (fun hh => hd2 hh.2.symm)
  have l2 : s2.now = s.now ∧
      s2.m_rtable.LookupReactive s2.now d = s.m_rtable.LookupReactive s.now d := by
    split at h2
    · obtain ⟨ht, hn⟩ := ReactivePathResolved_table h2
      obtain ⟨fnow, _, _, flook⟩ := prepInstall_fields
        (s.setSeqnoMetric prep.originatorAddress prep.destinationSeqNumber
          (u32 (prep.metric + metric))) (prep.IncrementMetric metric) from_ interface
        (s.m_rtable.LookupReactive s.now prep.destinationAddress)
      refine ⟨hn.trans fnow, ?_⟩
      rw [hn, ht, fnow]
      refine (flook d).trans ?_
      exact LookupReactive_AddReactivePath_ne s.m_rtable s.now s.now prep.originatorAddress d
        from_ interface _ _ _ (Ne.symm hd1)
    · cases h2
      exact ⟨rfl, rfl⟩
  refine ⟨n1.trans (n3.trans l2.1), ?_⟩
  rw [n1, t1, l3, l2.2]

/-- C31: for every accepted PREP whose destination is not the station, whenever
`ReceivePrep` runs to its end the calls it has made into MAC plugins are: none,
if the station held no valid reactive path to the destination of the PREP when
the PREP arrived; and otherwise exactly one scheduled `SendPrep`, with the next
draw of the forwarding delay, of the PREP with its metric increased by the link
metric, to the next hop and on the interface of the path held on arrival.  For a
destination other than the originator of the PREP and the transmitting mesh
point the path on arrival is the path after the table updates.  The run reaches
its end whenever the lifetime gives a positive duration, `from_` is not the
broadcast address and the station held no path to the destination or the
interface of that path is installed. -/
theorem prep_forwarding (s : HwmpProtocol) (prep : IePrep) (from_ : Mac48Address)
    (interface : Nat) (fromMp : Mac48Address) (metric : Nat) (freshInfo : Bool)
    (hacc : HwmpProtocol.prepAccept (mapFind s.m_hwmpSeqnoMetricDatabase prep.originatorAddress)
      prep.destinationSeqNumber = some freshInfo)
    (hne : prep.destinationAddress ≠ s.m_address) :
    (∀ s1, s.ReceivePrep prep from_ interface fromMp metric = .ok s1 →
      macCalls s1.out = macCalls s.out ++
        (if (s.m_rtable.LookupReactive s.now prep.destinationAddress).retransmitter
            = GetBroadcast then []
         else [Action.scheduleSendPrep (s.forwardingDelay s.delayDraws)
            (s.m_rtable.LookupReactive s.now prep.destinationAddress).ifIndex
            (prep.IncrementMetric metric)
            (s.m_rtable.LookupReactive s.now prep.destinationAddress).retransmitter]) ∧
      (prep.destinationAddress ≠ prep.originatorAddress → prep.destinationAddress ≠ fromMp →
        s1.m_rtable.LookupReactive s1.now prep.destinationAddress =
          s.m_rtable.LookupReactive s.now prep.destinationAddress)) ∧
    (0 < HwmpProtocol.lifetimeTime prep.lifetime → from_ ≠ GetBroadcast →
      ((s.m_rtable.LookupReactive s.now prep.destinationAddress).retransmitter = GetBroadcast ∨
        mapFind s.m_interfaces (s.m_rtable.LookupReactive s.now prep.destinationAddress).ifIndex
          ≠ none) →
      ∃ s1, s.ReceivePrep prep from_ interface fromMp metric = .ok s1) := by
  refine ⟨?_, ?_⟩
  · intro s1 h
    refine ⟨?_, fun h1 h2 => (ReceivePrep_other hacc h _ h1 h2).2⟩
    rw [ReceivePrep_forward hacc h]
    congr 1
    by_cases hb : (s.m_rtable.LookupReactive s.now prep.destinationAddress).retransmitter
        = GetBroadcast
    · rw [if_pos (Or.inr hb), if_pos hb]
    · rw [if_neg (fun hh => hh.elim hne hb), if_neg hb]
  · intro hL hfrom hif
    exact ReceivePrep_returns s prep from_ interface fromMp metric freshInfo hacc hL hfrom
      (Or.inr hif)

/-- Witness for C31: station 7 holds a path to the requester 5 through neighbour
3 on interface 1 when the PREP of target 9 for 5 arrives from neighbour 4: the
PREP, its metric increased by the link metric 10, is scheduled once for 3 on
interface 1. -/
theorem prep_forwarding_witness :
    routed7.ReceivePrep prepFrom9For5 4 1 4 10
      = .ok (after routed7 [Call.receivePrep prepFrom9For5 4 1 4 10]) ∧
    macCalls (after routed7 [Call.receivePrep prepFrom9For5 4 1 4 10]).out =
      macCalls routed7.out ++
        [Action.scheduleSendPrep 0 1 { prepFrom9For5 with metric := 20 } 3] :=
  ⟨rfl, ((prep_forwarding routed7 prepFrom9For5 4 1 4 10 true rfl (by decide)).1 _ rfl).1.trans
    (by decide)⟩

/-- C31, counterexample: station 7, with an empty table, receives from neighbour
4 a PREP of originator 5 whose destination is 4 itself.  The table updates of
the PREP install a valid reactive path to 4, yet nothing is scheduled: the
forward is decided on the lookup made before the updates. -/
theorem prep_not_forwarded_on_new_path :
    HwmpProtocol.prepAccept (mapFind station7.m_hwmpSeqnoMetricDatabase
      prepFor4.originatorAddress) prepFor4.destinationSeqNumber = some true ∧
    prepFor4.destinationAddress ≠ station7.m_address ∧
    run station7 [Call.receivePrep prepFor4 4 1 4 10]
      = .ok (after station7 [Call.receivePrep prepFor4 4 1 4 10]) ∧
    (after station7 [Call.receivePrep prepFor4 4 1 4 10]).m_rtable.LookupReactive
      (after station7 [Call.receivePrep prepFor4 4 1 4 10]).now 4 =
        { retransmitter := 4, ifIndex := 1, metric := 10, seqnum := 4, lifetime := 102400 } ∧
    macCalls (after station7 [Call.receivePrep prepFor4 4 1 4 10]).out = [] :=
  ⟨rfl, by decide, rfl, rfl, by decide⟩

/-! ## Precursors registered by a PREP -/

theorem addPrecursorTo_mem (p : Precursor) (l : List Precursor) :
    ∀ q ∈ HwmpRtable.addPrecursorTo p l,
      q ∈ l ∨ (q.interface = p.interface ∧ q.address = p.address ∧ q.whenExpire = p.whenExpire) := by
  induction l with
  | nil =>
    intro q hq
    simp only [HwmpRtable.addPrecursorTo, List.mem_singleton] at hq
    rw [hq]
    exact Or.inr ⟨rfl, rfl, rfl⟩
  | cons a t ih =>
    intro q hq
    unfold HwmpRtable.addPrecursorTo at hq
    split at hq
    · rename_i hc
      rcases List.mem_cons.mp hq with h | h
      · rw [h]
        exact Or.inr ⟨hc.1, hc.2, rfl⟩
      · exact Or.inl (List.mem_cons_of_mem _ h)
    · rcases List.mem_cons.mp hq with h | h
      · rw [h]
        exact Or.inl (List.mem_cons_self _ _)
      · rcases ih q h with h1 | h1
        · exact Or.inl (List.mem_cons_of_mem _ h1)
        · exact Or.inr h1

theorem addPrecursorTo_has (p : Precursor) (l : List Precursor) :
    ∃ q ∈ HwmpRtable.addPrecursorTo p l,
      q.interface = p.interface ∧ q.address = p.address ∧ q.whenExpire = p.whenExpire := by
  induction l with
  | nil => exact ⟨p, by simp [HwmpRtable.addPrecursorTo], rfl, rfl, rfl⟩
  | cons a t ih =>
    unfold HwmpRtable.addPrecursorTo
    split
    · rename_i hc
      exact ⟨_, List.mem_cons_self _ _, hc.1, hc.2, rfl⟩
    · obtain ⟨q, hq, h⟩ := ih
      exact ⟨q, List.mem_cons_of_mem _ hq, h⟩

/-- Replacing or inserting a reactive path leaves every precursor set as it
was. -/
theorem GetPrecursors_AddReactivePath (t : HwmpRtable) (now now1 : Time) (dst d r : Mac48Address)
    (i m : Nat) (L : Time) (sn : Nat) :
    (t.AddReactivePath now dst r i m L sn).GetPrecursors now1 d = t.GetPrecursors now1 d := by
  unfold HwmpRtable.GetPrecursors HwmpRtable.AddReactivePath
  simp only [mapFind_mapInsert]
  by_cases h : dst = d
  · subst h
    rw [if_pos rfl]
    cases hf : mapFind t.m_routes dst with
    | none => rfl
    | some x => rfl
  · rw [if_neg h]

theorem GetPrecursors_AddPrecursor_ne (t : HwmpRtable) (now now1 : Time) (dst d : Mac48Address)
    (i : Nat) (a : Mac48Address) (L : Time) (h : dst ≠ d) :
    (t.AddPrecursor now dst i a L).GetPrecursors now1 d = t.GetPrecursors now1 d := by
  unfold HwmpRtable.AddPrecursor
  cases hf : mapFind t.m_routes dst with
  | none => rfl
  | some r =>
    unfold HwmpRtable.GetPrecursors
    simp only [mapFind_mapInsert, if_neg h]

/-- Every unexpired precursor after `AddPrecursor` was one before, or is the one
added. -/
theorem GetPrecursors_AddPrecursor_mem (t : HwmpRtable) (now now1 : Time) (dst d : Mac48Address)
    (i : Nat) (a : Mac48Address) (L : Time) (e : Nat × Mac48Address)
    (he : e ∈ (t.AddPrecursor now dst i a L).GetPrecursors now1 d) :
    e ∈ t.GetPrecursors now1 d ∨ (d = dst ∧ e = (i, a)) := by
  by_cases h : dst = d
  · subst h
    unfold HwmpRtable.AddPrecursor at he
    cases hf : mapFind t.m_routes dst with
    | none =>
      rw [hf] at he
      exact Or.inl he
    | some r =>
      rw [hf] at he
      unfold HwmpRtable.GetPrecursors at he ⊢
      simp only [mapFind_mapInsert, if_true] at he
      rw [hf]
      simp only
      obtain ⟨q, hq, hqe⟩ := List.mem_map.mp he
      obtain ⟨hq1, hq2⟩ := List.mem_filter.mp hq
      rcases addPrecursorTo_mem _ _ q hq1 with h1 | h1
      · left
        exact List.mem_map.mpr ⟨q, List.mem_filter.mpr ⟨h1, hq2⟩, hqe⟩
      · right
        refine ⟨trivial, ?_⟩
        rw [← hqe, h1.1, h1.2.1]
  · left
    rw [GetPrecursors_AddPrecursor_ne t now now1 dst d i a L h] at he
    exact he

/-- The precursor added by `AddPrecursor` is reported while it is unexpired,
whenever the table holds a record for the destination. -/
theorem GetPrecursors_AddPrecursor_has (t : HwmpRtable) (now now1 : Time) (dst : Mac48Address)
    (i : Nat) (a : Mac48Address) (L : Time) (hr : mapFind t.m_routes dst ≠ none)
    (hL : now1 < now + L) :
    (i, a) ∈ (t.AddPrecursor now dst i a L).GetPrecursors now1 dst := by
  unfold HwmpRtable.AddPrecursor
  cases hf : mapFind t.m_routes dst with
  | none => exact absurd hf hr
  | some r =>
    unfold HwmpRtable.GetPrecursors
    simp only [mapFind_mapInsert, if_true]
    obtain ⟨q, hq, h1, h2, h3⟩ := addPrecursorTo_has
      { interface := i, address := a, whenExpire := now + L } r.precursors
    refine List.mem_map.mpr ⟨q, List.mem_filter.mpr ⟨hq, ?_⟩, ?_⟩
    · rw [h3]
      simpa using hL
    · rw [h1, h2]

/-- A precursor reported before `AddPrecursor` for another neighbour is still
reported after it. -/
theorem GetPrecursors_AddPrecursor_keeps (t : HwmpRtable) (now now1 : Time) (dst d : Mac48Address)
    (i : Nat) (a : Mac48Address) (L : Time) (e : Nat × Mac48Address)
    (he : e ∈ t.GetPrecursors now1 d) (hne : e ≠ (i, a)) :
    e ∈ (t.AddPrecursor now dst i a L).GetPrecursors now1 d := by
  by_cases h : dst = d
  · subst h
    unfold HwmpRtable.AddPrecursor
    cases hf : mapFind t.m_routes dst with
    | none => exact he
    | some r =>
      unfold HwmpRtable.GetPrecursors at he ⊢
      rw [hf] at he
      simp only at he
      simp only [mapFind_mapInsert, if_true]
      obtain ⟨q, hq, hqe⟩ := List.mem_map.mp he
      obtain ⟨hq1, hq2⟩ := List.mem_filter.mp hq
      have hq' : ¬ (q.interface = i ∧ q.address = a) := by
        intro hc
        apply hne
        rw [← hqe, hc.1, hc.2]
      have key : ∀ l : List Precursor, q ∈ l →
          q ∈ HwmpRtable.addPrecursorTo { interface := i, address := a, whenExpire := now + L }
            l := by
        intro l
        induction l with
        | nil => intro hm; cases hm
        | cons x xs ih =>
          intro hm
          unfold HwmpRtable.addPrecursorTo
          split
          · rename_i hc
            rcases List.mem_cons.mp hm with h0 | h0
            · rw [h0] at hq'
              exact absurd hc hq'
            · exact List.mem_cons_of_mem _ h0
          · rcases List.mem_cons.mp hm with h0 | h0
            · rw [h0]
              exact List.mem_cons_self _ _
            · exact List.mem_cons_of_mem _ (ih h0)
      exact List.mem_map.mpr ⟨q, List.mem_filter.mpr ⟨key _ hq1, hq2⟩, hqe⟩
  · rw [GetPrecursors_AddPrecursor_ne t now now1 dst d i a L h]
    exact he

theorem LookupReactive_valid_lifetime (t : HwmpRtable) (now : Time) (d : Mac48Address)
    (h : (t.LookupReactive now d).retransmitter ≠ GetBroadcast) :
    0 < (t.LookupReactive now d).lifetime ∧ mapFind t.m_routes d ≠ none := by
  unfold HwmpRtable.LookupReactive at h ⊢
  cases hf : mapFind t.m_routes d with
  | none =>
    rw [hf] at h
    exact absurd rfl h
  | some r =>
    rw [hf] at h
    simp only at h ⊢
    by_cases hv : now < r.whenExpire
    · rw [if_pos hv]
      unfold HwmpRtable.LookupReactiveExpired
      rw [hf]
      exact ⟨sub_pos.mpr hv, fun hc => by cases hc⟩
    · rw [if_neg hv] at h
      exact absurd rfl h

theorem AddPrecursor_record (t : HwmpRtable) (now : Time) (dst d : Mac48Address) (i : Nat)
    (a : Mac48Address) (L : Time) (h : mapFind t.m_routes d ≠ none) :
    mapFind (t.AddPrecursor now dst i a L).m_routes d ≠ none := by
  unfold HwmpRtable.AddPrecursor
  cases hf : mapFind t.m_routes dst with
  | none => exact h
  | some r =>
    simp only
    rw [mapFind_mapInsert]
    split
    · intro hc
      cases hc
    · exact h

theorem AddReactivePath_record (t : HwmpRtable) (now : Time) (dst d r : Mac48Address)
    (i m : Nat) (L : Time) (sn : Nat) (h : mapFind t.m_routes d ≠ none ∨ d = dst) :
    mapFind (t.AddReactivePath now dst r i m L sn).m_routes d ≠ none := by
  unfold HwmpRtable.AddReactivePath
  simp only
  rw [mapFind_mapInsert]
  split
  · intro hc
    cases hc
  · rename_i hne
    rcases h with h | h
    · exact h
    · exact absurd h.symm hne

/-- The precursor sets after the table updates of `ReceivePrep` for the
originator of the PREP. -/
theorem prepInstall_precursors (s : HwmpProtocol) (prep : IePrep) (from_ : Mac48Address)
    (interface : Nat) (result : LookupResult) :
    (∀ (t : Time) (d : Mac48Address) (e : Nat × Mac48Address),
      e ∈ (s.prepInstall prep from_ interface result).m_rtable.GetPrecursors t d →
      e ∈ s.m_rtable.GetPrecursors t d ∨
      (d = prep.destinationAddress ∧ e = (interface, from_)) ∨
      (d = prep.originatorAddress ∧ result.retransmitter ≠ GetBroadcast ∧
        e = (interface, result.retransmitter))) ∧
    (result.retransmitter ≠ GetBroadcast → 0 < result.lifetime →
      (interface, result.retransmitter) ∈
        (s.prepInstall prep from_ interface result).m_rtable.GetPrecursors s.now
          prep.originatorAddress) ∧
    (0 < HwmpProtocol.lifetimeTime prep.lifetime →
      (result.retransmitter ≠ GetBroadcast → 0 < result.lifetime) →
      (mapFind s.m_rtable.m_routes prep.destinationAddress ≠ none ∨
        prep.destinationAddress = prep.originatorAddress) →
      (interface, from_) ∈
        (s.prepInstall prep from_ interface result).m_rtable.GetPrecursors s.now
          prep.destinationAddress) := by
  have hrec : ∀ d, (mapFind s.m_rtable.m_routes d ≠ none ∨ d = prep.originatorAddress) →
      mapFind ((s.m_rtable.AddReactivePath s.now prep.originatorAddress from_ interface
        prep.metric (HwmpProtocol.lifetimeTime prep.lifetime)
        prep.destinationSeqNumber).AddPrecursor s.now prep.destinationAddress interface from_
        (HwmpProtocol.lifetimeTime prep.lifetime)).m_routes d ≠ none := by
    intro d hd
    exact AddPrecursor_record _ _ _ _ _ _ _ (AddReactivePath_record _ _ _ _ _ _ _ _ _ hd)
  have hfirst : ∀ (t : Time) (d : Mac48Address) (e : Nat × Mac48Address),
      e ∈ ((s.m_rtable.AddReactivePath s.now prep.originatorAddress from_ interface
        prep.metric (HwmpProtocol.lifetimeTime prep.lifetime)
        prep.destinationSeqNumber).AddPrecursor s.now prep.destinationAddress interface from_
        (HwmpProtocol.lifetimeTime prep.lifetime)).GetPrecursors t d →
      e ∈ s.m_rtable.GetPrecursors t d ∨
      (d = prep.destinationAddress ∧ e = (interface, from_)) := by
    intro t d e he
    rcases GetPrecursors_AddPrecursor_mem _ _ _ _ _ _ _ _ _ he with h | h
    · rw [GetPrecursors_AddReactivePath] at h
      exact Or.inl h
    · exact Or.inr h
  unfold HwmpProtocol.prepInstall
  simp only
  by_cases hv : result.retransmitter ≠ GetBroadcast
  · rw [if_pos hv]
    refine ⟨?_, ?_, ?_⟩
    · intro t d e he
      have he' : e ∈ (((s.m_rtable.AddReactivePath s.now prep.originatorAddress from_ interface
          prep.metric (HwmpProtocol.lifetimeTime prep.lifetime)
          prep.destinationSeqNumber).AddPrecursor s.now prep.destinationAddress interface from_
          (HwmpProtocol.lifetimeTime prep.lifetime)).AddPrecursor s.now prep.originatorAddress
          interface result.retransmitter result.lifetime).GetPrecursors t d := he
      rcases GetPrecursors_AddPrecursor_mem _ _ _ _ _ _ _ _ _ he' with h | h
      · rcases hfirst t d e h with h1 | h1
        · exact Or.inl h1
        · exact Or.inr (Or.inl h1)
      · exact Or.inr (Or.inr ⟨h.1, hv, h.2⟩)
    · intro _ hl
      exact GetPrecursors_AddPrecursor_has _ s.now s.now prep.originatorAddress interface
        result.retransmitter result.lifetime (hrec _ (Or.inr rfl))
        ((lt_add_iff_pos_right _).mpr hl)
    · intro hL hl hd
      have h1 : (interface, from_) ∈ ((s.m_rtable.AddReactivePath s.now prep.originatorAddress
          from_ interface prep.metric (HwmpProtocol.lifetimeTime prep.lifetime)
          prep.destinationSeqNumber).AddPrecursor s.now prep.destinationAddress interface from_
          (HwmpProtocol.lifetimeTime prep.lifetime)).GetPrecursors s.now
          prep.destinationAddress :=
        GetPrecursors_AddPrecursor_has _ s.now s.now prep.destinationAddress interface from_ _
          (AddReactivePath_record _ _ _ _ _ _ _ _ _ hd) ((lt_add_iff_pos_right _).mpr hL)
      by_cases hsame : (interface, from_) = (interface, result.retransmitter)
      · by_cases hod : prep.originatorAddress = prep.destinationAddress
        · have key : ∀ d, d = prep.originatorAddress → (interface, result.retransmitter) ∈
              (((s.m_rtable.AddReactivePath s.now prep.originatorAddress
              from_ interface prep.metric (HwmpProtocol.lifetimeTime prep.lifetime)
              prep.destinationSeqNumber).AddPrecursor s.now prep.destinationAddress interface
              from_ (HwmpProtocol.lifetimeTime prep.lifetime)).AddPrecursor s.now
              prep.originatorAddress interface result.retransmitter
              result.lifetime).GetPrecursors s.now d := by
            intro d hd
            subst hd
            exact GetPrecursors_AddPrecursor_has _ s.now s.now prep.originatorAddress interface
              result.retransmitter result.lifetime (hrec _ (Or.inr rfl))
              ((lt_add_iff_pos_right _).mpr (hl hv))
          rw [hsame]
          exact key _ hod.symm
        · show (interface, from_) ∈ (HwmpRtable.AddPrecursor _ _ _ _ _ _).GetPrecursors _ _
          rw [GetPrecursors_AddPrecursor_ne _ _ _ _ _ _ _ _ hod]
          exact h1
      · exact GetPrecursors_AddPrecursor_keeps _ _ _ _ _ _ _ _ _ h1 hsame
  · rw [if_neg hv]
    refine ⟨?_, ?_, ?_⟩
    · intro t d e he
      rcases hfirst t d e he with h1 | h1
      · exact Or.inl h1
      · exact Or.inr (Or.inl h1)
    · intro h
      exact absurd h hv
    · intro hL _ hd
      exact GetPrecursors_AddPrecursor_has _ s.now s.now prep.destinationAddress interface from_ _
        (AddReactivePath_record _ _ _ _ _ _ _ _ _ hd) ((lt_add_iff_pos_right _).mpr hL)

theorem stage_precursors {s s2 : HwmpProtocol} (c : Prop) [Decidable c] {dst from_ : Mac48Address}
    {interface metric lifetime seqnum : Nat}
    (h : (if c then s.installReactive dst from_ interface metric lifetime seqnum else .ok s)
      = .ok s2) (t : Time) (d : Mac48Address) :
    s2.now = s.now ∧ s2.m_rtable.GetPrecursors t d = s.m_rtable.GetPrecursors t d := by
  by_cases hc : c
  · rw [if_pos hc] at h
    unfold HwmpProtocol.installReactive at h
    obtain ⟨ht, hn⟩ := ReactivePathResolved_table h
    rw [hn, ht]
    refine ⟨rfl, ?_⟩
    show (s.m_rtable.AddReactivePath s.now dst from_ interface metric
      (HwmpProtocol.lifetimeTime lifetime) seqnum).GetPrecursors t d = _
    exact GetPrecursors_AddReactivePath _ _ _ _ _ _ _ _ _ _
  · rw [if_neg hc] at h
    cases h
    exact ⟨rfl, rfl⟩

/-- The precursor sets after `ReceivePrep` are those after its install block when
the block runs, and those before the call when it does not. -/
theorem ReceivePrep_precursors {s s1 : HwmpProtocol} {prep : IePrep} {from_ : Mac48Address}
    {interface : Nat} {fromMp : Mac48Address} {metric : Nat} {freshInfo : Bool}
    (hacc : HwmpProtocol.prepAccept (mapFind s.m_hwmpSeqnoMetricDatabase prep.originatorAddress)
      prep.destinationSeqNumber = some freshInfo)
    (h : s.ReceivePrep prep from_ interface fromMp metric = .ok s1) (t : Time)
    (d : Mac48Address) :
    s1.now = s.now ∧
    s1.m_rtable.GetPrecursors t d =
      (if freshInfo = true ∨
          (s.m_rtable.LookupReactive s.now prep.originatorAddress).retransmitter = GetBroadcast ∨
          (s.m_rtable.LookupReactive s.now prep.originatorAddress).metric >
            u32 (prep.metric + metric) then
        ((s.prepInstall (prep.IncrementMetric metric) from_ interface
          (s.m_rtable.LookupReactive s.now prep.destinationAddress)).m_rtable.GetPrecursors t d)
       else s.m_rtable.GetPrecursors t d) := by
  obtain ⟨s2, s3, h2, h3, hlast⟩ := ReceivePrep_inv hacc h
  obtain ⟨n1, t1, _, _⟩ := prep_last_stage hlast d
  obtain ⟨n3, l3⟩ := stage_precursors _ h3 t d
  rw [n1, t1, l3, n3]
  split at h2
  · rename_i hc
    obtain ⟨ht, hn⟩ := ReactivePathResolved_table h2
    rw [if_pos hc, hn, ht]
    refine ⟨(prepInstall_fields _ _ _ _ _).1, ?_⟩
    congr 1
    unfold HwmpProtocol.prepInstall
    simp only
    split <;> rfl
  · rename_i hc
    cases h2
    rw [if_neg hc]
    exact ⟨rfl, rfl⟩

/-- C32: for every accepted PREP, whenever `ReceivePrep` runs to its end and
installs the reactive path to the originator of the PREP (the PREP is news, no
valid path was held, or the metric improves), it registers two precursors on the
receiving interface.  When the station held a valid reactive path to the
destination of the PREP (the path requester) on arrival, the next hop of that
path becomes a precursor of the path to the originator, so that afterwards
`GetPrecursors` of the originator holds (receiving interface, next hop), and,
the destination not being the station, that next hop is the peer for which the
PREP naming the originator is scheduled.  When the lifetime gives a positive
duration and the table holds a record for the destination, the transmitter
`from_` of the PREP becomes a precursor of the path to the destination.  Every
entry of a precursor set after the call was there before or is one of these two.
The run reaches its end whenever the lifetime gives a positive duration, `from_`
is not the broadcast address and the station is the destination, held no path to
it, or the interface of that path is installed. -/
theorem prep_precursors (s : HwmpProtocol) (prep : IePrep) (from_ : Mac48Address)
    (interface : Nat) (fromMp : Mac48Address) (metric : Nat) (freshInfo : Bool)
    (hacc : HwmpProtocol.prepAccept (mapFind s.m_hwmpSeqnoMetricDatabase prep.originatorAddress)
      prep.destinationSeqNumber = some freshInfo) :
    (∀ s1, s.ReceivePrep prep from_ interface fromMp metric = .ok s1 →
      ((freshInfo = true ∨
          (s.m_rtable.LookupReactive s.now prep.originatorAddress).retransmitter = GetBroadcast ∨
          (s.m_rtable.LookupReactive s.now prep.originatorAddress).metric >
            u32 (prep.metric + metric)) →
        ((s.m_rtable.LookupReactive s.now prep.destinationAddress).retransmitter ≠ GetBroadcast →
          (interface, (s.m_rtable.LookupReactive s.now prep.destinationAddress).retransmitter) ∈
            s1.m_rtable.GetPrecursors s1.now prep.originatorAddress ∧
          (prep.destinationAddress ≠ s.m_address →
            Action.scheduleSendPrep (s.forwardingDelay s.delayDraws)
              (s.m_rtable.LookupReactive s.now prep.destinationAddress).ifIndex
              (prep.IncrementMetric metric)
              (s.m_rtable.LookupReactive s.now prep.destinationAddress).retransmitter ∈
                macCalls s1.out)) ∧
        (0 < HwmpProtocol.lifetimeTime prep.lifetime →
          (mapFind s.m_rtable.m_routes prep.destinationAddress ≠ none ∨
            prep.destinationAddress = prep.originatorAddress) →
          (interface, from_) ∈ s1.m_rtable.GetPrecursors s1.now prep.destinationAddress)) ∧
      (∀ (t : Time) (d : Mac48Address) (e : Nat × Mac48Address),
        e ∈ s1.m_rtable.GetPrecursors t d →
        e ∈ s.m_rtable.GetPrecursors t d ∨
        ((freshInfo = true ∨
          (s.m_rtable.LookupReactive s.now prep.originatorAddress).retransmitter = GetBroadcast ∨
          (s.m_rtable.LookupReactive s.now prep.originatorAddress).metric >
            u32 (prep.metric + metric)) ∧
          ((d = prep.destinationAddress ∧ e = (interface, from_)) ∨
           (d = prep.originatorAddress ∧
            (s.m_rtable.LookupReactive s.now prep.destinationAddress).retransmitter
              ≠ GetBroadcast ∧
            e = (interface,
              (s.m_rtable.LookupReactive s.now prep.destinationAddress).retransmitter)))))) ∧
    (0 < HwmpProtocol.lifetimeTime prep.lifetime → from_ ≠ GetBroadcast →
      (prep.destinationAddress = s.m_address ∨
        (s.m_rtable.LookupReactive s.now prep.destinationAddress).retransmitter = GetBroadcast ∨
        mapFind s.m_interfaces (s.m_rtable.LookupReactive s.now prep.destinationAddress).ifIndex
          ≠ none) →
      ∃ s1, s.ReceivePrep prep from_ interface fromMp metric = .ok s1) := by
  refine ⟨?_, ?_⟩
  · intro s1 h
    have hp := fun t d => ReceivePrep_precursors hacc h t d
    have hi := prepInstall_precursors s (prep.IncrementMetric metric) from_ interface
      (s.m_rtable.LookupReactive s.now prep.destinationAddress)
    have hlife := fun hv => (LookupReactive_valid_lifetime s.m_rtable s.now
      prep.destinationAddress hv).1
    refine ⟨?_, ?_⟩
    · intro hc
      refine ⟨?_, ?_⟩
      · intro hv
        refine ⟨?_, ?_⟩
        · rw [(hp s1.now prep.originatorAddress).2, if_pos hc, (hp s1.now prep.originatorAddress).1]
          exact hi.2.1 hv (hlife hv)
        · intro hne
          rw [ReceivePrep_forward hacc h, if_neg (fun hh => hh.elim hne hv)]
          exact List.mem_append_right _ (List.mem_singleton.mpr rfl)
      · intro hL hd
        rw [(hp s1.now prep.destinationAddress).2, if_pos hc,
          (hp s1.now prep.destinationAddress).1]
        exact hi.2.2 hL hlife hd
    · intro t d e he
      rw [(hp t d).2] at he
      by_cases hc : freshInfo = true ∨
          (s.m_rtable.LookupReactive s.now prep.originatorAddress).retransmitter = GetBroadcast ∨
          (s.m_rtable.LookupReactive s.now prep.originatorAddress).metric >
            u32 (prep.metric + metric)
      · rw [if_pos hc] at he
        rcases hi.1 t d e he with h1 | h1 | h1
        · exact Or.inl h1
        · exact Or.inr ⟨hc, Or.inl h1⟩
        · exact Or.inr ⟨hc, Or.inr h1⟩
      · rw [if_neg hc] at he
        exact Or.inl he
  · intro hL hfrom hif
    exact ReceivePrep_returns s prep from_ interface fromMp metric freshInfo hacc hL hfrom hif

/-- Witness for C32: station 7 holds a path to the requester 5 through neighbour
3 when the PREP of target 9 for 5 arrives from neighbour 4 on interface 1:
afterwards neighbour 3 is a precursor of the path to 9, and neighbour 4 is a
precursor of the path to 5. -/
theorem prep_precursors_witness :
    routed7.ReceivePrep prepFrom9For5 4 1 4 10
      = .ok (after routed7 [Call.receivePrep prepFrom9For5 4 1 4 10]) ∧
    (1, 3) ∈ (after routed7 [Call.receivePrep prepFrom9For5 4 1 4 10]).m_rtable.GetPrecursors
      (after routed7 [Call.receivePrep prepFrom9For5 4 1 4 10]).now 9 ∧
    (1, 4) ∈ (after routed7 [Call.receivePrep prepFrom9For5 4 1 4 10]).m_rtable.GetPrecursors
      (after routed7 [Call.receivePrep prepFrom9For5 4 1 4 10]).now 5 :=
  ⟨rfl,
    ((((prep_precursors routed7 prepFrom9For5 4 1 4 10 true rfl).1 _ rfl).1
      (Or.inl rfl)).1 (by decide)).1,
    (((prep_precursors routed7 prepFrom9For5 4 1 4 10 true rfl).1 _ rfl).1
      (Or.inl rfl)).2 (by decide) (Or.inl (by decide))⟩

/-- C32, counterexample: the destination of a PREP is not made a precursor of
the originator path.  Station 7, holding a path to the requester 5 through
neighbour 3, accepts the PREP of target 9 for 5 from neighbour 4 and installs
the path to 9.  Afterwards the precursors of the path to 9 are just neighbour 3,
none with the address 5, and the entry added for destination 5 names neighbour
4, while the only PREP sent goes to neighbour 3. -/
theorem prep_destination_not_precursor :
    HwmpProtocol.prepAccept
      (mapFind routed7.m_hwmpSeqnoMetricDatabase prepFrom9For5.originatorAddress)
      prepFrom9For5.destinationSeqNumber = some true ∧
    routed7.ReceivePrep prepFrom9For5 4 1 4 10
      = .ok (after routed7 [Call.receivePrep prepFrom9For5 4 1 4 10]) ∧
    (after routed7 [Call.receivePrep prepFrom9For5 4 1 4 10]).m_rtable.LookupReactive
      (after routed7 [Call.receivePrep prepFrom9For5 4 1 4 10]).now 9 =
      { retransmitter := 4, ifIndex := 1, metric := 20, seqnum := 1, lifetime := 102400 } ∧
    (after routed7 [Call.receivePrep prepFrom9For5 4 1 4 10]).m_rtable.GetPrecursors
      (after routed7 [Call.receivePrep prepFrom9For5 4 1 4 10]).now 9 = [(1, 3)] ∧
    routed7.m_rtable.GetPrecursors routed7.now 5 = [] ∧
    (after routed7 [Call.receivePrep prepFrom9For5 4 1 4 10]).m_rtable.GetPrecursors
      (after routed7 [Call.receivePrep prepFrom9For5 4 1 4 10]).now 5 = [(1, 4)] ∧
    macCalls (after routed7 [Call.receivePrep prepFrom9For5 4 1 4 10]).out =
      macCalls routed7.out ++
        [Action.scheduleSendPrep 0 1 { prepFrom9For5 with metric := 20 } 3] :=
  ⟨rfl, rfl, by decide, by decide, by decide, by decide, by decide⟩

/-! ## Receivers of a path error -/

theorem eraseIdx_keeps_address (r : List (Nat × Mac48Address)) (i j : Nat) (hij : i < j)
    (heq : (r.get? i).map Prod.snd = (r.get? j).map Prod.snd) (a : Mac48Address)
    (ha : a ∈ r.map Prod.snd) : a ∈ (r.eraseIdx j).map Prod.snd := by
  obtain ⟨x, hx, rfl⟩ := List.mem_map.mp ha
  obtain ⟨k, hk⟩ := List.mem_iff_getElem?.mp hx
  by_cases hkj : k = j
  · subst hkj
    rw [List.get?_eq_getElem?, List.get?_eq_getElem?, hk] at heq
    cases hi : r[i]? with
    | none => rw [hi] at heq; cases heq
    | some y =>
      rw [hi] at heq
      have hy : y.2 = x.2 := by
        simpa using heq
      rw [← hy]
      exact List.mem_map.mpr ⟨y, List.mem_eraseIdx_iff_getElem?.mpr ⟨i, Nat.ne_of_lt hij, hi⟩, rfl⟩
  · exact List.mem_map.mpr ⟨x, List.mem_eraseIdx_iff_getElem?.mpr ⟨k, hkj, hk⟩, rfl⟩

theorem perrDedupInner_keeps (i : Nat) : ∀ (fuel j : Nat) (r : List (Nat × Mac48Address)),
    i < j → ∀ a : Mac48Address, a ∈ r.map Prod.snd →
      a ∈ (HwmpProtocol.perrDedupInner i fuel j r).map Prod.snd := by
  intro fuel
  induction fuel with
  | zero => intro j r _ a ha; exact ha
  | succ n ih =>
    intro j r hij a ha
    unfold HwmpProtocol.perrDedupInner
    split
    · split
      · rename_i heq
        exact ih _ _ (Nat.lt_succ_of_lt hij) a (eraseIdx_keeps_address r i j hij heq a ha)
      · exact ih _ _ (Nat.lt_succ_of_lt hij) a ha
    · exact ha

theorem perrDedupOuter_keeps : ∀ (fuel i : Nat) (r : List (Nat × Mac48Address))
    (a : Mac48Address), a ∈ r.map Prod.snd →
      a ∈ (HwmpProtocol.perrDedupOuter fuel i r).map Prod.snd := by
  intro fuel
  induction fuel with
  | zero => intro i r a ha; exact ha
  | succ n ih =>
    intro i r a ha
    unfold HwmpProtocol.perrDedupOuter
    split
    · exact ih _ _ a (perrDedupInner_keeps i _ _ r (Nat.lt_succ_self i) a ha)
    · exact ha

theorem perrCollect_covers (l : List FailedDestination) :
    ∀ (s : HwmpProtocol) (retval : List (Nat × Mac48Address)) (e : Nat × Mac48Address),
      (e ∈ retval ∨ ∃ d ∈ l, e ∈ s.m_rtable.GetPrecursors s.now d.destination) →
      e ∈ (HwmpProtocol.perrCollect l s retval).1 := by
  induction l with
  | nil =>
    intro s retval e h
    rcases h with h | ⟨d, hd, _⟩
    · exact h
    · cases hd
  | cons f rest ih =>
    intro s retval e h
    unfold HwmpProtocol.perrCollect
    by_cases hr : e ∈ retval ++ s.m_rtable.GetPrecursors s.now f.destination
    · exact ih _ _ e (Or.inl hr)
    · rcases h with h | ⟨d, hd, hp⟩
      · exact absurd (List.mem_append_left _ h) hr
      · rcases List.mem_cons.mp hd with h1 | h1
        · subst h1
          exact absurd (List.mem_append_right _ hp) hr
        · have hne : f.destination ≠ d.destination := by
            intro he
            rw [← he] at hp
            exact hr (List.mem_append_right _ hp)
          refine ih _ _ e (Or.inr ⟨d, h1, ?_⟩)
          simp only [HwmpProtocol.emit]
          rw [GetPrecursors_DeleteReactivePath _ _ _ _ hne]
          exact hp

/-- The receiver list of `GetPerrReceivers` holds the address of every precursor
of every failed destination. -/
theorem GetPerrReceivers_covers (s : HwmpProtocol) (l : List FailedDestination)
    (d : FailedDestination) (hd : d ∈ l) (e : Nat × Mac48Address)
    (he : e ∈ s.m_rtable.GetPrecursors s.now d.destination) :
    e.2 ∈ (s.GetPerrReceivers l).1.map Prod.snd := by
  unfold HwmpProtocol.GetPerrReceivers
  simp only
  exact perrDedupOuter_keeps _ _ _ _
    (List.mem_map.mpr ⟨e, perrCollect_covers l s [] e (Or.inr ⟨d, hd, he⟩), rfl⟩)

/-- C33: the receiver list of `GetPerrReceivers`, which `MakePathError` returns,
can hold the same neighbour address twice, because the search for duplicates
steps past the entry that follows an erased one.  Station 7 holds paths to 4, 6,
8 and 9 through neighbour 4, and neighbour 3 on interface 1 is the one precursor
of each of the paths to 6, 8 and 9.  When the link to 4 closes, the precursors
collected are three times (1, 3), the receiver list computed from them is
[(1, 3), (1, 3)], and `InitiatePerr` is called on interface 1 with the receivers
[3, 3]. -/
theorem perr_receivers_repeat_address :
    run routed7 [Call.receivePrep prepFrom9For5 4 1 4 10, Call.receivePrep prepFrom6For5 4 1 4 10,
      Call.receivePrep prepFrom8For5 4 1 4 10] = .ok fanned7 ∧
    fanned7.m_rtable.GetUnreachableDestinations 4 =
      [{ destination := 4, seqnum := 2 }, { destination := 6, seqnum := 2 },
       { destination := 8, seqnum := 2 }, { destination := 9, seqnum := 2 }] ∧
    [4, 6, 8, 9].map (fun d => fanned7.m_rtable.GetPrecursors fanned7.now d) =
      [[], [(1, 3)], [(1, 3)], [(1, 3)]] ∧
    HwmpProtocol.perrDedupOuter 3 0 [(1, 3), (1, 3), (1, 3)] = [(1, 3), (1, 3)] ∧
    (fanned7.GetPerrReceivers (fanned7.m_rtable.GetUnreachableDestinations 4)).1 =
      [(1, 3), (1, 3)] ∧
    (fanned7.MakePathError (fanned7.m_rtable.GetUnreachableDestinations 4)).1.receivers =
      [(1, 3), (1, 3)] ∧
    run fanned7 [Call.peerLinkStatus 7 4 1 false]
      = .ok (after fanned7 [Call.peerLinkStatus 7 4 1 false]) ∧
    macCalls (after fanned7 [Call.peerLinkStatus 7 4 1 false]).out = macCalls fanned7.out ++
      [Action.macInitiatePerr 1
        [{ destination := 4, seqnum := 2 }, { destination := 6, seqnum := 2 },
         { destination := 8, seqnum := 2 }, { destination := 9, seqnum := 2 }] [3, 3]] :=
  ⟨rfl, by decide, by decide, by decide, by decide, by decide, rfl, by decide⟩

/-! ## A path error without receivers -/

theorem perrCollect_draws (l : List FailedDestination) :
    ∀ (s : HwmpProtocol) (retval : List (Nat × Mac48Address)),
      (HwmpProtocol.perrCollect l s retval).2.delayDraws = s.delayDraws ∧
      (HwmpProtocol.perrCollect l s retval).2.forwardingDelay = s.forwardingDelay := by
  induction l with
  | nil => intro s retval; exact ⟨rfl, rfl⟩
  | cons e rest ih =>
    intro s retval
    unfold HwmpProtocol.perrCollect
    exact ⟨(ih _ _).1.trans rfl, (ih _ _).2.trans rfl⟩

/-- Without a precursor on any failed destination `MakePathError` returns the
empty `PathError` and the state its first loop leaves. -/
theorem MakePathError_empty (s : HwmpProtocol) (l : List FailedDestination)
    (h : ∀ d ∈ l, s.m_rtable.GetPrecursors s.now d.destination = []) :
    s.MakePathError l =
      ({ destinations := [], receivers := [] }, (HwmpProtocol.perrCollect l s []).2) := by
  have hr := GetPerrReceivers_empty s l h
  unfold HwmpProtocol.MakePathError
  simp only
  rw [hr]
  rfl

theorem macCalls_initiate (perr : PathError) (ifs : List (Nat × HwmpProtocolMac)) :
    macCalls (ifs.map (fun i =>
      Action.macInitiatePerr i.1 perr.destinations (HwmpProtocol.receiversForInterface perr i.1))) =
    ifs.map (fun i =>
      Action.macInitiatePerr i.1 perr.destinations (HwmpProtocol.receiversForInterface perr i.1)) := by
  unfold macCalls
  rw [List.filter_eq_self]
  intro a ha
  obtain ⟨i, _, rfl⟩ := List.mem_map.mp ha
  rfl

/-- The calls of `InitiatePathError`: one `InitiatePerr` per interface, whatever
the `PathError` holds. -/
theorem InitiatePathError_mac (s : HwmpProtocol) (perr : PathError) :
    macCalls (s.InitiatePathError perr).out = macCalls s.out ++
      s.m_interfaces.map (fun i =>
        Action.macInitiatePerr i.1 perr.destinations (HwmpProtocol.receiversForInterface perr i.1)) := by
  unfold HwmpProtocol.InitiatePathError
  show macCalls (s.out ++ _) = _
  rw [macCalls_append, macCalls_initiate]

/-- The calls of `ForwardPathError`: for every interface, with the next draw of
the forwarding delay, one scheduled `ForwardPerr` and one immediate
`ForwardPerr`, whatever the `PathError` holds. -/
theorem forwardPathErrorLoop_mac (perr : PathError) (ifs : List (Nat × HwmpProtocolMac)) :
    ∀ s : HwmpProtocol,
      macCalls (HwmpProtocol.forwardPathErrorLoop perr ifs s).out = macCalls s.out ++
        (ifs.enumFrom s.delayDraws).flatMap (fun p =>
          [Action.scheduleForwardPerr (s.forwardingDelay p.1) p.2.1 perr.destinations
            (HwmpProtocol.receiversForInterface perr p.2.1),
           Action.macForwardPerr p.2.1 perr.destinations (HwmpProtocol.receiversForInterface perr p.2.1)]) := by
  induction ifs with
  | nil =>
    intro s
    exact (List.append_nil _).symm
  | cons i rest ih =>
    intro s
    unfold HwmpProtocol.forwardPathErrorLoop
    simp only
    rw [ih]
    show macCalls (s.out ++ _) ++ _ = _
    rw [macCalls_append, List.append_assoc]
    rfl

/-- C34: if none of the failed destinations has a precursor, `MakePathError`
returns a `PathError` with no receivers and no destinations, leaves the counter
`initiatedPerr` and every other counter as they are and calls no MAC plugin.
`InitiatePathError` and `ForwardPathError`, handed that `PathError`, still call
every MAC plugin: `InitiatePerr` once per interface, and for every interface
`ForwardPerr` once scheduled after the next draw of the forwarding delay and
once at once, each call with an empty list of destinations and an empty list of
receivers. -/
theorem empty_receiver_set (s : HwmpProtocol) (l : List FailedDestination)
    (h : ∀ d ∈ l, s.m_rtable.GetPrecursors s.now d.destination = []) :
    (s.MakePathError l).1 = { destinations := [], receivers := [] } ∧
    (s.MakePathError l).2.m_stats = s.m_stats ∧
    macCalls (s.MakePathError l).2.out = macCalls s.out ∧
    macCalls ((s.MakePathError l).2.InitiatePathError (s.MakePathError l).1).out =
      macCalls s.out ++ s.m_interfaces.map (fun i => Action.macInitiatePerr i.1 [] []) ∧
    macCalls ((s.MakePathError l).2.ForwardPathError (s.MakePathError l).1).out =
      macCalls s.out ++ (s.m_interfaces.enumFrom s.delayDraws).flatMap (fun p =>
        [Action.scheduleForwardPerr (s.forwardingDelay p.1) p.2.1 [] [],
         Action.macForwardPerr p.2.1 [] []]) := by
  have hm := (perrCollect_keeps l s []).2.2.2
  have hi := perrCollect_interfaces l s []
  have hd := perrCollect_draws l s []
  rw [MakePathError_empty s l h]
  refine ⟨rfl, perrCollect_stats l s [], hm, ?_, ?_⟩
  · rw [InitiatePathError_mac, hm, hi]
    rfl
  · unfold HwmpProtocol.ForwardPathError
    rw [forwardPathErrorLoop_mac, hm, hi, hd.1, hd.2]
    rfl

/-- Witness for C34: station 7 holds paths to 5 and 3 through neighbour 3 and
neither path has a precursor; for these two failed destinations `MakePathError`
returns the empty `PathError` and counts no PERR. -/
theorem empty_receiver_set_witness :
    (∀ d ∈ routed7.m_rtable.GetUnreachableDestinations 3,
      routed7.m_rtable.GetPrecursors routed7.now d.destination = []) ∧
    (routed7.MakePathError (routed7.m_rtable.GetUnreachableDestinations 3)).1 =
      { destinations := [], receivers := [] } ∧
    (routed7.MakePathError (routed7.m_rtable.GetUnreachableDestinations 3)).2.m_stats =
      routed7.m_stats :=
  ⟨by decide,
    (empty_receiver_set routed7 (routed7.m_rtable.GetUnreachableDestinations 3) (by decide)).1,
    (empty_receiver_set routed7 (routed7.m_rtable.GetUnreachableDestinations 3) (by decide)).2.1⟩

/-- C34, counterexample: the MAC plugins are called with an empty path error.
Station 7 holds paths to 5 and 3 through neighbour 3 on interface 1, neither
with a precursor.  When the link to 3 closes, `InitiatePerr` is called on
interface 1 with no destination and no receiver; when instead a PERR from 3
names destination 5, `ForwardPerr` is scheduled and called on interface 1 with
no destination and no receiver. -/
theorem empty_perr_reaches_plugins :
    routed7.m_rtable.GetUnreachableDestinations 3 =
      [{ destination := 3, seqnum := 6 }, { destination := 5, seqnum := 6 }] ∧
    routed7.m_rtable.GetPrecursors routed7.now 3 = [] ∧
    routed7.m_rtable.GetPrecursors routed7.now 5 = [] ∧
    run routed7 [Call.peerLinkStatus 7 3 1 false]
      = .ok (after routed7 [Call.peerLinkStatus 7 3 1 false]) ∧
    macCalls (after routed7 [Call.peerLinkStatus 7 3 1 false]).out =
      macCalls routed7.out ++ [Action.macInitiatePerr 1 [] []] ∧
    HwmpProtocol.perrAccept routed7 3 1 [{ destination := 5, seqnum := 6 }] [] =
      [{ destination := 5, seqnum := 6 }] ∧
    run routed7 [Call.receivePerr [{ destination := 5, seqnum := 6 }] 3 1 3]
      = .ok (after routed7 [Call.receivePerr [{ destination := 5, seqnum := 6 }] 3 1 3]) ∧
    macCalls (after routed7 [Call.receivePerr [{ destination := 5, seqnum := 6 }] 3 1 3]).out =
      macCalls routed7.out ++
        [Action.scheduleForwardPerr 0 1 [] [], Action.macForwardPerr 1 [] []] :=
  ⟨by decide, by decide, by decide, rfl, by decide, by decide, rfl, by decide⟩

/-! ## The metric stored with a sequence number -/

theorem seenAlong_head (O : Mac48Address) (s : HwmpProtocol) (cs : List Call) :
    (seenAlong O s cs).head? = some (mapFind s.m_hwmpSeqnoMetricDatabase O) := by
  cases cs <;> rfl

/-- An accepted PREQ at the stored sequence number carries a metric below the
stored one. -/
theorem preqAccept_equal_lt {e : Nat × Nat} {preq : IePreq} {f : Bool}
    (h : HwmpProtocol.preqAccept (some e) preq = some f)
    (hsn : e.1 = preq.originatorSeqNumber) : preq.metric < e.2 := by
  unfold HwmpProtocol.preqAccept at h
  simp only at h
  split at h
  · cases h
  · split at h
    · cases h
    · omega

/-- One `ReceivePreq` call never raises the metric stored for an originator
whose stored sequence number it leaves as it is. -/
theorem ReceivePreq_metric {s s1 : HwmpProtocol} {preq0 : IePreq} {from_ : Mac48Address}
    {interface : Nat} {fromMp : Mac48Address} {metric : Nat} {O : Mac48Address} {x y : Nat × Nat}
    (h : s.ReceivePreq preq0 from_ interface fromMp metric = .ok s1)
    (ha : mapFind s.m_hwmpSeqnoMetricDatabase O = some x)
    (hb : mapFind s1.m_hwmpSeqnoMetricDatabase O = some y) (hsn : x.1 = y.1) : y.2 ≤ x.2 := by
  cases hacc : HwmpProtocol.preqAccept (mapFind s.m_hwmpSeqnoMetricDatabase preq0.originatorAddress)
      (preq0.IncrementMetric metric) with
  | none =>
    rw [ReceivePreq_dropped s preq0 from_ interface fromMp metric hacc] at h
    cases h
    rw [ha] at hb
    cases hb
    exact le_refl _
  | some f =>
    have hdb := (ReceivePreq_accepted_frame hacc h).db
    rw [hdb] at hb
    simp only [HwmpProtocol.setSeqnoMetric] at hb
    rw [mapFind_mapInsert] at hb
    by_cases hO : preq0.originatorAddress = O
    · rw [if_pos hO] at hb
      cases hb
      rw [hO, ha] at hacc
      exact Nat.le_of_lt (preqAccept_equal_lt hacc hsn)
    · rw [if_neg hO, ha] at hb
      cases hb
      exact le_refl _

/-- How a `ReceivePrep` call changes the table of seen originators. -/
theorem ReceivePrep_seen {s s1 : HwmpProtocol} {prep : IePrep} {from_ : Mac48Address}
    {interface : Nat} {fromMp : Mac48Address} {metric : Nat}
    (h : s.ReceivePrep prep from_ interface fromMp metric = .ok s1) (O : Mac48Address) :
    mapFind s1.m_hwmpSeqnoMetricDatabase O =
      (if prep.originatorAddress = O ∧
          HwmpProtocol.prepAccept (mapFind s.m_hwmpSeqnoMetricDatabase prep.originatorAddress)
            prep.destinationSeqNumber ≠ none
       then some (prep.destinationSeqNumber, u32 (prep.metric + metric))
       else mapFind s.m_hwmpSeqnoMetricDatabase O) := by
  cases hacc : HwmpProtocol.prepAccept (mapFind s.m_hwmpSeqnoMetricDatabase prep.originatorAddress)
      prep.destinationSeqNumber with
  | none =>
    rw [ReceivePrep_dropped s prep from_ interface fromMp metric hacc] at h
    cases h
    rw [if_neg (fun hh => hh.2 rfl)]
  | some f =>
    have hdb := (ReceivePrep_accepted_frame hacc h).db
    rw [hdb]
    simp only [HwmpProtocol.setSeqnoMetric]
    rw [mapFind_mapInsert]
    by_cases hO : prep.originatorAddress = O
    · rw [if_pos hO, if_pos ⟨hO, fun hh => by cases hh⟩]
    · rw [if_neg hO, if_neg (fun hh => hO hh.1)]

theorem step_spares {s s1 : HwmpProtocol} {c : Call} {O : Mac48Address}
    (hc : c.sparesMetric O = true) (h : step s c = .ok s1) (x y : Nat × Nat)
    (ha : mapFind s.m_hwmpSeqnoMetricDatabase O = some x)
    (hb : mapFind s1.m_hwmpSeqnoMetricDatabase O = some y) (hsn : x.1 = y.1) : y.2 ≤ x.2 := by
  cases c with
  | receivePreq preq from_ interface fromMp metric =>
    exact ReceivePreq_metric h ha hb hsn
  | receivePrep prep from_ interface fromMp metric =>
    have hne : prep.originatorAddress ≠ O := by
      simpa [Call.sparesMetric] using hc
    have hs := ReceivePrep_seen h O
    rw [if_neg (fun hh => hne hh.1), ha] at hs
    rw [hs] at hb
    cases hb
    exact le_refl _
  | receivePerr _ _ _ _ => cases hc
  | requestRoute _ _ _ _ _ _ => cases hc
  | peerLinkStatus _ _ _ _ => cases hc
  | dropDataFrame _ _ => cases hc
  | retryTimer _ => cases hc
  | proactiveTimer => cases hc
  | elapse _ => cases hc
  | setRoot => cases hc
  | unsetRoot => cases hc
  | doInitialize _ => cases hc

theorem seenAlong_chain (O : Mac48Address) (cs : List Call) :
    ∀ s : HwmpProtocol, (∀ c ∈ cs, c.sparesMetric O = true) →
      (seenAlong O s cs).Chain' (fun a b =>
        ∀ x y : Nat × Nat, a = some x → b = some y → x.1 = y.1 → y.2 ≤ x.2) := by
  induction cs with
  | nil =>
    intro s _
    exact List.chain'_singleton _
  | cons c cs ih =>
    intro s hcs
    unfold seenAlong
    cases hstep : step s c with
    | error e => exact List.chain'_singleton _
    | ok s1 =>
      simp only
      rw [List.chain'_cons']
      refine ⟨?_, ih s1 (fun d hd => hcs d (List.mem_cons_of_mem _ hd))⟩
      intro b hb x y hx hy hsn
      rw [seenAlong_head] at hb
      cases hb
      exact step_spares (hcs c (List.mem_cons_self _ _)) hstep x y hx hy hsn

theorem chain_same_sn (sn : Nat) : ∀ (l : List (Option (Nat × Nat))) (a : Option (Nat × Nat)),
    (∀ e ∈ a :: l, ∃ m, e = some (sn, m)) →
    List.Chain (fun a b => ∀ x y : Nat × Nat, a = some x → b = some y → x.1 = y.1 → y.2 ≤ x.2)
      a l →
    ∀ b ∈ l, ∀ x y : Nat × Nat, a = some x → b = some y → y.2 ≤ x.2 := by
  intro l
  induction l with
  | nil => intro a _ _ b hb; cases hb
  | cons c l ih =>
    intro a hall hch b hb x y hx hy
    obtain ⟨hac, hcl⟩ := List.chain_cons.mp hch
    obtain ⟨mc, hc⟩ := hall c (List.mem_cons_of_mem _ (List.mem_cons_self _ _))
    obtain ⟨ma, hma⟩ := hall a (List.mem_cons_self _ _)
    have hx' : x = (sn, ma) := by
      rw [hx] at hma
      cases hma
      rfl
    have h1 : mc ≤ x.2 := hac x (sn, mc) hx hc (by rw [hx'])
    rcases List.mem_cons.mp hb with h | h
    · subst h
      rw [hc] at hy
      cases hy
      exact h1
    · have h2 := ih c (fun e he => hall e (List.mem_cons_of_mem _ he)) hcl b h (sn, mc) y hc hy
      exact le_trans h2 h1

theorem pairwise_same_sn (sn : Nat) : ∀ l : List (Option (Nat × Nat)),
    (∀ e ∈ l, ∃ m, e = some (sn, m)) →
    l.Chain' (fun a b => ∀ x y : Nat × Nat, a = some x → b = some y → x.1 = y.1 → y.2 ≤ x.2) →
    l.Pairwise (fun a b => ∀ x y : Nat × Nat, a = some x → b = some y → y.2 ≤ x.2) := by
  intro l
  induction l with
  | nil => intro _ _; exact List.Pairwise.nil
  | cons a l ih =>
    intro hall hch
    refine List.pairwise_cons.mpr ⟨?_, ?_⟩
    · exact chain_same_sn sn l a hall hch
    · exact ih (fun e he => hall e (List.mem_cons_of_mem _ he)) (List.Chain'.tail hch)

/-- C35: for every originator `O`, across any sequence of `ReceivePreq` calls
and of `ReceivePrep` calls whose PREP names another originator, the metric
stored for `O` in the table of seen originators never increases from one call
to the next while the stored sequence number is the same; hence, as long as the
stored sequence number stays at one value `sn`, no later stored metric exceeds
an earlier one.  A `ReceivePrep` call for a PREP of originator `O` that carries
the stored sequence number replaces the stored metric by the metric of the PREP
plus the link metric (modulo `2^32`), whether that is lower or higher. -/
theorem best_metric_per_sn (O : Mac48Address) (s : HwmpProtocol) (cs : List Call)
    (hcs : ∀ c ∈ cs, c.sparesMetric O = true) :
    (seenAlong O s cs).Chain' (fun a b =>
      ∀ x y : Nat × Nat, a = some x → b = some y → x.1 = y.1 → y.2 ≤ x.2) ∧
    (∀ sn : Nat, (∀ e ∈ seenAlong O s cs, ∃ m, e = some (sn, m)) →
      (seenAlong O s cs).Pairwise (fun a b =>
        ∀ x y : Nat × Nat, a = some x → b = some y → y.2 ≤ x.2)) ∧
    (∀ (prep : IePrep) (from_ : Mac48Address) (interface : Nat) (fromMp : Mac48Address)
      (metric m : Nat) (s1 : HwmpProtocol), prep.originatorAddress = O →
      mapFind s.m_hwmpSeqnoMetricDatabase O = some (prep.destinationSeqNumber, m) →
      s.ReceivePrep prep from_ interface fromMp metric = .ok s1 →
      mapFind s1.m_hwmpSeqnoMetricDatabase O =
        some (prep.destinationSeqNumber, u32 (prep.metric + metric))) := by
  refine ⟨seenAlong_chain O cs s hcs, ?_, ?_⟩
  · intro sn hall
    exact pairwise_same_sn sn _ hall (seenAlong_chain O cs s hcs)
  · intro prep from_ interface fromMp metric m s1 hO hdb h
    rw [ReceivePrep_seen h O, if_pos]
    refine ⟨hO, ?_⟩
    rw [hO, hdb, prepAccept_equal _ _ rfl]
    intro hc
    cases hc

/-- Witness for C35: station 7 has stored (5, 10) for originator 5; it then
hears the PREQ of 5 with the same sequence number over a path of metric 5, a
PREP of originator 9, and the PREQ of 5 again over a path of metric 10, which it
drops.  The stored pairs are (5, 10), (5, 5), (5, 5), (5, 5). -/
theorem best_metric_per_sn_witness :
    (∀ c ∈ [Call.receivePreq (preqFrom5 5) 4 1 4 5, Call.receivePrep prepFrom9For5 4 1 4 10,
        Call.receivePreq (preqFrom5 5) 3 1 3 10], c.sparesMetric 5 = true) ∧
    seenAlong 5 routed7 [Call.receivePreq (preqFrom5 5) 4 1 4 5,
        Call.receivePrep prepFrom9For5 4 1 4 10, Call.receivePreq (preqFrom5 5) 3 1 3 10] =
      [some (5, 10), some (5, 5), some (5, 5), some (5, 5)] ∧
    (seenAlong 5 routed7 [Call.receivePreq (preqFrom5 5) 4 1 4 5,
        Call.receivePrep prepFrom9For5 4 1 4 10, Call.receivePreq (preqFrom5 5) 3 1 3 10]).Chain'
      (fun a b => ∀ x y : Nat × Nat, a = some x → b = some y → x.1 = y.1 → y.2 ≤ x.2) :=
  ⟨by decide, by decide,
    (best_metric_per_sn 5 routed7 [Call.receivePreq (preqFrom5 5) 4 1 4 5,
      Call.receivePrep prepFrom9For5 4 1 4 10, Call.receivePreq (preqFrom5 5) 3 1 3 10]
      (by decide)).1⟩

/-- C35, counterexample: the stored metric rises at an unchanged sequence
number.  Station 7 has stored (4, 15) for originator 5 and receives the PREP of
5 with the same sequence number 4 over a path of metric 10 + 20; `ReceivePrep`
accepts it and stores (4, 30). -/
theorem equal_sn_prep_raises_stored_metric :
    mapFind answered7.m_hwmpSeqnoMetricDatabase 5 = some (4, 15) ∧
    prepFrom5.originatorAddress = 5 ∧ prepFrom5.destinationSeqNumber = 4 ∧
    prepFrom5.metric = 10 ∧
    run answered7 [Call.receivePrep prepFrom5 4 1 4 20]
      = .ok (after answered7 [Call.receivePrep prepFrom5 4 1 4 20]) ∧
    mapFind (after answered7 [Call.receivePrep prepFrom5 4 1 4 20]).m_hwmpSeqnoMetricDatabase 5
      = some (4, 30) ∧
    seenAlong 5 answered7 [Call.receivePrep prepFrom5 4 1 4 20] = [some (4, 15), some (4, 30)] :=
  ⟨by decide, rfl, rfl, rfl, rfl, by decide, by decide⟩

/-! ## Lifetimes handed to the routing table -/

theorem Installs.installs_refl (E : Time) (extra : Mac48Address → Precursor → Prop)
    (s : HwmpProtocol) : Installs E extra s s :=
  ⟨rfl, fun _ r1 h => Or.inl ⟨r1, h, rfl⟩, fun _ r1 h _ hp => Or.inl ⟨r1, h, hp⟩,
    fun _ h => Or.inl h⟩

theorem Installs.installs_trans {E : Time} {extra : Mac48Address → Precursor → Prop}
    {a b c : HwmpProtocol} (h1 : Installs E extra a b) (h2 : Installs E extra b c) :
    Installs E extra a c := by
  refine ⟨h2.now.trans h1.now, ?_, ?_, ?_⟩
  · intro d r1 h
    rcases h2.routes d r1 h with ⟨r, hr, he⟩ | he
    · rcases h1.routes d r hr with ⟨r0, hr0, he0⟩ | he0
      · exact Or.inl ⟨r0, hr0, he0.trans he⟩
      · exact Or.inr (he.symm.trans he0)
    · exact Or.inr he
  · intro d r1 h p hp
    rcases h2.precursors d r1 h p hp with ⟨r, hr, hpr⟩ | he
    · exact h1.precursors d r hr p hpr
    · exact Or.inr he
  · intro r1 h
    rcases h2.root r1 h with hr | he
    · exact h1.root r1 hr
    · exact Or.inr he

/-- A step that leaves the clock and the routing table alone. -/
theorem Installs.of_same {E : Time} {extra : Mac48Address → Precursor → Prop}
    {s s1 : HwmpProtocol} (hn : s1.now = s.now) (ht : s1.m_rtable = s.m_rtable) :
    Installs E extra s s1 := by
  refine ⟨hn, ?_, ?_, ?_⟩
  · intro d r1 h
    rw [ht] at h
    exact Or.inl ⟨r1, h, rfl⟩
  · intro d r1 h p hp
    rw [ht] at h
    exact Or.inl ⟨r1, h, hp⟩
  · intro r1 h
    rw [ht] at h
    exact Or.inl h

theorem addPrecursorTo_cases (p : Precursor) (l : List Precursor) :
    ∀ q ∈ HwmpRtable.addPrecursorTo p l, q ∈ l ∨ q = p := by
  intro q hq
  rcases addPrecursorTo_mem p l q hq with h | ⟨h1, h2, h3⟩
  · exact Or.inl h
  · right
    cases q
    cases p
    simp only at h1 h2 h3
    subst h1
    subst h2
    subst h3
    rfl

/-- The call `AddReactivePath` with the lifetime `L` at time `now`. -/
theorem Installs.of_AddReactivePath (extra : Mac48Address → Precursor → Prop)
    (s : HwmpProtocol) (dst r : Mac48Address) (i m : Nat) (L : Time) (sn : Nat)
    (s1 : HwmpProtocol) (hn : s1.now = s.now)
    (ht : s1.m_rtable = s.m_rtable.AddReactivePath s.now dst r i m L sn) :
    Installs (s.now + L) extra s s1 := by
  refine ⟨hn, ?_, ?_, ?_⟩
  · intro d r1 h
    rw [ht] at h
    unfold HwmpRtable.AddReactivePath at h
    simp only at h
    rw [mapFind_mapInsert] at h
    split at h
    · cases h
      exact Or.inr rfl
    · exact Or.inl ⟨r1, h, rfl⟩
  · intro d r1 h p hp
    rw [ht] at h
    unfold HwmpRtable.AddReactivePath at h
    simp only at h
    rw [mapFind_mapInsert] at h
    split at h
    · rename_i hd
      cases h
      simp only at hp
      cases hf : mapFind s.m_rtable.m_routes dst with
      | none =>
        rw [hf] at hp
        cases hp
      | some r0 =>
        rw [hf] at hp
        rw [← hd]
        exact Or.inl ⟨r0, hf, hp⟩
    · exact Or.inl ⟨r1, h, hp⟩
  · intro r1 h
    rw [ht] at h
    exact Or.inl h

/-- The call `AddPrecursor` of an entry that expires at `E` or is one of
`extra`. -/
theorem Installs.of_AddPrecursor (E : Time) (extra : Mac48Address → Precursor → Prop)
    (s : HwmpProtocol) (dst : Mac48Address) (i : Nat) (a : Mac48Address) (L : Time)
    (hp : s.now + L = E ∨
      extra dst { interface := i, address := a, whenExpire := s.now + L })
    (s1 : HwmpProtocol) (hn : s1.now = s.now)
    (ht : s1.m_rtable = s.m_rtable.AddPrecursor s.now dst i a L) :
    Installs E extra s s1 := by
  unfold HwmpRtable.AddPrecursor at ht
  cases hf : mapFind s.m_rtable.m_routes dst with
  | none =>
    rw [hf] at ht
    exact Installs.of_same hn ht
  | some r0 =>
    rw [hf] at ht
    simp only at ht
    refine ⟨hn, ?_, ?_, ?_⟩
    · intro d r1 h
      rw [ht] at h
      simp only at h
      rw [mapFind_mapInsert] at h
      split at h
      · rename_i hd
        cases h
        rw [← hd]
        exact Or.inl ⟨r0, hf, rfl⟩
      · exact Or.inl ⟨r1, h, rfl⟩
    · intro d r1 h p hpm
      rw [ht] at h
      simp only at h
      rw [mapFind_mapInsert] at h
      split at h
      · rename_i hd
        cases h
        simp only at hpm
        rcases addPrecursorTo_cases _ _ p hpm with h1 | h1
        · rw [← hd]
          exact Or.inl ⟨r0, hf, h1⟩
        · subst h1
          rcases hp with h2 | h2
          · exact Or.inr (Or.inl h2)
          · rw [← hd]
            exact Or.inr (Or.inr h2)
      · exact Or.inl ⟨r1, h, hpm⟩
    · intro r1 h
      rw [ht] at h
      exact Or.inl h

/-- The call `AddProactivePath` with the lifetime `L` at time `now`. -/
theorem Installs.of_AddProactivePath (extra : Mac48Address → Precursor → Prop)
    (s : HwmpProtocol) (m : Nat) (root r : Mac48Address) (i : Nat) (L : Time) (sn : Nat)
    (s1 : HwmpProtocol) (hn : s1.now = s.now)
    (ht : s1.m_rtable = s.m_rtable.AddProactivePath s.now m root r i L sn) :
    Installs (s.now + L) extra s s1 := by
  refine ⟨hn, ?_, ?_, ?_⟩
  · intro d r1 h
    rw [ht] at h
    exact Or.inl ⟨r1, h, rfl⟩
  · intro d r1 h p hp
    rw [ht] at h
    exact Or.inl ⟨r1, h, hp⟩
  · intro r1 h
    rw [ht] at h
    unfold HwmpRtable.AddProactivePath at h
    simp only at h
    cases h
    exact Or.inr rfl

theorem proactiveSendLoop_table (result : LookupResult) (fuel : Nat) :
    ∀ (p : QueuedPacket) (s s1 : HwmpProtocol),
      HwmpProtocol.proactiveSendLoop result fuel p s = .ok s1 →
      s1.now = s.now ∧ s1.m_rtable = s.m_rtable := by
  induction fuel with
  | zero =>
    intro p s s1 h
    simp only [HwmpProtocol.proactiveSendLoop] at h
    cases h
    exact ⟨rfl, rfl⟩
  | succ n ih =>
    intro p s s1 h
    unfold HwmpProtocol.proactiveSendLoop at h
    split at h
    · cases h
      exact ⟨rfl, rfl⟩
    · split at h
      · cases h
      · obtain ⟨hn, ht⟩ := ih _ _ _ h
        refine ⟨hn.trans ?_, ht.trans ?_⟩
        · simp only [HwmpProtocol.DequeueFirstPacket, HwmpProtocol.emit]
          split <;> rfl
        · simp only [HwmpProtocol.DequeueFirstPacket, HwmpProtocol.emit]
          split <;> rfl

theorem ProactivePathResolved_table {s s1 : HwmpProtocol}
    (h : s.ProactivePathResolved = .ok s1) : s1.now = s.now ∧ s1.m_rtable = s.m_rtable := by
  unfold HwmpProtocol.ProactivePathResolved at h
  simp only at h
  split at h
  · cases h
  · obtain ⟨hn, ht⟩ := proactiveSendLoop_table _ _ _ _ _ h
    refine ⟨hn.trans ?_, ht.trans ?_⟩
    · simp only [HwmpProtocol.DequeueFirstPacket]
      split <;> rfl
    · simp only [HwmpProtocol.DequeueFirstPacket]
      split <;> rfl

theorem SendPrep_table {s s1 : HwmpProtocol} {src dst retransmitter : Mac48Address}
    {initMetric originatorDsn destinationSN lifetime interface : Nat}
    (h : s.SendPrep src dst retransmitter initMetric originatorDsn destinationSN lifetime interface
      = .ok s1) : s1.now = s.now ∧ s1.m_rtable = s.m_rtable := by
  unfold HwmpProtocol.SendPrep at h
  simp only at h
  split at h
  · cases h
  · cases h
    exact ⟨rfl, rfl⟩

theorem forwardPreqLoop_table (preq : IePreq) (ifs : List (Nat × HwmpProtocolMac)) :
    ∀ s : HwmpProtocol, (HwmpProtocol.forwardPreqLoop preq ifs s).now = s.now ∧
      (HwmpProtocol.forwardPreqLoop preq ifs s).m_rtable = s.m_rtable := by
  induction ifs with
  | nil => intro s; exact ⟨rfl, rfl⟩
  | cons i rest ih =>
    intro s
    unfold HwmpProtocol.forwardPreqLoop
    exact ⟨(ih _).1.trans rfl, (ih _).2.trans rfl⟩

theorem installReactive_installs (extra : Mac48Address → Precursor → Prop)
    {s s1 : HwmpProtocol} {dst from_ : Mac48Address} {interface metric lifetime seqnum : Nat}
    (h : s.installReactive dst from_ interface metric lifetime seqnum = .ok s1) :
    Installs (s.now + HwmpProtocol.lifetimeTime lifetime) extra s s1 := by
  unfold HwmpProtocol.installReactive at h
  obtain ⟨ht, hn⟩ := ReactivePathResolved_table h
  exact Installs.of_AddReactivePath extra s dst from_ interface metric _ seqnum s1
    (hn.trans rfl) (ht.trans rfl)

theorem stage_installs (extra : Mac48Address → Precursor → Prop) {s s2 : HwmpProtocol}
    (c : Prop) [Decidable c] {dst from_ : Mac48Address} {interface metric lifetime seqnum : Nat}
    (h : (if c then s.installReactive dst from_ interface metric lifetime seqnum else .ok s)
      = .ok s2) : Installs (s.now + HwmpProtocol.lifetimeTime lifetime) extra s s2 := by
  by_cases hc : c
  · rw [if_pos hc] at h
    exact installReactive_installs extra h
  · rw [if_neg hc] at h
    cases h
    exact Installs.installs_refl _ _ _

/-- The destination loop of `ReceivePreq` installs the proactive path and the
precursors with the lifetime of the PREQ. -/
theorem preqDestLoop_installs (extra : Mac48Address → Precursor → Prop) (preq : IePreq)
    (from_ : Mac48Address) (interface : Nat) :
    ∀ (dests : List (Nat × DestinationAddressUnit)) (s : HwmpProtocol)
      (live : List (Nat × DestinationAddressUnit))
      (r : HwmpProtocol × List (Nat × DestinationAddressUnit)),
      HwmpProtocol.preqDestLoop preq from_ interface dests s live = .ok r →
      Installs (s.now + HwmpProtocol.lifetimeTime preq.lifetime) extra s r.1 := by
  intro dests
  induction dests with
  | nil =>
    intro s live r h
    simp only [HwmpProtocol.preqDestLoop] at h
    cases h
    exact Installs.installs_refl _ _ _
  | cons e rest ih =>
    obtain ⟨idx, u⟩ := e
    intro s live r h
    rcases preqDestLoop_cons_inv h with
      ⟨_, _, s1, s2, h1, h2, hr⟩ | ⟨_, _, s1, h1, _, hr⟩ | ⟨_, _, _, s1, h1, hr⟩ | ⟨_, _, _, hr⟩
    · subst hr
      have k1 : Installs (s.now + HwmpProtocol.lifetimeTime preq.lifetime) extra s s1 := by
        split at h1
        · obtain ⟨hn, ht⟩ := ProactivePathResolved_table h1
          exact Installs.of_AddProactivePath extra s preq.metric preq.originatorAddress from_
            interface _ preq.originatorSeqNumber s1 (hn.trans rfl) (ht.trans rfl)
        · cases h1
          exact Installs.installs_refl _ _ _
      have k2 : Installs (s.now + HwmpProtocol.lifetimeTime preq.lifetime) extra s1 s2 := by
        split at h2
        · obtain ⟨hn, ht⟩ := SendPrep_table h2
          exact Installs.of_same (hn.trans rfl) (ht.trans rfl)
        · cases h2
          exact Installs.installs_refl _ _ _
      exact k1.installs_trans k2
    · obtain ⟨hn, ht⟩ := SendPrep_table h1
      have k1 : Installs (s.now + HwmpProtocol.lifetimeTime preq.lifetime) extra s s1 :=
        Installs.of_same (hn.trans rfl) (ht.trans rfl)
      have k2 := ih _ _ _ hr
      rw [show s1.now = s.now from hn.trans rfl] at k2
      exact k1.installs_trans k2
    · obtain ⟨hn, ht⟩ := SendPrep_table h1
      have k1 : Installs (s.now + HwmpProtocol.lifetimeTime preq.lifetime) extra s s1 :=
        Installs.of_same hn ht
      have k2 : Installs (s.now + HwmpProtocol.lifetimeTime preq.lifetime) extra s1
          (s1.addPrecursor u.destinationAddress interface from_
            (HwmpProtocol.lifetimeTime preq.lifetime)) :=
        Installs.of_AddPrecursor _ extra s1 u.destinationAddress interface from_ _
          (Or.inl (by rw [hn])) _ rfl rfl
      have k3 := ih _ _ _ hr
      rw [show (s1.addPrecursor u.destinationAddress interface from_
        (HwmpProtocol.lifetimeTime preq.lifetime)).now = s.now from hn] at k3
      exact (k1.installs_trans k2).installs_trans k3
    · exact ih _ _ _ hr

/-- Every path and precursor that `ReceivePreq` installs carries the lifetime of
the PREQ. -/
theorem ReceivePreq_installs (extra : Mac48Address → Precursor → Prop) {s s1 : HwmpProtocol}
    {preq : IePreq} {from_ : Mac48Address} {interface : Nat} {fromMp : Mac48Address}
    {metric : Nat} (h : s.ReceivePreq preq from_ interface fromMp metric = .ok s1) :
    Installs (s.now + HwmpProtocol.lifetimeTime preq.lifetime) extra s s1 := by
  cases hacc : HwmpProtocol.preqAccept (mapFind s.m_hwmpSeqnoMetricDatabase preq.originatorAddress)
      (preq.IncrementMetric metric) with
  | none =>
    rw [ReceivePreq_dropped s preq from_ interface fromMp metric hacc] at h
    cases h
    exact Installs.installs_refl _ _ _
  | some f =>
    obtain ⟨s2, s3, r, h2, h3, hr, h1⟩ := ReceivePreq_inv hacc h
    have k0 : Installs (s.now + HwmpProtocol.lifetimeTime preq.lifetime) extra s
        (s.setSeqnoMetric preq.originatorAddress preq.originatorSeqNumber
          (u32 (preq.metric + metric))) := Installs.of_same rfl rfl
    have k2 : Installs (s.now + HwmpProtocol.lifetimeTime preq.lifetime) extra
        (s.setSeqnoMetric preq.originatorAddress preq.originatorSeqNumber
          (u32 (preq.metric + metric))) s2 := stage_installs extra _ h2
    have n2 : s2.now = s.now := k2.now
    have k3 := stage_installs extra _ h3
    rw [n2] at k3
    have n3 : s3.now = s.now := k3.now.trans n2
    have k4 := preqDestLoop_installs extra _ _ _ _ _ _ _ hr
    rw [n3] at k4
    have k5 : Installs (s.now + HwmpProtocol.lifetimeTime preq.lifetime) extra r.1 s1 := by
      rw [h1]
      split
      · exact Installs.installs_refl _ _ _
      · exact Installs.of_same (forwardPreqLoop_table _ _ _).1 (forwardPreqLoop_table _ _ _).2
    exact ((k0.installs_trans k2).installs_trans k3).installs_trans (k4.installs_trans k5)

/-- The table updates of `ReceivePrep` for the originator of the PREP carry the
lifetime of the PREP, but for the precursor on the originator path, which gets
the time left of the path to the destination. -/
theorem prepInstall_installs (s : HwmpProtocol) (prep : IePrep) (from_ : Mac48Address)
    (interface : Nat) (result : LookupResult) :
    Installs (s.now + HwmpProtocol.lifetimeTime prep.lifetime)
      (fun d p => d = prep.originatorAddress ∧ result.retransmitter ≠ GetBroadcast ∧
        p = { interface := interface, address := result.retransmitter,
              whenExpire := s.now + result.lifetime })
      s (s.prepInstall prep from_ interface result) := by
  have k1 : Installs (s.now + HwmpProtocol.lifetimeTime prep.lifetime)
      (fun d p => d = prep.originatorAddress ∧ result.retransmitter ≠ GetBroadcast ∧
        p = { interface := interface, address := result.retransmitter,
              whenExpire := s.now + result.lifetime })
      s (s.addReactive prep.originatorAddress from_ interface prep.metric prep.lifetime
        prep.destinationSeqNumber) :=
    Installs.of_AddReactivePath _ s prep.originatorAddress from_ interface prep.metric _
      prep.destinationSeqNumber _ rfl rfl
  have k2 : Installs (s.now + HwmpProtocol.lifetimeTime prep.lifetime)
      (fun d p => d = prep.originatorAddress ∧ result.retransmitter ≠ GetBroadcast ∧
        p = { interface := interface, address := result.retransmitter,
              whenExpire := s.now + result.lifetime })
      (s.addReactive prep.originatorAddress from_ interface prep.metric prep.lifetime
        prep.destinationSeqNumber)
      ((s.addReactive prep.originatorAddress from_ interface prep.metric prep.lifetime
        prep.destinationSeqNumber).addPrecursor prep.destinationAddress interface from_
        (HwmpProtocol.lifetimeTime prep.lifetime)) :=
    Installs.of_AddPrecursor _ _
      (s.addReactive prep.originatorAddress from_ interface prep.metric prep.lifetime
        prep.destinationSeqNumber) prep.destinationAddress interface from_
      (HwmpProtocol.lifetimeTime prep.lifetime) (Or.inl rfl)
      ((s.addReactive prep.originatorAddress from_ interface prep.metric prep.lifetime
        prep.destinationSeqNumber).addPrecursor prep.destinationAddress interface from_
        (HwmpProtocol.lifetimeTime prep.lifetime)) rfl rfl
  unfold HwmpProtocol.prepInstall
  simp only
  split
  · rename_i hv
    refine (k1.installs_trans k2).installs_trans ?_
    exact Installs.of_AddPrecursor _ _
      ((s.addReactive prep.originatorAddress from_ interface prep.metric prep.lifetime
        prep.destinationSeqNumber).addPrecursor prep.destinationAddress interface from_
        (HwmpProtocol.lifetimeTime prep.lifetime))
      prep.originatorAddress interface result.retransmitter
      result.lifetime (Or.inr ⟨rfl, hv, rfl⟩)
      (((s.addReactive prep.originatorAddress from_ interface prep.metric prep.lifetime
        prep.destinationSeqNumber).addPrecursor prep.destinationAddress interface from_
        (HwmpProtocol.lifetimeTime prep.lifetime)).addPrecursor prep.originatorAddress interface
        result.retransmitter result.lifetime) rfl rfl
  · exact k1.installs_trans k2

/-- Every path and precursor that `ReceivePrep` installs carries the lifetime of
the PREP, but for the precursor on the originator path. -/
theorem ReceivePrep_installs {s s1 : HwmpProtocol} {prep : IePrep} {from_ : Mac48Address}
    {interface : Nat} {fromMp : Mac48Address} {metric : Nat}
    (h : s.ReceivePrep prep from_ interface fromMp metric = .ok s1) :
    Installs (s.now + HwmpProtocol.lifetimeTime prep.lifetime)
      (fun d p => d = prep.originatorAddress ∧
        (s.m_rtable.LookupReactive s.now prep.destinationAddress).retransmitter ≠ GetBroadcast ∧
        p = { interface := interface,
              address := (s.m_rtable.LookupReactive s.now prep.destinationAddress).retransmitter,
              whenExpire := s.now +
                (s.m_rtable.LookupReactive s.now prep.destinationAddress).lifetime })
      s s1 := by
  cases hacc : HwmpProtocol.prepAccept (mapFind s.m_hwmpSeqnoMetricDatabase prep.originatorAddress)
      prep.destinationSeqNumber with
  | none =>
    rw [ReceivePrep_dropped s prep from_ interface fromMp metric hacc] at h
    cases h
    exact Installs.installs_refl _ _ _
  | some f =>
    obtain ⟨s2, s3, h2, h3, hlast⟩ := ReceivePrep_inv hacc h
    obtain ⟨n1, t1, _, _⟩ := prep_last_stage hlast prep.originatorAddress
    have k2 : Installs (s.now + HwmpProtocol.lifetimeTime prep.lifetime)
        (fun d p => d = prep.originatorAddress ∧
          (s.m_rtable.LookupReactive s.now prep.destinationAddress).retransmitter
            ≠ GetBroadcast ∧
          p = { interface := interface,
                address :=
                  (s.m_rtable.LookupReactive s.now prep.destinationAddress).retransmitter,
                whenExpire := s.now +
                  (s.m_rtable.LookupReactive s.now prep.destinationAddress).lifetime })
        s s2 := by
      split at h2
      · obtain ⟨ht, hn⟩ := ReactivePathResolved_table h2
        have k := prepInstall_installs
          (s.setSeqnoMetric prep.originatorAddress prep.destinationSeqNumber
            (u32 (prep.metric + metric))) (prep.IncrementMetric metric) from_ interface
          (s.m_rtable.LookupReactive s.now prep.destinationAddress)
        have k0 : Installs (s.now + HwmpProtocol.lifetimeTime prep.lifetime)
            (fun d p => d = prep.originatorAddress ∧
              (s.m_rtable.LookupReactive s.now prep.destinationAddress).retransmitter
                ≠ GetBroadcast ∧
              p = { interface := interface,
                    address :=
                      (s.m_rtable.LookupReactive s.now prep.destinationAddress).retransmitter,
                    whenExpire := s.now +
                      (s.m_rtable.LookupReactive s.now prep.destinationAddress).lifetime })
            s (s.setSeqnoMetric prep.originatorAddress prep.destinationSeqNumber
              (u32 (prep.metric + metric))) := Installs.of_same rfl rfl
        exact (k0.installs_trans k).installs_trans (Installs.of_same hn ht)
      · cases h2
        exact Installs.of_same rfl rfl
    have k3 := stage_installs (fun d p => d = prep.originatorAddress ∧
        (s.m_rtable.LookupReactive s.now prep.destinationAddress).retransmitter ≠ GetBroadcast ∧
        p = { interface := interface,
              address := (s.m_rtable.LookupReactive s.now prep.destinationAddress).retransmitter,
              whenExpire := s.now +
                (s.m_rtable.LookupReactive s.now prep.destinationAddress).lifetime }) _ h3
    rw [k2.now] at k3
    exact (k2.installs_trans k3).installs_trans (Installs.of_same n1 t1)

theorem lifetimeTime_exact (L : Nat) (hL : L * 1024 < 4294967296) :
    HwmpProtocol.lifetimeTime L = ((L * 1024 : Nat) : Time) := by
  unfold HwmpProtocol.lifetimeTime u32
  rw [Nat.mod_eq_of_lt hL]

/-- The product `lifetime * 1024` is taken in 32 bits: the lifetime 4194304 TU
gives the duration 0, and 4194305 TU gives 1024 microseconds. -/
theorem lifetime_product_wraps :
    HwmpProtocol.lifetimeTime 4194304 = 0 ∧ HwmpProtocol.lifetimeTime 4194305 = 1024 := by
  decide

/-- C36: for every lifetime field value `L` (in TU) whose product `L * 1024`
stays below `2^32`, every path and precursor that `ReceivePreq` installs from a
PREQ carrying `L` gets the lifetime `L * 1024` microseconds: each reactive
record, each precursor and the proactive record of the table after the call is
as before the call or expires `L * 1024` microseconds after the time of the
call, and after a fresh PREQ the path to the originator has that lifetime.  The
same holds for `ReceivePrep` and a PREP carrying `L`, but for one entry: the
precursor that `ReceivePrep` registers on the path to the originator of the
PREP, the next hop toward the destination of the PREP, gets the time left of
the path to that destination held on arrival. -/
theorem lifetime_conversion (s : HwmpProtocol) (L : Nat) (hL : L * 1024 < 4294967296) :
    (∀ (preq : IePreq) (from_ : Mac48Address) (interface : Nat) (fromMp : Mac48Address)
      (metric : Nat) (s1 : HwmpProtocol), preq.lifetime = L →
      s.ReceivePreq preq from_ interface fromMp metric = .ok s1 →
      Installs (s.now + ((L * 1024 : Nat) : Time)) (fun _ _ => False) s s1 ∧
      (HwmpProtocol.preqAccept (mapFind s.m_hwmpSeqnoMetricDatabase preq.originatorAddress)
          (preq.IncrementMetric metric) = some true →
        (s1.m_rtable.LookupReactive s1.now preq.originatorAddress).lifetime =
          ((L * 1024 : Nat) : Time))) ∧
    (∀ (prep : IePrep) (from_ : Mac48Address) (interface : Nat) (fromMp : Mac48Address)
      (metric : Nat) (s1 : HwmpProtocol), prep.lifetime = L →
      s.ReceivePrep prep from_ interface fromMp metric = .ok s1 →
      Installs (s.now + ((L * 1024 : Nat) : Time))
        (fun d p => d = prep.originatorAddress ∧
          (s.m_rtable.LookupReactive s.now prep.destinationAddress).retransmitter
            ≠ GetBroadcast ∧
          p = { interface := interface,
                address :=
                  (s.m_rtable.LookupReactive s.now prep.destinationAddress).retransmitter,
                whenExpire := s.now +
                  (s.m_rtable.LookupReactive s.now prep.destinationAddress).lifetime })
        s s1 ∧
      (HwmpProtocol.prepAccept (mapFind s.m_hwmpSeqnoMetricDatabase prep.originatorAddress)
          prep.destinationSeqNumber = some true → 0 < L → QueueWf s.m_rqueue →
        (s1.m_rtable.LookupReactive s1.now prep.originatorAddress).lifetime =
          ((L * 1024 : Nat) : Time))) := by
  have hexact := lifetimeTime_exact L hL
  refine ⟨?_, ?_⟩
  · intro preq from_ interface fromMp metric s1 hl h
    subst hl
    refine ⟨?_, ?_⟩
    · rw [← hexact]
      exact ReceivePreq_installs _ h
    · intro hacc
      rw [ReceivePreq_fresh_path hacc h]
      exact hexact
  · intro prep from_ interface fromMp metric s1 hl h
    subst hl
    refine ⟨?_, ?_⟩
    · rw [← hexact]
      exact ReceivePrep_installs h
    · intro hacc hpos hq
      have hLt : 0 < HwmpProtocol.lifetimeTime prep.lifetime := by
        rw [hexact]
        exact Int.ofNat_lt.mpr (Nat.mul_pos hpos (by decide))
      rw [(ReceivePrep_resolved s s1 prep from_ interface fromMp metric hacc hLt hq h).1]
      exact hexact

/-- Witness for C36: station 7 accepts, 1000 microseconds after it has heard
the PREQ of originator 5, the PREP of target 9 with the lifetime 100 TU: the
path to 9 has the lifetime 102400 microseconds. -/
theorem lifetime_conversion_witness :
    100 * 1024 < 4294967296 ∧
    elapsed7.ReceivePrep prepFrom9For5 4 1 4 10
      = .ok (after elapsed7 [Call.receivePrep prepFrom9For5 4 1 4 10]) ∧
    ((after elapsed7 [Call.receivePrep prepFrom9For5 4 1 4 10]).m_rtable.LookupReactive
      (after elapsed7 [Call.receivePrep prepFrom9For5 4 1 4 10]).now 9).lifetime = 102400 :=
  ⟨by decide, rfl,
    ((lifetime_conversion elapsed7 100 (by decide)).2 prepFrom9For5 4 1 4 10 _ rfl rfl).2 rfl
      (by decide) (by unfold QueueWf; decide)⟩

/-- C36, counterexample: a precursor installed with another lifetime.  Station 7
holds the path to 5 through neighbour 3 with 101400 microseconds left when, at
time 1000, it accepts the PREP of target 9 for 5 with the lifetime 100 TU, that
is 102400 microseconds.  The path to 9 expires at 1000 + 102400, but its
precursor 3 expires at 102400: the lifetime handed to `AddPrecursor` is 101400,
the time left of the path to 5. -/
theorem prep_precursor_lifetime_differs :
    elapsed7.now = 1000 ∧ prepFrom9For5.lifetime = 100 ∧
    HwmpProtocol.lifetimeTime prepFrom9For5.lifetime = 102400 ∧
    HwmpProtocol.prepAccept
      (mapFind elapsed7.m_hwmpSeqnoMetricDatabase prepFrom9For5.originatorAddress)
      prepFrom9For5.destinationSeqNumber = some true ∧
    elapsed7.m_rtable.LookupReactive elapsed7.now 5 =
      { retransmitter := 3, ifIndex := 1, metric := 10, seqnum := 5, lifetime := 101400 } ∧
    run elapsed7 [Call.receivePrep prepFrom9For5 4 1 4 10]
      = .ok (after elapsed7 [Call.receivePrep prepFrom9For5 4 1 4 10]) ∧
    mapFind (after elapsed7 [Call.receivePrep prepFrom9For5 4 1 4 10]).m_rtable.m_routes 9 =
      some { retransmitter := 4, interface := 1, metric := 20, whenExpire := 103400, seqnum := 1,
             precursors := [{ interface := 1, address := 3, whenExpire := 102400 }] } :=
  ⟨by decide, rfl, by decide, by decide, by decide, rfl, by decide⟩

end Hwmp
